import Mathlib

/-! # browser_split_screen: pane pool, layout engine and fullscreen coordinator

A shallow embedding of the three classes that make up the core of the
application,

* `BrowserWidget`  (src/src/BrowserWidget.cpp): one pooled pane,
* `WindowManager`  (src/src/WindowManager.cpp): the pool of panes and the row grid,
* `MainWindow`     (src/src/MainWindow.cpp): sub-window assignment and fullscreen,

followed by the theorems that settle the properties stated for them.

Conventions of the embedding:

* A `QString` is a Lean `String`; a C++ `int` is an `Int` (no operation of the
  modelled code leaves the 32-bit range on the inputs considered).
* A C++ object is a record; a method is a function from the record to the
  updated record.  A `BrowserWidget*` is the `objectId` of the pane it points to.
* `m_webView`, `m_profile` and `m_webView->page()` are created by
  `BrowserWidget::setupWebView` in the constructor and never reset, so their
  null branches (`if (!m_webView)`, `if (!m_webView->page())`) are unreachable
  and are not part of the embedding.
* Qt widgets are reduced to the state the modelled code reads or writes:
  the two visibility flags of a pane, the size constraints (`minimumSize`,
  `maximumSize`, `sizePolicy`), the geometry set explicitly by the code, and the
  contents of the layouts.  A widget sits in at most one layout: adding it to a
  layout takes it out of the one it was in (`QLayout::addChildWidget`).
* A pane has the two visibility flags Qt keeps for a widget.  `hidden` is
  `QWidget::isHidden()`: `hide()` sets it, `show()` clears it.  `visible` is
  `QWidget::isVisible()`: a widget is visible only while it is not hidden and
  the widget it sits in is shown.  `updateLayout` calls `show()` on a pane and
  then adds the pane to a row container it has just created, which is not shown
  yet: the pane is then not hidden and not visible
  (`BrowserWidget.showInNewRow`), and a `loadUrl` at that point takes the
  deferred branch.  Qt shows the row containers later, from its event loop
  (`QLayout::addChildWidget` queues the call); the panes in them that are not
  hidden then become visible and receive `showEvent`
  (`WindowManager.showRows`).  `BrowserWidget.show` is `show()` on a pane whose
  parent is visible: the pane becomes visible and receives `showEvent` at once.
  The page of `m_stackedWidget` that is current is recorded (`stackedCurrent`);
  the show and hide events that a change of the page delivers to the panes are
  outside the embedding, and so is the show event of a pane that has never been
  in a row and that `updateLayout` shows while the page of the grid is on
  screen (such a pane is moved into its row at once).
* `QTimer::singleShot(delay, closure)` appends the closure, as data, to a list of
  pending deferred steps; a separate function runs a pending step.  Calls on the
  render surface (`m_webView->load`, `runJavaScript`) are appended to a log.
* The cookie files, the JSON parser of Qt and the primary screen are services of
  the host system (`Host`): the parser is a parameter, a cookie file holds the
  text last written to it.
* The `double` arithmetic of `calculateOptimalZoomFactor` is taken as exact
  arithmetic over the rationals.
* User input reaches the model as events: a pane raises `fullscreenRequested` or
  `closeRequested`, a key is pressed in the main window, a timer fires.  The
  callback of a cookie extraction is an event too: it carries the text the page
  returned.
* The table `window_configs` of the `DatabaseManager` is the list of its rows;
  whether a statement executes (`query.exec()`) is a parameter.
* A newly created pane gets its identity as a parameter (the address `new`
  returns).
-/

namespace BrowserSplitScreen

/-! ## Destination normalisation (`BrowserWidget::isValidUrl`, `BrowserWidget::formatUrl`) -/

/-- Character class `[0-9]`. -/
def reDigit (c : Char) : Bool :=
  decide ('0'.toNat ≤ c.toNat) && decide (c.toNat ≤ '9'.toNat)

/-- Character class `[a-zA-Z]`. -/
def reAlpha (c : Char) : Bool :=
  (decide ('a'.toNat ≤ c.toNat) && decide (c.toNat ≤ 'z'.toNat)) ||
    (decide ('A'.toNat ≤ c.toNat) && decide (c.toNat ≤ 'Z'.toNat))

/-- Character class `[a-zA-Z0-9]`. -/
def reAlnum (c : Char) : Bool :=
  reAlpha c || reDigit c

/-- Character class `[a-zA-Z0-9-]`. -/
def reAlnumHyphen (c : Char) : Bool :=
  reAlnum c || c == '-'

/-- The assertion `$` of `QRegularExpression` (PCRE2 without `DOLLAR_ENDONLY`):
it holds at the end of the subject and just before a newline that ends the
subject. -/
def reAtEnd (rest : List Char) : Bool :=
  rest == [] || rest == ['\n']

/-- The tail `[a-zA-Z]{2,}$` of the domain pattern: the letters are followed by
`$`, so the run of letters taken is the longest one. -/
def reMatchTld (s : List Char) : Bool :=
  decide (2 ≤ (s.takeWhile reAlpha).length) && reAtEnd (s.dropWhile reAlpha)

/-- The part `[a-zA-Z0-9-]{1,61}[a-zA-Z0-9]\.[a-zA-Z]{2,}$` of the domain
pattern: every repetition count `k + 1` in `1..61` is tried. -/
def reMatchLabelRest (s : List Char) : Bool :=
  (List.range 61).any fun k =>
    decide ((s.take (k + 1)).length = k + 1) && (s.take (k + 1)).all reAlnumHyphen &&
      match s.drop (k + 1) with
      | c :: '.' :: tld => reAlnum c && reMatchTld tld
      | _ => false

/-- `domainRegex.match(url).hasMatch()` for the pattern
`^[a-zA-Z0-9][a-zA-Z0-9-]{1,61}[a-zA-Z0-9]\.[a-zA-Z]{2,}$` of `formatUrl`. -/
def domainRegexMatch (url : String) : Bool :=
  match url.data with
  | c :: rest => reAlnum c && reMatchLabelRest rest
  | [] => false

/-- `BrowserWidget::isValidUrl`: the pattern `^https?://.*` has a match exactly
when the text starts with `http://` or with `https://` (`.*` may match nothing). -/
def BrowserWidget.isValidUrl (url : String) : Bool :=
  "http://".data.isPrefixOf url.data || "https://".data.isPrefixOf url.data

/-- UTF-8 encoding of one character, as a list of byte values (`QString::toUtf8`). -/
def utf8EncodeChar (c : Char) : List Nat :=
  let n := c.toNat
  if n < 0x80 then [n]
  else if n < 0x800 then [0xC0 + n / 0x40, 0x80 + n % 0x40]
  else if n < 0x10000 then [0xE0 + n / 0x1000, 0x80 + n / 0x40 % 0x40, 0x80 + n % 0x40]
  else [0xF0 + n / 0x40000, 0x80 + n / 0x1000 % 0x40, 0x80 + n / 0x40 % 0x40, 0x80 + n % 0x40]

/-- The bytes `QByteArray::toPercentEncoding` leaves as they are: ALPHA, DIGIT,
`-`, `.`, `_` and `~`. -/
def isUnreservedByte (b : Nat) : Bool :=
  (decide (0x61 ≤ b) && decide (b ≤ 0x7A)) || (decide (0x41 ≤ b) && decide (b ≤ 0x5A)) ||
    (decide (0x30 ≤ b) && decide (b ≤ 0x39)) ||
    b == 0x2D || b == 0x2E || b == 0x5F || b == 0x7E

/-- Upper-case hexadecimal digit of a value below 16. -/
def hexUpper (n : Nat) : Char :=
  "0123456789ABCDEF".data.getD n '0'

/-- One byte of `QByteArray::toPercentEncoding`'s output. -/
def percentEncodeByte (b : Nat) : List Char :=
  if isUnreservedByte b then [Char.ofNat b] else ['%', hexUpper (b / 16), hexUpper (b % 16)]

/-- `QUrl::toPercentEncoding(url)` with the default (empty) exclude and include
sets: the UTF-8 bytes of the text, each unreserved byte kept and every other
byte written `%XX`. -/
def toPercentEncoding (url : String) : String :=
  String.mk (url.data.flatMap fun c => (utf8EncodeChar c).flatMap percentEncodeByte)

/-- `BrowserWidget::formatUrl`. -/
def BrowserWidget.formatUrl (url : String) : String :=
  if url.isEmpty then "about:blank"
  else if BrowserWidget.isValidUrl url then url
  else if domainRegexMatch url then "https://" ++ url
  else "https://www.google.com/search?q=" ++ toPercentEncoding url

/-! ## Qt value types and the services of the host system -/

/-- `QSize`. -/
structure QSize where
  width : Int
  height : Int
deriving DecidableEq, Repr

/-- `QRect`, as `(x, y, width, height)`. -/
structure QRect where
  x : Int
  y : Int
  width : Int
  height : Int
deriving DecidableEq, Repr

/-- `QRect::size()`. -/
def QRect.size (r : QRect) : QSize :=
  { width := r.width, height := r.height }

/-- The two size policies the code sets (both directions get the same one);
`Preferred` is also the default of a `QWidget`. -/
inductive SizePolicy where
  | Preferred
  | Expanding
deriving DecidableEq, Repr

/-- `QWIDGETSIZE_MAX`, Qt's "unbounded" widget extent, `(1 << 24) - 1`. -/
def QWIDGETSIZE_MAX : Int := 16777215

/-- A `QJsonValue` found under a key of a cookie object: `toString()` yields the
text of a string value and the empty text for every other kind of value. -/
inductive JsonValue where
  | string (s : String)
  | other
deriving DecidableEq, Repr

/-- An element of the JSON array of a cookie file: an object (its members in
order) or a value that is not an object. -/
inductive JsonItem where
  | object (members : List (String × JsonValue))
  | nonObject
deriving DecidableEq, Repr

/-- `cookieObj[key].toString()`. -/
def JsonItem.stringAt (members : List (String × JsonValue)) (key : String) : String :=
  match members.lookup key with
  | some (JsonValue.string s) => s
  | _ => ""

/-- What the panes and the main window ask of the system around them.
`cookieFile id` is the text of `~/.browser_split_screen/cookies/cookies_<id>.json`
when that file exists and can be opened; `fromJsonArray text` is
`QJsonDocument::fromJson(text.toUtf8())` when the document is an array
(`isArray()`), with `array()` as its value; `primaryScreen` is the geometry of
`QApplication::primaryScreen()` when there is one. -/
structure Host where
  cookieFile : Int → Option String
  fromJsonArray : String → Option (List JsonItem)
  primaryScreen : Option QRect

/-! ## `BrowserWidget`: one pane of the pool -/

/-- The state of a `BrowserWidget`: the members of the C++ class that the
modelled methods use, the `QWidget` state they read or write, and the pane's
render surface (`m_webView`) reduced to what the pane asks of it. -/
structure BrowserWidget where
  /-- Identity of the C++ object (what a `BrowserWidget*` compares equal on). -/
  objectId : Nat
  m_windowId : Int
  m_subWindowId : Int
  m_currentUrl : String
  m_currentTitle : String
  m_subWindowName : String
  m_isFullscreen : Bool
  m_showBrowserUI : Bool
  m_allowResize : Bool
  m_buttonsVisible : Bool
  m_pendingCookieScript : String
  m_isLoaded : Bool
  /-- Text of `m_subWindowNameLabel`. -/
  nameLabelText : String
  /-- `QWidget::isVisible()`. -/
  visible : Bool
  /-- `QWidget::isHidden()`. -/
  hidden : Bool
  minimumSize : QSize
  maximumSize : QSize
  sizePolicy : SizePolicy
  /-- The geometry last set by `setGeometry`, if any. -/
  geometry : Option QRect
  /-- `m_webView->page()->url().isValid()`. -/
  pageUrlValid : Bool
  /-- `m_webView->page()->isLoading()`. -/
  pageLoading : Bool
  /-- Pending `QTimer::singleShot(500, ...)` closures of `loadUrl`, oldest first:
  each holds the destination it will pass to `m_webView->load`. -/
  loadTimers : List String
  /-- The destinations passed to `m_webView->load`, oldest first. -/
  surfaceLoads : List String
  /-- The scripts passed to `runJavaScript` by `executeCookieScript`, oldest first. -/
  surfaceScripts : List String
  /-- Pending `QTimer::singleShot(1000, saveCookies)` timers of `onLoadFinished`. -/
  saveCookieTimers : Nat
  /-- Cookie extractions requested by `saveCookies` whose callback has not run. -/
  cookieExtractions : Nat
deriving DecidableEq, Repr

/-- The constructor `BrowserWidget::BrowserWidget(windowId, parent)`: the member
initialisers, `setupUI` (label text, `setMinimumSize(300, 200)`) and
`loadWindowState`, which loads nothing because `m_subWindowId` is `-1`.  A new
widget is not visible.  Its hidden flag is the one of a child created under a
visible parent; the manager calls `hide()` or `show()` on every pane it creates
before the flag is read. -/
def BrowserWidget.create (objectId : Nat) (windowId : Int) : BrowserWidget :=
  { objectId := objectId
    m_windowId := windowId
    m_subWindowId := -1
    m_currentUrl := ""
    m_currentTitle := ""
    m_subWindowName := ""
    m_isFullscreen := false
    m_showBrowserUI := false
    m_allowResize := false
    m_buttonsVisible := false
    m_pendingCookieScript := ""
    m_isLoaded := false
    nameLabelText := "子窗口"
    visible := false
    hidden := true
    minimumSize := { width := 300, height := 200 }
    maximumSize := { width := QWIDGETSIZE_MAX, height := QWIDGETSIZE_MAX }
    sizePolicy := SizePolicy.Preferred
    geometry := none
    pageUrlValid := false
    pageLoading := false
    loadTimers := []
    surfaceLoads := []
    surfaceScripts := []
    saveCookieTimers := 0
    cookieExtractions := 0 }

/-- `BrowserWidget::getWindowId`. -/
def BrowserWidget.getWindowId (w : BrowserWidget) : Int := w.m_windowId

/-- `BrowserWidget::getCurrentUrl`. -/
def BrowserWidget.getCurrentUrl (w : BrowserWidget) : String := w.m_currentUrl

/-- `BrowserWidget::getSubWindowId`. -/
def BrowserWidget.getSubWindowId (w : BrowserWidget) : Int := w.m_subWindowId

/-- `BrowserWidget::getSubWindowName`. -/
def BrowserWidget.getSubWindowName (w : BrowserWidget) : String := w.m_subWindowName

/-- `BrowserWidget::isFullscreenMode`. -/
def BrowserWidget.isFullscreenMode (w : BrowserWidget) : Bool := w.m_isFullscreen

/-- `QWidget::isVisible`. -/
def BrowserWidget.isVisible (w : BrowserWidget) : Bool := w.visible

/-- `QWidget::isHidden`. -/
def BrowserWidget.isHidden (w : BrowserWidget) : Bool := w.hidden

/-- `QWidget::setMinimumSize`. -/
def BrowserWidget.setMinimumSize (w : BrowserWidget) (s : QSize) : BrowserWidget :=
  { w with minimumSize := s }

/-- `QWidget::setMaximumSize`. -/
def BrowserWidget.setMaximumSize (w : BrowserWidget) (s : QSize) : BrowserWidget :=
  { w with maximumSize := s }

/-- `QWidget::setSizePolicy` with the same policy in both directions. -/
def BrowserWidget.setSizePolicy (w : BrowserWidget) (p : SizePolicy) : BrowserWidget :=
  { w with sizePolicy := p }

/-- `QWidget::setFixedSize`: the minimum and the maximum size both become the
given size. -/
def BrowserWidget.setFixedSize (w : BrowserWidget) (width height : Int) : BrowserWidget :=
  (w.setMinimumSize { width := width, height := height }).setMaximumSize
    { width := width, height := height }

/-- `QWidget::setGeometry`. -/
def BrowserWidget.setGeometry (w : BrowserWidget) (r : QRect) : BrowserWidget :=
  { w with geometry := some r }

/-- The size constraints of a pane: minimum size, maximum size and size policy. -/
def BrowserWidget.sizeConstraints (w : BrowserWidget) : QSize × QSize × SizePolicy :=
  (w.minimumSize, w.maximumSize, w.sizePolicy)

/-- `BrowserWidget::loadUrl`. -/
def BrowserWidget.loadUrl (w : BrowserWidget) (url : String) : BrowserWidget :=
  let formattedUrl := BrowserWidget.formatUrl url
  if w.m_isLoaded ∧ w.m_currentUrl = formattedUrl then w
  else
    let w1 := { w with m_currentUrl := formattedUrl }
    if ¬ w1.isVisible then { w1 with m_isLoaded := false }
    else { w1 with loadTimers := w1.loadTimers ++ [formattedUrl] }

/-- The closure `loadUrl` hands to `QTimer::singleShot(500, ...)`, run for the
oldest pending timer: the destination is dispatched with `m_webView->load`. -/
def BrowserWidget.fireLoadTimer (w : BrowserWidget) : BrowserWidget :=
  match w.loadTimers with
  | [] => w
  | url :: rest => { w with loadTimers := rest, surfaceLoads := w.surfaceLoads ++ [url] }

/-- `BrowserWidget::showEvent`. -/
def BrowserWidget.showEvent (w : BrowserWidget) : BrowserWidget :=
  if ¬ w.m_isLoaded ∧ ¬ w.m_currentUrl.isEmpty then w.loadUrl w.m_currentUrl else w

/-- `QWidget::show` on a pane whose parent is visible: a pane that is not visible
is no longer hidden, becomes visible and receives `showEvent`; a visible pane is
left as it is. -/
def BrowserWidget.«show» (w : BrowserWidget) : BrowserWidget :=
  if w.visible then w
  else BrowserWidget.showEvent { w with visible := true, hidden := false }

/-- `QWidget::hide`: the pane is hidden, and so not visible. -/
def BrowserWidget.hide (w : BrowserWidget) : BrowserWidget :=
  { w with visible := false, hidden := true }

/-- The statements `widget->show(); rowLayout->addWidget(widget);` of
`updateLayout`, for the row container the loop has just created.  `show()` clears
the hidden flag.  `addWidget` makes the pane a child of the row container
(`QLayout::addChildWidget`), and the child of a widget that is not shown is not
visible: the pane receives `showEvent` when the row container is shown.  A pane
that was in a row before reaches `show()` as the child of a row container that
the `takeAt` loop has hidden, so `show()` does not make it visible either. -/
def BrowserWidget.showInNewRow (w : BrowserWidget) : BrowserWidget :=
  { w with hidden := false, visible := false }

/-- `BrowserWidget::executeCookieScript`. -/
def BrowserWidget.executeCookieScript (w : BrowserWidget) : BrowserWidget :=
  if ¬ w.m_pendingCookieScript.isEmpty then
    { w with surfaceScripts := w.surfaceScripts ++ [w.m_pendingCookieScript]
             m_pendingCookieScript := "" }
  else w

/-- `BrowserWidget::loadCookiesFromFile`. -/
def BrowserWidget.loadCookiesFromFile (h : Host) (w : BrowserWidget) : String :=
  if w.m_subWindowId ≤ 0 then ""
  else
    match h.cookieFile w.m_subWindowId with
    | none => ""
    | some text => text

/-- The statement `loadCookies` appends to its script for one element of the
cookie array; an element that is not an object is skipped. -/
def cookieStatement (item : JsonItem) : String :=
  match item with
  | JsonItem.nonObject => ""
  | JsonItem.object members =>
    let name := JsonItem.stringAt members "name"
    let valueStr := JsonItem.stringAt members "value"
    let domain := JsonItem.stringAt members "domain"
    let path := JsonItem.stringAt members "path"
    let cookieString := name ++ "=" ++ valueStr
    let cookieString :=
      if ¬ domain.isEmpty then cookieString ++ ("; domain=" ++ domain) else cookieString
    let cookieString :=
      if ¬ path.isEmpty then cookieString ++ ("; path=" ++ path) else cookieString
    "document.cookie = '" ++ cookieString ++ "'; "

/-- `BrowserWidget::loadCookies`. -/
def BrowserWidget.loadCookies (h : Host) (w : BrowserWidget) : BrowserWidget :=
  if w.m_subWindowId ≤ 0 then w
  else
    let cookieData := w.loadCookiesFromFile h
    if cookieData.isEmpty then w
    else
      match h.fromJsonArray cookieData with
      | none => w
      | some cookieArray =>
        let script := cookieArray.foldl (fun s item => s ++ cookieStatement item)
          "document.cookie = ''; "
        let w1 := { w with m_pendingCookieScript := script }
        if w1.pageUrlValid ∧ ¬ w1.pageLoading then w1.executeCookieScript else w1

/-- `BrowserWidget::saveCookies`: with a logical id the extraction script is sent
to the page; its result arrives later through the callback. -/
def BrowserWidget.saveCookies (w : BrowserWidget) : BrowserWidget :=
  if w.m_subWindowId ≤ 0 then w
  else { w with cookieExtractions := w.cookieExtractions + 1 }

/-- `BrowserWidget::setSubWindowId`. -/
def BrowserWidget.setSubWindowId (h : Host) (w : BrowserWidget) (subWindowId : Int) :
    BrowserWidget :=
  let w1 := { w with m_subWindowId := subWindowId }
  if w1.m_subWindowId > 0 then w1.loadCookies h else w1

/-- `BrowserWidget::setSubWindowName`. -/
def BrowserWidget.setSubWindowName (w : BrowserWidget) (name : String) : BrowserWidget :=
  let w1 := { w with m_subWindowName := name
                     nameLabelText := if name.isEmpty then "子窗口" else name }
  if ¬ w1.m_isLoaded ∧ ¬ name.isEmpty ∧ ¬ w1.m_currentUrl.isEmpty then
    w1.loadUrl w1.m_currentUrl
  else w1

/-- `BrowserWidget::onUrlChanged`: the render surface reports its URL. -/
def BrowserWidget.onUrlChanged (w : BrowserWidget) (url : String) : BrowserWidget :=
  { w with m_currentUrl := url }

/-- The render surface reports its URL several times (`urlChanged`), oldest
report first. -/
def BrowserWidget.onUrlsChanged (w : BrowserWidget) (urls : List String) : BrowserWidget :=
  urls.foldl BrowserWidget.onUrlChanged w

/-- `BrowserWidget::onLoadFinished`. -/
def BrowserWidget.onLoadFinished (w : BrowserWidget) (success : Bool) : BrowserWidget :=
  if success ∧ ¬ w.m_currentUrl.isEmpty then
    let w1 := w.executeCookieScript
    let w2 :=
      if w1.m_subWindowId > 0 then { w1 with saveCookieTimers := w1.saveCookieTimers + 1 }
      else w1
    { w2 with m_isLoaded := true }
  else w

/-- `BrowserWidget::hideButtons`. -/
def BrowserWidget.hideButtons (w : BrowserWidget) : BrowserWidget :=
  if ¬ w.m_isFullscreen ∨ ¬ w.m_buttonsVisible then w
  else { w with m_buttonsVisible := false }

/-- `BrowserWidget::setFullscreenMode`. -/
def BrowserWidget.setFullscreenMode (w : BrowserWidget) (fullscreen : Bool) : BrowserWidget :=
  let w1 := { w with m_isFullscreen := fullscreen, m_allowResize := fullscreen }
  if fullscreen then
    (((w1.setMinimumSize { width := 0, height := 0 }).setMaximumSize
      { width := QWIDGETSIZE_MAX, height := QWIDGETSIZE_MAX }).setSizePolicy
      SizePolicy.Expanding).hideButtons
  else
    { ((w1.setMinimumSize { width := 300, height := 200 }).setMaximumSize
        { width := QWIDGETSIZE_MAX, height := QWIDGETSIZE_MAX }).setSizePolicy
        SizePolicy.Preferred with m_buttonsVisible := true }

/-! ## `WindowManager`: the pool and the row grid -/

/-- An item of a row container's `QHBoxLayout`: a pane (by identity) or the
stretch `updateLayout` adds after the panes. -/
inductive RowItem where
  | widget (id : Nat)
  | stretch
deriving DecidableEq, Repr

/-- An item of `m_verticalLayout`: a row container with the items of its
`QHBoxLayout`, a widget placed in the layout directly, or a stretch. -/
inductive VItem where
  | rowContainer (items : List RowItem)
  | widget (id : Nat)
  | stretch
deriving DecidableEq, Repr

/-- The signals a `WindowManager` emits. -/
inductive WMSignal where
  | layoutChanged (windowCount : Int)
  | allWidgetsCreated
  | widgetAdded (id : Nat)
  | widgetRemoved (index : Int)
  | fullscreenRequested (id : Nat)
deriving DecidableEq, Repr

/-- The state of a `WindowManager`.  `m_verticalLayout` is created by
`setupLayout` for the parent widget the main window passes in, and is
represented by its items, top to bottom. -/
structure WindowManager where
  m_browserWidgets : List BrowserWidget
  m_currentWindowCount : Int
  m_columnCount : Int
  verticalLayout : List VItem
deriving DecidableEq, Repr

/-- `WindowManager::SUPPORTED_WINDOW_COUNTS`. -/
def WindowManager.SUPPORTED_WINDOW_COUNTS : List Int :=
  [0, 1, 2, 3, 4, 5, 6, 7, 8, 9, 10, 11, 12, 13, 14, 15, 16]

/-- `WindowManager::isValidWindowCount`. -/
def WindowManager.isValidWindowCount (windowCount : Int) : Bool :=
  WindowManager.SUPPORTED_WINDOW_COUNTS.contains windowCount

/-- `WindowManager::calculateHeightFromWidth`: `static_cast<int>(width * 3.0 / 5.0)`,
the quotient truncated towards zero. -/
def WindowManager.calculateHeightFromWidth (width : Int) : Int :=
  Int.tdiv (width * 3) 5

/-- The `widgetWidth` computed from the column count in `updateLayout`,
`attachWidgetToLayout` and `addBrowserWidget`. -/
def WindowManager.widgetWidth (columnCount : Int) : Int :=
  if columnCount = 1 then 880 else 500

/-- `WindowManager::getCurrentWindowCount`. -/
def WindowManager.getCurrentWindowCount (wm : WindowManager) : Int :=
  wm.m_currentWindowCount

/-- `WindowManager::getColumnCount`. -/
def WindowManager.getColumnCount (wm : WindowManager) : Int :=
  wm.m_columnCount

/-- `WindowManager::getBrowserWidgets`. -/
def WindowManager.getBrowserWidgets (wm : WindowManager) : List BrowserWidget :=
  wm.m_browserWidgets

/-- `WindowManager::getBrowserWidget`. -/
def WindowManager.getBrowserWidget (wm : WindowManager) (index : Int) : Option BrowserWidget :=
  if 0 ≤ index ∧ index < wm.m_browserWidgets.length then wm.m_browserWidgets[index.toNat]?
  else none

/-- The local variables of the loops of `updateLayout`: `visibleIndex`, the pool
(whose panes the loop resizes, shows and puts into rows) and the items of the
layout being filled. -/
structure LayoutLoop (Item : Type) where
  visibleIndex : Nat
  widgets : List BrowserWidget
  items : List Item

/-- The inner loop of `updateLayout`,
`for (j = 0; j < m_columnCount && (i + j) < m_currentWindowCount; ++j)`, from
the given `j` on; `k` bounds the iterations left (the loop is entered with
`k = m_columnCount`). -/
def WindowManager.fillRow (c n i : Int) :
    Nat → Int → LayoutLoop RowItem → LayoutLoop RowItem
  | 0, _, st => st
  | k + 1, j, st =>
    if j < c ∧ i + j < n then
      match st.widgets[st.visibleIndex]? with
      | some widget =>
        let widgetWidth := WindowManager.widgetWidth c
        let widgetHeight := WindowManager.calculateHeightFromWidth widgetWidth
        WindowManager.fillRow c n i k (j + 1)
          { visibleIndex := st.visibleIndex + 1
            widgets := st.widgets.set st.visibleIndex
              (widget.setFixedSize widgetWidth widgetHeight).showInNewRow
            items := st.items ++ [RowItem.widget widget.objectId] }
      | none => WindowManager.fillRow c n i k (j + 1) st
    else st

/-- The outer loop of `updateLayout`,
`for (i = 0; i < m_currentWindowCount; i += m_columnCount)`, from the given `i`
on.  `none` when the iterations allowed by `fuel` do not reach the end of the
loop. -/
def WindowManager.buildRows (c n : Int) :
    Nat → Int → LayoutLoop VItem → Option (LayoutLoop VItem)
  | 0, _, _ => none
  | fuel + 1, i, st =>
    if i < n then
      let row := WindowManager.fillRow c n i c.toNat 0
        { visibleIndex := st.visibleIndex, widgets := st.widgets, items := [] }
      WindowManager.buildRows c n fuel (i + c)
        { visibleIndex := row.visibleIndex
          widgets := row.widgets
          items := st.items ++ [VItem.rowContainer (row.items ++ [RowItem.stretch])] }
    else some st

/-- The last loop of `updateLayout`,
`for (i = m_currentWindowCount; i < m_browserWidgets.size(); ++i) hide()`. -/
def WindowManager.hideFrom (k : Nat) (widgets : List BrowserWidget) : List BrowserWidget :=
  widgets.take k ++ (widgets.drop k).map BrowserWidget.hide

/-- `WindowManager::updateLayout`.  The `takeAt` loop empties `m_verticalLayout`
(and hides the old row containers); the rows are then rebuilt.  `none` stands
for a row loop that does not end (a column count below 1). -/
def WindowManager.updateLayout (wm : WindowManager) : Option WindowManager :=
  if wm.m_currentWindowCount = 0 then
    some { wm with verticalLayout := []
                   m_browserWidgets := wm.m_browserWidgets.map BrowserWidget.hide }
  else
    match WindowManager.buildRows wm.m_columnCount wm.m_currentWindowCount
        (wm.m_currentWindowCount.toNat + 1) 0
        { visibleIndex := 0, widgets := wm.m_browserWidgets, items := [] } with
    | none => none
    | some st =>
      some { wm with
        m_browserWidgets := WindowManager.hideFrom wm.m_currentWindowCount.toNat st.widgets
        verticalLayout := st.items ++ [VItem.stretch] }

/-- `WindowManager::setLayout(int windowCount, bool forceUpdate)`, with the
signals it emits, in order. -/
def WindowManager.setLayout (wm : WindowManager) (windowCount : Int) (forceUpdate : Bool) :
    Option (WindowManager × List WMSignal) :=
  if ¬ WindowManager.isValidWindowCount windowCount then some (wm, [])
  else if wm.m_currentWindowCount = windowCount ∧ ¬ forceUpdate then some (wm, [])
  else
    match ({ wm with m_currentWindowCount := windowCount } : WindowManager).updateLayout with
    | none => none
    | some wm1 =>
      some (wm1, [WMSignal.layoutChanged windowCount] ++
        (if windowCount > 0 ∧ (wm1.m_browserWidgets.length : Int) ≥ windowCount then
          [WMSignal.allWidgetsCreated] else []))

/-- The overload `WindowManager::setLayout(int windowCount)`. -/
def WindowManager.setLayoutUnforced (wm : WindowManager) (windowCount : Int) :
    Option (WindowManager × List WMSignal) :=
  wm.setLayout windowCount false

/-- `WindowManager::setColumnCount`. -/
def WindowManager.setColumnCount (wm : WindowManager) (columns : Int) : Option WindowManager :=
  if columns < 1 ∨ columns > 3 then some wm
  else ({ wm with m_columnCount := columns } : WindowManager).updateLayout

/-- The members of a `WindowManager` as its constructor sets them, before the
call of `updateLayout` that ends it: `setupLayout` has created the empty vertical
layout, the pool holds 16 hidden panes with window ids 1 to 16, nothing is
visible and the column count is 2. -/
def WindowManager.constructed : WindowManager :=
  { m_browserWidgets :=
      (List.range 16).map fun i => (BrowserWidget.create (i + 1) ((i : Int) + 1)).hide
    m_currentWindowCount := 0
    m_columnCount := 2
    verticalLayout := [] }

/-- The constructor `WindowManager::WindowManager`. -/
def WindowManager.create : Option WindowManager :=
  WindowManager.constructed.updateLayout

/-- The pane a `BrowserWidget*` points to, if it is one of the pool. -/
def WindowManager.findWidget (wm : WindowManager) (id : Nat) : Option BrowserWidget :=
  wm.m_browserWidgets.find? fun w => w.objectId == id

/-- A method call through a `BrowserWidget*`: the pane with that identity is
replaced by the result of the call. -/
def WindowManager.updateWidget (wm : WindowManager) (id : Nat)
    (f : BrowserWidget → BrowserWidget) : WindowManager :=
  { wm with m_browserWidgets :=
      wm.m_browserWidgets.map fun w => if w.objectId = id then f w else w }

/-- `m_browserWidgets.indexOf(widget)`: the index of the pane, or `-1`. -/
def WindowManager.indexOf (wm : WindowManager) (id : Nat) : Int :=
  match wm.m_browserWidgets.findIdx? fun w => w.objectId == id with
  | some i => (i : Int)
  | none => -1

/-- The rows of the grid: for each row container of `m_verticalLayout`, top to
bottom, the identities of the panes in it, left to right. -/
def WindowManager.rows (wm : WindowManager) : List (List Nat) :=
  wm.verticalLayout.filterMap fun item =>
    match item with
    | VItem.rowContainer items =>
      some (items.filterMap fun it =>
        match it with
        | RowItem.widget id => some id
        | RowItem.stretch => none)
    | _ => none

/-- The row containers of `m_verticalLayout` are shown.  `m_verticalLayout->addWidget`
adds a row container to the layout of a visible parent, and Qt then shows it from
the event loop, after the code that built the grid has returned; a container
shows its children that are not hidden with it.  Every pane in a row that is not
hidden and not yet visible becomes visible and receives `showEvent`. -/
def WindowManager.showRows (wm : WindowManager) : WindowManager :=
  { wm with m_browserWidgets := wm.m_browserWidgets.map fun w =>
      if w.objectId ∈ wm.rows.flatten ∧ w.hidden = false then w.«show» else w }

/-- `QLayout::addChildWidget` for the grid: a pane that is given to another
layout leaves the row container it was in. -/
def WindowManager.takeOutOfRows (wm : WindowManager) (id : Nat) : WindowManager :=
  { wm with verticalLayout := wm.verticalLayout.map fun item =>
      match item with
      | VItem.rowContainer items =>
        VItem.rowContainer (items.filter fun it => it != RowItem.widget id)
      | other => other }

/-- `WindowManager::detachWidgetFromLayout`: `m_verticalLayout->removeWidget(widget)`
removes the items of `m_verticalLayout` itself that hold the widget (it does not
look into the row containers); the geometry is then recomputed. -/
def WindowManager.detachWidgetFromLayout (wm : WindowManager) (id : Nat) : WindowManager :=
  { wm with verticalLayout := wm.verticalLayout.filter fun item => item != VItem.widget id }

/-- `QBoxLayout::insertWidget(index, widget)` on the items of a row: a negative
index appends the widget, any other index is the position it is inserted at. -/
def RowItem.insertWidget (index : Int) (id : Nat) (items : List RowItem) : List RowItem :=
  if index < 0 then items ++ [RowItem.widget id]
  else items.insertIdx index.toNat (RowItem.widget id)

/-- `rowLayout->insertWidget(col, widget)` on an item of `m_verticalLayout` that
is a row container. -/
def VItem.insertWidget (col : Int) (id : Nat) (item : VItem) : VItem :=
  match item with
  | VItem.rowContainer items => VItem.rowContainer (RowItem.insertWidget col id items)
  | other => other

/-- `m_verticalLayout->itemAt(index)`: no item outside `0 .. count() - 1`. -/
def WindowManager.itemAt (wm : WindowManager) (index : Int) : Option VItem :=
  if 0 ≤ index then wm.verticalLayout[index.toNat]? else none

/-- `WindowManager::attachWidgetToLayout`.  The row and column are the C++
quotient and remainder of `position` by the column count.  The item found must
be a row container (an item with a widget whose layout is a `QHBoxLayout`);
`insertWidget(col, widget)` then takes the pane out of the layout it was in and
puts it at index `col` of the row's items.  Otherwise the grid is rebuilt. -/
def WindowManager.attachWidgetToLayout (wm : WindowManager) (id : Nat) (position : Int) :
    Option WindowManager :=
  let widgetWidth := WindowManager.widgetWidth wm.m_columnCount
  let widgetHeight := WindowManager.calculateHeightFromWidth widgetWidth
  let wm1 := wm.updateWidget id fun w => w.setFixedSize widgetWidth widgetHeight
  let row := Int.tdiv position wm1.m_columnCount
  let col := Int.tmod position wm1.m_columnCount
  if row < wm1.verticalLayout.length then
    match wm1.itemAt row with
    | some (VItem.rowContainer _) =>
      let wm2 := wm1.takeOutOfRows id
      some { wm2 with
        verticalLayout := wm2.verticalLayout.modify (VItem.insertWidget col id) row.toNat }
    | _ => wm1.updateLayout
  else wm1.updateLayout

/-! ## `MainWindow`: sub-window assignment and the fullscreen coordinator -/

/-- A record of the `sub_windows` table as `DatabaseManager::getAllSubWindows`
returns it (the members the main window reads). -/
structure SubWindow where
  id : Int
  name : String
  url : String
deriving DecidableEq, Repr

/-- What `loadSubWindowsToLayout` reads from the `DatabaseManager`:
`getAllSubWindows()` and `getAppSetting("windowColumns", 2).toInt()`. -/
structure Database where
  subWindows : List SubWindow
  windowColumns : Int
deriving DecidableEq, Repr

/-- The pages of `m_stackedWidget`. -/
inductive StackPage where
  | main
  | logout
  | fullscreen
deriving DecidableEq, Repr

/-- The closures the main window hands to `QTimer::singleShot`: the one of
`showFullscreenWindow` (100 ms), which captures the promoted pane, and the one
of `hideFullscreenWindow` (50 ms). -/
inductive Deferred where
  | fullscreenSettle (widget : Nat)
  | normalSettle
deriving DecidableEq, Repr

/-- The state of the `MainWindow`.  `fullscreenLayout` holds the panes in the
layout of `m_fullscreenWidget`; `deferred` the pending single-shot closures. -/
structure MainWindow where
  m_windowManager : Option WindowManager
  m_fullscreenBrowser : Option Nat
  m_fullscreenWidgetPosition : Int
  m_currentLayout : Int
  m_initialized : Bool
  m_loadingSubwindows : Bool
  fullscreenLayout : List Nat
  stackedCurrent : StackPage
  toolBarVisible : Bool
  statusBarVisible : Bool
  windowFullScreen : Bool
  emptyStateLabelVisible : Bool
  deferred : List Deferred
deriving DecidableEq, Repr

/-- The main window as its constructor leaves it before any sub-window is
loaded: the member initialisers and `setupCentralWidget`, which creates the
window manager. -/
def MainWindow.create : MainWindow :=
  { m_windowManager := WindowManager.create
    m_fullscreenBrowser := none
    m_fullscreenWidgetPosition := -1
    m_currentLayout := 0
    m_initialized := false
    m_loadingSubwindows := false
    fullscreenLayout := []
    stackedCurrent := StackPage.main
    toolBarVisible := true
    statusBarVisible := true
    windowFullScreen := false
    emptyStateLabelVisible := true
    deferred := [] }

/-- The pool of the main window's manager (empty without a manager). -/
def MainWindow.pool (mw : MainWindow) : List BrowserWidget :=
  match mw.m_windowManager with
  | some wm => wm.m_browserWidgets
  | none => []

/-- The manager after one of its methods has returned: the panes its grid now
holds are no longer in the layout of `m_fullscreenWidget`
(`QLayout::addChildWidget`). -/
def MainWindow.withManager (mw : MainWindow) (wm : WindowManager) : MainWindow :=
  { mw with m_windowManager := some wm
            fullscreenLayout := mw.fullscreenLayout.filter fun id => ¬ id ∈ wm.rows.flatten }

/-- The body of the loop of `loadSubWindowsToLayout` for one record and the pane
at the same index. -/
def MainWindow.assignSubWindow (h : Host) (subWindow : SubWindow) (widget : BrowserWidget) :
    BrowserWidget :=
  let w1 := widget.setSubWindowId h subWindow.id
  let w2 := w1.setSubWindowName subWindow.name
  if w2.getCurrentUrl ≠ subWindow.url then w2.loadUrl subWindow.url else w2

/-- The loop `for (i = 0; i < subWindows.size() && i < widgets.size(); i++)` of
`loadSubWindowsToLayout`. -/
def MainWindow.assignSubWindows (h : Host) :
    List SubWindow → List BrowserWidget → List BrowserWidget
  | subWindow :: subWindows, widget :: widgets =>
    MainWindow.assignSubWindow h subWindow widget ::
      MainWindow.assignSubWindows h subWindows widgets
  | _, widgets => widgets

/-- `MainWindow::onAllWidgetsCreated`, with `reload` standing for the call of
`loadSubWindowsToLayout`. -/
def MainWindow.onAllWidgetsCreatedWith (reload : MainWindow → Option MainWindow)
    (mw : MainWindow) : Option MainWindow :=
  if mw.m_loadingSubwindows then some mw else reload mw

/-- Delivery of the signals of the window manager to the slots the main window
connects in `setupConnections`: `allWidgetsCreated` goes to
`onAllWidgetsCreated`; `layoutChanged` has no receiver. -/
def MainWindow.deliver (reload : MainWindow → Option MainWindow) :
    List WMSignal → MainWindow → Option MainWindow
  | [], mw => some mw
  | WMSignal.allWidgetsCreated :: signals, mw =>
    match MainWindow.onAllWidgetsCreatedWith reload mw with
    | none => none
    | some mw1 => MainWindow.deliver reload signals mw1
  | _ :: signals, mw => MainWindow.deliver reload signals mw

/-- `m_windowManager->setLayout(windowCount)` called by the main window: the
manager changes, then the slots connected to the emitted signals run. -/
def MainWindow.callSetLayout (reload : MainWindow → Option MainWindow) (mw : MainWindow)
    (wm : WindowManager) (windowCount : Int) : Option MainWindow :=
  match wm.setLayoutUnforced windowCount with
  | none => none
  | some (wm1, signals) => MainWindow.deliver reload signals (mw.withManager wm1)

/-- `MainWindow::loadSubWindowsToLayout`.  `fuel` bounds the depth of the calls
of `loadSubWindowsToLayout` nested through `onAllWidgetsCreated`; `none` stands
for a call that does not return. -/
def MainWindow.loadSubWindowsToLayout (h : Host) (db : Option Database) :
    Nat → MainWindow → Option MainWindow
  | 0, _ => none
  | fuel + 1, mw =>
    if mw.m_loadingSubwindows then some mw
    else
      let mw1 := { mw with m_loadingSubwindows := true }
      match mw1.m_windowManager with
      | none => some { mw1 with m_loadingSubwindows := false }
      | some wm =>
        match db with
        | none => some { mw1 with m_loadingSubwindows := false }
        | some dbManager =>
          let subWindows := dbManager.subWindows
          let columnCount := dbManager.windowColumns
          let windowCount : Int := subWindows.length
          if windowCount = 0 then
            match MainWindow.callSetLayout (MainWindow.loadSubWindowsToLayout h db fuel)
                mw1 wm 0 with
            | none => none
            | some mw2 =>
              some { mw2 with m_currentLayout := 0
                              emptyStateLabelVisible := true
                              m_loadingSubwindows := false }
          else
            match wm.setColumnCount columnCount with
            | none => none
            | some wm1 =>
              match MainWindow.callSetLayout (MainWindow.loadSubWindowsToLayout h db fuel)
                  ({ mw1 with emptyStateLabelVisible := false }.withManager wm1)
                  wm1 windowCount with
              | none => none
              | some mw2 =>
                match mw2.m_windowManager with
                | none => none
                | some wm2 =>
                  some { mw2 with
                    m_windowManager := some { wm2 with
                      m_browserWidgets :=
                        MainWindow.assignSubWindows h subWindows wm2.getBrowserWidgets }
                    m_currentLayout := windowCount
                    m_initialized := true
                    m_loadingSubwindows := false }

/-- `MainWindow::onAllWidgetsCreated`. -/
def MainWindow.onAllWidgetsCreated (h : Host) (db : Option Database) (fuel : Nat)
    (mw : MainWindow) : Option MainWindow :=
  MainWindow.onAllWidgetsCreatedWith (MainWindow.loadSubWindowsToLayout h db fuel) mw

/-- `MainWindow::showFullscreenWindow`.  `none` for the widget is the null
pointer.  A call that dereferences a null manager, or a pointer to a pane that
is no longer in the pool, has no modelled result (`none`). -/
def MainWindow.showFullscreenWindow (mw : MainWindow) (widget : Option Nat) :
    Option MainWindow :=
  match widget with
  | none => some mw
  | some id =>
    match mw.m_windowManager with
    | none => none
    | some wm =>
      match wm.findWidget id with
      | none => none
      | some w =>
        let position := wm.indexOf id
        let wm1 := wm.detachWidgetFromLayout id
        -- the widgets left in the old layout of `m_fullscreenWidget` get no parent
        let wm2 := mw.fullscreenLayout.foldl
          (fun m old => m.updateWidget old BrowserWidget.hide) wm1
        -- `fullscreenLayout->addWidget(widget)`
        let wm3 := wm2.takeOutOfRows id
        let wm4 :=
          if w.getSubWindowId > 0 then wm3.updateWidget id BrowserWidget.saveCookies else wm3
        let wm5 := wm4.updateWidget id fun w => w.setFullscreenMode true
        some { mw with
          m_windowManager := some wm5
          m_fullscreenBrowser := some id
          m_fullscreenWidgetPosition := position
          fullscreenLayout := [id]
          stackedCurrent := StackPage.fullscreen
          toolBarVisible := false
          statusBarVisible := false
          windowFullScreen := true
          deferred := mw.deferred ++ [Deferred.fullscreenSettle id] }

/-- `MainWindow::hideFullscreenWindow`.  `setParentWidget(m_mainWidget)` finds the
manager's parent unchanged and returns at once; `forceLayoutUpdate` and
`synchronizeWidgetWidths` change none of the modelled state.  A call that
dereferences a null manager, or a pointer to a pane that is no longer in the
pool, has no modelled result (`none`). -/
def MainWindow.hideFullscreenWindow (h : Host) (mw : MainWindow) : Option MainWindow :=
  match mw.m_fullscreenBrowser with
  | none => some mw
  | some id =>
    match mw.m_windowManager with
    | none => none
    | some wm =>
      match wm.findWidget id with
      | none => none
      | some w =>
        let wm1 := wm.updateWidget id fun w => w.setFullscreenMode false
        let wm2 :=
          if w.getSubWindowId > 0 then wm1.updateWidget id (BrowserWidget.loadCookies h)
          else wm1
        let mw1 := { mw with windowFullScreen := false, toolBarVisible := true
                             statusBarVisible := true }
        let attached :=
          if mw.m_fullscreenWidgetPosition ≥ 0 then
            match wm2.attachWidgetToLayout id mw.m_fullscreenWidgetPosition with
            | none => none
            | some wm3 => some (mw1.withManager wm3)
          else some { mw1 with m_windowManager := some wm2 }
        match attached with
        | none => none
        | some mw2 =>
          some { mw2 with
            deferred := mw2.deferred ++ [Deferred.normalSettle]
            stackedCurrent := StackPage.main
            m_fullscreenBrowser := none
            m_fullscreenWidgetPosition := -1 }

/-- `MainWindow::onFullscreenRequested`. -/
def MainWindow.onFullscreenRequested (h : Host) (mw : MainWindow) (widget : Option Nat) :
    Option MainWindow :=
  match mw.m_fullscreenBrowser with
  | some _ => mw.hideFullscreenWindow h
  | none => mw.showFullscreenWindow widget

/-- The body of a pending closure, run when its timer fires.
`fullscreenSettle widget` is the closure of `showFullscreenWindow`: only if the
captured pane is still `m_fullscreenBrowser`, and there is a primary screen, the
pane gets the screen's geometry as geometry, minimum and maximum size.
`normalSettle` is the closure of `hideFullscreenWindow`: it resets the size
constraints of whatever pane `m_fullscreenBrowser` points to when it runs. -/
def MainWindow.runDeferred (h : Host) (mw : MainWindow) (d : Deferred) : MainWindow :=
  match d with
  | Deferred.fullscreenSettle widget =>
    if mw.m_fullscreenBrowser = some widget then
      match h.primaryScreen, mw.m_windowManager with
      | some screenGeometry, some wm =>
        { mw with m_windowManager := some (wm.updateWidget widget fun w =>
            ((w.setGeometry
                { x := 0, y := 0, width := screenGeometry.width
                  height := screenGeometry.height }).setMinimumSize
              screenGeometry.size).setMaximumSize screenGeometry.size) }
      | _, _ => mw
    else mw
  | Deferred.normalSettle =>
    match mw.m_fullscreenBrowser, mw.m_windowManager with
    | some id, some wm =>
      { mw with m_windowManager := some (wm.updateWidget id fun w =>
          ((w.setMinimumSize { width := 300, height := 200 }).setMaximumSize
            { width := QWIDGETSIZE_MAX, height := QWIDGETSIZE_MAX }).setSizePolicy
            SizePolicy.Preferred) }
    | _, _ => mw

/-- The timer of the pending closure at index `k` fires: the closure leaves the
pending list and runs. -/
def MainWindow.fireDeferred (h : Host) (mw : MainWindow) (k : Nat) : MainWindow :=
  match mw.deferred[k]? with
  | none => mw
  | some d => MainWindow.runDeferred h { mw with deferred := mw.deferred.eraseIdx k } d

/-! ## Events and example states used by the theorems -/

/-- A change of a pane's visibility: a call of `show()` or of `hide()`. -/
inductive VisibilityEvent where
  | shown
  | hidden
deriving DecidableEq, Repr

/-- The pane after a visibility event. -/
def BrowserWidget.applyVisibility (w : BrowserWidget) : VisibilityEvent → BrowserWidget
  | VisibilityEvent.shown => w.«show»
  | VisibilityEvent.hidden => w.hide

/-- The pane after a sequence of visibility events, oldest first. -/
def BrowserWidget.applyVisibilities (w : BrowserWidget) (events : List VisibilityEvent) :
    BrowserWidget :=
  events.foldl BrowserWidget.applyVisibility w

/-- A pane as constructed (hidden, nothing assigned). -/
def freshPane : BrowserWidget :=
  BrowserWidget.create 1 1

/-- A pane as constructed and then shown. -/
def freshVisiblePane : BrowserWidget :=
  (BrowserWidget.create 1 1).«show»

/-- What `updateLayout` does to a pane it places in a row: `setFixedSize` with
the size for the column count, then `show()` and `addWidget` to the new row. -/
def WindowManager.placeWidget (c : Int) (w : BrowserWidget) : BrowserWidget :=
  (w.setFixedSize (WindowManager.widgetWidth c)
    (WindowManager.calculateHeightFromWidth (WindowManager.widgetWidth c))).showInNewRow

/-- The pool after `updateLayout` has placed its first `v` panes. -/
def WindowManager.placedUpTo (c : Int) (pool : List BrowserWidget) (v : Nat) :
    List BrowserWidget :=
  (pool.take v).map (WindowManager.placeWidget c) ++ pool.drop v

/-- The row container `updateLayout` builds for row `r` of a grid of `n` panes in
`c` columns: the panes at pool indices `r * c` up to `min (r * c + c) n`, then
the stretch. -/
def WindowManager.rowContainerOf (pool : List BrowserWidget) (c n r : Nat) : VItem :=
  VItem.rowContainer
    ((((pool.take n).drop (r * c)).take c).map (fun w => RowItem.widget w.objectId) ++
      [RowItem.stretch])

/-- The manager `updateLayout` leaves, in closed form, for a column count `c` and
a visible count `n` within the pool: the first `n` panes placed, the others
hidden, the grid rebuilt. -/
def WindowManager.laidOut (wm : WindowManager) (c n : Nat) : WindowManager :=
  { m_browserWidgets :=
      (wm.m_browserWidgets.take n).map (WindowManager.placeWidget c) ++
        (wm.m_browserWidgets.drop n).map BrowserWidget.hide
    m_currentWindowCount := n
    m_columnCount := c
    verticalLayout :=
      if n = 0 then []
      else (List.range ((n + c - 1) / c)).map
        (WindowManager.rowContainerOf wm.m_browserWidgets c n) ++ [VItem.stretch] }

/-- The invariant of the manager's members: the column count is 1, 2 or 3, the
visible count lies within the pool, the panes before the visible count are the
ones that are not hidden, and a hidden pane is not visible. -/
def WindowManager.WellFormed (wm : WindowManager) : Prop :=
  1 ≤ wm.m_columnCount ∧ wm.m_columnCount ≤ 3 ∧
  0 ≤ wm.m_currentWindowCount ∧ wm.m_currentWindowCount ≤ wm.m_browserWidgets.length ∧
  (∀ w ∈ wm.m_browserWidgets.take wm.m_currentWindowCount.toNat, w.hidden = false) ∧
  (∀ w ∈ wm.m_browserWidgets.drop wm.m_currentWindowCount.toNat,
    w.hidden = true ∧ w.visible = false)

instance (wm : WindowManager) : Decidable wm.WellFormed := by
  unfold WindowManager.WellFormed
  infer_instance

/-- The manager `setLayout(n)` (not forced) leaves, in closed form. -/
def WindowManager.relaid (wm : WindowManager) (n : Nat) : WindowManager :=
  if wm.m_currentWindowCount = n then wm else wm.laidOut wm.m_columnCount.toNat n

/-- The manager `setColumnCount(columns)` leaves, in closed form. -/
def WindowManager.recolumned (wm : WindowManager) (columns : Int) : WindowManager :=
  if columns < 1 ∨ columns > 3 then wm
  else wm.laidOut columns.toNat wm.m_currentWindowCount.toNat

/-- The manager the layout calls of `loadSubWindowsToLayout` leave, in closed
form: `setLayout(0)` for an empty list, `setColumnCount(columnCount)` followed by
`setLayout(windowCount)` otherwise. -/
def WindowManager.laidOutFor (wm : WindowManager) (d : Database) : WindowManager :=
  if d.subWindows.length = 0 then wm.relaid 0
  else (wm.recolumned d.windowColumns).relaid d.subWindows.length

/-- The event loop shows the row containers of the grid, while the page of the
grid is the current page of `m_stackedWidget`. -/
def MainWindow.showRows (mw : MainWindow) : MainWindow :=
  if mw.stackedCurrent = StackPage.main then
    { mw with m_windowManager := mw.m_windowManager.map WindowManager.showRows }
  else mw

/-- A host system with no cookie files and no screen. -/
def exampleHost : Host :=
  { cookieFile := fun _ => none, fromJsonArray := fun _ => none, primaryScreen := none }

/-- A store with the single record of id 1, shown in two columns. -/
def exampleStore : Database :=
  { subWindows := [{ id := 1, name := "A", url := "https://a.test" }], windowColumns := 2 }

/-- The main window as constructed, after one run of `loadSubWindowsToLayout` on
`exampleStore` and after the event loop has shown the row of the grid: the first
pane is visible, and its `showEvent` has scheduled the load of its stored
destination. -/
def exampleAssigned : MainWindow :=
  ((MainWindow.loadSubWindowsToLayout exampleHost (some exampleStore) 1
    MainWindow.create).getD MainWindow.create).showRows

/-- A store with the single record of id 1 whose column setting, 0, is one that
`setColumnCount` rejects. -/
def rejectedColumnsStore : Database :=
  { subWindows := [{ id := 1, name := "A", url := "https://a.test" }], windowColumns := 0 }

/-- The main window as constructed, after one run of `loadSubWindowsToLayout` on
`rejectedColumnsStore` and after the event loop has shown the row of the grid. -/
def exampleShown : MainWindow :=
  ((MainWindow.loadSubWindowsToLayout exampleHost (some rejectedColumnsStore) 1
    MainWindow.create).getD MainWindow.create).showRows

/-- The timers of the pending closures at the given indices fire one after the
other (each index is taken in the pending list as the earlier firings left
it). -/
def MainWindow.fireDeferreds (h : Host) (mw : MainWindow) (ks : List Nat) : MainWindow :=
  ks.foldl (MainWindow.fireDeferred h) mw

/-- A host system with no cookie files and a primary screen of 1920 by 1080. -/
def screenHost : Host :=
  { cookieFile := fun _ => none
    fromJsonArray := fun _ => none
    primaryScreen := some { x := 0, y := 0, width := 1920, height := 1080 } }

/-- A store with three records, shown in two columns. -/
def gridStore : Database :=
  { subWindows := [{ id := 1, name := "A", url := "https://a.test" },
                   { id := 2, name := "B", url := "https://b.test" },
                   { id := 3, name := "C", url := "https://c.test" }]
    windowColumns := 2 }

/-- The main window as constructed, after one run of `loadSubWindowsToLayout` on
`gridStore`: three panes shown, in the rows `[1, 2]` and `[3]`. -/
def gridWindow : MainWindow :=
  (MainWindow.loadSubWindowsToLayout screenHost (some gridStore) 1 MainWindow.create).getD
    MainWindow.create

/-- The main window while the pane `id` is promoted to fullscreen:
`m_fullscreenBrowser` points to it, `position` is the pool index saved for it,
and the manager has the given grid, column count and pane identities. -/
def MainWindow.Promoted (mw : MainWindow) (id : Nat) (position : Int) (grid : List VItem)
    (c : Int) (ids : List Nat) : Prop :=
  mw.m_fullscreenBrowser = some id ∧ mw.m_fullscreenWidgetPosition = position ∧
  ∃ wm, mw.m_windowManager = some wm ∧ wm.verticalLayout = grid ∧ wm.m_columnCount = c ∧
    wm.m_browserWidgets.map (fun w => w.objectId) = ids

/-- The manager of `gridWindow`. -/
def gridManager : WindowManager :=
  gridWindow.m_windowManager.getD WindowManager.constructed

/-- The pane at pool index 2 of `gridWindow` (the only pane of the second row). -/
def gridPane : BrowserWidget :=
  gridManager.m_browserWidgets[2]?.getD freshPane

/-- The keys `MainWindow::keyPressEvent` tells apart. -/
inductive Key where
  | f11
  | escape
  | other
deriving DecidableEq, Repr

/-- `MainWindow::keyPressEvent`: F11 and Escape leave fullscreen when a pane is
promoted; any other key goes to `QMainWindow::keyPressEvent`, which changes none
of the modelled state. -/
def MainWindow.keyPressEvent (h : Host) (mw : MainWindow) (key : Key) : Option MainWindow :=
  match key with
  | Key.f11 =>
    match mw.m_fullscreenBrowser with
    | some _ => mw.hideFullscreenWindow h
    | none => some mw
  | Key.escape =>
    match mw.m_fullscreenBrowser with
    | some _ => mw.hideFullscreenWindow h
    | none => some mw
  | Key.other => some mw

/-- The events that drive the fullscreen coordinator: a pane of the pool raises
`fullscreenRequested` (the manager's `onWidgetFullscreenRequested` passes it on,
with the sender, to `MainWindow::onFullscreenRequested`), a key is pressed in the
main window, or the timer of the pending closure at an index fires. -/
inductive FullscreenEvent where
  | requested (widget : Nat)
  | key (k : Key)
  | timer (index : Nat)
deriving DecidableEq, Repr

/-- The main window handles one event. -/
def MainWindow.handleFullscreenEvent (h : Host) (mw : MainWindow) :
    FullscreenEvent → Option MainWindow
  | FullscreenEvent.requested widget => mw.onFullscreenRequested h (some widget)
  | FullscreenEvent.key k => mw.keyPressEvent h k
  | FullscreenEvent.timer index => some (MainWindow.fireDeferred h mw index)

/-- The main window handles a sequence of events, oldest first. -/
def MainWindow.handleFullscreenEvents (h : Host) :
    List FullscreenEvent → MainWindow → Option MainWindow
  | [], mw => some mw
  | ev :: evs, mw =>
    match mw.handleFullscreenEvent h ev with
    | none => none
    | some mw1 => MainWindow.handleFullscreenEvents h evs mw1

/-- The panes a `fullscreenRequested` event of the sequence comes from. -/
def FullscreenEvent.senders : List FullscreenEvent → List Nat
  | [] => []
  | FullscreenEvent.requested widget :: evs => widget :: FullscreenEvent.senders evs
  | _ :: evs => FullscreenEvent.senders evs

/-- The identities of the panes of the main window's pool, in pool order. -/
def MainWindow.poolIds (mw : MainWindow) : List Nat :=
  mw.pool.map fun w => w.objectId

/-- The invariant of the fullscreen coordinator: there is a manager with a column
count of at least 1 and panes of distinct identities; a pane of the pool is in
fullscreen mode exactly if it is the one `m_fullscreenBrowser` points to; the
saved position is `-1` when no pane is promoted, and the pool index of the
promoted pane otherwise. -/
def MainWindow.FullscreenInv (mw : MainWindow) : Prop :=
  ∃ wm, mw.m_windowManager = some wm ∧ 1 ≤ wm.m_columnCount ∧
    (wm.m_browserWidgets.map fun w => w.objectId).Nodup ∧
    (∀ w ∈ wm.m_browserWidgets,
      w.isFullscreenMode = true ↔ mw.m_fullscreenBrowser = some w.objectId) ∧
    (mw.m_fullscreenBrowser = none → mw.m_fullscreenWidgetPosition = -1) ∧
    (∀ id, mw.m_fullscreenBrowser = some id →
      ∃ (p : Nat) (w : BrowserWidget), mw.m_fullscreenWidgetPosition = (p : Int) ∧
        wm.m_browserWidgets[p]? = some w ∧ w.objectId = id)

/-- The window `gridWindow` with the pane at pool index 2 promoted to
fullscreen. -/
def promotedWindow : MainWindow :=
  (gridWindow.showFullscreenWindow (some 3)).getD gridWindow

/-- A cookie as the extraction script of `saveCookies` reports it: the name and
value parsed from `document.cookie`, with the host name and the path of the page
as domain and path. -/
structure CookieEntry where
  name : String
  value : String
  domain : String
  path : String
deriving DecidableEq, Repr

/-- The object the extraction script pushes for a cookie, as an element of the
parsed array: the members `name`, `value`, `domain`, `path` and `url` (the address
of the page), all strings. -/
def CookieEntry.toJson (e : CookieEntry) (url : String) : JsonItem :=
  JsonItem.object
    [("name", JsonValue.string e.name), ("value", JsonValue.string e.value),
     ("domain", JsonValue.string e.domain), ("path", JsonValue.string e.path),
     ("url", JsonValue.string url)]

/-- `BrowserWidget::saveCookiesToFile`, called by the callback of `saveCookies`
with the text the extraction script returned.  `opened` is the result of
`file.open`.  The result is the host with the cookie file of the pane's logical
id holding the text (read back as written: the text has no line terminators), and
the value returned. -/
def BrowserWidget.saveCookiesToFile (h : Host) (w : BrowserWidget) (cookieData : String)
    (opened : Bool) : Host × Bool :=
  if w.m_subWindowId ≤ 0 then (h, false)
  else if ¬ opened then (h, false)
  else
    ({ h with cookieFile := fun id =>
        if id = w.m_subWindowId then some cookieData else h.cookieFile id }, true)

/-- A host whose cookie directory holds one file, for the logical id 1, with one
cookie that has no domain; its JSON parser reads that text. -/
def cookieHost : Host :=
  { cookieFile := fun id =>
      if id = 1 then
        some "[\x7b\"name\":\"a\",\"value\":\"1\",\"domain\":\"\",\"path\":\"/\",\"url\":\"\"\x7d]"
      else none
    fromJsonArray := fun text =>
      if text =
          "[\x7b\"name\":\"a\",\"value\":\"1\",\"domain\":\"\",\"path\":\"/\",\"url\":\"\"\x7d]"
      then some [CookieEntry.toJson { name := "a", value := "1", domain := "", path := "/" } ""]
      else none
    primaryScreen := none }

/-- A pane as constructed whose page has a valid address and is not loading. -/
def idlePane : BrowserWidget :=
  { freshPane with pageUrlValid := true, pageLoading := false }

/-- A pane bound to the logical id 5 with a cookie script staged. -/
def stagedPane : BrowserWidget :=
  { freshPane with m_subWindowId := 5, m_pendingCookieScript := "document.cookie = 'k=v'; " }

/-- The text the extraction script returns on the page `https://a.test/` for the
cookies `sid=7` and `k=v`. -/
def twoCookiesText : String :=
  "[\x7b\"name\":\"sid\",\"value\":\"7\",\"domain\":\"a.test\",\"path\":\"/\","
    ++ "\"url\":\"https://a.test/\"\x7d,\x7b\"name\":\"k\",\"value\":\"v\","
    ++ "\"domain\":\"a.test\",\"path\":\"/\",\"url\":\"https://a.test/\"\x7d]"

/-- The cookies of `twoCookiesText`. -/
def twoCookies : List CookieEntry :=
  [{ name := "sid", value := "7", domain := "a.test", path := "/" },
   { name := "k", value := "v", domain := "a.test", path := "/" }]

/-- A host with an empty cookie directory whose JSON parser reads
`twoCookiesText`. -/
def parsingHost : Host :=
  { cookieFile := fun _ => none
    fromJsonArray := fun text =>
      if text = twoCookiesText then some (twoCookies.map fun e => e.toJson "https://a.test/")
      else none
    primaryScreen := none }

/-- A visible pane bound to the logical id 5 with a cookie script staged. -/
def stagedVisiblePane : BrowserWidget :=
  { stagedPane with visible := true, hidden := false }

/-- Successive runs of `loadSubWindowsToLayout`, one for each state of the store
in the list, oldest first. -/
def MainWindow.loadAll (h : Host) (fuel : Nat) : List Database → MainWindow → Option MainWindow
  | [], mw => some mw
  | d :: ds, mw =>
    match MainWindow.loadSubWindowsToLayout h (some d) fuel mw with
    | none => none
    | some mw1 => MainWindow.loadAll h fuel ds mw1

/-- A store with the single record of id 2, shown in two columns. -/
def shorterStore : Database :=
  { subWindows := [{ id := 2, name := "B", url := "https://b.test" }], windowColumns := 2 }

/-- `qBound(min, val, max)` of Qt: `qMax(min, qMin(max, val))`. -/
def qBound (lo val hi : ℚ) : ℚ :=
  max lo (min hi val)

/-- `BrowserWidget::calculateOptimalZoomFactor`, with the `double` arithmetic of
the C++ taken as exact rational arithmetic.  `size` is the pane's current
`size()`; `m_referenceSize` is 1920 by 1080 (set by the constructor and never
changed); the constants `0.3`, `0.7`, `0.8`, `0.25` and `3.0` are the rationals
they denote. -/
def BrowserWidget.calculateOptimalZoomFactor (h : Host) (w : BrowserWidget) (size : QSize) : ℚ :=
  if size.width ≤ 0 ∨ size.height ≤ 0 then 1
  else
    let widthRatio : ℚ := (size.width : ℚ) / 1920
    let heightRatio : ℚ := (size.height : ℚ) / 1080
    let baseZoomFactor := min widthRatio heightRatio
    let baseZoomFactor :=
      if w.m_isFullscreen then
        match h.primaryScreen with
        | some screenGeometry =>
          let screenSize := screenGeometry.size
          let screenWidthRatio : ℚ := (screenSize.width : ℚ) / 1920
          let screenHeightRatio : ℚ := (screenSize.height : ℚ) / 1080
          let screenZoomFactor := min screenWidthRatio screenHeightRatio
          baseZoomFactor * (3 / 10) + screenZoomFactor * (7 / 10)
        | none => baseZoomFactor
      else baseZoomFactor * (8 / 10)
    qBound (1 / 4) baseZoomFactor 3

/-- `BrowserWidget::setWindowId`. -/
def BrowserWidget.setWindowId (w : BrowserWidget) (id : Int) : BrowserWidget :=
  { w with m_windowId := id }

/-- The loop `for (i = index; i < m_browserWidgets.size(); ++i)
m_browserWidgets[i]->setWindowId(i + 1)` of `removeBrowserWidget`, over the panes
from pool index `i` on. -/
def WindowManager.renumber (index : Nat) : Nat → List BrowserWidget → List BrowserWidget
  | _, [] => []
  | i, w :: ws =>
    (if index ≤ i then w.setWindowId ((i : Int) + 1) else w) ::
      WindowManager.renumber index (i + 1) ws

/-- `WindowManager::removeBrowserWidget`, with the signal it emits: the pane at the
index leaves the pool (and is deleted), the panes after it get new window ids,
and the grid is rebuilt from the panes that are left. -/
def WindowManager.removeBrowserWidget (wm : WindowManager) (index : Int) :
    Option (WindowManager × List WMSignal) :=
  if index < 0 ∨ index ≥ wm.m_browserWidgets.length then some (wm, [])
  else
    match ({ wm with m_browserWidgets :=
        WindowManager.renumber index.toNat 0 (wm.m_browserWidgets.eraseIdx index.toNat) } :
        WindowManager).updateLayout with
    | none => none
    | some wm1 => some (wm1, [WMSignal.widgetRemoved index])

/-- `WindowManager::onWidgetCloseRequested`, for the pane that sent
`closeRequested`. -/
def WindowManager.onWidgetCloseRequested (wm : WindowManager) (widget : Nat) :
    Option (WindowManager × List WMSignal) :=
  let index := wm.indexOf widget
  if index ≥ 0 then wm.removeBrowserWidget index else some (wm, [])

/-- The operations of the manager and the pane events it handles, as they reach
the main window's manager.  A call that can make the manager emit
`allWidgetsCreated` carries the state of the store that `onAllWidgetsCreated`
would then read. -/
inductive PoolEvent where
  | setLayout (windowCount : Int) (forceUpdate : Bool) (db : Option Database)
  | setColumnCount (columns : Int)
  | assign (db : Option Database)
  | detach (widget : Nat)
  | attach (widget : Nat) (position : Int)
  | fullscreenRequested (widget : Nat)
  | closeRequested (widget : Nat)
deriving DecidableEq, Repr

/-- The main window and its manager handle one operation or event; the signals of
the manager are delivered to the slots connected to them (`widgetRemoved` has no
receiver).  `fuel` bounds the nested calls of `loadSubWindowsToLayout`. -/
def MainWindow.handlePoolEvent (h : Host) (fuel : Nat) (mw : MainWindow) :
    PoolEvent → Option MainWindow
  | PoolEvent.setLayout windowCount forceUpdate db =>
    match mw.m_windowManager with
    | none => none
    | some wm =>
      match wm.setLayout windowCount forceUpdate with
      | none => none
      | some (wm1, signals) =>
        MainWindow.deliver (MainWindow.loadSubWindowsToLayout h db fuel) signals
          (mw.withManager wm1)
  | PoolEvent.setColumnCount columns =>
    match mw.m_windowManager with
    | none => none
    | some wm =>
      match wm.setColumnCount columns with
      | none => none
      | some wm1 => some (mw.withManager wm1)
  | PoolEvent.assign db => MainWindow.loadSubWindowsToLayout h db fuel mw
  | PoolEvent.detach widget =>
    match mw.m_windowManager with
    | none => none
    | some wm => some (mw.withManager (wm.detachWidgetFromLayout widget))
  | PoolEvent.attach widget position =>
    match mw.m_windowManager with
    | none => none
    | some wm =>
      match wm.attachWidgetToLayout widget position with
      | none => none
      | some wm1 => some (mw.withManager wm1)
  | PoolEvent.fullscreenRequested widget => mw.onFullscreenRequested h (some widget)
  | PoolEvent.closeRequested widget =>
    match mw.m_windowManager with
    | none => none
    | some wm =>
      match wm.onWidgetCloseRequested widget with
      | none => none
      | some (wm1, _) => some (mw.withManager wm1)

/-- The main window and its manager handle a sequence of operations and events,
oldest first. -/
def MainWindow.handlePoolEvents (h : Host) (fuel : Nat) :
    List PoolEvent → MainWindow → Option MainWindow
  | [], mw => some mw
  | ev :: evs, mw =>
    match mw.handlePoolEvent h fuel ev with
    | none => none
    | some mw1 => MainWindow.handlePoolEvents h fuel evs mw1

/-- Whether the event is a `closeRequested` event. -/
def PoolEvent.isClose : PoolEvent → Bool
  | PoolEvent.closeRequested _ => true
  | _ => false

/-- The panes the `fullscreenRequested` events of the sequence come from. -/
def PoolEvent.senders : List PoolEvent → List Nat
  | [] => []
  | PoolEvent.fullscreenRequested widget :: evs => widget :: PoolEvent.senders evs
  | _ :: evs => PoolEvent.senders evs

/-- The main window `mw'` holds the panes of `mw`: it has a manager with a column
count of at least 1 whose pool has, pane by pane, the identities and fullscreen
flags of the pool of `mw`, and the recorded active pane and saved position are
those of `mw`. -/
def MainWindow.KeepsPanes (mw mw' : MainWindow) : Prop :=
  ∃ wm wm', mw.m_windowManager = some wm ∧ mw'.m_windowManager = some wm' ∧
    1 ≤ wm'.m_columnCount ∧
    wm'.m_browserWidgets.map (fun w => (w.objectId, w.m_isFullscreen)) =
      wm.m_browserWidgets.map (fun w => (w.objectId, w.m_isFullscreen)) ∧
    mw'.m_fullscreenBrowser = mw.m_fullscreenBrowser ∧
    mw'.m_fullscreenWidgetPosition = mw.m_fullscreenWidgetPosition

/-! ## Further operations of the panes, the manager and the store -/

/-- The loop of `WindowManager::findWidgetBySubId` over the panes of
`m_browserWidgets` that are still to be visited (a pointer of the pool is never
null). -/
def WindowManager.findWidgetBySubIdFrom (subId : Int) :
    List BrowserWidget → Option BrowserWidget
  | [] => none
  | widget :: rest =>
    if widget.getSubWindowId = subId then some widget
    else WindowManager.findWidgetBySubIdFrom subId rest

/-- `WindowManager::findWidgetBySubId`; `none` is the null pointer. -/
def WindowManager.findWidgetBySubId (wm : WindowManager) (subId : Int) :
    Option BrowserWidget :=
  WindowManager.findWidgetBySubIdFrom subId wm.m_browserWidgets

/-- The window `promotedWindow` after `hideFullscreenWindow`: the pane at pool
index 2 is back in the grid, and the closures of the promotion and of the
demotion are both pending. -/
def demotedWindow : MainWindow :=
  (promotedWindow.hideFullscreenWindow screenHost).getD promotedWindow

/-- A store with 17 records (ids 1 to 17), shown in two columns. -/
def crowdedStore : Database :=
  { subWindows := (List.range 17).map fun i =>
      { id := (i : Int) + 1, name := "W", url := "https://a.test" }
    windowColumns := 2 }

/-- A row of the table `window_configs`, with the columns `saveWindowConfig` binds
a value to: `window_id` (declared `UNIQUE NOT NULL`), `sub_id`, `url`, `title` and
`geometry`, the JSON object of `x`, `y`, `width` and `height`.  The columns the
database fills in itself (`id`, `created_at`, `updated_at`) are read by none of
the modelled code and are left out. -/
structure WindowConfig where
  window_id : Int
  sub_id : Int
  url : String
  title : String
  geometry : QRect
deriving DecidableEq, Repr

/-- `DatabaseManager::saveWindowConfig` on the rows of `window_configs`.  The
statement is `INSERT OR REPLACE`: a row that holds the same `window_id` is deleted
and the new row is inserted.  `execOk` is the result of `query.exec()`; a
statement that fails changes no row.  The result is the rows and the value
returned. -/
def DatabaseManager.saveWindowConfig (rows : List WindowConfig) (execOk : Bool)
    (windowId subId : Int) (url title : String) (geometry : QRect) :
    List WindowConfig × Bool :=
  if execOk then
    ((rows.filter fun r => r.window_id ≠ windowId) ++
      [{ window_id := windowId, sub_id := subId, url := url, title := title
         geometry := geometry }], true)
  else (rows, false)

/-- `BrowserWidget::saveState`.  `rect` is the pane's `x()`, `y()`, `width()` and
`height()`, which `saveWindowState` stores in `m_windowState`; `db` holds the rows
of `window_configs` (`none` when `DatabaseManager::getInstance()` is null).  The
result is the pane, on which `saveCookies` has run, and the rows. -/
def BrowserWidget.saveState (w : BrowserWidget) (rect : QRect)
    (db : Option (List WindowConfig)) (execOk : Bool) :
    BrowserWidget × Option (List WindowConfig) :=
  let m_windowState := rect
  let db1 :=
    if w.m_subWindowId > 0 then
      match db with
      | some rows =>
        some (DatabaseManager.saveWindowConfig rows execOk w.m_subWindowId w.m_subWindowId
          w.m_currentUrl w.m_currentTitle m_windowState).1
      | none => none
    else db
  (w.saveCookies, db1)

/-- `BrowserWidget::onTitleChanged`: the render surface reports the title of its
page. -/
def BrowserWidget.onTitleChanged (w : BrowserWidget) (title : String) : BrowserWidget :=
  { w with m_currentTitle := title }

/-- A pane bound to the logical id 5 in pool slot 1, showing `https://a.test/`
with the title `A`. -/
def boundPane : BrowserWidget :=
  ({ freshPane with m_subWindowId := 5 }.onUrlChanged "https://a.test/").onTitleChanged "A"

/-- The callback `saveCookies` hands to `runJavaScript`, run when the result of an
extraction it requested arrives.  `result` is the text the script returned
(`none` for a `QVariant` that is not valid); a text is written with
`saveCookiesToFile`, which takes the file of the logical id the pane has then.
`opened` is the result of `file.open`. -/
def BrowserWidget.onCookiesExtracted (h : Host) (w : BrowserWidget) (result : Option String)
    (opened : Bool) : Host × BrowserWidget :=
  if w.cookieExtractions = 0 then (h, w)
  else
    let w1 := { w with cookieExtractions := w.cookieExtractions - 1 }
    match result with
    | some cookieData => ((w.saveCookiesToFile h cookieData opened).1, w1)
    | none => (h, w1)

/-- What can happen to a pane between a call of `saveCookies` and the arrival of
the extracted text: another call of `saveCookies`, a call of `setSubWindowId`, or
the callback of a pending extraction. -/
inductive CookieEvent where
  | saveCookies
  | setSubWindowId (subWindowId : Int)
  | extracted (result : Option String) (opened : Bool)
deriving DecidableEq, Repr

/-- The host system and the pane after one event. -/
def BrowserWidget.handleCookieEvent (s : Host × BrowserWidget) : CookieEvent → Host × BrowserWidget
  | CookieEvent.saveCookies => (s.1, s.2.saveCookies)
  | CookieEvent.setSubWindowId subWindowId => (s.1, s.2.setSubWindowId s.1 subWindowId)
  | CookieEvent.extracted result opened => s.2.onCookiesExtracted s.1 result opened

/-- The host system and the pane after a sequence of events, oldest first. -/
def BrowserWidget.handleCookieEvents (s : Host × BrowserWidget) (events : List CookieEvent) :
    Host × BrowserWidget :=
  events.foldl BrowserWidget.handleCookieEvent s

/-- Whether the event is a call of `setSubWindowId`. -/
def CookieEvent.isRebinding : CookieEvent → Bool
  | CookieEvent.setSubWindowId _ => true
  | _ => false

/-- The fixed size `updateLayout`, `attachWidgetToLayout` and `addBrowserWidget`
give a pane for a column count. -/
def WindowManager.fixedSize (columnCount : Int) : QSize :=
  { width := WindowManager.widgetWidth columnCount
    height := WindowManager.calculateHeightFromWidth (WindowManager.widgetWidth columnCount) }

/-- The pane has the fixed size for the column count: its minimum and its maximum
size are both that size. -/
def BrowserWidget.HasFixedSize (w : BrowserWidget) (columnCount : Int) : Prop :=
  w.minimumSize = WindowManager.fixedSize columnCount ∧
  w.maximumSize = WindowManager.fixedSize columnCount

/-- Every pane of the pool that is shown (not hidden) or visible, other than the
panes with the identity `skip`, has the fixed size for the manager's column
count. -/
def WindowManager.UniformExcept (wm : WindowManager) (skip : Option Nat) : Prop :=
  ∀ w ∈ wm.m_browserWidgets, w.isHidden = false ∨ w.isVisible = true →
    skip ≠ some w.objectId → w.HasFixedSize wm.m_columnCount

/-- Every pane of the pool that is shown or visible has the fixed size for the
manager's column count. -/
def WindowManager.Uniform (wm : WindowManager) : Prop :=
  wm.UniformExcept none

/-- `WindowManager::addBrowserWidget`, with the signal it emits.  `fresh` is the
identity of the pane `new BrowserWidget` creates. -/
def WindowManager.addBrowserWidget (wm : WindowManager) (fresh : Nat) :
    Option (WindowManager × List WMSignal) :=
  if wm.m_browserWidgets.length ≥ 16 then some (wm, [])
  else
    let newIndex : Int := wm.m_browserWidgets.length
    let newWidget := BrowserWidget.create fresh (newIndex + 1)
    let widgetWidth := WindowManager.widgetWidth wm.m_columnCount
    let widgetHeight := WindowManager.calculateHeightFromWidth widgetWidth
    match ({ wm with m_browserWidgets :=
        wm.m_browserWidgets ++ [newWidget.setFixedSize widgetWidth widgetHeight] } :
        WindowManager).updateLayout with
    | none => none
    | some wm1 => some (wm1, [WMSignal.widgetAdded fresh])

/-- `WindowManager::clearAllWidgets`: `destroyBrowserWidgets` empties the pool,
nothing is visible, and the grid is rebuilt. -/
def WindowManager.clearAllWidgets (wm : WindowManager) : Option WindowManager :=
  ({ wm with m_browserWidgets := [], m_currentWindowCount := 0 } : WindowManager).updateLayout

/-- `BrowserWidget::loadWindowState`, after the constructor: a pane with a logical
id loads the destination of its record.  `subWindowUrl id` is the `url` of the
record `getSubWindow(id)` returns, the empty text when there is none. -/
def BrowserWidget.loadWindowState (subWindowUrl : Int → String) (w : BrowserWidget) :
    BrowserWidget :=
  if w.m_subWindowId > 0 then
    let url := subWindowUrl w.m_subWindowId
    if ¬ url.isEmpty then w.loadUrl url else w
  else w

/-- `BrowserWidget::loadState`. -/
def BrowserWidget.loadState (h : Host) (subWindowUrl : Int → String) (w : BrowserWidget) :
    BrowserWidget :=
  (w.loadWindowState subWindowUrl).loadCookies h

/-- `WindowManager::saveAllStates`, as far as the manager goes: `saveState` runs on
every pane (the rows it writes belong to the store). -/
def WindowManager.saveAllStates (wm : WindowManager) (rect : Nat → QRect)
    (db : Option (List WindowConfig)) (execOk : Bool) : WindowManager :=
  { wm with m_browserWidgets :=
      wm.m_browserWidgets.map fun w => (w.saveState (rect w.objectId) db execOk).1 }

/-- `WindowManager::loadAllStates`. -/
def WindowManager.loadAllStates (h : Host) (subWindowUrl : Int → String) (wm : WindowManager) :
    WindowManager :=
  { wm with m_browserWidgets := wm.m_browserWidgets.map (BrowserWidget.loadState h subWindowUrl) }

/-- `WindowManager::setParentWidget`.  `changed` says that the parent given is a
widget other than the current one: `setupLayout` then finds its scroll area in
place and only calls `updateLayout`.  With the current parent, or with a null
parent, nothing is rebuilt. -/
def WindowManager.setParentWidget (wm : WindowManager) (changed : Bool) : Option WindowManager :=
  if changed then wm.updateLayout else some wm

/-- `WindowManager::updateWidgetContent`. -/
def WindowManager.updateWidgetContent (h : Host) (wm : WindowManager) (index subId : Int)
    (name url : String) : WindowManager :=
  if index < 0 ∨ index ≥ wm.m_browserWidgets.length then wm
  else
    match wm.m_browserWidgets[index.toNat]? with
    | none => wm
    | some w0 =>
      let w := (w0.setSubWindowId h subId).setSubWindowName name
      let w1 :=
        if w.isVisible ∧ ¬ w.getCurrentUrl.isEmpty ∧
            ¬ url.data.isPrefixOf w.getCurrentUrl.data then w.loadUrl url
        else if w.isVisible ∧ w.getCurrentUrl.isEmpty then w.loadUrl url
        else w
      { wm with m_browserWidgets := wm.m_browserWidgets.set index.toNat w1 }

/-- The public operations of the manager that change it, and the slot that
handles `closeRequested`, with their arguments. -/
inductive ManagerCall where
  | setLayout (windowCount : Int) (forceUpdate : Bool)
  | setColumnCount (columns : Int)
  | addBrowserWidget (fresh : Nat)
  | removeBrowserWidget (index : Int)
  | clearAllWidgets
  | saveAllStates (rect : Nat → QRect) (db : Option (List WindowConfig)) (execOk : Bool)
  | loadAllStates (subWindowUrl : Int → String)
  | setParentWidget (changed : Bool)
  | detachWidgetFromLayout (widget : Nat)
  | attachWidgetToLayout (widget : Nat) (position : Int)
  | updateWidgetContent (index subId : Int) (name url : String)
  | widgetCloseRequested (widget : Nat)

/-- The manager after one call (the signals it emits are left to the
receivers). -/
def WindowManager.call (h : Host) (wm : WindowManager) : ManagerCall → Option WindowManager
  | ManagerCall.setLayout windowCount forceUpdate =>
    (wm.setLayout windowCount forceUpdate).map Prod.fst
  | ManagerCall.setColumnCount columns => wm.setColumnCount columns
  | ManagerCall.addBrowserWidget fresh => (wm.addBrowserWidget fresh).map Prod.fst
  | ManagerCall.removeBrowserWidget index => (wm.removeBrowserWidget index).map Prod.fst
  | ManagerCall.clearAllWidgets => wm.clearAllWidgets
  | ManagerCall.saveAllStates rect db execOk => some (wm.saveAllStates rect db execOk)
  | ManagerCall.loadAllStates subWindowUrl => some (wm.loadAllStates h subWindowUrl)
  | ManagerCall.setParentWidget changed => wm.setParentWidget changed
  | ManagerCall.detachWidgetFromLayout widget => some (wm.detachWidgetFromLayout widget)
  | ManagerCall.attachWidgetToLayout widget position => wm.attachWidgetToLayout widget position
  | ManagerCall.updateWidgetContent index subId name url =>
    some (wm.updateWidgetContent h index subId name url)
  | ManagerCall.widgetCloseRequested widget => (wm.onWidgetCloseRequested widget).map Prod.fst

/-- The manager after a sequence of calls, oldest first. -/
def WindowManager.calls (h : Host) : List ManagerCall → WindowManager → Option WindowManager
  | [], wm => some wm
  | c :: cs, wm =>
    match wm.call h c with
    | none => none
    | some wm1 => WindowManager.calls h cs wm1

/-- What a call needs for the statement about the sizes: `setLayout` and
`setColumnCount` must rebuild the grid (a supported count that is new or forced;
a column count from 1 to 3), and before `attachWidgetToLayout` the panes that
are shown or visible, other than the one attached, must have the fixed size. -/
def ManagerCall.SetsSizes (wm : WindowManager) : ManagerCall → Prop
  | ManagerCall.setLayout windowCount forceUpdate =>
    WindowManager.isValidWindowCount windowCount = true ∧
      (wm.m_currentWindowCount ≠ windowCount ∨ forceUpdate = true)
  | ManagerCall.setColumnCount columns => 1 ≤ columns ∧ columns ≤ 3
  | ManagerCall.attachWidgetToLayout widget _ => wm.UniformExcept (some widget)
  | _ => False

/-- The column count is 1, 2 or 3 and the visible count is from 0 to 16. -/
def WindowManager.CountsInRange (wm : WindowManager) : Prop :=
  1 ≤ wm.m_columnCount ∧ wm.m_columnCount ≤ 3 ∧
  0 ≤ wm.m_currentWindowCount ∧ wm.m_currentWindowCount ≤ 16

/-- The invariant of the sizes: the main window has a manager, and every pane of
the pool that is shown or visible, other than the promoted one, has the fixed
size for the column count. -/
def MainWindow.SizesInv (mw : MainWindow) : Prop :=
  ∃ wm, mw.m_windowManager = some wm ∧ wm.UniformExcept mw.m_fullscreenBrowser

/-! ## Theorems: destination normalisation -/

/-- Every character matched by the tail of the domain pattern is a letter or the
final newline. -/
theorem reMatchTld_chars {s : List Char} (h : reMatchTld s = true) :
    ∀ c ∈ s, reAlpha c = true ∨ c = '\n' := by
  unfold reMatchTld reAtEnd at h
  simp only [Bool.and_eq_true, Bool.or_eq_true, decide_eq_true_eq, beq_iff_eq] at h
  intro c hc
  rw [← List.takeWhile_append_dropWhile reAlpha s, List.mem_append] at hc
  rcases hc with hc | hc
  · exact Or.inl (List.mem_takeWhile_imp hc)
  · rcases h.2 with h2 | h2
    · rw [h2] at hc; simp at hc
    · rw [h2] at hc; simp at hc; exact Or.inr hc

/-- Every character of a text matched by the label part of the domain pattern is
a letter, a digit, a hyphen, a dot or the final newline. -/
theorem reMatchLabelRest_chars {s : List Char} (h : reMatchLabelRest s = true) :
    ∀ c ∈ s, reAlnumHyphen c = true ∨ c = '.' ∨ c = '\n' := by
  unfold reMatchLabelRest at h
  rw [List.any_eq_true] at h
  obtain ⟨k, -, hk⟩ := h
  simp only [Bool.and_eq_true, decide_eq_true_eq, List.all_eq_true] at hk
  obtain ⟨⟨-, hall⟩, hrest⟩ := hk
  intro c hc
  rw [← List.take_append_drop (k + 1) s, List.mem_append] at hc
  rcases hc with hc | hc
  · exact Or.inl (hall c hc)
  · split at hrest
    · rename_i c1 tld heq
      simp only [Bool.and_eq_true] at hrest
      rw [heq] at hc
      simp only [List.mem_cons] at hc
      rcases hc with hc | hc | hc
      · subst hc; left; simp [reAlnumHyphen, hrest.1]
      · exact Or.inr (Or.inl hc)
      · rcases reMatchTld_chars hrest.2 c hc with h1 | h1
        · left; simp [reAlnumHyphen, reAlnum, h1]
        · exact Or.inr (Or.inr h1)
    · exact absurd hrest (by simp)

/-- A text matched by the domain pattern is not empty and consists of letters,
digits, hyphens, dots and possibly a final newline. -/
theorem domainRegexMatch_chars {u : String} (h : domainRegexMatch u = true) :
    u.data ≠ [] ∧ ∀ c ∈ u.data, reAlnumHyphen c = true ∨ c = '.' ∨ c = '\n' := by
  unfold domainRegexMatch at h
  split at h
  · rename_i c rest heq
    simp only [Bool.and_eq_true] at h
    refine ⟨by simp [heq], ?_⟩
    intro d hd
    rw [heq, List.mem_cons] at hd
    rcases hd with hd | hd
    · subst hd; left; simp [reAlnumHyphen, h.1]
    · exact reMatchLabelRest_chars h.2 d hd
  · exact absurd h (by simp)

/-- `isValidUrl` holds exactly for the texts that begin with `http://` or with
`https://`. -/
theorem isValidUrl_iff (u : String) :
    BrowserWidget.isValidUrl u = true ↔
      ∃ rest : String, u = "http://" ++ rest ∨ u = "https://" ++ rest := by
  unfold BrowserWidget.isValidUrl
  rw [Bool.or_eq_true, List.isPrefixOf_iff_prefix, List.isPrefixOf_iff_prefix]
  constructor
  · rintro (⟨t, ht⟩ | ⟨t, ht⟩)
    · exact ⟨⟨t⟩, Or.inl (String.ext (by simp [← ht]))⟩
    · exact ⟨⟨t⟩, Or.inr (String.ext (by simp [← ht]))⟩
  · rintro ⟨rest, h | h⟩
    · left; exact ⟨rest.data, by simp [h]⟩
    · right; exact ⟨rest.data, by simp [h]⟩

/-- A text accepted by `isValidUrl` contains a colon. -/
theorem isValidUrl_colon {u : String} (h : BrowserWidget.isValidUrl u = true) :
    ':' ∈ u.data := by
  obtain ⟨rest, h | h⟩ := (isValidUrl_iff u).1 h <;> subst h <;> simp

/-- A text matched by the domain pattern is neither empty nor accepted by
`isValidUrl`: the cases of `formatUrl` do not overlap. -/
theorem domainRegexMatch_not_valid {u : String} (h : domainRegexMatch u = true) :
    u.isEmpty = false ∧ BrowserWidget.isValidUrl u = false := by
  obtain ⟨hne, hch⟩ := domainRegexMatch_chars h
  constructor
  · cases hu : u.isEmpty
    · rfl
    · rw [String.isEmpty_iff] at hu; subst hu; exact absurd rfl hne
  · cases hv : BrowserWidget.isValidUrl u
    · rfl
    · have := hch ':' (isValidUrl_colon hv)
      revert this; decide

/-- C7: `formatUrl` normalises a destination by four cases.  The empty text
gives the blank placeholder `about:blank`; every text that begins with `http://`
or `https://` is returned unchanged (`https://example.com/a` stays as it is); a
text matched by the bare-domain pattern gives `https://` followed by the text
(`example.com` gives `https://example.com`); every other text gives the search
endpoint followed by the percent-encoding of the text (`hello world` gives
`https://www.google.com/search?q=hello%20world`). -/
theorem formatUrl_four_cases :
    BrowserWidget.formatUrl "" = "about:blank" ∧
    (∀ rest : String, BrowserWidget.formatUrl ("http://" ++ rest) = "http://" ++ rest) ∧
    (∀ rest : String, BrowserWidget.formatUrl ("https://" ++ rest) = "https://" ++ rest) ∧
    BrowserWidget.formatUrl "https://example.com/a" = "https://example.com/a" ∧
    (∀ u : String, domainRegexMatch u = true → BrowserWidget.formatUrl u = "https://" ++ u) ∧
    domainRegexMatch "example.com" = true ∧
    BrowserWidget.formatUrl "example.com" = "https://example.com" ∧
    (∀ u : String, u ≠ "" → (∀ rest : String, u ≠ "http://" ++ rest) →
      (∀ rest : String, u ≠ "https://" ++ rest) → domainRegexMatch u = false →
      BrowserWidget.formatUrl u =
        "https://www.google.com/search?q=" ++ toPercentEncoding u) ∧
    BrowserWidget.formatUrl "hello world" =
      "https://www.google.com/search?q=hello%20world" := by
  have hvalid : ∀ u : String, BrowserWidget.isValidUrl u = true →
      BrowserWidget.formatUrl u = u := by
    intro u hu
    have hne : u.isEmpty = false := by
      cases he : u.isEmpty
      · rfl
      · rw [String.isEmpty_iff] at he
        subst he
        exact absurd hu (by decide)
    simp [BrowserWidget.formatUrl, hne, hu]
  refine ⟨by decide, ?_, ?_, by decide, ?_, by decide, by decide, ?_, by decide⟩
  · intro rest
    exact hvalid _ ((isValidUrl_iff _).2 ⟨rest, Or.inl rfl⟩)
  · intro rest
    exact hvalid _ ((isValidUrl_iff _).2 ⟨rest, Or.inr rfl⟩)
  · intro u hu
    obtain ⟨hne, hnv⟩ := domainRegexMatch_not_valid hu
    simp [BrowserWidget.formatUrl, hne, hnv, hu]
  · intro u hne h1 h2 hd
    have hnv : BrowserWidget.isValidUrl u = false := by
      cases hv : BrowserWidget.isValidUrl u
      · rfl
      · obtain ⟨rest, h | h⟩ := (isValidUrl_iff u).1 hv
        · exact absurd h (h1 rest)
        · exact absurd h (h2 rest)
    have hemp : u.isEmpty = false := by
      cases he : u.isEmpty
      · rfl
      · exact absurd ((String.isEmpty_iff u).1 he) hne
    simp [BrowserWidget.formatUrl, hemp, hnv, hd]

/-- A text with a character in it is not empty. -/
theorem isEmpty_eq_false_of_data {s : String} (h : s.data ≠ []) : s.isEmpty = false := by
  cases he : s.isEmpty
  · rfl
  · rw [String.isEmpty_iff] at he
    subst he
    exact absurd rfl h

/-- `formatUrl` returns a text accepted by `isValidUrl` unchanged. -/
theorem formatUrl_of_valid {u : String} (hu : BrowserWidget.isValidUrl u = true) :
    BrowserWidget.formatUrl u = u := by
  have hne : u.isEmpty = false := by
    cases he : u.isEmpty
    · rfl
    · rw [String.isEmpty_iff] at he
      subst he
      exact absurd hu (by decide)
  simp [BrowserWidget.formatUrl, hne, hu]

/-- `formatUrl` never returns the empty text. -/
theorem formatUrl_isEmpty (u : String) : (BrowserWidget.formatUrl u).isEmpty = false := by
  unfold BrowserWidget.formatUrl
  split
  · decide
  · rename_i hne
    split
    · simpa using hne
    · split
      · exact isEmpty_eq_false_of_data (by simp)
      · exact isEmpty_eq_false_of_data (by simp)

/-- The result of `formatUrl` on a text that is not empty begins with `http://`
or `https://`. -/
theorem formatUrl_valid_of_ne {u : String} (hu : u ≠ "") :
    BrowserWidget.isValidUrl (BrowserWidget.formatUrl u) = true := by
  have hemp : u.isEmpty = false := by
    cases he : u.isEmpty
    · rfl
    · exact absurd ((String.isEmpty_iff u).1 he) hu
  unfold BrowserWidget.formatUrl
  rw [if_neg (by simp [hemp])]
  split
  · assumption
  · split
    · exact (isValidUrl_iff _).2 ⟨u, Or.inr rfl⟩
    · exact (isValidUrl_iff _).2 ⟨"www.google.com/search?q=" ++ toPercentEncoding u, Or.inr rfl⟩

/-- On a text that is not empty, normalising twice is normalising once. -/
theorem formatUrl_formatUrl_of_ne {u : String} (hu : u ≠ "") :
    BrowserWidget.formatUrl (BrowserWidget.formatUrl u) = BrowserWidget.formatUrl u :=
  formatUrl_of_valid (formatUrl_valid_of_ne hu)

/-! ## Theorems: loading a destination (`loadUrl`, `showEvent`) -/

/-- C8, as stated, fails: on a freshly shown pane two calls of `loadUrl` in a row
with the same destination schedule two dispatches, and both reach the render
surface when their timers fire. -/
theorem loadUrl_twice_in_a_row_dispatches_twice :
    freshVisiblePane.isVisible = true ∧
    ((freshVisiblePane.loadUrl "https://a.test").loadUrl "https://a.test").loadTimers =
      ["https://a.test", "https://a.test"] ∧
    (((freshVisiblePane.loadUrl "https://a.test").loadUrl
      "https://a.test").fireLoadTimer.fireLoadTimer).surfaceLoads =
      ["https://a.test", "https://a.test"] := by
  decide

/-- The stored destination after the render surface has reported URLs is the last
one reported; nothing else of the pane changes. -/
theorem onUrlsChanged_eq (urls : List String) :
    ∀ w : BrowserWidget,
      w.onUrlsChanged urls = { w with m_currentUrl := urls.getLastD w.m_currentUrl } := by
  induction urls with
  | nil => intro w; rfl
  | cons url rest ih =>
    intro w
    have := ih (w.onUrlChanged url)
    simp only [BrowserWidget.onUrlsChanged, List.foldl_cons, List.getLastD_cons] at this ⊢
    rw [this]
    rfl

/-- The early return of `loadUrl`: on a visible pane the call changes nothing
exactly when the pane is marked loaded and stores the normalised destination. -/
theorem loadUrl_noop_iff (w : BrowserWidget) (u : String) (hvis : w.isVisible = true) :
    w.loadUrl u = w ↔ (w.m_isLoaded = true ∧ w.m_currentUrl = BrowserWidget.formatUrl u) := by
  have hvis' : w.visible = true := hvis
  constructor
  · intro he
    by_contra hnew
    have := congrArg (fun p => p.loadTimers.length) he
    simp [BrowserWidget.loadUrl, hnew, BrowserWidget.isVisible, hvis'] at this
  · intro hc
    simp [BrowserWidget.loadUrl, hc]

/-- On a visible pane that is not marked loaded with the normalised destination,
`loadUrl` schedules one more dispatch, of the normalised destination, and
dispatches nothing itself. -/
theorem loadUrl_schedules (w : BrowserWidget) (u : String) (hvis : w.visible = true)
    (hnew : ¬ (w.m_isLoaded = true ∧ w.m_currentUrl = BrowserWidget.formatUrl u)) :
    (w.loadUrl u).loadTimers = w.loadTimers ++ [BrowserWidget.formatUrl u] ∧
    (w.loadUrl u).surfaceLoads = w.surfaceLoads := by
  simp [BrowserWidget.loadUrl, hnew, BrowserWidget.isVisible, hvis]

/-- The oldest pending timer of `loadUrl` fires: its destination is dispatched. -/
theorem fireLoadTimer_cons (w : BrowserWidget) (url : String) (rest : List String)
    (h : w.loadTimers = url :: rest) :
    w.fireLoadTimer.surfaceLoads = w.surfaceLoads ++ [url] ∧
    w.fireLoadTimer.loadTimers = rest := by
  simp [BrowserWidget.fireLoadTimer, h]

/-- C8, amended: on a visible pane with no load pending that is not already
loaded with the normalised destination, `loadUrl(u)` schedules exactly one
dispatch of the normalised destination.  The load is then dispatched, the render
surface reports its URLs (`onUrlChanged` stores each as the current
destination), and the load finishes successfully.  If the last URL reported (the
normalised destination when none is reported) equals the normalised destination,
a second `loadUrl(u)` changes nothing, so exactly one load has been dispatched
and none is pending.  If it differs, the second `loadUrl(u)` schedules a second
dispatch of the normalised destination. -/
theorem loadUrl_second_call_after_reports (w : BrowserWidget) (u : String)
    (urls : List String)
    (hvis : w.isVisible = true) (hpending : w.loadTimers = [])
    (hnew : ¬ (w.m_isLoaded = true ∧ w.m_currentUrl = BrowserWidget.formatUrl u)) :
    (w.loadUrl u).loadTimers = [BrowserWidget.formatUrl u] ∧
    (w.loadUrl u).surfaceLoads = w.surfaceLoads ∧
    (((w.loadUrl u).fireLoadTimer.onUrlsChanged urls).onLoadFinished true).loadTimers = [] ∧
    (((w.loadUrl u).fireLoadTimer.onUrlsChanged urls).onLoadFinished true).surfaceLoads =
      w.surfaceLoads ++ [BrowserWidget.formatUrl u] ∧
    (urls.getLastD (BrowserWidget.formatUrl u) = BrowserWidget.formatUrl u →
      (((w.loadUrl u).fireLoadTimer.onUrlsChanged urls).onLoadFinished true).loadUrl u =
        ((w.loadUrl u).fireLoadTimer.onUrlsChanged urls).onLoadFinished true) ∧
    (urls.getLastD (BrowserWidget.formatUrl u) ≠ BrowserWidget.formatUrl u →
      ((((w.loadUrl u).fireLoadTimer.onUrlsChanged urls).onLoadFinished true).loadUrl
        u).loadTimers = [BrowserWidget.formatUrl u] ∧
      ((((w.loadUrl u).fireLoadTimer.onUrlsChanged urls).onLoadFinished true).loadUrl
        u).fireLoadTimer.surfaceLoads =
        w.surfaceLoads ++ [BrowserWidget.formatUrl u, BrowserWidget.formatUrl u]) := by
  have hvis' : w.visible = true := hvis
  have h1 : w.loadUrl u =
      { w with m_currentUrl := BrowserWidget.formatUrl u
               loadTimers := [BrowserWidget.formatUrl u] } := by
    simp [BrowserWidget.loadUrl, hnew, BrowserWidget.isVisible, hvis', hpending]
  have hne := formatUrl_isEmpty u
  have h2 : (w.loadUrl u).fireLoadTimer.onUrlsChanged urls =
      { w with m_currentUrl := urls.getLastD (BrowserWidget.formatUrl u)
               loadTimers := []
               surfaceLoads := w.surfaceLoads ++ [BrowserWidget.formatUrl u] } := by
    rw [onUrlsChanged_eq, h1]
    rfl
  have h3 : ∀ p : BrowserWidget,
      (p.onLoadFinished true).loadTimers = p.loadTimers ∧
      (p.onLoadFinished true).surfaceLoads = p.surfaceLoads ∧
      (p.onLoadFinished true).visible = p.visible ∧
      (p.onLoadFinished true).m_currentUrl = p.m_currentUrl ∧
      (p.m_currentUrl.isEmpty = false → (p.onLoadFinished true).m_isLoaded = true) := by
    intro p
    unfold BrowserWidget.onLoadFinished BrowserWidget.executeCookieScript
    by_cases he : p.m_currentUrl.isEmpty = true
    · simp [he]
    · simp only [Bool.not_eq_true] at he
      simp only [he, Bool.false_eq_true, not_false_eq_true, and_self, if_true]
      split <;> split <;> simp
  have p1 : ((w.loadUrl u).fireLoadTimer.onUrlsChanged urls).loadTimers = [] := by rw [h2]
  have p2 : ((w.loadUrl u).fireLoadTimer.onUrlsChanged urls).surfaceLoads =
      w.surfaceLoads ++ [BrowserWidget.formatUrl u] := by rw [h2]
  have p3 : ((w.loadUrl u).fireLoadTimer.onUrlsChanged urls).visible = w.visible := by rw [h2]
  have p4 : ((w.loadUrl u).fireLoadTimer.onUrlsChanged urls).m_currentUrl =
      urls.getLastD (BrowserWidget.formatUrl u) := by rw [h2]
  obtain ⟨t1, t2, t3, t4, t5⟩ := h3 ((w.loadUrl u).fireLoadTimer.onUrlsChanged urls)
  rw [p1] at t1
  rw [p2] at t2
  rw [p3] at t3
  rw [p4] at t4 t5
  refine ⟨by rw [h1], by rw [h1], t1, t2, ?_, ?_⟩
  · intro hlast
    rw [hlast] at t4 t5
    exact (loadUrl_noop_iff _ u (t3.trans hvis')).2 ⟨t5 hne, t4⟩
  · intro hlast
    have hcond : ¬ ((((w.loadUrl u).fireLoadTimer.onUrlsChanged urls).onLoadFinished
        true).m_isLoaded = true ∧
        (((w.loadUrl u).fireLoadTimer.onUrlsChanged urls).onLoadFinished true).m_currentUrl =
          BrowserWidget.formatUrl u) := by
      rintro ⟨-, hc⟩
      exact hlast (t4.symm.trans hc)
    have hv3 : (((w.loadUrl u).fireLoadTimer.onUrlsChanged urls).onLoadFinished
        true).visible = true := t3.trans hvis'
    obtain ⟨s1, s2⟩ := loadUrl_schedules _ u hv3 hcond
    rw [t1] at s1
    rw [t2] at s2
    simp only [List.nil_append] at s1
    refine ⟨s1, ?_⟩
    rw [(fireLoadTimer_cons _ _ _ s1).1, s2]
    simp

/-- Witness of `loadUrl_second_call_after_reports`: a freshly shown pane, the
destination `https://a.test/`, and a render surface that reports this URL: the
second call changes nothing, one load has been dispatched and none is pending. -/
theorem loadUrl_second_call_after_reports_witness :
    ((((freshVisiblePane.loadUrl "https://a.test/").fireLoadTimer.onUrlsChanged
      ["https://a.test/"]).onLoadFinished true).loadUrl "https://a.test/").surfaceLoads =
      ["https://a.test/"] ∧
    ((((freshVisiblePane.loadUrl "https://a.test/").fireLoadTimer.onUrlsChanged
      ["https://a.test/"]).onLoadFinished true).loadUrl "https://a.test/").loadTimers = [] :=
  have h := loadUrl_second_call_after_reports freshVisiblePane "https://a.test/"
    ["https://a.test/"] (by decide) (by decide) (by decide)
  ⟨(congrArg BrowserWidget.surfaceLoads (h.2.2.2.2.1 (by decide))).trans h.2.2.2.1,
    (congrArg BrowserWidget.loadTimers (h.2.2.2.2.1 (by decide))).trans h.2.2.1⟩

/-- The render surface can report another URL than the one it was given: for the
destination `https://a.test` it reports `https://a.test/`, the stored destination
is then no longer the normalised one, and the second `loadUrl` dispatches the
load again. -/
theorem loadUrl_after_redirect_dispatches_again :
    BrowserWidget.formatUrl "https://a.test" = "https://a.test" ∧
    (((freshVisiblePane.loadUrl "https://a.test").fireLoadTimer.onUrlsChanged
      ["https://a.test/"]).onLoadFinished true).getCurrentUrl = "https://a.test/" ∧
    ((((freshVisiblePane.loadUrl "https://a.test").fireLoadTimer.onUrlsChanged
      ["https://a.test/"]).onLoadFinished true).loadUrl
      "https://a.test").fireLoadTimer.surfaceLoads = ["https://a.test", "https://a.test"] := by
  decide

/-- After a successful load has finished, visibility events neither schedule nor
dispatch a load. -/
theorem applyVisibilities_loaded (events : List VisibilityEvent) (w : BrowserWidget)
    (hl : w.m_isLoaded = true) :
    (w.applyVisibilities events).m_isLoaded = true ∧
    (w.applyVisibilities events).loadTimers = w.loadTimers ∧
    (w.applyVisibilities events).surfaceLoads = w.surfaceLoads ∧
    (w.applyVisibilities events).m_currentUrl = w.m_currentUrl := by
  induction events generalizing w with
  | nil => simp [BrowserWidget.applyVisibilities, hl]
  | cons e es ih =>
    have hstep : (w.applyVisibility e).m_isLoaded = true ∧
        (w.applyVisibility e).loadTimers = w.loadTimers ∧
        (w.applyVisibility e).surfaceLoads = w.surfaceLoads ∧
        (w.applyVisibility e).m_currentUrl = w.m_currentUrl := by
      cases e
      · by_cases hv : w.visible = true
        · simp [BrowserWidget.applyVisibility, BrowserWidget.«show», hv, hl]
        · simp [BrowserWidget.applyVisibility, BrowserWidget.«show», hv, hl,
            BrowserWidget.showEvent]
      · simp [BrowserWidget.applyVisibility, BrowserWidget.hide, hl]
    have := ih (w.applyVisibility e) hstep.1
    simp only [BrowserWidget.applyVisibilities, List.foldl_cons] at this ⊢
    exact ⟨this.1, this.2.1.trans hstep.2.1, this.2.2.1.trans hstep.2.2.1,
      this.2.2.2.trans hstep.2.2.2⟩

/-- C9, as stated, fails: after `loadUrl` on a hidden pane, every show event that
arrives before the load has finished schedules the deferred load again; shown,
hidden and shown again, the pane dispatches it twice. -/
theorem deferred_load_dispatched_twice :
    freshPane.isVisible = false ∧
    (freshPane.loadUrl "https://a.test").loadTimers = [] ∧
    ((freshPane.loadUrl "https://a.test").applyVisibilities
      [VisibilityEvent.shown, VisibilityEvent.hidden, VisibilityEvent.shown]).loadTimers =
      ["https://a.test", "https://a.test"] ∧
    (((freshPane.loadUrl "https://a.test").applyVisibilities
      [VisibilityEvent.shown, VisibilityEvent.hidden,
        VisibilityEvent.shown]).fireLoadTimer.fireLoadTimer).surfaceLoads =
      ["https://a.test", "https://a.test"] := by
  decide

/-- C9, amended: `loadUrl(u)`, for a destination `u` that is not empty, on a pane
that is not visible and not already loaded with that destination, dispatches and
schedules nothing, stores the normalised destination and marks the pane not
loaded; when the pane is then shown, the stored destination is scheduled for
dispatch, once; and after that load has been dispatched and has finished
successfully, no sequence of show and hide events schedules or dispatches
another load, so the deferred load is dispatched exactly once. -/
theorem lazy_activation (w : BrowserWidget) (u : String) (events : List VisibilityEvent)
    (hu : u ≠ "") (hvis : w.isVisible = false) (hpending : w.loadTimers = [])
    (hnew : ¬ (w.m_isLoaded = true ∧ w.m_currentUrl = BrowserWidget.formatUrl u)) :
    (w.loadUrl u).surfaceLoads = w.surfaceLoads ∧
    (w.loadUrl u).loadTimers = [] ∧
    (w.loadUrl u).m_currentUrl = BrowserWidget.formatUrl u ∧
    (w.loadUrl u).m_isLoaded = false ∧
    (w.loadUrl u).«show».loadTimers = [BrowserWidget.formatUrl u] ∧
    (w.loadUrl u).«show».surfaceLoads = w.surfaceLoads ∧
    (w.loadUrl u).«show».fireLoadTimer.surfaceLoads =
      w.surfaceLoads ++ [BrowserWidget.formatUrl u] ∧
    (((w.loadUrl u).«show».fireLoadTimer.onLoadFinished true).applyVisibilities
      events).surfaceLoads = w.surfaceLoads ++ [BrowserWidget.formatUrl u] ∧
    (((w.loadUrl u).«show».fireLoadTimer.onLoadFinished true).applyVisibilities
      events).loadTimers = [] := by
  have hvis' : w.visible = false := hvis
  have hne := formatUrl_isEmpty u
  have hidem := formatUrl_formatUrl_of_ne hu
  have h1 : w.loadUrl u =
      { w with m_currentUrl := BrowserWidget.formatUrl u, m_isLoaded := false } := by
    simp [BrowserWidget.loadUrl, hnew, BrowserWidget.isVisible, hvis']
  have h2 : (w.loadUrl u).«show» =
      { w with m_currentUrl := BrowserWidget.formatUrl u, m_isLoaded := false
               visible := true, hidden := false
               loadTimers := [BrowserWidget.formatUrl u] } := by
    rw [h1]
    simp [BrowserWidget.«show», hvis', BrowserWidget.showEvent, hne, BrowserWidget.loadUrl,
      hidem, BrowserWidget.isVisible, hpending]
  have h3 : ((w.loadUrl u).«show».fireLoadTimer.onLoadFinished true).m_isLoaded = true ∧
      ((w.loadUrl u).«show».fireLoadTimer.onLoadFinished true).loadTimers = [] ∧
      ((w.loadUrl u).«show».fireLoadTimer.onLoadFinished true).surfaceLoads =
        w.surfaceLoads ++ [BrowserWidget.formatUrl u] := by
    rw [h2]
    simp [BrowserWidget.fireLoadTimer, BrowserWidget.onLoadFinished, hne,
      BrowserWidget.executeCookieScript]
    split <;> split <;> simp
  obtain ⟨-, ht, hs, -⟩ := applyVisibilities_loaded events _ h3.1
  refine ⟨by rw [h1], by rw [h1]; exact hpending, by rw [h1], by rw [h1], by rw [h2],
    by rw [h2], by rw [h2]; simp [BrowserWidget.fireLoadTimer], ?_, ?_⟩
  · rw [hs]; exact h3.2.2
  · rw [ht]; exact h3.2.1

/-- Witness of `lazy_activation`: a pane as constructed, the destination
`https://a.test`, and the pane hidden and shown again after the load. -/
theorem lazy_activation_witness :
    (((freshPane.loadUrl "https://a.test").«show».fireLoadTimer.onLoadFinished
      true).applyVisibilities [VisibilityEvent.hidden, VisibilityEvent.shown]).surfaceLoads =
      ["https://a.test"] :=
  (lazy_activation freshPane "https://a.test" [VisibilityEvent.hidden, VisibilityEvent.shown]
    (by decide) (by decide) (by decide) (by decide)).2.2.2.2.2.2.2.1

/-! ## Theorems: the grid built by `updateLayout` -/

/-- Placing the pane at index `v` extends the placed part of the pool by one. -/
theorem placedUpTo_set (c : Int) (pool : List BrowserWidget) (v : Nat) (hv : v < pool.length) :
    (WindowManager.placedUpTo c pool v)[v]? = some pool[v] ∧
    (WindowManager.placedUpTo c pool v).set v (WindowManager.placeWidget c pool[v]) =
      WindowManager.placedUpTo c pool (v + 1) := by
  unfold WindowManager.placedUpTo
  have hlen : ((pool.take v).map (WindowManager.placeWidget c)).length = v := by
    simp [List.length_take]; omega
  constructor
  · rw [List.getElem?_append_right (by omega), hlen, Nat.sub_self, List.getElem?_drop]
    simp [List.getElem?_eq_getElem hv]
  · rw [List.set_append_right _ _ (by omega), hlen, Nat.sub_self]
    rw [List.take_succ, List.getElem?_eq_getElem hv]
    simp only [Option.toList, List.map_append, List.map_cons, List.map_nil, List.append_assoc,
      List.singleton_append]
    rw [List.drop_eq_getElem_cons hv, List.set_cons_zero]

/-- The inner loop of `updateLayout`, entered with the first `v` panes placed,
places the panes up to the end `e` of the row and lists them in the row. -/
theorem fillRow_spec (pool : List BrowserWidget) (c n i : Int) (e : Nat)
    (he : (e : Int) = min (i + c) n) (hpool : e ≤ pool.length) :
    ∀ (k : Nat) (j : Int) (v : Nat) (items : List RowItem),
      (v : Int) = i + j → v ≤ e → e - v ≤ k →
      WindowManager.fillRow c n i k j
          { visibleIndex := v, widgets := WindowManager.placedUpTo c pool v, items := items } =
        { visibleIndex := e, widgets := WindowManager.placedUpTo c pool e
          items := items ++
            ((pool.drop v).take (e - v)).map fun w => RowItem.widget w.objectId } := by
  intro k
  induction k with
  | zero =>
    intro j v items hv hve hk
    have : v = e := by omega
    subst this
    simp [WindowManager.fillRow]
  | succ k ih =>
    intro j v items hv hve hk
    by_cases hlt : v < e
    · have hcond : j < c ∧ i + j < n := by omega
      have hvp : v < pool.length := by omega
      obtain ⟨hget, hset⟩ := placedUpTo_set c pool v hvp
      rw [WindowManager.fillRow, if_pos hcond]
      simp only [hget]
      have hset' : (WindowManager.placedUpTo c pool v).set v
          ((pool[v].setFixedSize (WindowManager.widgetWidth c)
            (WindowManager.calculateHeightFromWidth
              (WindowManager.widgetWidth c))).showInNewRow) =
          WindowManager.placedUpTo c pool (v + 1) := hset
      rw [hset', ih (j + 1) (v + 1) _ (by push_cast; omega) (by omega) (by omega)]
      congr 1
      have hsplit : e - v = (e - (v + 1)) + 1 := by omega
      rw [hsplit, List.drop_eq_getElem_cons hvp, List.take_succ_cons]
      simp
    · have : v = e := by omega
      subst this
      have hcond : ¬ (j < c ∧ i + j < n) := by omega
      rw [WindowManager.fillRow, if_neg hcond]
      simp

/-- The panes `updateLayout` puts in the row that starts at pool index `v`. -/
theorem row_slice (pool : List BrowserWidget) (c n v : Nat) :
    ((pool.take n).drop v).take c = (pool.drop v).take (min (v + c) n - v) := by
  rw [List.drop_take, List.take_take]
  congr 1
  omega

/-- The outer loop of `updateLayout`, entered at row `r` with the rows before it
built, builds the `(n + c - 1) / c` rows of the grid and places the first `n`
panes, given enough iterations. -/
theorem buildRows_spec (pool : List BrowserWidget) (c n : Nat) (hc : 1 ≤ c)
    (hn : n ≤ pool.length) :
    ∀ (fuel r : Nat), (n - r * c) + 1 ≤ fuel → r * c < n + c →
      WindowManager.buildRows c n fuel ((r * c : Nat) : Int)
          { visibleIndex := min (r * c) n
            widgets := WindowManager.placedUpTo c pool (min (r * c) n)
            items := (List.range r).map (WindowManager.rowContainerOf pool c n) } =
        some
          { visibleIndex := n
            widgets := WindowManager.placedUpTo c pool n
            items := (List.range ((n + c - 1) / c)).map
              (WindowManager.rowContainerOf pool c n) } := by
  intro fuel
  induction fuel with
  | zero => intro r hf _; omega
  | succ fuel ih =>
    intro r hf hinv
    by_cases hlt : r * c < n
    · have hcond : ((r * c : Nat) : Int) < (n : Int) := by exact_mod_cast hlt
      rw [WindowManager.buildRows, if_pos hcond]
      have hmin : min (r * c) n = r * c := by omega
      have hfill := fillRow_spec pool c n ((r * c : Nat) : Int) (min (r * c + c) n)
        (by push_cast; omega) (by omega) c 0 (r * c) [] (by simp) (by omega) (by omega)
      simp only [Int.toNat_ofNat, hmin]
      rw [hfill]
      have hnext := ih (r + 1) (by rw [Nat.succ_mul]; omega) (by rw [Nat.succ_mul]; omega)
      have hidx : (((r + 1) * c : Nat) : Int) = ((r * c : Nat) : Int) + (c : Int) := by
        push_cast; ring
      have hmin' : min ((r + 1) * c) n = min (r * c + c) n := by rw [Nat.succ_mul]
      rw [hidx, hmin', List.range_succ, List.map_append] at hnext
      rw [← hnext]
      congr 2
      simp only [List.map_cons, List.map_nil, List.nil_append, WindowManager.rowContainerOf]
      rw [row_slice]
    · have hcond : ¬ ((r * c : Nat) : Int) < (n : Int) := by
        intro h; exact hlt (by exact_mod_cast h)
      rw [WindowManager.buildRows, if_neg hcond]
      have hmin : min (r * c) n = n := by omega
      have hR : (n + c - 1) / c = r := by
        apply le_antisymm
        · have : (n + c - 1) / c < r + 1 := by
            rw [Nat.div_lt_iff_lt_mul (by omega), Nat.succ_mul]; omega
          omega
        · rw [Nat.le_div_iff_mul_le (by omega)]; omega
      rw [hmin, hR]

/-- `loadUrl` keeps the identity, the logical id, the name and the visibility of
the pane. -/
theorem loadUrl_frame (w : BrowserWidget) (u : String) :
    (w.loadUrl u).objectId = w.objectId ∧ (w.loadUrl u).m_subWindowId = w.m_subWindowId ∧
    (w.loadUrl u).m_subWindowName = w.m_subWindowName ∧ (w.loadUrl u).visible = w.visible ∧
    (w.loadUrl u).minimumSize = w.minimumSize ∧ (w.loadUrl u).maximumSize = w.maximumSize ∧
    (w.loadUrl u).sizePolicy = w.sizePolicy ∧
    (w.loadUrl u).m_isFullscreen = w.m_isFullscreen := by
  by_cases h1 : w.m_isLoaded = true ∧ w.m_currentUrl = BrowserWidget.formatUrl u
  · simp [BrowserWidget.loadUrl, h1]
  · by_cases h2 : w.visible = true <;>
      simp [BrowserWidget.loadUrl, h1, h2, BrowserWidget.isVisible]

/-- `loadUrl` keeps the hidden flag of the pane. -/
theorem loadUrl_hidden (w : BrowserWidget) (u : String) :
    (w.loadUrl u).hidden = w.hidden := by
  by_cases h1 : w.m_isLoaded = true ∧ w.m_currentUrl = BrowserWidget.formatUrl u
  · simp [BrowserWidget.loadUrl, h1]
  · by_cases h2 : w.visible = true <;>
      simp [BrowserWidget.loadUrl, h1, h2, BrowserWidget.isVisible]

/-- What `updateLayout` does to a pane it places keeps the identity, the logical
id and the name of the pane, clears its hidden flag and gives it the fixed
size. -/
theorem placeWidget_frame (c : Int) (w : BrowserWidget) :
    (WindowManager.placeWidget c w).objectId = w.objectId ∧
    (WindowManager.placeWidget c w).m_subWindowId = w.m_subWindowId ∧
    (WindowManager.placeWidget c w).m_subWindowName = w.m_subWindowName ∧
    (WindowManager.placeWidget c w).hidden = false ∧
    (WindowManager.placeWidget c w).m_isFullscreen = w.m_isFullscreen :=
  ⟨rfl, rfl, rfl, rfl, rfl⟩

/-- A pane that `updateLayout` has placed is not visible until its row is shown;
its stored destination, its load state and its pending and dispatched loads are
as they were. -/
theorem placeWidget_loads (c : Int) (w : BrowserWidget) :
    (WindowManager.placeWidget c w).visible = false ∧
    (WindowManager.placeWidget c w).m_currentUrl = w.m_currentUrl ∧
    (WindowManager.placeWidget c w).m_isLoaded = w.m_isLoaded ∧
    (WindowManager.placeWidget c w).loadTimers = w.loadTimers ∧
    (WindowManager.placeWidget c w).surfaceLoads = w.surfaceLoads :=
  ⟨rfl, rfl, rfl, rfl, rfl⟩

/-- The inner loop of `updateLayout` keeps the number and the identities of the
panes of the pool. -/
theorem fillRow_ids (c n i : Int) :
    ∀ (k : Nat) (j : Int) (st : LayoutLoop RowItem),
      (WindowManager.fillRow c n i k j st).widgets.map (fun w => w.objectId) =
        st.widgets.map (fun w => w.objectId) := by
  intro k
  induction k with
  | zero => intro j st; rfl
  | succ k ih =>
    intro j st
    rw [WindowManager.fillRow]
    split
    · split
      · rename_i widget hget
        rw [ih]
        simp only
        have hlt : st.visibleIndex < st.widgets.length := by
          rcases List.getElem?_eq_some_iff.1 hget with ⟨h, -⟩; exact h
        have hw : st.widgets[st.visibleIndex] = widget := by
          rcases List.getElem?_eq_some_iff.1 hget with ⟨_, h⟩; exact h
        rw [List.map_set]
        apply List.ext_getElem (by simp)
        intro m h1 h2
        rw [List.getElem_set]
        split
        · rename_i heq
          subst heq
          have := (placeWidget_frame c widget).1
          simp only [WindowManager.placeWidget] at this
          simp [this, hw]
        · rfl
      · exact ih _ _
    · rfl

/-- The outer loop of `updateLayout` ends when the column count is at least 1,
and keeps the number and the identities of the panes of the pool. -/
theorem buildRows_total (c n : Int) (hc : 1 ≤ c) :
    ∀ (fuel : Nat) (i : Int) (st : LayoutLoop VItem), (n - i).toNat + 1 ≤ fuel →
      ∃ st', WindowManager.buildRows c n fuel i st = some st' ∧
        st'.widgets.map (fun w => w.objectId) = st.widgets.map (fun w => w.objectId) := by
  intro fuel
  induction fuel with
  | zero => intro i st h; omega
  | succ fuel ih =>
    intro i st h
    rw [WindowManager.buildRows]
    split
    · obtain ⟨st', h1, h2⟩ := ih (i + c)
        { visibleIndex := (WindowManager.fillRow c n i c.toNat 0
            { visibleIndex := st.visibleIndex, widgets := st.widgets, items := [] }).visibleIndex
          widgets := (WindowManager.fillRow c n i c.toNat 0
            { visibleIndex := st.visibleIndex, widgets := st.widgets, items := [] }).widgets
          items := st.items ++ [VItem.rowContainer
            ((WindowManager.fillRow c n i c.toNat 0
              { visibleIndex := st.visibleIndex, widgets := st.widgets
                items := [] }).items ++ [RowItem.stretch])] }
        (by omega)
      refine ⟨st', h1, ?_⟩
      rw [h2]
      exact fillRow_ids c n i _ _ _
    · exact ⟨st, rfl, rfl⟩

/-- `updateLayout` returns when the column count is at least 1, and keeps the
pool's panes (their number, order and identities), the visible count and the
column count. -/
theorem updateLayout_total (wm : WindowManager) (hc : 1 ≤ wm.m_columnCount) :
    ∃ wm', wm.updateLayout = some wm' ∧
      wm'.m_browserWidgets.map (fun w => w.objectId) =
        wm.m_browserWidgets.map (fun w => w.objectId) ∧
      wm'.m_currentWindowCount = wm.m_currentWindowCount ∧
      wm'.m_columnCount = wm.m_columnCount := by
  unfold WindowManager.updateLayout
  split
  · refine ⟨_, rfl, ?_, rfl, rfl⟩
    simp [BrowserWidget.hide, Function.comp_def]
  · obtain ⟨st', h1, h2⟩ := buildRows_total wm.m_columnCount wm.m_currentWindowCount hc
      (wm.m_currentWindowCount.toNat + 1) 0
      { visibleIndex := 0, widgets := wm.m_browserWidgets, items := [] } (by simp)
    rw [h1]
    refine ⟨_, rfl, ?_, rfl, rfl⟩
    simp only [WindowManager.hideFrom, List.map_append, List.map_map]
    have : (fun w : BrowserWidget => w.objectId) ∘ BrowserWidget.hide =
        fun w => w.objectId := by
      funext w; simp [BrowserWidget.hide]
    rw [this, ← List.map_append, List.take_append_drop, h2]

/-- The closed form of `updateLayout` for a column count `c ≥ 1` and a visible
count `n` within the pool: the first `n` panes are placed (resized and shown), the
others are hidden, and the grid is the `(n + c - 1) / c` rows followed by the
stretch (no item at all for `n = 0`). -/
theorem updateLayout_eq (wm : WindowManager) (c n : Nat) (hc : wm.m_columnCount = c)
    (hn : wm.m_currentWindowCount = n) (hc1 : 1 ≤ c) (hpool : n ≤ wm.m_browserWidgets.length) :
    wm.updateLayout = some { wm with
      m_browserWidgets :=
        (wm.m_browserWidgets.take n).map (WindowManager.placeWidget c) ++
          (wm.m_browserWidgets.drop n).map BrowserWidget.hide
      verticalLayout :=
        if n = 0 then []
        else (List.range ((n + c - 1) / c)).map
          (WindowManager.rowContainerOf wm.m_browserWidgets c n) ++ [VItem.stretch] } := by
  unfold WindowManager.updateLayout
  by_cases h0 : n = 0
  · subst h0
    simp [hn]
  · have hne : wm.m_currentWindowCount ≠ 0 := by rw [hn]; exact_mod_cast h0
    rw [if_neg hne, hc, hn]
    have hspec := buildRows_spec wm.m_browserWidgets c n hc1 hpool (n + 1) 0 (by simp)
      (by omega)
    simp only [Nat.zero_mul, Nat.zero_min, List.range_zero, List.map_nil, Nat.cast_zero,
      WindowManager.placedUpTo, List.take_zero, List.nil_append, List.drop_zero] at hspec
    simp only [Int.toNat_ofNat]
    rw [hspec]
    simp only [if_neg h0, WindowManager.hideFrom]
    have hlen : ((wm.m_browserWidgets.take n).map (WindowManager.placeWidget ↑c)).length = n := by
      simp [List.length_take]; omega
    rw [List.take_left' hlen, List.drop_left' hlen]

/-- `isValidWindowCount` accepts exactly the counts 0 to 16. -/
theorem isValidWindowCount_iff (n : Int) :
    WindowManager.isValidWindowCount n = true ↔ 0 ≤ n ∧ n ≤ 16 := by
  simp only [WindowManager.isValidWindowCount, WindowManager.SUPPORTED_WINDOW_COUNTS,
    List.contains_iff_exists_mem_beq, beq_iff_eq, List.mem_cons, List.mem_singleton,
    exists_eq_right', List.not_mem_nil, or_false]
  omega

/-- The rows of a grid made of the row containers `updateLayout` builds, followed
by the stretch: row `r` holds the identities of the slice of the first `n` panes
that starts at index `r * c` and has at most `c` panes. -/
theorem rows_of_built (wm : WindowManager) (pool : List BrowserWidget) (c n R : Nat)
    (h : wm.verticalLayout =
      (List.range R).map (WindowManager.rowContainerOf pool c n) ++ [VItem.stretch]) :
    wm.rows = (List.range R).map fun r =>
      (((pool.take n).drop (r * c)).take c).map fun w => w.objectId := by
  unfold WindowManager.rows
  rw [h, List.filterMap_append, List.filterMap_map]
  simp only [List.filterMap_cons, List.filterMap_nil, List.append_nil]
  rw [← List.filterMap_eq_map]
  apply List.filterMap_congr
  intro r _
  simp only [Function.comp_apply, WindowManager.rowContainerOf, Option.some.injEq,
    List.filterMap_append, List.filterMap_map, List.filterMap_cons, List.filterMap_nil,
    List.append_nil]
  rw [← List.filterMap_eq_map]
  rfl

/-- The slices of a list taken row by row, put one after the other, are the
start of the list. -/
theorem flatten_slices {α : Type} (l : List α) (c : Nat) :
    ∀ R : Nat, ((List.range R).map fun r => (l.drop (r * c)).take c).flatten =
      l.take (R * c) := by
  intro R
  induction R with
  | zero => simp
  | succ R ih =>
    rw [List.range_succ, List.map_append, List.flatten_append, ih, Nat.succ_mul,
      List.take_add]
    simp

/-- The pool `updateLayout` leaves: which panes are hidden, how many are not, and
the identities of the panes. -/
theorem placed_pool_facts (pool : List BrowserWidget) (c : Int) (n : Nat)
    (hn : n ≤ pool.length) :
    ((pool.take n).map (WindowManager.placeWidget c) ++
        (pool.drop n).map BrowserWidget.hide).length = pool.length ∧
    (∀ (i : Nat) (hi : i < ((pool.take n).map (WindowManager.placeWidget c) ++
        (pool.drop n).map BrowserWidget.hide).length),
      (((pool.take n).map (WindowManager.placeWidget c) ++
        (pool.drop n).map BrowserWidget.hide)[i]).hidden = !decide (i < n)) ∧
    (((pool.take n).map (WindowManager.placeWidget c) ++
        (pool.drop n).map BrowserWidget.hide).filter fun w => !w.isHidden).length = n ∧
    ((pool.take n).map (WindowManager.placeWidget c) ++
        (pool.drop n).map BrowserWidget.hide).map (fun w => w.objectId) =
      pool.map fun w => w.objectId := by
  have hlen : ((pool.take n).map (WindowManager.placeWidget c)).length = n := by
    simp [List.length_take]; omega
  refine ⟨by simp; omega, ?_, ?_, ?_⟩
  · intro i hi
    by_cases hin : i < n
    · rw [List.getElem_append_left (by omega)]
      simp [hin, (placeWidget_frame c _).2.2.2.1]
    · rw [List.getElem_append_right (by omega)]
      simp [hin, BrowserWidget.hide]
  · rw [List.filter_append]
    have h1 : ((pool.take n).map (WindowManager.placeWidget c)).filter
          (fun w => !w.isHidden) =
        (pool.take n).map (WindowManager.placeWidget c) := by
      rw [List.filter_eq_self]
      intro w hw
      obtain ⟨w0, -, rfl⟩ := List.mem_map.1 hw
      simp [BrowserWidget.isHidden, (placeWidget_frame c w0).2.2.2.1]
    have h2 : ((pool.drop n).map BrowserWidget.hide).filter (fun w => !w.isHidden) = [] := by
      rw [List.filter_eq_nil_iff]
      intro w hw
      obtain ⟨w0, -, rfl⟩ := List.mem_map.1 hw
      simp [BrowserWidget.hide, BrowserWidget.isHidden]
    rw [h1, h2, List.append_nil, hlen]
  · rw [List.map_append, List.map_map, List.map_map]
    have e1 : (fun w : BrowserWidget => w.objectId) ∘ WindowManager.placeWidget c =
        fun w => w.objectId := by
      funext w; exact (placeWidget_frame c w).1
    have e2 : (fun w : BrowserWidget => w.objectId) ∘ BrowserWidget.hide =
        fun w => w.objectId := by
      funext w; simp [BrowserWidget.hide]
    rw [e1, e2, ← List.map_append, List.take_append_drop]

/-- `updateLayout` in closed form. -/
theorem updateLayout_laidOut (wm : WindowManager) (c n : Nat) (hc : wm.m_columnCount = c)
    (hn : wm.m_currentWindowCount = n) (hc1 : 1 ≤ c) (hpool : n ≤ wm.m_browserWidgets.length) :
    wm.updateLayout = some (wm.laidOut c n) := by
  rw [updateLayout_eq wm c n hc hn hc1 hpool]
  simp [WindowManager.laidOut, hc, hn]

/-- `setColumnCount` with a column count in 1..3, in closed form. -/
theorem setColumnCount_laidOut (wm : WindowManager) (c n : Nat)
    (hn : wm.m_currentWindowCount = n) (hc : 1 ≤ c ∧ c ≤ 3)
    (hpool : n ≤ wm.m_browserWidgets.length) :
    wm.setColumnCount c = some (wm.laidOut c n) := by
  simp only [WindowManager.setColumnCount]
  rw [if_neg (by omega)]
  exact updateLayout_laidOut _ c n rfl hn hc.1 hpool

/-- `setLayout` with a count in 0..16 within the pool that is forced or differs
from the current count, in closed form, with the signals it emits. -/
theorem setLayout_laidOut (wm : WindowManager) (c n : Nat) (force : Bool)
    (hc : wm.m_columnCount = c) (hc1 : 1 ≤ c) (hn : n ≤ 16)
    (hpool : n ≤ wm.m_browserWidgets.length)
    (hchange : force = true ∨ wm.m_currentWindowCount ≠ n) :
    wm.setLayout n force = some (wm.laidOut c n,
      [WMSignal.layoutChanged n] ++ if 0 < n then [WMSignal.allWidgetsCreated] else []) := by
  have hvalid : WindowManager.isValidWindowCount (n : Int) = true :=
    (isValidWindowCount_iff _).2 (by omega)
  have hlay := updateLayout_laidOut
    ({ wm with m_currentWindowCount := (n : Int) } : WindowManager) c n hc rfl hc1 hpool
  have hlaid : ({ wm with m_currentWindowCount := (n : Int) } : WindowManager).laidOut c n =
      wm.laidOut c n := rfl
  simp only [WindowManager.setLayout, hvalid]
  rw [if_neg (by simp), if_neg (by rcases hchange with h | h <;> simp [h]), hlay, hlaid]
  have hlen : (wm.laidOut c n).m_browserWidgets.length = wm.m_browserWidgets.length := by
    simp [WindowManager.laidOut]; omega
  by_cases h0 : 0 < n
  · have : (n : Int) > 0 ∧ ((wm.laidOut c n).m_browserWidgets.length : Int) ≥ (n : Int) := by
      rw [hlen]; omega
    simp [h0, this]
  · have : ¬ ((n : Int) > 0 ∧
        ((wm.laidOut c n).m_browserWidgets.length : Int) ≥ (n : Int)) := by omega
    simp [h0, this]

/-- `show()` on a pane whose parent is visible leaves the pane visible. -/
theorem show_visible (w : BrowserWidget) : w.«show».visible = true := by
  unfold BrowserWidget.«show»
  split
  · assumption
  · unfold BrowserWidget.showEvent
    split
    · exact (loadUrl_frame _ _).2.2.2.1
    · rfl

/-- The rows of the grid `updateLayout` builds, read row by row, hold the first
`n` panes of the pool in pool order. -/
theorem laidOut_rows_flatten (wm : WindowManager) (c n : Nat) (hc : 1 ≤ c ∧ c ≤ 3)
    (hn : n ≤ wm.m_browserWidgets.length) :
    (wm.laidOut c n).rows.flatten = (wm.m_browserWidgets.take n).map fun w => w.objectId := by
  by_cases h0 : n = 0
  · subst h0
    simp [WindowManager.rows, WindowManager.laidOut]
  · rw [rows_of_built _ wm.m_browserWidgets c n ((n + c - 1) / c)
      (by simp [WindowManager.laidOut, h0])]
    have hfun : (fun r => (((wm.m_browserWidgets.take n).drop (r * c)).take c).map
        fun w => w.objectId) = fun r =>
        ((((wm.m_browserWidgets.take n).map fun w => w.objectId).drop (r * c)).take c) := by
      funext r
      rw [List.map_take, List.map_drop]
    rw [hfun, flatten_slices]
    apply List.take_of_length_le
    simp only [List.length_map, List.length_take]
    have : c = 1 ∨ c = 2 ∨ c = 3 := by omega
    rcases this with rfl | rfl | rfl <;> omega

/-- When the rows of the grid `updateLayout` has built are shown, each of the
first `n` panes is shown in its row, and the others stay hidden. -/
theorem showRows_laidOut (wm : WindowManager) (c n : Nat) (hc : 1 ≤ c ∧ c ≤ 3)
    (hn : n ≤ wm.m_browserWidgets.length) :
    (wm.laidOut c n).showRows.m_browserWidgets =
      (wm.m_browserWidgets.take n).map (fun w => (WindowManager.placeWidget c w).«show») ++
        (wm.m_browserWidgets.drop n).map BrowserWidget.hide := by
  unfold WindowManager.showRows
  rw [laidOut_rows_flatten wm c n hc hn]
  simp only [WindowManager.laidOut, List.map_append, List.map_map]
  congr 1
  · apply List.map_congr_left
    intro w hw
    have hmem : (WindowManager.placeWidget (c : Int) w).objectId ∈
        (wm.m_browserWidgets.take n).map fun w => w.objectId :=
      List.mem_map.2 ⟨w, hw, rfl⟩
    simp only [Function.comp_apply]
    rw [if_pos ⟨hmem, rfl⟩]
  · apply List.map_congr_left
    intro w _
    simp only [Function.comp_apply]
    rw [if_neg (by simp [BrowserWidget.hide])]

/-- A pool whose first `n` panes are visible and whose other panes are hidden:
which panes are visible, and how many. -/
theorem shown_pool_facts (pool : List BrowserWidget) (f : BrowserWidget → BrowserWidget)
    (n : Nat) (hn : n ≤ pool.length) (hf : ∀ w, (f w).visible = true) :
    (∀ (i : Nat) (hi : i < ((pool.take n).map f ++
        (pool.drop n).map BrowserWidget.hide).length),
      (((pool.take n).map f ++
        (pool.drop n).map BrowserWidget.hide)[i]).visible = decide (i < n)) ∧
    (((pool.take n).map f ++
        (pool.drop n).map BrowserWidget.hide).filter fun w => w.isVisible).length = n := by
  have hlen : ((pool.take n).map f).length = n := by
    simp [List.length_take]; omega
  refine ⟨?_, ?_⟩
  · intro i hi
    by_cases hin : i < n
    · rw [List.getElem_append_left (by omega)]
      simp [hin, hf]
    · rw [List.getElem_append_right (by omega)]
      simp [hin, BrowserWidget.hide]
  · rw [List.filter_append]
    have h1 : ((pool.take n).map f).filter (fun w => w.isVisible) = (pool.take n).map f := by
      rw [List.filter_eq_self]
      intro w hw
      obtain ⟨w0, -, rfl⟩ := List.mem_map.1 hw
      exact hf w0
    have h2 : ((pool.drop n).map BrowserWidget.hide).filter (fun w => w.isVisible) = [] := by
      rw [List.filter_eq_nil_iff]
      intro w hw
      obtain ⟨w0, -, rfl⟩ := List.mem_map.1 hw
      simp [BrowserWidget.hide, BrowserWidget.isVisible]
    rw [h1, h2, List.append_nil, hlen]

/-- C1: for every visible count `n` in 0..16 and every column count `c` in
{1, 2, 3}, on a `WindowManager` whose pool holds its 16 panes, `setColumnCount(c)`
followed by `setLayout(n, true)` returns and shows exactly `n` panes: the pool is
the same 16 panes in the same order, the pane at pool index `i` is hidden
exactly when `i ≥ n`, and the rows of the grid, read row by row, hold the panes
at pool indices `0 .. n - 1` in pool order.  When the calls return the rows have
not been shown yet and no pane is visible; once the rows are shown, the pane at
pool index `i` is visible exactly when `i < n`, so exactly `n` panes are
visible. -/
theorem setLayout_shows_first_n (wm : WindowManager) (c n : Int)
    (hpool : wm.m_browserWidgets.length = 16) (hc : 1 ≤ c ∧ c ≤ 3) (hn : 0 ≤ n ∧ n ≤ 16) :
    ∃ wm1 wm2 signals,
      wm.setColumnCount c = some wm1 ∧ wm1.setLayout n true = some (wm2, signals) ∧
      wm2.m_browserWidgets.map (fun w => w.objectId) =
        wm.m_browserWidgets.map (fun w => w.objectId) ∧
      wm2.getCurrentWindowCount = n ∧ wm2.getColumnCount = c ∧
      (∀ (i : Nat) (hi : i < wm2.m_browserWidgets.length),
        (wm2.m_browserWidgets[i]).isHidden = !decide ((i : Int) < n)) ∧
      (((wm2.m_browserWidgets.filter fun w => !w.isHidden).length : Nat) : Int) = n ∧
      wm2.rows.flatten = (wm2.m_browserWidgets.take n.toNat).map (fun w => w.objectId) ∧
      (∀ w ∈ wm2.m_browserWidgets, w.isVisible = false) ∧
      (∀ (i : Nat) (hi : i < wm2.showRows.m_browserWidgets.length),
        (wm2.showRows.m_browserWidgets[i]).isVisible = decide ((i : Int) < n)) ∧
      (((wm2.showRows.m_browserWidgets.filter fun w => w.isVisible).length : Nat) : Int) = n := by
  obtain ⟨cN, rfl⟩ : ∃ cN : Nat, c = cN := ⟨c.toNat, by omega⟩
  obtain ⟨nN, rfl⟩ : ∃ nN : Nat, n = nN := ⟨n.toNat, by omega⟩
  have hcN : 1 ≤ cN ∧ cN ≤ 3 := by omega
  have hnN : nN ≤ 16 := by omega
  obtain ⟨wm1, h1, hids1, -, hc1⟩ := updateLayout_total
    ({ wm with m_columnCount := (cN : Int) } : WindowManager) (by simp; omega)
  have hlen1 : wm1.m_browserWidgets.length = 16 := by
    have := congrArg List.length hids1
    simpa [hpool] using this
  have h2 := setLayout_laidOut wm1 cN nN true hc1 hcN.1 hnN (by omega) (Or.inl rfl)
  obtain ⟨hl, hvis, hfilter, hids⟩ :=
    placed_pool_facts wm1.m_browserWidgets (cN : Int) nN (by omega)
  obtain ⟨hshown, hcount⟩ := shown_pool_facts wm1.m_browserWidgets
    (fun w => (WindowManager.placeWidget (cN : Int) w).«show») nN (by omega)
    (fun w => show_visible _)
  have hrows := showRows_laidOut wm1 cN nN hcN (by omega)
  refine ⟨wm1, _, _, ?_, h2, ?_, rfl, rfl, ?_, ?_, ?_, ?_, ?_, ?_⟩
  · simp only [WindowManager.setColumnCount]
    rw [if_neg (by omega)]
    exact h1
  · simp only [WindowManager.laidOut, hids]
    exact hids1
  · intro i hi
    have := hvis i hi
    simp only [WindowManager.laidOut, BrowserWidget.isHidden, this, Nat.cast_lt]
  · simp only [WindowManager.laidOut, hfilter]
  · simp only [Int.toNat_ofNat]
    have htake : ((wm1.laidOut cN nN).m_browserWidgets.take nN).map
          (fun w => w.objectId) = (wm1.m_browserWidgets.take nN).map fun w => w.objectId := by
      have e1 := List.map_take (fun w : BrowserWidget => w.objectId)
        (wm1.laidOut cN nN).m_browserWidgets nN
      have e2 := List.map_take (fun w : BrowserWidget => w.objectId) wm1.m_browserWidgets nN
      rw [e1, e2]
      exact congrArg (List.take nN) hids
    rw [htake]
    exact laidOut_rows_flatten wm1 cN nN hcN (by omega)
  · intro w hw
    simp only [WindowManager.laidOut, List.mem_append, List.mem_map] at hw
    rcases hw with ⟨w0, -, rfl⟩ | ⟨w0, -, rfl⟩
    · rfl
    · rfl
  · intro i hi
    simp only [hrows] at hi ⊢
    have := hshown i hi
    simp only [BrowserWidget.isVisible, this, Nat.cast_lt]
  · simp only [hrows, hcount]

/-- Witness of `setLayout_shows_first_n`: the manager as constructed, two columns
and three panes to show. -/
theorem setLayout_shows_first_n_witness :
    ∃ wm1 wm2 signals,
      WindowManager.constructed.setColumnCount 2 = some wm1 ∧
      wm1.setLayout 3 true = some (wm2, signals) ∧
      wm2.m_browserWidgets.map (fun w => w.objectId) =
        WindowManager.constructed.m_browserWidgets.map (fun w => w.objectId) ∧
      wm2.getCurrentWindowCount = 3 ∧ wm2.getColumnCount = 2 ∧
      (∀ (i : Nat) (hi : i < wm2.m_browserWidgets.length),
        (wm2.m_browserWidgets[i]).isHidden = !decide ((i : Int) < 3)) ∧
      (((wm2.m_browserWidgets.filter fun w => !w.isHidden).length : Nat) : Int) = 3 ∧
      wm2.rows.flatten = (wm2.m_browserWidgets.take (3 : Int).toNat).map (fun w => w.objectId) ∧
      (∀ w ∈ wm2.m_browserWidgets, w.isVisible = false) ∧
      (∀ (i : Nat) (hi : i < wm2.showRows.m_browserWidgets.length),
        (wm2.showRows.m_browserWidgets[i]).isVisible = decide ((i : Int) < 3)) ∧
      (((wm2.showRows.m_browserWidgets.filter fun w => w.isVisible).length : Nat) : Int) = 3 :=
  setLayout_shows_first_n WindowManager.constructed 2 3 (by decide) (by decide) (by decide)

/-- C2: for every `n` in 1..16 and `c` in {1, 2, 3}, the grid built by
`updateLayout` has `ceil(n / c)` row containers; row `r` holds, in order, the
panes with pool indices `r * c .. min (r * c + c) n - 1`, so every row but the
last holds exactly `c` panes and the last holds `n - c * (ceil(n / c) - 1)` panes
(between 1 and `c`).  For `n = 3`, `c = 2` the rows are `[pane0, pane1]` and
`[pane2]`. -/
theorem updateLayout_rows (wm : WindowManager) (c n : Nat)
    (hpool : wm.m_browserWidgets.length = 16)
    (hc : wm.m_columnCount = c) (hn : wm.m_currentWindowCount = n)
    (hc1 : 1 ≤ c ∧ c ≤ 3) (hn1 : 1 ≤ n ∧ n ≤ 16) :
    ∃ wm', wm.updateLayout = some wm' ∧
      wm'.rows.length = (n + c - 1) / c ∧
      n ≤ (n + c - 1) / c * c ∧ ((n + c - 1) / c - 1) * c < n ∧
      (∀ r, r < (n + c - 1) / c → ∃ row, wm'.rows[r]? = some row ∧
        row.length = min (r * c + c) n - r * c ∧
        ∀ j, j < row.length →
          row[j]? = (wm'.m_browserWidgets[r * c + j]?).map fun w => w.objectId) ∧
      (∀ r, r + 1 < (n + c - 1) / c → (wm'.rows[r]?).map List.length = some c) ∧
      (wm'.rows[(n + c - 1) / c - 1]?).map List.length =
        some (n - c * ((n + c - 1) / c - 1)) ∧
      1 ≤ n - c * ((n + c - 1) / c - 1) ∧ n - c * ((n + c - 1) / c - 1) ≤ c ∧
      (∀ a b d rest, wm.m_browserWidgets.map (fun w => w.objectId) = a :: b :: d :: rest →
        n = 3 → c = 2 → wm'.rows = [[a, b], [d]]) := by
  have hlay := updateLayout_laidOut wm c n hc hn hc1.1 (by omega)
  have hn0 : n ≠ 0 := by omega
  have hrows := rows_of_built (wm.laidOut c n) wm.m_browserWidgets c n ((n + c - 1) / c)
    (by simp [WindowManager.laidOut, hn0])
  obtain ⟨-, -, -, hids⟩ := placed_pool_facts wm.m_browserWidgets (c : Int) n (by omega)
  have hc3 : c = 1 ∨ c = 2 ∨ c = 3 := by omega
  have hslice : ∀ r, r < (n + c - 1) / c →
      (wm.laidOut c n).rows[r]? =
        some ((((wm.m_browserWidgets.take n).drop (r * c)).take c).map fun w => w.objectId) := by
    intro r hr
    rw [hrows, List.getElem?_map, List.getElem?_range hr]
    rfl
  have hlen : ∀ r, r < (n + c - 1) / c →
      ((((wm.m_browserWidgets.take n).drop (r * c)).take c).map
        fun w => w.objectId).length = min (r * c + c) n - r * c := by
    intro r _
    simp only [List.length_map, List.length_take, List.length_drop, hpool]
    omega
  refine ⟨_, hlay, by rw [hrows]; simp, ?_, ?_, ?_, ?_, ?_, ?_, ?_, ?_⟩
  · rcases hc3 with rfl | rfl | rfl <;> omega
  · rcases hc3 with rfl | rfl | rfl <;> omega
  · intro r hr
    refine ⟨_, hslice r hr, hlen r hr, ?_⟩
    intro j hj
    rw [hlen r hr] at hj
    have hget : (wm.laidOut c n).m_browserWidgets[r * c + j]?.map (fun w => w.objectId) =
        (wm.m_browserWidgets.map fun w => w.objectId)[r * c + j]? := by
      rw [← List.getElem?_map]
      simp only [WindowManager.laidOut, hids]
    rw [hget, List.getElem?_map, List.getElem?_take, if_pos (by omega), List.getElem?_drop,
      List.getElem?_take, if_pos (by omega), List.getElem?_map]
  · intro r hr
    rw [hslice r (by omega)]
    simp only [Option.map_some', hlen r (by omega), Option.some.injEq]
    rcases hc3 with rfl | rfl | rfl <;> omega
  · have hR : (n + c - 1) / c - 1 < (n + c - 1) / c := by
      rcases hc3 with rfl | rfl | rfl <;> omega
    rw [hslice _ hR]
    simp only [Option.map_some', hlen _ hR, Option.some.injEq]
    rcases hc3 with rfl | rfl | rfl <;> omega
  · rcases hc3 with rfl | rfl | rfl <;> omega
  · rcases hc3 with rfl | rfl | rfl <;> omega
  · intro a b d rest hmap h3 h2
    subst h3 h2
    rw [hrows]
    have hfun : (fun r => (((wm.m_browserWidgets.take 3).drop (r * 2)).take 2).map
        fun w => w.objectId) = fun r =>
        ((((wm.m_browserWidgets.map fun w => w.objectId).take 3).drop (r * 2)).take 2) := by
      funext r
      rw [List.map_take, List.map_drop, List.map_take]
    rw [hfun, hmap]
    rfl

/-- Witness of `updateLayout_rows`: the manager as constructed with the visible
count set to three, in its two columns. -/
theorem updateLayout_rows_witness :
    ∃ wm', ({ WindowManager.constructed with m_currentWindowCount := 3 } :
        WindowManager).updateLayout = some wm' ∧ wm'.rows = [[1, 2], [3]] := by
  obtain ⟨wm', h, -, -, -, -, -, -, -, -, hex⟩ := updateLayout_rows
    ({ WindowManager.constructed with m_currentWindowCount := 3 } : WindowManager) 2 3
    (by decide) (by decide) (by decide) (by decide) (by decide)
  exact ⟨wm', h, hex 1 2 3 [4, 5, 6, 7, 8, 9, 10, 11, 12, 13, 14, 15, 16] (by decide) rfl rfl⟩

/-! ## Theorems: the layout calls of `loadSubWindowsToLayout` -/

/-- The pane at pool index `i` after `updateLayout`: placed when `i` is below the
visible count, hidden otherwise. -/
theorem laidOut_getElem? (wm : WindowManager) (c n i : Nat)
    (hn : n ≤ wm.m_browserWidgets.length) :
    (wm.laidOut c n).m_browserWidgets[i]? =
      (wm.m_browserWidgets[i]?).map fun w =>
        if i < n then WindowManager.placeWidget c w else w.hide := by
  have hlen : ((wm.m_browserWidgets.take n).map (WindowManager.placeWidget c)).length = n := by
    simp [List.length_take]; omega
  simp only [WindowManager.laidOut]
  by_cases hi : i < n
  · rw [List.getElem?_append_left (by omega), List.getElem?_map, List.getElem?_take, if_pos hi]
    simp [hi]
  · rw [List.getElem?_append_right (by omega), hlen, List.getElem?_map, List.getElem?_drop]
    have : n + (i - n) = i := by omega
    rw [this]
    simp [hi]

/-- The manager `updateLayout` leaves satisfies the invariant. -/
theorem laidOut_wellFormed (wm : WindowManager) (c n : Nat) (hc : 1 ≤ c ∧ c ≤ 3)
    (hn : n ≤ wm.m_browserWidgets.length) : (wm.laidOut c n).WellFormed := by
  have hlen : ((wm.m_browserWidgets.take n).map (WindowManager.placeWidget c)).length = n := by
    simp [List.length_take]; omega
  refine ⟨by simp [WindowManager.laidOut]; omega, by simp [WindowManager.laidOut]; omega,
    by simp [WindowManager.laidOut], ?_, ?_, ?_⟩
  · simp only [WindowManager.laidOut, List.length_append, List.length_map, List.length_take,
      List.length_drop]
    omega
  · simp only [WindowManager.laidOut, Int.toNat_ofNat]
    rw [List.take_left' hlen]
    intro w hw
    obtain ⟨w0, -, rfl⟩ := List.mem_map.1 hw
    exact (placeWidget_frame c w0).2.2.2.1
  · simp only [WindowManager.laidOut, Int.toNat_ofNat]
    rw [List.drop_left' hlen]
    intro w hw
    obtain ⟨w0, -, rfl⟩ := List.mem_map.1 hw
    simp [BrowserWidget.hide]

/-- Under the invariant, the pane at pool index `i` is hidden exactly when `i` is
not below the visible count, and is then not visible. -/
theorem WellFormed.hidden_iff {wm : WindowManager} (hwf : wm.WellFormed) {i : Nat}
    {w : BrowserWidget} (hw : wm.m_browserWidgets[i]? = some w) :
    w.hidden = !decide ((i : Int) < wm.m_currentWindowCount) ∧
    (¬ (i : Int) < wm.m_currentWindowCount → w.visible = false) := by
  obtain ⟨-, -, h0, hle, htake, hdrop⟩ := hwf
  by_cases hi : (i : Int) < wm.m_currentWindowCount
  · have hi' : i < wm.m_currentWindowCount.toNat := by omega
    have : (wm.m_browserWidgets.take wm.m_currentWindowCount.toNat)[i]? = some w := by
      rw [List.getElem?_take, if_pos hi', hw]
    rw [htake w (List.getElem?_mem this)]
    simp [hi]
  · have hi' : wm.m_currentWindowCount.toNat ≤ i := by omega
    have : (wm.m_browserWidgets.drop wm.m_currentWindowCount.toNat)[i -
        wm.m_currentWindowCount.toNat]? = some w := by
      rw [List.getElem?_drop]
      have : wm.m_currentWindowCount.toNat + (i - wm.m_currentWindowCount.toNat) = i := by omega
      rw [this, hw]
    obtain ⟨e1, e2⟩ := hdrop w (List.getElem?_mem this)
    rw [e1]
    simp [hi, e2]

/-- `setLayout(n)` (not forced), for a count in 0..16 within the pool, in closed
form; the signals are those `setLayout` emits. -/
theorem setLayoutUnforced_relaid (wm : WindowManager) (n : Nat) (hc : 1 ≤ wm.m_columnCount)
    (hn : n ≤ 16) (hpool : n ≤ wm.m_browserWidgets.length) :
    ∃ signals, wm.setLayoutUnforced n = some (wm.relaid n, signals) := by
  unfold WindowManager.setLayoutUnforced WindowManager.relaid
  by_cases hsame : wm.m_currentWindowCount = n
  · have hvalid : WindowManager.isValidWindowCount (n : Int) = true :=
      (isValidWindowCount_iff _).2 (by omega)
    refine ⟨[], ?_⟩
    simp [WindowManager.setLayout, hvalid, hsame]
  · rw [if_neg hsame]
    exact ⟨_, setLayout_laidOut wm wm.m_columnCount.toNat n false (by omega) (by omega) hn hpool
      (Or.inr hsame)⟩

/-- `setColumnCount`, under the invariant, in closed form. -/
theorem setColumnCount_recolumned (wm : WindowManager) (columns : Int) (hwf : wm.WellFormed) :
    wm.setColumnCount columns = some (wm.recolumned columns) := by
  obtain ⟨-, -, h0, hle, -, -⟩ := hwf
  unfold WindowManager.recolumned
  by_cases hbad : columns < 1 ∨ columns > 3
  · simp [WindowManager.setColumnCount, hbad]
  · rw [if_neg hbad]
    have := setColumnCount_laidOut wm columns.toNat wm.m_currentWindowCount.toNat
      (by omega) (by omega) (by omega)
    rw [← this]
    congr 1
    omega

/-- `setLayout(n)` (not forced) keeps the invariant. -/
theorem relaid_wellFormed (wm : WindowManager) (n : Nat) (hwf : wm.WellFormed)
    (hpool : n ≤ wm.m_browserWidgets.length) : (wm.relaid n).WellFormed := by
  unfold WindowManager.relaid
  split
  · exact hwf
  · exact laidOut_wellFormed wm _ n (by obtain ⟨h1, h2, -⟩ := hwf; omega) hpool

/-- `setColumnCount` keeps the invariant. -/
theorem recolumned_wellFormed (wm : WindowManager) (columns : Int) (hwf : wm.WellFormed) :
    (wm.recolumned columns).WellFormed := by
  unfold WindowManager.recolumned
  split
  · exact hwf
  · exact laidOut_wellFormed wm _ _ (by omega) (by obtain ⟨-, -, h0, hle, -⟩ := hwf; omega)

/-- While an assignment pass is in progress, the slots connected to the
manager's signals return at once: delivering the signals changes nothing. -/
theorem deliver_while_loading (reload : MainWindow → Option MainWindow)
    (signals : List WMSignal) (mw : MainWindow) (hl : mw.m_loadingSubwindows = true) :
    MainWindow.deliver reload signals mw = some mw := by
  induction signals with
  | nil => rfl
  | cons s rest ih =>
    cases s <;> simp [MainWindow.deliver, MainWindow.onAllWidgetsCreatedWith, hl, ih]

/-- `m_windowManager->setLayout(n)` called during an assignment pass, in closed
form. -/
theorem callSetLayout_while_loading (reload : MainWindow → Option MainWindow)
    (mw : MainWindow) (wm : WindowManager) (n : Nat) (hl : mw.m_loadingSubwindows = true)
    (hc : 1 ≤ wm.m_columnCount) (hn : n ≤ 16) (hpool : n ≤ wm.m_browserWidgets.length) :
    MainWindow.callSetLayout reload mw wm n = some (mw.withManager (wm.relaid n)) := by
  obtain ⟨signals, hs⟩ := setLayoutUnforced_relaid wm n hc hn hpool
  simp only [MainWindow.callSetLayout, hs]
  exact deliver_while_loading reload signals _ (by simp [MainWindow.withManager, hl])

/-- The pool keeps its length through `updateLayout`. -/
theorem laidOut_length (wm : WindowManager) (c n : Nat) :
    (wm.laidOut c n).m_browserWidgets.length = wm.m_browserWidgets.length := by
  simp only [WindowManager.laidOut, List.length_append, List.length_map, List.length_take,
    List.length_drop]
  omega

/-- The pool keeps its length through `setLayout`. -/
theorem relaid_length (wm : WindowManager) (n : Nat) :
    (wm.relaid n).m_browserWidgets.length = wm.m_browserWidgets.length := by
  unfold WindowManager.relaid
  split
  · rfl
  · exact laidOut_length _ _ _

/-- The pool keeps its length through `setColumnCount`. -/
theorem recolumned_length (wm : WindowManager) (columns : Int) :
    (wm.recolumned columns).m_browserWidgets.length = wm.m_browserWidgets.length := by
  unfold WindowManager.recolumned
  split
  · rfl
  · exact laidOut_length _ _ _

/-- A non-nested run of `loadSubWindowsToLayout`, under the manager's invariant
and with at most 16 records that fit the pool, returns; the manager it leaves is
the one its layout calls leave, with the records assigned to the first panes. -/
theorem loadSubWindowsToLayout_run (h : Host) (d : Database) (fuel : Nat) (mw : MainWindow)
    (wm : WindowManager) (hload : mw.m_loadingSubwindows = false)
    (hwm : mw.m_windowManager = some wm) (hwf : wm.WellFormed)
    (hL : d.subWindows.length ≤ 16) (hpool : d.subWindows.length ≤ wm.m_browserWidgets.length) :
    ∃ mw', MainWindow.loadSubWindowsToLayout h (some d) (fuel + 1) mw = some mw' ∧
      mw'.m_windowManager = some { wm.laidOutFor d with
        m_browserWidgets :=
          MainWindow.assignSubWindows h d.subWindows (wm.laidOutFor d).m_browserWidgets } ∧
      mw'.m_loadingSubwindows = false ∧
      mw'.m_currentLayout = d.subWindows.length ∧
      mw'.m_fullscreenBrowser = mw.m_fullscreenBrowser ∧
      mw'.m_fullscreenWidgetPosition = mw.m_fullscreenWidgetPosition ∧
      mw'.deferred = mw.deferred := by
  have hc1 := hwf.1
  rw [MainWindow.loadSubWindowsToLayout]
  simp only [hload, Bool.false_eq_true, if_false, hwm]
  by_cases h0 : d.subWindows.length = 0
  · have hint : ((d.subWindows.length : Nat) : Int) = 0 := by exact_mod_cast h0
    rw [if_pos hint]
    have hcall := callSetLayout_while_loading
      (MainWindow.loadSubWindowsToLayout h (some d) fuel)
      { mw with m_loadingSubwindows := true } wm 0 rfl hc1 (by omega) (by omega)
    simp only [Nat.cast_zero, hwm] at hcall
    rw [hcall]
    have hnil : d.subWindows = [] := List.eq_nil_of_length_eq_zero h0
    refine ⟨_, rfl, ?_, rfl, ?_, rfl, rfl, rfl⟩
    · simp [MainWindow.withManager, WindowManager.laidOutFor, h0, hnil,
        MainWindow.assignSubWindows]
    · simp [hint]
  · have hint : ¬ ((d.subWindows.length : Nat) : Int) = 0 := by
      intro hh; exact h0 (by exact_mod_cast hh)
    rw [if_neg hint, setColumnCount_recolumned wm d.windowColumns hwf]
    have hwf1 := recolumned_wellFormed wm d.windowColumns hwf
    have hcall := callSetLayout_while_loading
      (MainWindow.loadSubWindowsToLayout h (some d) fuel)
      (({ mw with m_loadingSubwindows := true, emptyStateLabelVisible := false } :
        MainWindow).withManager (wm.recolumned d.windowColumns))
      (wm.recolumned d.windowColumns) d.subWindows.length
      (by simp [MainWindow.withManager]) hwf1.1 hL
      (by rw [recolumned_length]; exact hpool)
    simp only [hwm] at hcall ⊢
    rw [hcall]
    refine ⟨_, rfl, ?_, rfl, rfl, rfl, rfl, rfl⟩
    simp [MainWindow.withManager, WindowManager.laidOutFor, h0, WindowManager.getBrowserWidgets]

/-! ## Theorems: assigning the records to the panes -/

/-- `loadCookies` changes only the staged script and the scripts sent to the
page. -/
theorem loadCookies_frame (h : Host) (w : BrowserWidget) :
    { w.loadCookies h with m_pendingCookieScript := w.m_pendingCookieScript
                           surfaceScripts := w.surfaceScripts } = w := by
  unfold BrowserWidget.loadCookies BrowserWidget.executeCookieScript
  split
  · rfl
  · dsimp only
    split
    · rfl
    · split
      · rfl
      · split
        · split <;> rfl
        · rfl

/-- `setSubWindowId` sets the logical id and otherwise changes only the staged
script and the scripts sent to the page. -/
theorem setSubWindowId_frame (h : Host) (w : BrowserWidget) (id : Int) :
    { w.setSubWindowId h id with m_pendingCookieScript := w.m_pendingCookieScript
                                 surfaceScripts := w.surfaceScripts } =
      { w with m_subWindowId := id } := by
  unfold BrowserWidget.setSubWindowId
  simp only []
  split
  · exact loadCookies_frame h { w with m_subWindowId := id }
  · rfl

/-- The fields of a pane after the loop body of `loadSubWindowsToLayout`: the
logical id and the name are those of the record; identity, visibility, size
constraints and fullscreen flag are kept. -/
theorem assignSubWindow_fields (h : Host) (r : SubWindow) (w : BrowserWidget) :
    (MainWindow.assignSubWindow h r w).m_subWindowId = r.id ∧
    (MainWindow.assignSubWindow h r w).m_subWindowName = r.name ∧
    (MainWindow.assignSubWindow h r w).objectId = w.objectId ∧
    (MainWindow.assignSubWindow h r w).visible = w.visible ∧
    (MainWindow.assignSubWindow h r w).minimumSize = w.minimumSize ∧
    (MainWindow.assignSubWindow h r w).maximumSize = w.maximumSize ∧
    (MainWindow.assignSubWindow h r w).sizePolicy = w.sizePolicy ∧
    (MainWindow.assignSubWindow h r w).m_isFullscreen = w.m_isFullscreen := by
  have hid := setSubWindowId_frame h w r.id
  have f1 := congrArg BrowserWidget.m_subWindowId hid
  have f2 := congrArg BrowserWidget.objectId hid
  have f3 := congrArg BrowserWidget.visible hid
  have f4 := congrArg BrowserWidget.minimumSize hid
  have f5 := congrArg BrowserWidget.maximumSize hid
  have f6 := congrArg BrowserWidget.sizePolicy hid
  have f7 := congrArg BrowserWidget.m_isFullscreen hid
  simp only [] at f1 f2 f3 f4 f5 f6 f7
  have hname : ∀ w1 : BrowserWidget,
      (w1.setSubWindowName r.name).m_subWindowId = w1.m_subWindowId ∧
      (w1.setSubWindowName r.name).m_subWindowName = r.name ∧
      (w1.setSubWindowName r.name).objectId = w1.objectId ∧
      (w1.setSubWindowName r.name).visible = w1.visible ∧
      (w1.setSubWindowName r.name).minimumSize = w1.minimumSize ∧
      (w1.setSubWindowName r.name).maximumSize = w1.maximumSize ∧
      (w1.setSubWindowName r.name).sizePolicy = w1.sizePolicy ∧
      (w1.setSubWindowName r.name).m_isFullscreen = w1.m_isFullscreen := by
    intro w1
    unfold BrowserWidget.setSubWindowName
    simp only []
    split
    · have := loadUrl_frame
        { w1 with m_subWindowName := r.name
                  nameLabelText := if r.name.isEmpty then "子窗口" else r.name } w1.m_currentUrl
      simp only [] at this
      exact ⟨this.2.1, this.2.2.1, this.1, this.2.2.2.1, this.2.2.2.2.1, this.2.2.2.2.2.1,
        this.2.2.2.2.2.2.1, this.2.2.2.2.2.2.2⟩
    · simp
  obtain ⟨n1, n2, n3, n4, n5, n6, n7, n8⟩ := hname (w.setSubWindowId h r.id)
  unfold MainWindow.assignSubWindow
  simp only []
  split
  · have := loadUrl_frame ((w.setSubWindowId h r.id).setSubWindowName r.name) r.url
    exact ⟨by rw [this.2.1, n1, f1], by rw [this.2.2.1, n2], by rw [this.1, n3, f2],
      by rw [this.2.2.2.1, n4, f3], by rw [this.2.2.2.2.1, n5, f4],
      by rw [this.2.2.2.2.2.1, n6, f5], by rw [this.2.2.2.2.2.2.1, n7, f6],
      by rw [this.2.2.2.2.2.2.2, n8, f7]⟩
  · exact ⟨by rw [n1, f1], n2, by rw [n3, f2], by rw [n4, f3], by rw [n5, f4],
      by rw [n6, f5], by rw [n7, f6], by rw [n8, f7]⟩

/-- After the loop body of `loadSubWindowsToLayout` the stored destination of the
pane is the record's, for a record destination that begins with `http://` or
`https://`. -/
theorem assignSubWindow_url (h : Host) (r : SubWindow) (w : BrowserWidget)
    (hvalid : BrowserWidget.isValidUrl r.url = true) :
    (MainWindow.assignSubWindow h r w).m_currentUrl = r.url := by
  unfold MainWindow.assignSubWindow
  simp only []
  split
  · rename_i hne
    have hfmt := formatUrl_of_valid hvalid
    have hne' : ((w.setSubWindowId h r.id).setSubWindowName r.name).m_currentUrl ≠ r.url := hne
    unfold BrowserWidget.loadUrl
    simp only [hfmt]
    rw [if_neg (by intro hh; exact hne' hh.2)]
    split <;> rfl
  · rename_i heq
    simpa [BrowserWidget.getCurrentUrl] using heq

/-- The pane at pool index `i` after the loop of `loadSubWindowsToLayout`: the
loop body applied to the pane and the record at index `i` when there is such a
record, the pane as it was otherwise. -/
theorem assignSubWindows_getElem? (h : Host) :
    ∀ (subWindows : List SubWindow) (widgets : List BrowserWidget) (i : Nat),
      (MainWindow.assignSubWindows h subWindows widgets)[i]? =
        match subWindows[i]?, widgets[i]? with
        | some r, some w => some (MainWindow.assignSubWindow h r w)
        | _, ow => ow := by
  intro subWindows
  induction subWindows with
  | nil => intro widgets i; simp [MainWindow.assignSubWindows]
  | cons r rs ih =>
    intro widgets i
    cases widgets with
    | nil => simp [MainWindow.assignSubWindows]
    | cons w ws =>
      cases i with
      | zero => simp [MainWindow.assignSubWindows]
      | succ i => simpa [MainWindow.assignSubWindows] using ih ws i

/-- The loop of `loadSubWindowsToLayout` keeps the number of panes. -/
theorem assignSubWindows_length (h : Host) :
    ∀ (subWindows : List SubWindow) (widgets : List BrowserWidget),
      (MainWindow.assignSubWindows h subWindows widgets).length = widgets.length := by
  intro subWindows
  induction subWindows with
  | nil => intro widgets; simp [MainWindow.assignSubWindows]
  | cons r rs ih =>
    intro widgets
    cases widgets with
    | nil => simp [MainWindow.assignSubWindows]
    | cons w ws => simp [MainWindow.assignSubWindows, ih ws]

/-- After `setLayout(n)` the visible count is `n`. -/
theorem relaid_count (wm : WindowManager) (n : Nat) :
    (wm.relaid n).m_currentWindowCount = n := by
  unfold WindowManager.relaid
  split
  · assumption
  · rfl

/-- After the layout calls of `loadSubWindowsToLayout` the visible count is the
number of records and the pool has kept its length. -/
theorem laidOutFor_count_length (wm : WindowManager) (d : Database) :
    (wm.laidOutFor d).m_currentWindowCount = d.subWindows.length ∧
    (wm.laidOutFor d).m_browserWidgets.length = wm.m_browserWidgets.length := by
  unfold WindowManager.laidOutFor
  split
  · rename_i h0
    rw [relaid_count, relaid_length, h0]
    exact ⟨rfl, rfl⟩
  · rw [relaid_count, relaid_length, recolumned_length]
    exact ⟨rfl, rfl⟩

/-- The layout calls of `loadSubWindowsToLayout` keep the invariant. -/
theorem laidOutFor_wellFormed (wm : WindowManager) (d : Database) (hwf : wm.WellFormed)
    (hpool : d.subWindows.length ≤ wm.m_browserWidgets.length) :
    (wm.laidOutFor d).WellFormed := by
  unfold WindowManager.laidOutFor
  split
  · exact relaid_wellFormed wm 0 hwf (by omega)
  · exact relaid_wellFormed _ _ (recolumned_wellFormed wm _ hwf)
      (by rw [recolumned_length]; exact hpool)

/-- The manager's state as the constructor leaves it. -/
theorem create_eq : WindowManager.create = some (WindowManager.constructed.laidOut 2 0) :=
  updateLayout_laidOut WindowManager.constructed 2 0 rfl rfl (by decide) (by decide)

/-- C3: for every ordered list `L` of sub-window records with `0 ≤ |L| ≤ 16`, a
non-nested run of `loadSubWindowsToLayout` on `L` (on a main window whose manager
satisfies its invariant and holds the 16 panes) returns, and afterwards the
manager's visible count is `|L|` and, for every `i < |L|`, the pane at pool index
`i` has `getSubWindowId() = L[i].id` and `getSubWindowName() = L[i].name`,
whatever the panes showed before. -/
theorem loadSubWindowsToLayout_binds_by_position (h : Host) (d : Database) (fuel : Nat)
    (mw : MainWindow) (wm : WindowManager) (hload : mw.m_loadingSubwindows = false)
    (hwm : mw.m_windowManager = some wm) (hwf : wm.WellFormed)
    (hL : d.subWindows.length ≤ 16) (hpool : wm.m_browserWidgets.length = 16) :
    ∃ mw' wm', MainWindow.loadSubWindowsToLayout h (some d) (fuel + 1) mw = some mw' ∧
      mw'.m_windowManager = some wm' ∧
      wm'.getCurrentWindowCount = d.subWindows.length ∧
      wm'.m_browserWidgets.length = 16 ∧
      ∀ (i : Nat) (r : SubWindow), d.subWindows[i]? = some r →
        ∃ w, wm'.m_browserWidgets[i]? = some w ∧
          w.getSubWindowId = r.id ∧ w.getSubWindowName = r.name := by
  obtain ⟨mw', hrun, hmgr, -⟩ := loadSubWindowsToLayout_run h d fuel mw wm hload hwm hwf hL
    (by omega)
  obtain ⟨hcount, hlen⟩ := laidOutFor_count_length wm d
  refine ⟨mw', _, hrun, hmgr, hcount, ?_, ?_⟩
  · simp only [assignSubWindows_length, hlen, hpool]
  · intro i r hr
    have hi : i < d.subWindows.length := (List.getElem?_eq_some_iff.1 hr).1
    have hiw : i < (wm.laidOutFor d).m_browserWidgets.length := by rw [hlen]; omega
    refine ⟨MainWindow.assignSubWindow h r (wm.laidOutFor d).m_browserWidgets[i], ?_, ?_, ?_⟩
    · simp only [assignSubWindows_getElem?, hr, List.getElem?_eq_getElem hiw]
    · exact (assignSubWindow_fields h r _).1
    · exact (assignSubWindow_fields h r _).2.1

/-- Witness of `loadSubWindowsToLayout_binds_by_position`: the main window as
constructed and three records. -/
theorem loadSubWindowsToLayout_binds_by_position_witness :
    ∃ mw' wm', MainWindow.loadSubWindowsToLayout
        { cookieFile := fun _ => none, fromJsonArray := fun _ => none, primaryScreen := none }
        (some { subWindows := [{ id := 1, name := "A", url := "https://a.test" },
                               { id := 2, name := "B", url := "https://b.test" },
                               { id := 3, name := "C", url := "https://c.test" }]
                windowColumns := 2 }) 1 MainWindow.create = some mw' ∧
      mw'.m_windowManager = some wm' ∧
      wm'.getCurrentWindowCount = 3 ∧
      ∃ w, wm'.m_browserWidgets[1]? = some w ∧ w.getSubWindowId = 2 ∧
        w.getSubWindowName = "B" := by
  obtain ⟨mw', wm', h1, h2, h3, -, h5⟩ := loadSubWindowsToLayout_binds_by_position
    { cookieFile := fun _ => none, fromJsonArray := fun _ => none, primaryScreen := none }
    { subWindows := [{ id := 1, name := "A", url := "https://a.test" },
                     { id := 2, name := "B", url := "https://b.test" },
                     { id := 3, name := "C", url := "https://c.test" }]
      windowColumns := 2 } 0 MainWindow.create (WindowManager.constructed.laidOut 2 0)
    rfl create_eq (by decide) (by decide) (by decide)
  exact ⟨mw', wm', h1, h2, h3, h5 1 { id := 2, name := "B", url := "https://b.test" } rfl⟩

/-- Under the invariant, `setColumnCount` keeps the logical id, the name, the
stored destination and the hidden flag of every pane. -/
theorem recolumned_getElem? (wm : WindowManager) (columns : Int) (hwf : wm.WellFormed)
    (i : Nat) (w : BrowserWidget) (hw : wm.m_browserWidgets[i]? = some w) :
    ∃ w1, (wm.recolumned columns).m_browserWidgets[i]? = some w1 ∧
      w1.m_subWindowId = w.m_subWindowId ∧ w1.m_subWindowName = w.m_subWindowName ∧
      w1.m_currentUrl = w.m_currentUrl ∧ w1.hidden = w.hidden := by
  have hvis := (WellFormed.hidden_iff hwf hw).1
  obtain ⟨-, -, h0, hle, -, -⟩ := hwf
  unfold WindowManager.recolumned
  split
  · exact ⟨w, hw, rfl, rfl, rfl, rfl⟩
  · rw [laidOut_getElem? _ _ _ _ (by omega), hw]
    by_cases hi : i < wm.m_currentWindowCount.toNat
    · have hv : w.hidden = false := by rw [hvis]; simp; omega
      simp only [Option.map_some', if_pos hi]
      exact ⟨_, rfl, rfl, rfl, rfl, hv.symm⟩
    · have hv : w.hidden = true := by rw [hvis]; simp; omega
      simp only [Option.map_some', if_neg hi]
      exact ⟨_, rfl, rfl, rfl, rfl, hv.symm⟩

/-- Under the invariant, `setLayout(n)` leaves every pane at a pool index from
`n` on hidden, with its logical id, name and stored destination unchanged. -/
theorem relaid_hidden (wm : WindowManager) (n : Nat) (hwf : wm.WellFormed)
    (hn : n ≤ wm.m_browserWidgets.length)
    (i : Nat) (w : BrowserWidget) (hi : n ≤ i) (hw : wm.m_browserWidgets[i]? = some w) :
    ∃ w2, (wm.relaid n).m_browserWidgets[i]? = some w2 ∧
      (w2.hidden = true ∧ w2.visible = false) ∧
      w2.m_subWindowId = w.m_subWindowId ∧ w2.m_subWindowName = w.m_subWindowName ∧
      w2.m_currentUrl = w.m_currentUrl := by
  have hvis := WellFormed.hidden_iff hwf hw
  unfold WindowManager.relaid
  split
  · rename_i hcount
    refine ⟨w, hw, ⟨?_, ?_⟩, rfl, rfl, rfl⟩
    · rw [hvis.1, hcount]
      simp
      omega
    · exact hvis.2 (by rw [hcount]; omega)
  · rw [laidOut_getElem? _ _ _ _ hn, hw]
    simp only [Option.map_some', if_neg (show ¬ i < n by omega)]
    refine ⟨_, rfl, ?_⟩
    simp [BrowserWidget.hide]

/-- Under the invariant, the layout calls of `loadSubWindowsToLayout` leave every
pane at a pool index from the number of records on hidden, with its logical id,
name and stored destination unchanged. -/
theorem laidOutFor_hidden (wm : WindowManager) (d : Database) (hwf : wm.WellFormed)
    (hpool : d.subWindows.length ≤ wm.m_browserWidgets.length)
    (i : Nat) (w : BrowserWidget) (hi : d.subWindows.length ≤ i)
    (hw : wm.m_browserWidgets[i]? = some w) :
    ∃ w2, (wm.laidOutFor d).m_browserWidgets[i]? = some w2 ∧
      (w2.hidden = true ∧ w2.visible = false) ∧
      w2.m_subWindowId = w.m_subWindowId ∧ w2.m_subWindowName = w.m_subWindowName ∧
      w2.m_currentUrl = w.m_currentUrl := by
  unfold WindowManager.laidOutFor
  split
  · exact relaid_hidden wm 0 hwf (by omega) i w (by omega) hw
  · obtain ⟨w1, hw1, e1, e2, e3, -⟩ := recolumned_getElem? wm d.windowColumns hwf i w hw
    obtain ⟨w2, hw2, hv, f1, f2, f3⟩ := relaid_hidden (wm.recolumned d.windowColumns)
      d.subWindows.length (recolumned_wellFormed wm _ hwf)
      (by rw [recolumned_length]; exact hpool) i w1 hi hw1
    exact ⟨w2, hw2, hv, f1.trans e1, f2.trans e2, f3.trans e3⟩

/-- The loop body of `loadSubWindowsToLayout` keeps the hidden flag of the
pane. -/
theorem assignSubWindow_hidden (h : Host) (r : SubWindow) (w : BrowserWidget) :
    (MainWindow.assignSubWindow h r w).hidden = w.hidden := by
  have hid := congrArg BrowserWidget.hidden (setSubWindowId_frame h w r.id)
  simp only [] at hid
  have hname : ∀ w1 : BrowserWidget, (w1.setSubWindowName r.name).hidden = w1.hidden := by
    intro w1
    unfold BrowserWidget.setSubWindowName
    simp only []
    split
    · exact loadUrl_hidden _ _
    · rfl
  unfold MainWindow.assignSubWindow
  simp only []
  split
  · rw [loadUrl_hidden, hname, hid]
  · rw [hname, hid]

/-- The loop of `loadSubWindowsToLayout` changes neither visibility flag of any
pane. -/
theorem assignSubWindows_visible (h : Host) :
    ∀ (subWindows : List SubWindow) (widgets : List BrowserWidget),
      (MainWindow.assignSubWindows h subWindows widgets).map
          (fun w => (w.hidden, w.visible)) =
        widgets.map fun w => (w.hidden, w.visible) := by
  intro subWindows
  induction subWindows with
  | nil => intro widgets; simp [MainWindow.assignSubWindows]
  | cons r rs ih =>
    intro widgets
    cases widgets with
    | nil => simp [MainWindow.assignSubWindows]
    | cons w ws =>
      simp [MainWindow.assignSubWindows, ih ws, (assignSubWindow_fields h r w).2.2.2.1,
        assignSubWindow_hidden]

/-- The invariant depends on the panes only through their number and their
visibility flags. -/
theorem WellFormed.of_visible_eq {wm : WindowManager} (hwf : wm.WellFormed)
    (pool : List BrowserWidget)
    (hvis : pool.map (fun w => (w.hidden, w.visible)) =
      wm.m_browserWidgets.map fun w => (w.hidden, w.visible)) :
    ({ wm with m_browserWidgets := pool } : WindowManager).WellFormed := by
  obtain ⟨h1, h2, h3, h4, h5, h6⟩ := hwf
  have hlen : pool.length = wm.m_browserWidgets.length := by
    simpa using congrArg List.length hvis
  refine ⟨h1, h2, h3, by simp only [hlen]; exact h4, ?_, ?_⟩
  · intro w hw
    have hm : (w.hidden, w.visible) ∈
        (pool.take wm.m_currentWindowCount.toNat).map fun w => (w.hidden, w.visible) :=
      List.mem_map_of_mem _ hw
    rw [List.map_take, hvis, ← List.map_take] at hm
    obtain ⟨w0, hw0, he⟩ := List.mem_map.1 hm
    have he1 := congrArg Prod.fst he
    simp only [] at he1
    rw [← he1]
    exact h5 w0 hw0
  · intro w hw
    have hm : (w.hidden, w.visible) ∈
        (pool.drop wm.m_currentWindowCount.toNat).map fun w => (w.hidden, w.visible) :=
      List.mem_map_of_mem _ hw
    rw [List.map_drop, hvis, ← List.map_drop] at hm
    obtain ⟨w0, hw0, he⟩ := List.mem_map.1 hm
    have he1 := congrArg Prod.fst he
    have he2 := congrArg Prod.snd he
    simp only [] at he1 he2
    rw [← he1, ← he2]
    exact h6 w0 hw0

/-- The manager a run of `loadSubWindowsToLayout` leaves satisfies the
invariant. -/
theorem assigned_wellFormed (h : Host) (wm : WindowManager) (d : Database)
    (hwf : wm.WellFormed) (hpool : d.subWindows.length ≤ wm.m_browserWidgets.length) :
    ({ wm.laidOutFor d with
        m_browserWidgets :=
          MainWindow.assignSubWindows h d.subWindows (wm.laidOutFor d).m_browserWidgets } :
      WindowManager).WellFormed :=
  WellFormed.of_visible_eq (laidOutFor_wellFormed wm d hwf hpool) _
    (assignSubWindows_visible h _ _)

/-- C4: a run of `loadSubWindowsToLayout` with a list `L` (`|L| ≤ 16`), on a main
window whose manager satisfies its invariant and holds the 16 panes, leaves every
pane at a pool index `≥ |L|` hidden and does not change that pane's
`subWindowId`, name or stored destination; the manager it leaves satisfies the
invariant again.  The panes of a freshly constructed pool are unassigned
(`subWindowId = -1`), so that from it the panes from index `|L|` on are hidden
and unassigned. -/
theorem loadSubWindowsToLayout_leaves_rest (h : Host) (d : Database) (fuel : Nat)
    (mw : MainWindow) (wm : WindowManager) (hload : mw.m_loadingSubwindows = false)
    (hwm : mw.m_windowManager = some wm) (hwf : wm.WellFormed)
    (hL : d.subWindows.length ≤ 16) (hpool : wm.m_browserWidgets.length = 16) :
    ∃ mw' wm', MainWindow.loadSubWindowsToLayout h (some d) (fuel + 1) mw = some mw' ∧
      mw'.m_windowManager = some wm' ∧ wm'.WellFormed ∧
      (∀ (i : Nat) (w : BrowserWidget), d.subWindows.length ≤ i →
        wm.m_browserWidgets[i]? = some w →
        ∃ w', wm'.m_browserWidgets[i]? = some w' ∧
          w'.isHidden = true ∧ w'.isVisible = false ∧
          w'.getSubWindowId = w.getSubWindowId ∧ w'.getSubWindowName = w.getSubWindowName ∧
          w'.getCurrentUrl = w.getCurrentUrl) ∧
      MainWindow.create.pool.length = 16 ∧
      (∀ w ∈ MainWindow.create.pool, w.getSubWindowId = -1) := by
  obtain ⟨mw', hrun, hmgr, -⟩ := loadSubWindowsToLayout_run h d fuel mw wm hload hwm hwf hL
    (by omega)
  refine ⟨mw', _, hrun, hmgr, assigned_wellFormed h wm d hwf (by omega), ?_, by decide,
    by decide⟩
  intro i w hi hw
  obtain ⟨w2, hw2, hv, e1, e2, e3⟩ := laidOutFor_hidden wm d hwf (by omega) i w hi hw
  refine ⟨w2, ?_, hv.1, hv.2, e1, e2, e3⟩
  have hnone : d.subWindows[i]? = none := List.getElem?_eq_none (by omega)
  simp only [assignSubWindows_getElem?, hnone, hw2]

/-- Witness of `loadSubWindowsToLayout_leaves_rest`: from the main window as
constructed, assigning the records with ids 1, 2, 3 leaves the panes at indices
3 to 15 hidden and unassigned. -/
theorem loadSubWindowsToLayout_leaves_rest_witness :
    ∃ mw' wm', MainWindow.loadSubWindowsToLayout
        { cookieFile := fun _ => none, fromJsonArray := fun _ => none, primaryScreen := none }
        (some { subWindows := [{ id := 1, name := "A", url := "https://a.test" },
                               { id := 2, name := "B", url := "https://b.test" },
                               { id := 3, name := "C", url := "https://c.test" }]
                windowColumns := 2 }) 1 MainWindow.create = some mw' ∧
      mw'.m_windowManager = some wm' ∧
      ∀ i, 3 ≤ i → i < 16 → ∃ w', wm'.m_browserWidgets[i]? = some w' ∧
        w'.isHidden = true ∧ w'.isVisible = false ∧ w'.getSubWindowId = -1 := by
  obtain ⟨mw', wm', h1, h2, -, h4, h5, h6⟩ := loadSubWindowsToLayout_leaves_rest
    { cookieFile := fun _ => none, fromJsonArray := fun _ => none, primaryScreen := none }
    { subWindows := [{ id := 1, name := "A", url := "https://a.test" },
                     { id := 2, name := "B", url := "https://b.test" },
                     { id := 3, name := "C", url := "https://c.test" }]
      windowColumns := 2 } 0 MainWindow.create (WindowManager.constructed.laidOut 2 0)
    rfl create_eq (by decide) (by decide) (by decide)
  refine ⟨mw', wm', h1, h2, ?_⟩
  intro i hi3 hi16
  have hpool : MainWindow.create.pool = (WindowManager.constructed.laidOut 2 0).m_browserWidgets := by
    simp only [MainWindow.pool, MainWindow.create, create_eq]
  have hlt : i < (WindowManager.constructed.laidOut 2 0).m_browserWidgets.length := by
    rw [← hpool, h5]; exact hi16
  obtain ⟨w', hw', hh, hv, hid, -, -⟩ := h4 i _ hi3 (List.getElem?_eq_getElem hlt)
  refine ⟨w', hw', hh, hv, ?_⟩
  rw [hid]
  exact h6 _ (by rw [hpool]; exact List.getElem_mem _)

/-- What a non-nested run of `loadSubWindowsToLayout` leaves, for use in runs
that follow: the run returns with the guard flag cleared, and the manager it
leaves satisfies the invariant, has the same number of panes and the number of
records as visible count. -/
theorem loadSubWindowsToLayout_post (h : Host) (d : Database) (fuel : Nat) (mw : MainWindow)
    (wm : WindowManager) (hload : mw.m_loadingSubwindows = false)
    (hwm : mw.m_windowManager = some wm) (hwf : wm.WellFormed)
    (hL : d.subWindows.length ≤ 16) (hpool : d.subWindows.length ≤ wm.m_browserWidgets.length) :
    ∃ mw' wm', MainWindow.loadSubWindowsToLayout h (some d) (fuel + 1) mw = some mw' ∧
      mw'.m_windowManager = some wm' ∧
      wm' = { wm.laidOutFor d with
        m_browserWidgets :=
          MainWindow.assignSubWindows h d.subWindows (wm.laidOutFor d).m_browserWidgets } ∧
      mw'.m_loadingSubwindows = false ∧ wm'.WellFormed ∧
      wm'.m_browserWidgets.length = wm.m_browserWidgets.length ∧
      wm'.m_currentWindowCount = d.subWindows.length := by
  obtain ⟨mw', hrun, hmgr, hl, -⟩ := loadSubWindowsToLayout_run h d fuel mw wm hload hwm hwf hL
    hpool
  refine ⟨mw', _, hrun, hmgr, rfl, hl, assigned_wellFormed h wm d hwf hpool, ?_, ?_⟩
  · simp only [assignSubWindows_length]
    exact (laidOutFor_count_length wm d).2
  · exact (laidOutFor_count_length wm d).1

/-- C5: reassignment replaces a pane's data by position.  In general, for every
list `L` (`|L| ≤ 16`) whose destinations begin with `http://` or `https://`, after
`loadSubWindowsToLayout` the stored destination `getCurrentUrl()` of pane `i`
equals `L[i].url` for every `i < |L|`, whatever the pane held before.  And after
assigning the records with ids 1, 2, 3 (destinations `https://a.test`,
`https://b.test`, `https://c.test`) and then the shorter list with the record of
id 2 alone, the visible count is 1, pane 0 carries id 2, the name of id 2 and the
stored destination `https://b.test`, and panes 1 and 2 are hidden. -/
theorem reassignment_by_position (h : Host) (fuel : Nat) (mw : MainWindow)
    (wm : WindowManager) (hload : mw.m_loadingSubwindows = false)
    (hwm : mw.m_windowManager = some wm) (hwf : wm.WellFormed)
    (hpool : wm.m_browserWidgets.length = 16) :
    (∀ d : Database, d.subWindows.length ≤ 16 →
      (∀ r ∈ d.subWindows, ∃ rest : String,
        r.url = "http://" ++ rest ∨ r.url = "https://" ++ rest) →
      ∃ mw' wm', MainWindow.loadSubWindowsToLayout h (some d) (fuel + 1) mw = some mw' ∧
        mw'.m_windowManager = some wm' ∧
        ∀ (i : Nat) (r : SubWindow), d.subWindows[i]? = some r →
          ∃ w, wm'.m_browserWidgets[i]? = some w ∧ w.getCurrentUrl = r.url) ∧
    (∀ (name1 name2 name3 : String) (columns1 columns2 : Int),
      ∃ mw1 mw2 wm2,
        MainWindow.loadSubWindowsToLayout h
          (some { subWindows := [{ id := 1, name := name1, url := "https://a.test" },
                                 { id := 2, name := name2, url := "https://b.test" },
                                 { id := 3, name := name3, url := "https://c.test" }]
                  windowColumns := columns1 }) (fuel + 1) mw = some mw1 ∧
        MainWindow.loadSubWindowsToLayout h
          (some { subWindows := [{ id := 2, name := name2, url := "https://b.test" }]
                  windowColumns := columns2 }) (fuel + 1) mw1 = some mw2 ∧
        mw2.m_windowManager = some wm2 ∧
        wm2.getCurrentWindowCount = 1 ∧
        (∃ w0, wm2.m_browserWidgets[0]? = some w0 ∧ w0.getSubWindowId = 2 ∧
          w0.getSubWindowName = name2 ∧ w0.getCurrentUrl = "https://b.test") ∧
        (∃ w1, wm2.m_browserWidgets[1]? = some w1 ∧ w1.isHidden = true ∧
          w1.isVisible = false) ∧
        (∃ w2, wm2.m_browserWidgets[2]? = some w2 ∧ w2.isHidden = true ∧
          w2.isVisible = false)) := by
  have hgeneral : ∀ (mw0 : MainWindow) (wm0 : WindowManager),
      mw0.m_loadingSubwindows = false → mw0.m_windowManager = some wm0 → wm0.WellFormed →
      wm0.m_browserWidgets.length = 16 → ∀ d : Database, d.subWindows.length ≤ 16 →
      (∀ r ∈ d.subWindows, ∃ rest : String,
        r.url = "http://" ++ rest ∨ r.url = "https://" ++ rest) →
      ∃ mw' wm', MainWindow.loadSubWindowsToLayout h (some d) (fuel + 1) mw0 = some mw' ∧
        mw'.m_windowManager = some wm' ∧ mw'.m_loadingSubwindows = false ∧ wm'.WellFormed ∧
        wm'.m_browserWidgets.length = 16 ∧
        wm'.m_currentWindowCount = d.subWindows.length ∧
        (∀ (i : Nat) (r : SubWindow), d.subWindows[i]? = some r →
          ∃ w, wm'.m_browserWidgets[i]? = some w ∧ w.getSubWindowId = r.id ∧
            w.getSubWindowName = r.name ∧ w.getCurrentUrl = r.url) ∧
        (∀ (i : Nat), d.subWindows.length ≤ i → i < 16 →
          ∃ w, wm'.m_browserWidgets[i]? = some w ∧ w.isHidden = true ∧
            w.isVisible = false) := by
    intro mw0 wm0 hl0 hm0 hwf0 hp0 d hL hurls
    obtain ⟨mw', wm', hrun, hmgr, heq, hl, hwf', hlen, hcount⟩ :=
      loadSubWindowsToLayout_post h d fuel mw0 wm0 hl0 hm0 hwf0 hL (by omega)
    have hlen2 := (laidOutFor_count_length wm0 d).2
    refine ⟨mw', wm', hrun, hmgr, hl, hwf', by omega, hcount, ?_, ?_⟩
    · intro i r hr
      have hi : i < d.subWindows.length := (List.getElem?_eq_some_iff.1 hr).1
      have hiw : i < (wm0.laidOutFor d).m_browserWidgets.length := by rw [hlen2]; omega
      refine ⟨MainWindow.assignSubWindow h r (wm0.laidOutFor d).m_browserWidgets[i], ?_,
        (assignSubWindow_fields h r _).1, (assignSubWindow_fields h r _).2.1, ?_⟩
      · rw [heq]
        simp only [assignSubWindows_getElem?, hr, List.getElem?_eq_getElem hiw]
      · exact assignSubWindow_url h r _
          ((isValidUrl_iff _).2 (hurls r (List.getElem?_mem hr)))
    · intro i hi hi16
      have hiw : i < wm0.m_browserWidgets.length := by omega
      obtain ⟨w2, hw2, hv, -⟩ := laidOutFor_hidden wm0 d hwf0 (by omega) i _ hi
        (List.getElem?_eq_getElem hiw)
      refine ⟨w2, ?_, hv⟩
      have hnone : d.subWindows[i]? = none := List.getElem?_eq_none (by omega)
      rw [heq]
      simp only [assignSubWindows_getElem?, hnone, hw2]
  constructor
  · intro d hL hurls
    obtain ⟨mw', wm', hrun, hmgr, -, -, -, -, hbind, -⟩ :=
      hgeneral mw wm hload hwm hwf hpool d hL hurls
    refine ⟨mw', wm', hrun, hmgr, ?_⟩
    intro i r hr
    obtain ⟨w, hw, -, -, hu⟩ := hbind i r hr
    exact ⟨w, hw, hu⟩
  · intro name1 name2 name3 columns1 columns2
    obtain ⟨mw1, wm1, hrun1, hmgr1, hl1, hwf1, hlen1, -, -, -⟩ :=
      hgeneral mw wm hload hwm hwf hpool
        { subWindows := [{ id := 1, name := name1, url := "https://a.test" },
                         { id := 2, name := name2, url := "https://b.test" },
                         { id := 3, name := name3, url := "https://c.test" }]
          windowColumns := columns1 } (by simp)
        (by
          intro r hr
          simp only [List.mem_cons, List.mem_singleton, List.not_mem_nil, or_false] at hr
          rcases hr with rfl | rfl | rfl
          · exact ⟨"a.test", Or.inr rfl⟩
          · exact ⟨"b.test", Or.inr rfl⟩
          · exact ⟨"c.test", Or.inr rfl⟩)
    obtain ⟨mw2, wm2, hrun2, hmgr2, -, -, -, hcount2, hbind2, hhid2⟩ :=
      hgeneral mw1 wm1 hl1 hmgr1 hwf1 hlen1
        { subWindows := [{ id := 2, name := name2, url := "https://b.test" }]
          windowColumns := columns2 } (by simp)
        (by
          intro r hr
          simp only [List.mem_singleton] at hr
          subst hr
          exact ⟨"b.test", Or.inr rfl⟩)
    refine ⟨mw1, mw2, wm2, hrun1, hrun2, hmgr2, ?_, ?_, hhid2 1 (by simp) (by omega),
      hhid2 2 (by simp) (by omega)⟩
    · simpa [WindowManager.getCurrentWindowCount] using hcount2
    · exact hbind2 0 _ rfl

/-- Witness of `reassignment_by_position`: from the main window as constructed. -/
theorem reassignment_by_position_witness :
    ∃ mw' wm', MainWindow.loadSubWindowsToLayout
        { cookieFile := fun _ => none, fromJsonArray := fun _ => none, primaryScreen := none }
        (some { subWindows := [{ id := 7, name := "News", url := "http://news.test/x" }]
                windowColumns := 3 }) 1 MainWindow.create = some mw' ∧
      mw'.m_windowManager = some wm' ∧
      ∃ w, wm'.m_browserWidgets[0]? = some w ∧ w.getCurrentUrl = "http://news.test/x" := by
  obtain ⟨mw', wm', h1, h2, h3⟩ := (reassignment_by_position
    { cookieFile := fun _ => none, fromJsonArray := fun _ => none, primaryScreen := none }
    0 MainWindow.create (WindowManager.constructed.laidOut 2 0)
    rfl create_eq (by decide) (by decide)).1
    { subWindows := [{ id := 7, name := "News", url := "http://news.test/x" }]
      windowColumns := 3 } (by decide)
    (by
      intro r hr
      simp only [List.mem_singleton] at hr
      subst hr
      exact ⟨"news.test/x", Or.inl rfl⟩)
  exact ⟨mw', wm', h1, h2, h3 0 _ rfl⟩

/-! ## Theorems: running the assignment twice -/

/-- Each pane after `updateLayout` is the pane before it, placed or hidden. -/
theorem laidOut_step (wm : WindowManager) (c n : Nat)
    (hn : n ≤ wm.m_browserWidgets.length) (i : Nat) (w : BrowserWidget)
    (hw : wm.m_browserWidgets[i]? = some w) :
    (wm.laidOut c n).m_browserWidgets[i]? = some (WindowManager.placeWidget c w) ∨
    (wm.laidOut c n).m_browserWidgets[i]? = some w.hide := by
  rw [laidOut_getElem? _ _ _ _ hn, hw]
  by_cases hi : i < n
  · left; simp [hi]
  · right; simp [hi]

/-- A relation between panes that holds across placing and hiding a pane holds
across the layout calls of `loadSubWindowsToLayout`. -/
theorem laidOutFor_pointwise (R : BrowserWidget → BrowserWidget → Prop)
    (hrefl : ∀ w, R w w) (htrans : ∀ a b c, R a b → R b c → R a c)
    (hplace : ∀ (c : Int) (w : BrowserWidget), R w (WindowManager.placeWidget c w))
    (hhide : ∀ w : BrowserWidget, R w w.hide)
    (wm : WindowManager) (d : Database) (hwf : wm.WellFormed)
    (hpool : d.subWindows.length ≤ wm.m_browserWidgets.length)
    (i : Nat) (w : BrowserWidget) (hw : wm.m_browserWidgets[i]? = some w) :
    ∃ w2, (wm.laidOutFor d).m_browserWidgets[i]? = some w2 ∧ R w w2 := by
  have hrelaid : ∀ (wm0 : WindowManager) (n : Nat) (w0 : BrowserWidget),
      n ≤ wm0.m_browserWidgets.length → wm0.m_browserWidgets[i]? = some w0 →
      ∃ w2, (wm0.relaid n).m_browserWidgets[i]? = some w2 ∧ R w0 w2 := by
    intro wm0 n w0 hn hw0
    unfold WindowManager.relaid
    split
    · exact ⟨w0, hw0, hrefl w0⟩
    · rcases laidOut_step wm0 wm0.m_columnCount.toNat n hn i w0 hw0 with h1 | h1
      · exact ⟨_, h1, hplace _ _⟩
      · exact ⟨_, h1, hhide _⟩
  have hrecol : ∃ w1, (wm.recolumned d.windowColumns).m_browserWidgets[i]? = some w1 ∧
      R w w1 := by
    unfold WindowManager.recolumned
    split
    · exact ⟨w, hw, hrefl w⟩
    · obtain ⟨-, -, h0, hle, -, -⟩ := hwf
      rcases laidOut_step wm d.windowColumns.toNat wm.m_currentWindowCount.toNat
        (by omega) i w hw with h1 | h1
      · exact ⟨_, h1, hplace _ _⟩
      · exact ⟨_, h1, hhide _⟩
  unfold WindowManager.laidOutFor
  split
  · exact hrelaid wm 0 w (by omega) hw
  · obtain ⟨w1, hw1, r1⟩ := hrecol
    obtain ⟨w2, hw2, r2⟩ := hrelaid (wm.recolumned d.windowColumns) d.subWindows.length w1
      (by rw [recolumned_length]; exact hpool) hw1
    exact ⟨w2, hw2, htrans _ _ _ r1 r2⟩

/-- Placing a pane that is marked loaded schedules and dispatches no load and
keeps its stored destination. -/
theorem placeWidget_loaded (c : Int) (w : BrowserWidget) (hl : w.m_isLoaded = true) :
    (WindowManager.placeWidget c w).m_isLoaded = true ∧
    (WindowManager.placeWidget c w).loadTimers = w.loadTimers ∧
    (WindowManager.placeWidget c w).surfaceLoads = w.surfaceLoads ∧
    (WindowManager.placeWidget c w).m_currentUrl = w.m_currentUrl :=
  ⟨hl, rfl, rfl, rfl⟩

/-- The loop body of `loadSubWindowsToLayout`, on a pane that is marked loaded
and whose stored destination is the record's (as given or normalised), schedules
and dispatches no load. -/
theorem assignSubWindow_loaded (h : Host) (r : SubWindow) (w : BrowserWidget)
    (hl : w.m_isLoaded = true)
    (hu : w.m_currentUrl = r.url ∨ w.m_currentUrl = BrowserWidget.formatUrl r.url) :
    (MainWindow.assignSubWindow h r w).m_isLoaded = true ∧
    (MainWindow.assignSubWindow h r w).loadTimers = w.loadTimers ∧
    (MainWindow.assignSubWindow h r w).surfaceLoads = w.surfaceLoads ∧
    (MainWindow.assignSubWindow h r w).m_currentUrl = w.m_currentUrl := by
  have hid := setSubWindowId_frame h w r.id
  have f1 := congrArg BrowserWidget.m_isLoaded hid
  have f2 := congrArg BrowserWidget.loadTimers hid
  have f3 := congrArg BrowserWidget.surfaceLoads hid
  have f4 := congrArg BrowserWidget.m_currentUrl hid
  simp only [] at f1 f2 f3 f4
  have hname : (w.setSubWindowId h r.id).setSubWindowName r.name =
      { w.setSubWindowId h r.id with
        m_subWindowName := r.name
        nameLabelText := if r.name.isEmpty then "子窗口" else r.name } := by
    unfold BrowserWidget.setSubWindowName
    simp [f1, hl]
  unfold MainWindow.assignSubWindow
  simp only [hname, BrowserWidget.getCurrentUrl]
  split
  · rename_i hne
    have hfmt : w.m_currentUrl = BrowserWidget.formatUrl r.url := by
      rcases hu with hu | hu
      · exact absurd (f4.trans hu) hne
      · exact hu
    unfold BrowserWidget.loadUrl
    simp [f1, f2, f3, f4, hl, hfmt]
  · simp [f1, f2, f3, f4, hl]

/-- `loadUrl` on a pane that is not visible schedules and dispatches nothing. -/
theorem loadUrl_invisible (w : BrowserWidget) (u : String) (hv : w.visible = false) :
    (w.loadUrl u).loadTimers = w.loadTimers ∧ (w.loadUrl u).surfaceLoads = w.surfaceLoads := by
  by_cases h1 : w.m_isLoaded = true ∧ w.m_currentUrl = BrowserWidget.formatUrl u
  · simp [BrowserWidget.loadUrl, h1]
  · simp [BrowserWidget.loadUrl, h1, BrowserWidget.isVisible, hv]

/-- The loop body of `loadSubWindowsToLayout`, on a pane that is not visible,
schedules and dispatches no load. -/
theorem assignSubWindow_invisible (h : Host) (r : SubWindow) (w : BrowserWidget)
    (hv : w.visible = false) :
    (MainWindow.assignSubWindow h r w).loadTimers = w.loadTimers ∧
    (MainWindow.assignSubWindow h r w).surfaceLoads = w.surfaceLoads := by
  have hid := setSubWindowId_frame h w r.id
  have f1 := congrArg BrowserWidget.visible hid
  have f2 := congrArg BrowserWidget.loadTimers hid
  have f3 := congrArg BrowserWidget.surfaceLoads hid
  simp only [] at f1 f2 f3
  have hname : ∀ w1 : BrowserWidget, w1.visible = false →
      (w1.setSubWindowName r.name).visible = false ∧
      (w1.setSubWindowName r.name).loadTimers = w1.loadTimers ∧
      (w1.setSubWindowName r.name).surfaceLoads = w1.surfaceLoads := by
    intro w1 h1
    unfold BrowserWidget.setSubWindowName
    simp only []
    split
    · have a := loadUrl_invisible
        { w1 with m_subWindowName := r.name
                  nameLabelText := if r.name.isEmpty then "子窗口" else r.name }
        w1.m_currentUrl h1
      have b := (loadUrl_frame
        { w1 with m_subWindowName := r.name
                  nameLabelText := if r.name.isEmpty then "子窗口" else r.name }
        w1.m_currentUrl).2.2.2.1
      exact ⟨b.trans h1, a.1, a.2⟩
    · exact ⟨h1, rfl, rfl⟩
  obtain ⟨n1, n2, n3⟩ := hname (w.setSubWindowId h r.id) (f1.trans hv)
  unfold MainWindow.assignSubWindow
  simp only []
  split
  · obtain ⟨a1, a2⟩ := loadUrl_invisible _ r.url n1
    exact ⟨a1.trans (n2.trans f2), a2.trans (n3.trans f3)⟩
  · exact ⟨n2.trans f2, n3.trans f3⟩

/-- The layout calls of `loadSubWindowsToLayout` keep the pending and the
dispatched loads of every pane, and make no pane visible. -/
theorem laidOutFor_loads (wm : WindowManager) (d : Database) (hwf : wm.WellFormed)
    (hpool : d.subWindows.length ≤ wm.m_browserWidgets.length)
    (i : Nat) (w : BrowserWidget) (hw : wm.m_browserWidgets[i]? = some w) :
    ∃ w2, (wm.laidOutFor d).m_browserWidgets[i]? = some w2 ∧
      w2.loadTimers = w.loadTimers ∧ w2.surfaceLoads = w.surfaceLoads ∧
      (w2.visible = true → w.visible = true) :=
  laidOutFor_pointwise
    (fun a b => b.loadTimers = a.loadTimers ∧ b.surfaceLoads = a.surfaceLoads ∧
      (b.visible = true → a.visible = true))
    (fun _ => ⟨rfl, rfl, id⟩)
    (fun _ _ _ hab hbc => ⟨hbc.1.trans hab.1, hbc.2.1.trans hab.2.1,
      fun hv => hab.2.2 (hbc.2.2 hv)⟩)
    (fun _ _ => ⟨rfl, rfl, fun hv => absurd hv (by simp [(placeWidget_loads _ _).1])⟩)
    (fun _ => ⟨rfl, rfl, fun hv => absurd hv (by simp [BrowserWidget.hide])⟩)
    wm d hwf hpool i w hw

/-- No pane is visible when `updateLayout` returns. -/
theorem laidOut_invisible (wm : WindowManager) (c n i : Nat)
    (hn : n ≤ wm.m_browserWidgets.length) (w : BrowserWidget)
    (hw : (wm.laidOut c n).m_browserWidgets[i]? = some w) : w.visible = false := by
  rw [laidOut_getElem? _ _ _ _ hn] at hw
  cases hu : wm.m_browserWidgets[i]? with
  | none => rw [hu] at hw; cases hw
  | some u =>
    rw [hu] at hw
    simp only [Option.map_some', Option.some.injEq] at hw
    subst hw
    split <;> rfl

/-- With a column setting from 1 to 3 and at least one record, the layout calls of
`loadSubWindowsToLayout` rebuild the grid: no pane is visible when they
return. -/
theorem laidOutFor_invisible (wm : WindowManager) (d : Database) (hwf : wm.WellFormed)
    (hcols : 1 ≤ d.windowColumns ∧ d.windowColumns ≤ 3) (hne : d.subWindows.length ≠ 0)
    (hpool : d.subWindows.length ≤ wm.m_browserWidgets.length)
    (i : Nat) (w : BrowserWidget) (hw : (wm.laidOutFor d).m_browserWidgets[i]? = some w) :
    w.visible = false := by
  have hrecol : ∀ (j : Nat) (u : BrowserWidget),
      (wm.recolumned d.windowColumns).m_browserWidgets[j]? = some u → u.visible = false := by
    intro j u hu
    obtain ⟨-, -, h0, hle, -, -⟩ := hwf
    unfold WindowManager.recolumned at hu
    rw [if_neg (by omega)] at hu
    exact laidOut_invisible wm _ _ j (by omega) u hu
  unfold WindowManager.laidOutFor at hw
  rw [if_neg hne] at hw
  unfold WindowManager.relaid at hw
  split at hw
  · exact hrecol i w hw
  · exact laidOut_invisible _ _ _ i (by rw [recolumned_length]; exact hpool) w hw

/-- C6, as stated, fails.  The main window as constructed runs
`loadSubWindowsToLayout` on one record, with a column setting that
`setColumnCount` rejects; the event loop then shows the row, so that pane 0 is
visible and its `showEvent` schedules the load.  Two further runs on the same
list, in a row, find the count unchanged and rebuild nothing: pane 0 stays
visible, it is not marked loaded, and `setSubWindowName` replays its stored
destination.  The bindings after the second of these runs are those after the
first, the stored destination of pane 0 equals its record's destination before
and after each run, and yet the second run schedules one more dispatch to
pane 0. -/
theorem second_run_schedules_another_dispatch :
    (exampleShown.pool.map fun w =>
      (w.getSubWindowId, w.getCurrentUrl, w.isVisible, w.loadTimers)).take 1 =
      [(1, "https://a.test", true, ["https://a.test"])] ∧
    (MainWindow.loadSubWindowsToLayout exampleHost (some rejectedColumnsStore) 1
      exampleShown).map
      (fun m => (m.pool.map fun w =>
        (w.getSubWindowId, w.getCurrentUrl, w.isVisible, w.loadTimers)).take 1) =
      some [(1, "https://a.test", true, ["https://a.test", "https://a.test"])] ∧
    ((MainWindow.loadSubWindowsToLayout exampleHost (some rejectedColumnsStore) 1
      exampleShown).bind
        (MainWindow.loadSubWindowsToLayout exampleHost (some rejectedColumnsStore) 1)).map
      (fun m => (m.pool.map fun w =>
        (w.getSubWindowId, w.getCurrentUrl, w.isVisible, w.loadTimers)).take 1) =
      some [(1, "https://a.test", true,
        ["https://a.test", "https://a.test", "https://a.test"])] := by
  decide

/-- With a column setting from 1 to 3 every run of `loadSubWindowsToLayout`
rebuilds the grid, and a pane receives `showEvent` again when its new row is
shown: a pane whose load has not finished when the second run is made has its
stored destination scheduled a second time, not by the run but by the show event
that follows it. -/
theorem rebuilt_row_schedules_on_show :
    (exampleAssigned.pool.map fun w => (w.getCurrentUrl, w.isVisible, w.loadTimers)).take 1 =
      [("https://a.test", true, ["https://a.test"])] ∧
    (MainWindow.loadSubWindowsToLayout exampleHost (some exampleStore) 1 exampleAssigned).map
      (fun m => (m.pool.map fun w => (w.getCurrentUrl, w.isVisible, w.loadTimers)).take 1) =
      some [("https://a.test", false, ["https://a.test"])] ∧
    (MainWindow.loadSubWindowsToLayout exampleHost (some exampleStore) 1 exampleAssigned).map
      (fun m => (m.showRows.pool.map fun w =>
        (w.getCurrentUrl, w.isVisible, w.loadTimers)).take 1) =
      some [("https://a.test", true, ["https://a.test", "https://a.test"])] := by
  decide

/-- C6, amended: `loadSubWindowsToLayout` is idempotent on the bindings: for every
ordered list `L` (`|L| ≤ 16`), running it twice in a row on `L` leaves the same
logical id and the same name on every pane after the second run as after the
first.  The second run schedules and dispatches no load on a pane that is not
visible when it starts, nor on a pane that is marked loaded and whose stored
destination equals its record's destination (as given or normalised).  With a
column setting from 1 to 3 the second run rebuilds the grid before it assigns
the records, no pane is visible in its loop, and it schedules and dispatches no
load on any pane. -/
theorem loadSubWindowsToLayout_idempotent (h : Host) (d : Database) (fuel : Nat)
    (mw : MainWindow) (wm : WindowManager) (hload : mw.m_loadingSubwindows = false)
    (hwm : mw.m_windowManager = some wm) (hwf : wm.WellFormed)
    (hL : d.subWindows.length ≤ 16) (hpool : wm.m_browserWidgets.length = 16) :
    ∃ mw1 mw2 wm1 wm2,
      MainWindow.loadSubWindowsToLayout h (some d) (fuel + 1) mw = some mw1 ∧
      MainWindow.loadSubWindowsToLayout h (some d) (fuel + 1) mw1 = some mw2 ∧
      mw1.m_windowManager = some wm1 ∧ mw2.m_windowManager = some wm2 ∧
      wm2.m_browserWidgets.map (fun w => w.getSubWindowId) =
        wm1.m_browserWidgets.map (fun w => w.getSubWindowId) ∧
      wm2.m_browserWidgets.map (fun w => w.getSubWindowName) =
        wm1.m_browserWidgets.map (fun w => w.getSubWindowName) ∧
      (∀ (i : Nat) (w1 : BrowserWidget), wm1.m_browserWidgets[i]? = some w1 →
        w1.isVisible = false →
        ∃ w2, wm2.m_browserWidgets[i]? = some w2 ∧ w2.loadTimers = w1.loadTimers ∧
          w2.surfaceLoads = w1.surfaceLoads) ∧
      (∀ (i : Nat) (r : SubWindow) (w1 : BrowserWidget), d.subWindows[i]? = some r →
        wm1.m_browserWidgets[i]? = some w1 → w1.m_isLoaded = true →
        (w1.getCurrentUrl = r.url ∨ w1.getCurrentUrl = BrowserWidget.formatUrl r.url) →
        ∃ w2, wm2.m_browserWidgets[i]? = some w2 ∧ w2.loadTimers = w1.loadTimers ∧
          w2.surfaceLoads = w1.surfaceLoads) ∧
      (1 ≤ d.windowColumns ∧ d.windowColumns ≤ 3 →
        wm2.m_browserWidgets.map (fun w => (w.loadTimers, w.surfaceLoads)) =
          wm1.m_browserWidgets.map (fun w => (w.loadTimers, w.surfaceLoads))) := by
  obtain ⟨mw1, wm1, hrun1, hmgr1, heq1, hl1, hwf1, hlen1, -⟩ :=
    loadSubWindowsToLayout_post h d fuel mw wm hload hwm hwf hL (by omega)
  obtain ⟨mw2, wm2, hrun2, hmgr2, heq2, -, -, hlen2, -⟩ :=
    loadSubWindowsToLayout_post h d fuel mw1 wm1 hl1 hmgr1 hwf1 hL (by omega)
  have hlenA := (laidOutFor_count_length wm d).2
  have hlenB := (laidOutFor_count_length wm1 d).2
  -- every pane of the first run's result, followed through the second run
  have hpane : ∀ (i : Nat) (w1 : BrowserWidget), wm1.m_browserWidgets[i]? = some w1 →
      ∃ w2, wm2.m_browserWidgets[i]? = some w2 ∧
        w2.m_subWindowId = w1.m_subWindowId ∧ w2.m_subWindowName = w1.m_subWindowName := by
    intro i w1 hw1
    have hi1 : i < wm1.m_browserWidgets.length := (List.getElem?_eq_some_iff.1 hw1).1
    by_cases hi : i < d.subWindows.length
    · have hiA : i < (wm.laidOutFor d).m_browserWidgets.length := by rw [hlenA]; omega
      have hiB : i < (wm1.laidOutFor d).m_browserWidgets.length := by rw [hlenB]; omega
      have e1 : w1 = MainWindow.assignSubWindow h d.subWindows[i]
          (wm.laidOutFor d).m_browserWidgets[i] := by
        have := hw1
        rw [heq1] at this
        simp only [assignSubWindows_getElem?, List.getElem?_eq_getElem hi,
          List.getElem?_eq_getElem hiA, Option.some.injEq] at this
        exact this.symm
      refine ⟨MainWindow.assignSubWindow h d.subWindows[i]
        (wm1.laidOutFor d).m_browserWidgets[i], ?_, ?_, ?_⟩
      · rw [heq2]
        simp only [assignSubWindows_getElem?, List.getElem?_eq_getElem hi,
          List.getElem?_eq_getElem hiB]
      · rw [e1, (assignSubWindow_fields h _ _).1, (assignSubWindow_fields h _ _).1]
      · rw [e1, (assignSubWindow_fields h _ _).2.1, (assignSubWindow_fields h _ _).2.1]
    · obtain ⟨w2, hw2, -, e1, e2, -⟩ :=
        laidOutFor_hidden wm1 d hwf1 (by omega) i w1 (by omega) hw1
      refine ⟨w2, ?_, e1, e2⟩
      have hnone : d.subWindows[i]? = none := List.getElem?_eq_none (by omega)
      rw [heq2]
      simp only [assignSubWindows_getElem?, hnone, hw2]
  -- the loads of a pane that is not visible when the loop of the second run reaches it
  have hquiet : ∀ (i : Nat) (w1 : BrowserWidget), wm1.m_browserWidgets[i]? = some w1 →
      (∀ wB, (wm1.laidOutFor d).m_browserWidgets[i]? = some wB → i < d.subWindows.length →
        wB.visible = false) →
      ∃ w2, wm2.m_browserWidgets[i]? = some w2 ∧ w2.loadTimers = w1.loadTimers ∧
        w2.surfaceLoads = w1.surfaceLoads := by
    intro i w1 hw1 hinv
    obtain ⟨wB, hwB, b1, b2, -⟩ := laidOutFor_loads wm1 d hwf1 (by omega) i w1 hw1
    cases hr : d.subWindows[i]? with
    | none =>
      refine ⟨wB, ?_, b1, b2⟩
      rw [heq2]
      simp only [assignSubWindows_getElem?, hr, hwB]
    | some r =>
      have hi : i < d.subWindows.length := (List.getElem?_eq_some_iff.1 hr).1
      obtain ⟨c1, c2⟩ := assignSubWindow_invisible h r wB (hinv wB hwB hi)
      refine ⟨MainWindow.assignSubWindow h r wB, ?_, c1.trans b1, c2.trans b2⟩
      rw [heq2]
      simp only [assignSubWindows_getElem?, hr, hwB]
  refine ⟨mw1, mw2, wm1, wm2, hrun1, hrun2, hmgr1, hmgr2, ?_, ?_, ?_, ?_, ?_⟩
  · apply List.ext_getElem?
    intro i
    simp only [List.getElem?_map]
    cases hw1 : wm1.m_browserWidgets[i]? with
    | none =>
      have : wm2.m_browserWidgets[i]? = none := by
        rw [List.getElem?_eq_none_iff] at hw1 ⊢
        omega
      simp [this]
    | some w1 =>
      obtain ⟨w2, hw2, e1, -⟩ := hpane i w1 hw1
      simp [hw2, BrowserWidget.getSubWindowId, e1]
  · apply List.ext_getElem?
    intro i
    simp only [List.getElem?_map]
    cases hw1 : wm1.m_browserWidgets[i]? with
    | none =>
      have : wm2.m_browserWidgets[i]? = none := by
        rw [List.getElem?_eq_none_iff] at hw1 ⊢
        omega
      simp [this]
    | some w1 =>
      obtain ⟨w2, hw2, -, e2⟩ := hpane i w1 hw1
      simp [hw2, BrowserWidget.getSubWindowName, e2]
  · intro i w1 hw1 hv
    apply hquiet i w1 hw1
    intro wB hwB _
    obtain ⟨wB', hwB', -, -, hmono⟩ := laidOutFor_loads wm1 d hwf1 (by omega) i w1 hw1
    rw [hwB] at hwB'
    cases hwB'
    cases hvB : wB.visible with
    | false => rfl
    | true =>
      have := hmono hvB
      simp only [BrowserWidget.isVisible] at hv
      rw [hv] at this
      cases this
  · intro i r w1 hr hw1 hloaded hurl
    have hi : i < d.subWindows.length := (List.getElem?_eq_some_iff.1 hr).1
    obtain ⟨wB, hwB, hR⟩ := laidOutFor_pointwise
      (fun a b => a.m_isLoaded = true → b.m_isLoaded = true ∧ b.loadTimers = a.loadTimers ∧
        b.surfaceLoads = a.surfaceLoads ∧ b.m_currentUrl = a.m_currentUrl)
      (fun w _ => ⟨by assumption, rfl, rfl, rfl⟩)
      (fun a b c hab hbc ha => by
        obtain ⟨b1, b2, b3, b4⟩ := hab ha
        obtain ⟨c1, c2, c3, c4⟩ := hbc b1
        exact ⟨c1, c2.trans b2, c3.trans b3, c4.trans b4⟩)
      (fun c w hw => placeWidget_loaded c w hw)
      (fun w hw => by simp [BrowserWidget.hide, hw])
      wm1 d hwf1 (by omega) i w1 hw1
    obtain ⟨b1, b2, b3, b4⟩ := hR hloaded
    have hurlB : wB.m_currentUrl = r.url ∨ wB.m_currentUrl = BrowserWidget.formatUrl r.url := by
      rw [b4]; exact hurl
    obtain ⟨-, c2, c3, -⟩ := assignSubWindow_loaded h r wB b1 hurlB
    refine ⟨MainWindow.assignSubWindow h r wB, ?_, c2.trans b2, c3.trans b3⟩
    rw [heq2]
    simp only [assignSubWindows_getElem?, hr, hwB]
  · intro hcols
    apply List.ext_getElem?
    intro i
    simp only [List.getElem?_map]
    cases hw1 : wm1.m_browserWidgets[i]? with
    | none =>
      have : wm2.m_browserWidgets[i]? = none := by
        rw [List.getElem?_eq_none_iff] at hw1 ⊢
        omega
      simp [this]
    | some w1 =>
      obtain ⟨w2, hw2, e1, e2⟩ := hquiet i w1 hw1 (fun wB hwB hi =>
        laidOutFor_invisible wm1 d hwf1 hcols (by omega) (by omega) i wB hwB)
      simp [hw2, e1, e2]

/-- Witness of `loadSubWindowsToLayout_idempotent`: the main window whose first
pane is visible and has the load of its record scheduled; two further runs on
the same list, with two columns, leave that pane bound to its record with the
one load scheduled and none dispatched. -/
theorem loadSubWindowsToLayout_idempotent_witness :
    ∃ mw1 mw2 wm2,
      MainWindow.loadSubWindowsToLayout exampleHost (some exampleStore) 1 exampleAssigned =
        some mw1 ∧
      MainWindow.loadSubWindowsToLayout exampleHost (some exampleStore) 1 mw1 = some mw2 ∧
      mw2.m_windowManager = some wm2 ∧
      ∃ w2, wm2.m_browserWidgets[0]? = some w2 ∧ w2.getSubWindowId = 1 ∧
        w2.loadTimers = ["https://a.test"] ∧ w2.surfaceLoads = [] := by
  obtain ⟨mw1, mw2, wm1, wm2, h1, h2, h3, h4, h5, -, -, -, h9⟩ :=
    loadSubWindowsToLayout_idempotent exampleHost exampleStore 0 exampleAssigned
      (exampleAssigned.m_windowManager.getD WindowManager.constructed)
      (by decide) (by decide) (by decide) (by decide) (by decide)
  have hmw1 : mw1 = (MainWindow.loadSubWindowsToLayout exampleHost (some exampleStore) 1
      exampleAssigned).getD MainWindow.create := by rw [h1]; rfl
  have hwm1 : wm1 = (((MainWindow.loadSubWindowsToLayout exampleHost (some exampleStore) 1
      exampleAssigned).getD MainWindow.create).m_windowManager).getD
        WindowManager.constructed := by
    rw [← hmw1, h3]; rfl
  have hfirst : ∃ w1, wm1.m_browserWidgets[0]? = some w1 ∧
      w1.loadTimers = ["https://a.test"] ∧ w1.surfaceLoads = [] ∧ w1.getSubWindowId = 1 := by
    rw [hwm1]
    decide
  obtain ⟨w1, hw1, ht, hs, hid⟩ := hfirst
  have hlen : 0 < wm2.m_browserWidgets.length := by
    have := congrArg List.length h5
    simp only [List.length_map] at this
    rw [this]
    exact (List.getElem?_eq_some_iff.1 hw1).1
  have hloads := congrArg (fun l => l[0]?) (h9 (by decide))
  have hids := congrArg (fun l => l[0]?) h5
  simp only [List.getElem?_map, hw1, List.getElem?_eq_getElem hlen, Option.map_some',
    Option.some.injEq, Prod.mk.injEq] at hloads hids
  exact ⟨mw1, mw2, wm2, h1, h2, h4, wm2.m_browserWidgets[0], List.getElem?_eq_getElem hlen,
    by rw [hids, hid], by rw [hloads.1, ht], by rw [hloads.2, hs]⟩

/-! ## Theorems: the fullscreen round trip -/

/-- A method call through a pane pointer, read at a pool index. -/
theorem updateWidget_getElem? (wm : WindowManager) (id : Nat)
    (f : BrowserWidget → BrowserWidget) (i : Nat) :
    (wm.updateWidget id f).m_browserWidgets[i]? =
      (wm.m_browserWidgets[i]?).map fun w => if w.objectId = id then f w else w := by
  simp [WindowManager.updateWidget, List.getElem?_map]

/-- A method call that keeps the identity of the pane keeps the identities of the
pool. -/
theorem updateWidget_ids (wm : WindowManager) (id : Nat) (f : BrowserWidget → BrowserWidget)
    (hf : ∀ w, (f w).objectId = w.objectId) :
    (wm.updateWidget id f).m_browserWidgets.map (fun w => w.objectId) =
      wm.m_browserWidgets.map fun w => w.objectId := by
  simp only [WindowManager.updateWidget, List.map_map]
  apply List.map_congr_left
  intro w _
  simp only [Function.comp]
  split
  · exact hf w
  · rfl

/-- Putting back an element at the only index it had, after all its occurrences
were filtered out, restores the list. -/
theorem filter_insertIdx_restore {α : Type} [DecidableEq α] (x : α) :
    ∀ (xs : List α) (k : Nat), xs[k]? = some x → (∀ j, xs[j]? = some x → j = k) →
      (xs.filter fun a => a != x).insertIdx k x = xs := by
  intro xs
  induction xs with
  | nil => intro k hk; simp at hk
  | cons y ys ih =>
    intro k hk huniq
    cases k with
    | zero =>
      simp only [List.getElem?_cons_zero, Option.some.injEq] at hk
      subst hk
      have hnot : ∀ a ∈ ys, (a != y) = true := by
        intro a ha
        obtain ⟨j, hj, rfl⟩ := List.getElem_of_mem ha
        have := huniq (j + 1)
        by_contra hne
        simp only [bne_iff_ne, ne_eq, not_not] at hne
        have h0 := this (by simp [List.getElem?_eq_getElem hj, hne])
        omega
      simp [List.filter_eq_self.2 hnot]
    | succ k =>
      have hy : y ≠ x := by
        intro hyx
        have := huniq 0 (by simp [hyx])
        omega
      simp only [List.getElem?_cons_succ] at hk
      have := ih k hk (fun j hj => by
        have := huniq (j + 1) (by simpa using hj)
        omega)
      simp [List.filter_cons, hy, this]

/-- In a pool whose panes have distinct identities, a pane's identity determines
its index. -/
theorem pool_index_unique (pool : List BrowserWidget)
    (hids : (pool.map fun w => w.objectId).Nodup) (a p : Nat) (u w : BrowserWidget)
    (ha : pool[a]? = some u) (hp : pool[p]? = some w) (h : u.objectId = w.objectId) :
    a = p := by
  obtain ⟨ha1, ha2⟩ := List.getElem?_eq_some_iff.1 ha
  obtain ⟨hp1, hp2⟩ := List.getElem?_eq_some_iff.1 hp
  have ha3 : a < (pool.map fun w => w.objectId).length := by simpa using ha1
  have hp3 : p < (pool.map fun w => w.objectId).length := by simpa using hp1
  exact (@List.Nodup.getElem_inj_iff _ _ hids a ha3 p hp3).1 (by simp [ha2, hp2, h])

/-- The pane at column `j` of row `r` of the grid for `c` columns and `n` visible
panes is the pane at pool index `r * c + j`. -/
theorem slice_getElem? (pool : List BrowserWidget) (c n r j : Nat) :
    (((pool.take n).drop (r * c)).take c)[j]? =
      if j < c ∧ r * c + j < n then pool[r * c + j]? else none := by
  simp only [List.getElem?_take, List.getElem?_drop]
  by_cases h1 : j < c <;> by_cases h2 : r * c + j < n <;> simp [h1, h2]

/-- An item of a row that is a pane is one of the row's panes, at the same
index. -/
theorem row_items_widget (S : List BrowserWidget) (j id : Nat) :
    (S.map (fun w => RowItem.widget w.objectId) ++ [RowItem.stretch])[j]? =
        some (RowItem.widget id) ↔
      ∃ u, S[j]? = some u ∧ u.objectId = id := by
  by_cases hlen : j < S.length
  · rw [List.getElem?_append_left (by rw [List.length_map]; exact hlen), List.getElem?_map,
      List.getElem?_eq_getElem hlen]
    simp
  · have hnone : S[j]? = none := List.getElem?_eq_none (by omega)
    rw [List.getElem?_append_right (by rw [List.length_map]; omega), hnone]
    cases hk : j - (S.map (fun w => RowItem.widget w.objectId)).length with
    | zero => simp
    | succ k => simp

/-- The items of row `r` of the grid, with the facts about where a pane of a
pool with distinct identities occurs in them: at column `p % c` of row `p / c`
and nowhere else. -/
theorem grid_row_occurrence (pool : List BrowserWidget) (c n p : Nat) (w : BrowserWidget)
    (hc1 : 1 ≤ c) (hp : p < n) (hids : (pool.map fun w => w.objectId).Nodup)
    (hw : pool[p]? = some w) (r j : Nat) :
    (((((pool.take n).drop (r * c)).take c).map (fun w => RowItem.widget w.objectId) ++
        [RowItem.stretch])[j]? = some (RowItem.widget w.objectId)) ↔
      r = p / c ∧ j = p % c := by
  have hdiv : p / c * c + p % c = p := Nat.div_add_mod' p c
  have hmod : p % c < c := Nat.mod_lt _ (by omega)
  rw [row_items_widget]
  constructor
  · rintro ⟨u, hs, hj⟩
    rw [slice_getElem?] at hs
    split at hs
    · rename_i hcond
      have := pool_index_unique pool hids _ _ u w hs hw hj
      have h1 : (r * c + j) / c = r := by
        rw [Nat.mul_comm, Nat.mul_add_div (by omega), Nat.div_eq_of_lt hcond.1]; omega
      have h2 : (r * c + j) % c = j := by
        rw [Nat.mul_comm, Nat.mul_add_mod, Nat.mod_eq_of_lt hcond.1]
      rw [this] at h1 h2
      exact ⟨h1.symm, h2.symm⟩
    · simp at hs
  · rintro ⟨rfl, rfl⟩
    refine ⟨w, ?_, rfl⟩
    rw [slice_getElem?, if_pos ⟨hmod, by omega⟩, hdiv, hw]

/-- The items of the grid `updateLayout` builds, by index: the row containers,
then the stretch. -/
theorem grid_getElem? (pool : List BrowserWidget) (c n R i : Nat) :
    ((List.range R).map (WindowManager.rowContainerOf pool c n) ++ [VItem.stretch])[i]? =
      if i < R then some (WindowManager.rowContainerOf pool c n i)
      else if i = R then some VItem.stretch else none := by
  by_cases h1 : i < R
  · rw [List.getElem?_append_left (by simpa using h1), List.getElem?_map,
      List.getElem?_range h1, if_pos h1]
    rfl
  · rw [List.getElem?_append_right (by simp; omega), if_neg h1]
    simp only [List.length_map, List.length_range]
    by_cases h2 : i = R
    · simp [h2]
    · rw [if_neg h2]
      have : i - R = (i - R - 1) + 1 := by omega
      rw [this]
      simp

/-- Taking a pane out of the grid and inserting it again at the row and column of
its pool index restores the grid; the direct items of the vertical layout hold no
pane, so `detachWidgetFromLayout` leaves the grid as it is. -/
theorem grid_round_trip (wm : WindowManager) (c n p : Nat) (w : BrowserWidget)
    (hc1 : 1 ≤ c) (hp : p < n)
    (hids : (wm.m_browserWidgets.map fun w => w.objectId).Nodup)
    (hw : wm.m_browserWidgets[p]? = some w)
    (hgrid : wm.verticalLayout = (wm.laidOut c n).verticalLayout) :
    (wm.detachWidgetFromLayout w.objectId).verticalLayout = wm.verticalLayout ∧
    (((wm.takeOutOfRows w.objectId).takeOutOfRows w.objectId).verticalLayout.modify
      (VItem.insertWidget ((p % c : Nat) : Int) w.objectId) (p / c)) = wm.verticalLayout ∧
    (∃ items, (wm.takeOutOfRows w.objectId).verticalLayout[p / c]? =
      some (VItem.rowContainer items)) ∧
    p / c < wm.verticalLayout.length := by
  have hn0 : n ≠ 0 := by omega
  have hL : wm.verticalLayout = (List.range ((n + c - 1) / c)).map
      (WindowManager.rowContainerOf wm.m_browserWidgets c n) ++ [VItem.stretch] := by
    rw [hgrid]
    simp [WindowManager.laidOut, hn0]
  have hrow : p / c < (n + c - 1) / c := by
    rw [Nat.div_lt_iff_lt_mul (by omega)]
    have h1 : n ≤ (n + c - 1) / c * c := by
      have := Nat.div_add_mod (n + c - 1) c
      have := Nat.mod_lt (n + c - 1) (show 0 < c by omega)
      have := Nat.mul_comm c ((n + c - 1) / c)
      omega
    omega
  refine ⟨?_, ?_, ?_, ?_⟩
  · simp only [WindowManager.detachWidgetFromLayout]
    rw [List.filter_eq_self]
    intro a ha
    rw [hL] at ha
    simp only [List.mem_append, List.mem_map, List.mem_range, List.mem_singleton] at ha
    rcases ha with ⟨r, -, rfl⟩ | rfl
    · simp [WindowManager.rowContainerOf]
    · simp
  · apply List.ext_getElem? 
    intro i
    rw [List.getElem?_modify]
    simp only [WindowManager.takeOutOfRows, List.getElem?_map]
    rw [hL, grid_getElem?]
    by_cases h1 : i < (n + c - 1) / c
    · simp only [if_pos h1, Option.map_some', WindowManager.rowContainerOf, VItem.insertWidget,
        RowItem.insertWidget, Option.some.injEq]
      by_cases hr : p / c = i
      · have hneg : ¬ ((p % c : Nat) : Int) < 0 := by omega
        simp only [Option.map_eq_map, Option.map_some', if_pos hr, Option.some.injEq,
          hneg, if_false, Int.toNat_ofNat, VItem.rowContainer.injEq, List.filter_filter,
          Bool.and_self]
        apply filter_insertIdx_restore
        · rw [← hr]
          exact (grid_row_occurrence wm.m_browserWidgets c n p w hc1 hp hids hw _ _).2 ⟨rfl, rfl⟩
        · intro j hj
          rw [← hr] at hj
          exact ((grid_row_occurrence wm.m_browserWidgets c n p w hc1 hp hids hw _ _).1 hj).2
      · simp only [Option.map_eq_map, Option.map_some', if_neg hr, Option.some.injEq,
          VItem.rowContainer.injEq, List.filter_filter, Bool.and_self]
        rw [List.filter_eq_self]
        intro a ha
        obtain ⟨j, hj, rfl⟩ := List.getElem_of_mem ha
        by_contra hne
        simp only [bne_iff_ne, ne_eq, not_not] at hne
        have := (grid_row_occurrence wm.m_browserWidgets c n p w hc1 hp hids hw i j).1
          (by rw [List.getElem?_eq_getElem hj, hne])
        omega
    · rw [if_neg h1]
      by_cases h2 : i = (n + c - 1) / c
      · simp [h2, VItem.insertWidget]
      · simp [h2]
  · simp only [WindowManager.takeOutOfRows, List.getElem?_map]
    rw [hL, grid_getElem?, if_pos hrow]
    exact ⟨_, rfl⟩
  · rw [hL]
    simp
    omega

/-- Method calls through a list of pane pointers that keep the identity of a pane
leave the layout, the column count and the identities of the pool. -/
theorem updateWidget_fold_frame (f : BrowserWidget → BrowserWidget)
    (hf : ∀ w, (f w).objectId = w.objectId) (olds : List Nat) :
    ∀ wm : WindowManager,
      (olds.foldl (fun m old => m.updateWidget old f) wm).verticalLayout = wm.verticalLayout ∧
      (olds.foldl (fun m old => m.updateWidget old f) wm).m_columnCount = wm.m_columnCount ∧
      (olds.foldl (fun m old => m.updateWidget old f) wm).m_browserWidgets.map
        (fun w => w.objectId) = wm.m_browserWidgets.map fun w => w.objectId := by
  induction olds with
  | nil => intro wm; exact ⟨rfl, rfl, rfl⟩
  | cons old olds ih =>
    intro wm
    obtain ⟨h1, h2, h3⟩ := ih (wm.updateWidget old f)
    simp only [List.foldl_cons]
    exact ⟨h1, h2, h3.trans (updateWidget_ids wm old f hf)⟩

/-- `setFullscreenMode` keeps the identity of the pane. -/
theorem setFullscreenMode_objectId (w : BrowserWidget) (b : Bool) :
    (w.setFullscreenMode b).objectId = w.objectId := by
  cases b
  · rfl
  · simp only [BrowserWidget.setFullscreenMode, BrowserWidget.hideButtons, if_true]
    split <;> rfl

/-- `saveCookies` keeps the identity of the pane. -/
theorem saveCookies_objectId (w : BrowserWidget) : w.saveCookies.objectId = w.objectId := by
  simp only [BrowserWidget.saveCookies]
  split <;> rfl

/-- `loadCookies` keeps the identity and the size constraints of the pane. -/
theorem loadCookies_sizes (h : Host) (w : BrowserWidget) :
    (w.loadCookies h).objectId = w.objectId ∧
    (w.loadCookies h).sizeConstraints = w.sizeConstraints := by
  have hid := loadCookies_frame h w
  have f1 := congrArg BrowserWidget.objectId hid
  have f2 := congrArg BrowserWidget.sizeConstraints hid
  simp only [BrowserWidget.sizeConstraints] at f1 f2
  exact ⟨f1, f2⟩

/-- In a pool with distinct identities, looking a pane up by its identity finds a
pane with that identity, and `indexOf` gives its index. -/
theorem find_by_identity (wm : WindowManager) (p : Nat) (w : BrowserWidget)
    (hids : (wm.m_browserWidgets.map fun w => w.objectId).Nodup)
    (hw : wm.m_browserWidgets[p]? = some w) :
    wm.findWidget w.objectId = some w ∧ wm.indexOf w.objectId = (p : Int) := by
  obtain ⟨hp1, hp2⟩ := List.getElem?_eq_some_iff.1 hw
  have hidx : wm.m_browserWidgets.findIdx? (fun u => u.objectId == w.objectId) = some p := by
    rw [List.findIdx?_eq_some_iff_getElem]
    refine ⟨hp1, by simp [hp2], ?_⟩
    intro j hj hcontra
    have hj1 : j < wm.m_browserWidgets.length := by omega
    have := pool_index_unique wm.m_browserWidgets hids j p _ w
      (List.getElem?_eq_getElem hj1) hw (by simpa using hcontra)
    omega
  constructor
  · simp only [WindowManager.findWidget]
    cases hf : wm.m_browserWidgets.find? (fun u => u.objectId == w.objectId) with
    | none =>
      rw [List.find?_eq_none] at hf
      have := hf w (List.getElem?_mem hw)
      simp at this
    | some u =>
      have hu := List.find?_some hf
      have hmem := List.mem_of_find?_eq_some hf
      obtain ⟨j, hj, rfl⟩ := List.getElem_of_mem hmem
      have := pool_index_unique wm.m_browserWidgets hids j p _ w
        (List.getElem?_eq_getElem hj) hw (by simpa using hu)
      subst this
      rw [hp2]
  · simp only [WindowManager.indexOf, hidx]

/-- The layout `takeOutOfRows` leaves depends on the layout only. -/
theorem takeOutOfRows_congr (wm wm' : WindowManager) (id : Nat)
    (h : wm.verticalLayout = wm'.verticalLayout) :
    (wm.takeOutOfRows id).verticalLayout = (wm'.takeOutOfRows id).verticalLayout := by
  simp only [WindowManager.takeOutOfRows, h]

/-- A pane taken out of the rows is in no row. -/
theorem takeOutOfRows_not_mem (wm : WindowManager) (id : Nat) :
    id ∉ (wm.takeOutOfRows id).rows.flatten := by
  simp only [WindowManager.rows, WindowManager.takeOutOfRows, List.mem_flatten,
    List.mem_filterMap, List.mem_map, not_exists, not_and]
  rintro l ⟨item, ⟨x, -, hitem⟩, hl⟩ hid
  subst hitem
  cases x with
  | rowContainer items =>
    simp only [Option.some.injEq] at hl
    subst hl
    simp only [List.mem_filterMap, List.mem_filter] at hid
    obtain ⟨it, ⟨-, hne⟩, hit⟩ := hid
    cases it with
    | widget j =>
      simp only [Option.some.injEq] at hit
      subst hit
      simp at hne
    | stretch => simp at hit
  | widget j => simp at hl
  | stretch => simp at hl

/-- `showFullscreenWindow` on a pane of the grid: the call returns, the pane is
promoted with its pool index saved, and the grid is the old one without the
pane. -/
theorem showFullscreenWindow_promoted (mw : MainWindow) (wm : WindowManager) (c n p : Nat)
    (w : BrowserWidget) (hwm : mw.m_windowManager = some wm) (hc1 : 1 ≤ c) (hp : p < n)
    (hcol : wm.m_columnCount = c)
    (hids : (wm.m_browserWidgets.map fun w => w.objectId).Nodup)
    (hw : wm.m_browserWidgets[p]? = some w)
    (hgrid : wm.verticalLayout = (wm.laidOut c n).verticalLayout) :
    ∃ mw1, mw.showFullscreenWindow (some w.objectId) = some mw1 ∧
      mw1.Promoted w.objectId p (wm.takeOutOfRows w.objectId).verticalLayout c
        (wm.m_browserWidgets.map fun w => w.objectId) := by
  obtain ⟨hfind, hidx⟩ := find_by_identity wm p w hids hw
  obtain ⟨hdet, -, -, -⟩ := grid_round_trip wm c n p w hc1 hp hids hw hgrid
  have hfold := updateWidget_fold_frame BrowserWidget.hide (fun _ => rfl) mw.fullscreenLayout
    (wm.detachWidgetFromLayout w.objectId)
  simp only [MainWindow.showFullscreenWindow, hwm, hfind, hidx]
  refine ⟨_, rfl, rfl, rfl, _, rfl, ?_, ?_, ?_⟩
  · split
    · exact takeOutOfRows_congr _ _ _ (hfold.1.trans hdet)
    · exact takeOutOfRows_congr _ _ _ (hfold.1.trans hdet)
  · split
    · exact hfold.2.1.trans hcol
    · exact hfold.2.1.trans hcol
  · rw [updateWidget_ids _ _ _ (fun u => setFullscreenMode_objectId u true)]
    split
    · rw [updateWidget_ids _ _ _ saveCookies_objectId]
      exact hfold.2.2
    · exact hfold.2.2

/-- A pending closure that fires while a pane is promoted leaves it promoted:
the closures change size constraints and geometry of that pane only. -/
theorem fireDeferred_promoted (h : Host) (mw : MainWindow) (id : Nat) (position : Int)
    (grid : List VItem) (c : Int) (ids : List Nat) (k : Nat)
    (hP : mw.Promoted id position grid c ids) :
    (MainWindow.fireDeferred h mw k).Promoted id position grid c ids := by
  obtain ⟨hfb, hpos, wm, hwm, hg, hc, hids⟩ := hP
  simp only [MainWindow.fireDeferred]
  cases hd : mw.deferred[k]? with
  | none => exact ⟨hfb, hpos, wm, hwm, hg, hc, hids⟩
  | some d =>
    cases d with
    | fullscreenSettle widget =>
      simp only [MainWindow.runDeferred, hfb, hwm]
      split
      · cases hs : h.primaryScreen with
        | none => exact ⟨rfl, hpos, wm, rfl, hg, hc, hids⟩
        | some screenGeometry =>
          refine ⟨rfl, hpos, _, rfl, hg, hc, ?_⟩
          refine (updateWidget_ids _ _ _ ?_).trans hids
          intro u
          rfl
      · exact ⟨rfl, hpos, wm, rfl, hg, hc, hids⟩
    | normalSettle =>
      simp only [MainWindow.runDeferred, hfb, hwm]
      refine ⟨rfl, hpos, _, rfl, hg, hc, ?_⟩
      refine (updateWidget_ids _ _ _ ?_).trans hids
      intro u
      rfl

/-- Pending closures that fire while a pane is promoted leave it promoted. -/
theorem fireDeferreds_promoted (h : Host) (id : Nat) (position : Int)
    (grid : List VItem) (c : Int) (ids : List Nat) (ks : List Nat) :
    ∀ mw : MainWindow, mw.Promoted id position grid c ids →
      (MainWindow.fireDeferreds h mw ks).Promoted id position grid c ids := by
  induction ks with
  | nil => intro mw hP; exact hP
  | cons k ks ih =>
    intro mw hP
    exact ih _ (fireDeferred_promoted h mw id position grid c ids k hP)

/-- With no pane promoted, a pending closure that fires changes nothing but the
list of pending closures. -/
theorem fireDeferred_normal (h : Host) (mw : MainWindow) (k : Nat)
    (hfb : mw.m_fullscreenBrowser = none) :
    (MainWindow.fireDeferred h mw k).m_fullscreenBrowser = none ∧
    (MainWindow.fireDeferred h mw k).m_windowManager = mw.m_windowManager := by
  simp only [MainWindow.fireDeferred]
  cases hd : mw.deferred[k]? with
  | none => exact ⟨hfb, rfl⟩
  | some d =>
    cases d with
    | fullscreenSettle widget => simp [MainWindow.runDeferred, hfb]
    | normalSettle => simp [MainWindow.runDeferred, hfb]

/-- With no pane promoted, pending closures that fire leave the manager as it
is. -/
theorem fireDeferreds_normal (h : Host) (ks : List Nat) :
    ∀ mw : MainWindow, mw.m_fullscreenBrowser = none →
      (MainWindow.fireDeferreds h mw ks).m_fullscreenBrowser = none ∧
      (MainWindow.fireDeferreds h mw ks).m_windowManager = mw.m_windowManager := by
  induction ks with
  | nil => intro mw hfb; exact ⟨hfb, rfl⟩
  | cons k ks ih =>
    intro mw hfb
    obtain ⟨h1, h2⟩ := fireDeferred_normal h mw k hfb
    obtain ⟨h3, h4⟩ := ih _ h1
    exact ⟨h3, h4.trans h2⟩

/-- `attachWidgetToLayout` at the saved pool index, on a manager whose grid is the
built grid without the pane: the pane gets the fixed size for the column count and
the grid is the built grid again. -/
theorem attachWidgetToLayout_grid (wmx wm : WindowManager) (c n p : Nat) (w : BrowserWidget)
    (hc1 : 1 ≤ c) (hp : p < n)
    (hids : (wm.m_browserWidgets.map fun w => w.objectId).Nodup)
    (hw : wm.m_browserWidgets[p]? = some w)
    (hgrid : wm.verticalLayout = (wm.laidOut c n).verticalLayout)
    (hcol : wmx.m_columnCount = c)
    (hlay : wmx.verticalLayout = (wm.takeOutOfRows w.objectId).verticalLayout) :
    wmx.attachWidgetToLayout w.objectId p =
      some { wmx.updateWidget w.objectId (fun u => u.setFixedSize (WindowManager.widgetWidth c)
          (WindowManager.calculateHeightFromWidth (WindowManager.widgetWidth c))) with
        verticalLayout := wm.verticalLayout } := by
  obtain ⟨-, hrestore, ⟨items, hitem⟩, hlen⟩ := grid_round_trip wm c n p w hc1 hp hids hw hgrid
  have hlen1 : (wm.takeOutOfRows w.objectId).verticalLayout.length = wm.verticalLayout.length := by
    simp [WindowManager.takeOutOfRows]
  have hrowlt : ((p / c : Nat) : Int) < ((wmx.verticalLayout.length : Nat) : Int) := by
    rw [hlay, hlen1]
    exact_mod_cast hlen
  simp only [WindowManager.attachWidgetToLayout, WindowManager.updateWidget, hcol,
    ← Int.ofNat_tdiv, ← Int.ofNat_tmod, WindowManager.itemAt]
  rw [if_pos hrowlt]
  have h0 : (0 : Int) ≤ ((p / c : Nat) : Int) := Int.ofNat_nonneg _
  simp only [h0, if_true, Int.toNat_ofNat, hlay, hitem]
  congr 1
  simp only [WindowManager.takeOutOfRows] at hrestore ⊢
  rw [hrestore]

/-- `hideFullscreenWindow` while a pane of the built grid is promoted: the call
returns, no pane is promoted any more, the grid is the built grid again, and the
pane has the fixed size for the column count and the preferred size policy. -/
theorem hideFullscreenWindow_promoted (h : Host) (mw : MainWindow) (wm : WindowManager)
    (c n p : Nat) (w : BrowserWidget) (hc1 : 1 ≤ c) (hp : p < n)
    (hids : (wm.m_browserWidgets.map fun w => w.objectId).Nodup)
    (hw : wm.m_browserWidgets[p]? = some w)
    (hgrid : wm.verticalLayout = (wm.laidOut c n).verticalLayout)
    (hP : mw.Promoted w.objectId p (wm.takeOutOfRows w.objectId).verticalLayout c
      (wm.m_browserWidgets.map fun w => w.objectId)) :
    ∃ mw2 wm2 w2, mw.hideFullscreenWindow h = some mw2 ∧ mw2.m_fullscreenBrowser = none ∧
      mw2.m_windowManager = some wm2 ∧ wm2.verticalLayout = wm.verticalLayout ∧
      wm2.m_browserWidgets.map (fun w => w.objectId) =
        wm.m_browserWidgets.map (fun w => w.objectId) ∧
      wm2.m_browserWidgets[p]? = some w2 ∧ w2.objectId = w.objectId ∧
      w2.sizeConstraints =
        ({ width := WindowManager.widgetWidth c
           height := WindowManager.calculateHeightFromWidth (WindowManager.widgetWidth c) },
         { width := WindowManager.widgetWidth c
           height := WindowManager.calculateHeightFromWidth (WindowManager.widgetWidth c) },
         SizePolicy.Preferred) := by
  obtain ⟨hfb, hpos, wm', hwm', hg, hc, hids'⟩ := hP
  have hp' : wm'.m_browserWidgets[p]?.map (fun w => w.objectId) = some w.objectId := by
    have := congrArg (fun l => l[p]?) hids'
    simp only [List.getElem?_map, hw, Option.map_some'] at this
    exact this
  cases hw' : wm'.m_browserWidgets[p]? with
  | none => simp [hw'] at hp'
  | some w' =>
    simp only [hw', Option.map_some', Option.some.injEq] at hp'
    have hnodup' : (wm'.m_browserWidgets.map fun w => w.objectId).Nodup := by rw [hids']; exact hids
    obtain ⟨hfind, -⟩ := find_by_identity wm' p w' hnodup' hw'
    rw [hp'] at hfind
    have hpos0 : (p : Int) ≥ 0 := Int.ofNat_nonneg _
    simp only [MainWindow.hideFullscreenWindow, hfb, hwm', hfind, hpos, hpos0, if_true]
    by_cases hsub : w'.getSubWindowId > 0
    · simp only [hsub, if_true]
      rw [attachWidgetToLayout_grid _ wm c n p w hc1 hp hids hw hgrid (by exact hc) (by exact hg)]
      refine ⟨_, _, ((w'.setFullscreenMode false).loadCookies h).setFixedSize
        (WindowManager.widgetWidth c)
        (WindowManager.calculateHeightFromWidth (WindowManager.widgetWidth c)),
        rfl, rfl, rfl, rfl, ?_, ?_, ?_, ?_⟩
      · refine (updateWidget_ids _ _ _ ?_).trans
          ((updateWidget_ids _ _ _ ?_).trans ((updateWidget_ids _ _ _ ?_).trans hids'))
        · intro u; rfl
        · intro u; exact (loadCookies_sizes h u).1
        · intro u; exact setFullscreenMode_objectId u false
      · simp only [updateWidget_getElem?, hw', Option.map_some', hp', if_true,
          (loadCookies_sizes h _).1, setFullscreenMode_objectId]
      · exact ((loadCookies_sizes h _).1.trans (setFullscreenMode_objectId _ _)).trans hp'
      · have := (loadCookies_sizes h (w'.setFullscreenMode false)).2
        simp only [BrowserWidget.sizeConstraints, Prod.mk.injEq] at this
        simp only [BrowserWidget.sizeConstraints, BrowserWidget.setFixedSize,
          BrowserWidget.setMinimumSize, BrowserWidget.setMaximumSize, this.2.2]
        rfl
    · simp only [hsub, if_false]
      rw [attachWidgetToLayout_grid _ wm c n p w hc1 hp hids hw hgrid (by exact hc) (by exact hg)]
      refine ⟨_, _, (w'.setFullscreenMode false).setFixedSize
        (WindowManager.widgetWidth c)
        (WindowManager.calculateHeightFromWidth (WindowManager.widgetWidth c)),
        rfl, rfl, rfl, rfl, ?_, ?_, ?_, ?_⟩
      · refine (updateWidget_ids _ _ _ ?_).trans ((updateWidget_ids _ _ _ ?_).trans hids')
        · intro u; rfl
        · intro u; exact setFullscreenMode_objectId u false
      · simp only [updateWidget_getElem?, hw', Option.map_some', hp', if_true,
          setFullscreenMode_objectId]
      · exact (setFullscreenMode_objectId _ _).trans hp'
      · rfl

/-- The rows depend on the layout only. -/
theorem rows_congr (wm wm' : WindowManager) (h : wm.verticalLayout = wm'.verticalLayout) :
    wm.rows = wm'.rows := by
  simp only [WindowManager.rows, h]

/-- In the built grid, the pane at pool index `p` is at column `p % c` of row
`p / c`. -/
theorem grid_position (wm : WindowManager) (c n p : Nat) (w : BrowserWidget)
    (hc1 : 1 ≤ c) (hp : p < n) (hw : wm.m_browserWidgets[p]? = some w)
    (hgrid : wm.verticalLayout = (wm.laidOut c n).verticalLayout) :
    ∃ row, wm.rows[p / c]? = some row ∧ row[p % c]? = some w.objectId := by
  have hn0 : n ≠ 0 := by omega
  have hL : wm.verticalLayout = (List.range ((n + c - 1) / c)).map
      (WindowManager.rowContainerOf wm.m_browserWidgets c n) ++ [VItem.stretch] := by
    rw [hgrid]
    simp [WindowManager.laidOut, hn0]
  have hrow : p / c < (n + c - 1) / c := by
    rw [Nat.div_lt_iff_lt_mul (by omega)]
    have h1 : n ≤ (n + c - 1) / c * c := by
      have := Nat.div_add_mod (n + c - 1) c
      have := Nat.mod_lt (n + c - 1) (show 0 < c by omega)
      have := Nat.mul_comm c ((n + c - 1) / c)
      omega
    omega
  have hdiv : p / c * c + p % c = p := Nat.div_add_mod' p c
  have hmod : p % c < c := Nat.mod_lt _ (by omega)
  rw [rows_of_built wm wm.m_browserWidgets c n _ hL]
  refine ⟨_, by rw [List.getElem?_map, List.getElem?_range hrow]; rfl, ?_⟩
  rw [List.getElem?_map, slice_getElem?, if_pos ⟨hmod, by omega⟩, hdiv, hw]
  rfl

/-- `show()` on a pane whose parent is visible keeps the identity and the size
constraints of the pane. -/
theorem show_sizes (u : BrowserWidget) :
    u.«show».objectId = u.objectId ∧ u.«show».minimumSize = u.minimumSize ∧
    u.«show».maximumSize = u.maximumSize ∧ u.«show».sizePolicy = u.sizePolicy := by
  simp only [BrowserWidget.«show», BrowserWidget.showEvent]
  split
  · exact ⟨rfl, rfl, rfl, rfl⟩
  · split
    · have := loadUrl_frame { u with visible := true, hidden := false } u.m_currentUrl
      exact ⟨this.1, this.2.2.2.2.1, this.2.2.2.2.2.1, this.2.2.2.2.2.2.1⟩
    · exact ⟨rfl, rfl, rfl, rfl⟩

/-- A pane placed by `updateLayout` has the fixed size for the column count as
minimum and maximum size, and the size policy it had. -/
theorem placeWidget_sizes (c : Int) (w : BrowserWidget) :
    (WindowManager.placeWidget c w).sizeConstraints =
      ((w.setFixedSize (WindowManager.widgetWidth c)
        (WindowManager.calculateHeightFromWidth (WindowManager.widgetWidth c))).sizeConstraints) ∧
    (WindowManager.placeWidget c w).sizePolicy = w.sizePolicy :=
  ⟨rfl, rfl⟩

/-- The state `updateLayout` leaves is one a fullscreen round trip starts from: the
manager laid out for `c` columns and `n` visible panes has that column count and
that grid, the identities of the pool are unchanged, and the pane at a pool index
`p < n` is the placed pane: it has the fixed size for `c` columns and the size
policy it had. -/
theorem laidOut_grid (wm : WindowManager) (c n p : Nat) (w : BrowserWidget)
    (hn : n ≤ wm.m_browserWidgets.length) (hp : p < n)
    (hw : wm.m_browserWidgets[p]? = some w) :
    (wm.laidOut c n).m_columnCount = c ∧
    (wm.laidOut c n).verticalLayout = ((wm.laidOut c n).laidOut c n).verticalLayout ∧
    (wm.laidOut c n).m_browserWidgets.map (fun w => w.objectId) =
      wm.m_browserWidgets.map (fun w => w.objectId) ∧
    (wm.laidOut c n).m_browserWidgets[p]? = some (WindowManager.placeWidget c w) ∧
    ((WindowManager.placeWidget c w).setFixedSize (WindowManager.widgetWidth c)
      (WindowManager.calculateHeightFromWidth (WindowManager.widgetWidth c))).sizeConstraints =
        (WindowManager.placeWidget c w).sizeConstraints ∧
    (WindowManager.placeWidget c w).sizePolicy = w.sizePolicy := by
  have hids := (placed_pool_facts wm.m_browserWidgets c n hn).2.2.2
  have hrowc : ∀ (pool pool' : List BrowserWidget),
      pool'.map (fun w => w.objectId) = pool.map (fun w => w.objectId) →
      WindowManager.rowContainerOf pool' c n = WindowManager.rowContainerOf pool c n := by
    intro pool pool' hmap
    funext r
    simp only [WindowManager.rowContainerOf, VItem.rowContainer.injEq,
      List.append_cancel_right_eq]
    have e : ∀ l : List BrowserWidget, (((l.take n).drop (r * c)).take c).map
        (fun w => RowItem.widget w.objectId) =
        ((((l.map fun w => w.objectId).take n).drop (r * c)).take c).map RowItem.widget := by
      intro l
      simp only [List.map_take, List.map_drop, List.map_map]
      rfl
    rw [e pool', e pool, hmap]
  obtain ⟨s1, s2⟩ := placeWidget_sizes c w
  refine ⟨rfl, ?_, hids, ?_, ?_, s2⟩
  · simp only [WindowManager.laidOut]
    split
    · rfl
    · rw [hrowc wm.m_browserWidgets _ hids]
  · rw [laidOut_getElem? wm c n p hn, hw]
    simp [hp]
  · simp only [BrowserWidget.sizeConstraints, Prod.mk.injEq] at s1 ⊢
    simp only [BrowserWidget.setFixedSize, BrowserWidget.setMinimumSize,
      BrowserWidget.setMaximumSize] at s1 ⊢
    exact ⟨s1.1.symm, s1.2.1.symm, trivial⟩

/-- C10: fullscreen round trip.  Take a main window whose manager has `c ≥ 1`
columns (so `c` in {1, 2, 3}), the grid `updateLayout` builds for `c` columns and
`n` visible panes (so `n` in 1..16), panes of distinct identities, and at pool
index `p < n` a pane with the fixed size for `c` columns and the preferred size
policy (the constraints of a placed pane that is not promoted).  Then
`showFullscreenWindow(pane p)` returns and takes the pane out of the rows;
`hideFullscreenWindow`, after any firings `ks1` of pending closures in between,
returns and leaves no pane promoted, the pool order as it was and the layout and
rows exactly as before the promotion, with pane `p` at column `p % c` of row
`p / c`; and after any firings `ks2` of pending closures (the settle steps of the
two calls among them), pane `p` has the size constraints it had before the
promotion. -/
theorem fullscreen_round_trip (h : Host) (mw : MainWindow) (wm : WindowManager)
    (c n p : Nat) (w : BrowserWidget) (ks1 ks2 : List Nat)
    (hc1 : 1 ≤ c) (hp : p < n)
    (hwm : mw.m_windowManager = some wm) (hcol : wm.m_columnCount = c)
    (hgrid : wm.verticalLayout = (wm.laidOut c n).verticalLayout)
    (hids : (wm.m_browserWidgets.map fun w => w.objectId).Nodup)
    (hw : wm.m_browserWidgets[p]? = some w)
    (hfixed : (w.setFixedSize (WindowManager.widgetWidth c)
      (WindowManager.calculateHeightFromWidth (WindowManager.widgetWidth c))).sizeConstraints =
        w.sizeConstraints)
    (hpolicy : w.sizePolicy = SizePolicy.Preferred) :
    ∃ mw1 mw2 wm1 wm2 row w2,
      mw.showFullscreenWindow (some w.objectId) = some mw1 ∧
      mw1.m_fullscreenBrowser = some w.objectId ∧
      mw1.m_windowManager = some wm1 ∧ w.objectId ∉ wm1.rows.flatten ∧
      (MainWindow.fireDeferreds h mw1 ks1).hideFullscreenWindow h = some mw2 ∧
      mw2.m_fullscreenBrowser = none ∧
      mw2.m_windowManager = some wm2 ∧
      wm2.m_browserWidgets.map (fun w => w.objectId) =
        wm.m_browserWidgets.map (fun w => w.objectId) ∧
      wm2.verticalLayout = wm.verticalLayout ∧ wm2.rows = wm.rows ∧
      wm2.rows[p / c]? = some row ∧ row[p % c]? = some w.objectId ∧
      (MainWindow.fireDeferreds h mw2 ks2).pool[p]? = some w2 ∧
      w2.objectId = w.objectId ∧ w2.sizeConstraints = w.sizeConstraints := by
  obtain ⟨mw1, hshow, hP⟩ :=
    showFullscreenWindow_promoted mw wm c n p w hwm hc1 hp hcol hids hw hgrid
  have hP1 := fireDeferreds_promoted h _ _ _ _ _ ks1 mw1 hP
  obtain ⟨mw2, wm2, w2, hhide, hfb2, hwm2, hlay2, hids2, hw2, hid2, hsz2⟩ :=
    hideFullscreenWindow_promoted h _ wm c n p w hc1 hp hids hw hgrid hP1
  obtain ⟨-, hwm3⟩ := fireDeferreds_normal h ks2 mw2 hfb2
  obtain ⟨hfb1, -, wm1, hwm1, hlay1, -, -⟩ := hP
  obtain ⟨row, hrow1, hrow2⟩ := grid_position wm c n p w hc1 hp hw hgrid
  have hrows : wm2.rows = wm.rows := rows_congr _ _ hlay2
  refine ⟨mw1, mw2, wm1, wm2, row, w2, hshow, hfb1, hwm1, ?_, hhide, hfb2, hwm2, hids2, hlay2,
    hrows, by rw [hrows]; exact hrow1, hrow2, ?_, hid2, ?_⟩
  · rw [rows_congr _ _ hlay1]
    exact takeOutOfRows_not_mem wm w.objectId
  · simp only [MainWindow.pool, hwm3, hwm2]
    exact hw2
  · rw [hsz2, ← hfixed]
    simp only [BrowserWidget.sizeConstraints, BrowserWidget.setFixedSize,
      BrowserWidget.setMinimumSize, BrowserWidget.setMaximumSize, hpolicy]

/-- Witness of `fullscreen_round_trip`: in the window of three panes in two
columns (rows `[1, 2]` and `[3]`), on a host with a screen, the pane at pool
index 2 is promoted, the settle step of the promotion runs, the pane is returned,
and the settle step of the return runs. -/
theorem fullscreen_round_trip_witness :
    gridManager.rows = [[1, 2], [3]] ∧ gridPane.objectId = 3 ∧
    ∃ mw1 mw2 wm1 wm2 row w2,
      gridWindow.showFullscreenWindow (some gridPane.objectId) = some mw1 ∧
      mw1.m_fullscreenBrowser = some gridPane.objectId ∧
      mw1.m_windowManager = some wm1 ∧ gridPane.objectId ∉ wm1.rows.flatten ∧
      (MainWindow.fireDeferreds screenHost mw1 [0]).hideFullscreenWindow screenHost =
        some mw2 ∧
      mw2.m_fullscreenBrowser = none ∧
      mw2.m_windowManager = some wm2 ∧
      wm2.m_browserWidgets.map (fun w => w.objectId) =
        gridManager.m_browserWidgets.map (fun w => w.objectId) ∧
      wm2.verticalLayout = gridManager.verticalLayout ∧ wm2.rows = gridManager.rows ∧
      wm2.rows[2 / 2]? = some row ∧ row[2 % 2]? = some gridPane.objectId ∧
      (MainWindow.fireDeferreds screenHost mw2 [0]).pool[2]? = some w2 ∧
      w2.objectId = gridPane.objectId ∧ w2.sizeConstraints = gridPane.sizeConstraints :=
  ⟨by decide, by decide,
    fullscreen_round_trip screenHost gridWindow gridManager 2 3 2 gridPane [0] [0]
      (by decide) (by decide) (by decide) (by decide) (by decide) (by decide) (by decide)
      (by decide) (by decide)⟩

/-! ## Theorems: the invariant of the fullscreen coordinator -/

/-- The inner loop of `updateLayout` keeps, pane by pane, every attribute that
placing a pane keeps. -/
theorem fillRow_proj {γ : Type} (g : BrowserWidget → γ) (c n i : Int)
    (hplace : ∀ w, g (WindowManager.placeWidget c w) = g w) :
    ∀ (k : Nat) (j : Int) (st : LayoutLoop RowItem),
      (WindowManager.fillRow c n i k j st).widgets.map g = st.widgets.map g := by
  intro k
  induction k with
  | zero => intro j st; rfl
  | succ k ih =>
    intro j st
    rw [WindowManager.fillRow]
    split
    · split
      · rename_i widget hget
        rw [ih]
        simp only
        have hw : st.widgets[st.visibleIndex]? = some widget := hget
        rw [List.map_set]
        apply List.ext_getElem? 
        intro m
        rw [List.getElem?_set]
        split
        · rename_i heq
          subst heq
          have := hplace widget
          simp only [WindowManager.placeWidget] at this
          simp only [List.length_map, List.getElem?_map, hw, Option.map_some', this]
          split
          · rfl
          · rename_i hlt
            exact absurd (List.getElem?_eq_some_iff.1 hw).1 hlt
        · rfl
      · exact ih _ _
    · rfl

/-- The outer loop of `updateLayout` ends when the column count is at least 1,
and keeps, pane by pane, every attribute that placing a pane keeps. -/
theorem buildRows_proj {γ : Type} (g : BrowserWidget → γ) (c n : Int) (hc : 1 ≤ c)
    (hplace : ∀ w, g (WindowManager.placeWidget c w) = g w) :
    ∀ (fuel : Nat) (i : Int) (st : LayoutLoop VItem), (n - i).toNat + 1 ≤ fuel →
      ∃ st', WindowManager.buildRows c n fuel i st = some st' ∧
        st'.widgets.map g = st.widgets.map g := by
  intro fuel
  induction fuel with
  | zero => intro i st h; omega
  | succ fuel ih =>
    intro i st h
    rw [WindowManager.buildRows]
    split
    · obtain ⟨st', h1, h2⟩ := ih (i + c)
        { visibleIndex := (WindowManager.fillRow c n i c.toNat 0
            { visibleIndex := st.visibleIndex, widgets := st.widgets, items := [] }).visibleIndex
          widgets := (WindowManager.fillRow c n i c.toNat 0
            { visibleIndex := st.visibleIndex, widgets := st.widgets, items := [] }).widgets
          items := st.items ++ [VItem.rowContainer
            ((WindowManager.fillRow c n i c.toNat 0
              { visibleIndex := st.visibleIndex, widgets := st.widgets
                items := [] }).items ++ [RowItem.stretch])] }
        (by omega)
      refine ⟨st', h1, ?_⟩
      rw [h2]
      exact fillRow_proj g c n i hplace _ _ _
    · exact ⟨st, rfl, rfl⟩

/-- `updateLayout` returns when the column count is at least 1; it keeps the
visible count and the column count and, pane by pane, every attribute that
placing and hiding a pane keep. -/
theorem updateLayout_proj {γ : Type} (g : BrowserWidget → γ) (wm : WindowManager)
    (hc : 1 ≤ wm.m_columnCount)
    (hplace : ∀ w, g (WindowManager.placeWidget wm.m_columnCount w) = g w)
    (hhide : ∀ w, g w.hide = g w) :
    ∃ wm', wm.updateLayout = some wm' ∧
      wm'.m_browserWidgets.map g = wm.m_browserWidgets.map g ∧
      wm'.m_currentWindowCount = wm.m_currentWindowCount ∧
      wm'.m_columnCount = wm.m_columnCount := by
  have hcomp : g ∘ BrowserWidget.hide = g := by
    funext w; exact hhide w
  unfold WindowManager.updateLayout
  split
  · refine ⟨_, rfl, ?_, rfl, rfl⟩
    simp only [List.map_map, hcomp]
  · obtain ⟨st', h1, h2⟩ := buildRows_proj g wm.m_columnCount wm.m_currentWindowCount hc hplace
      (wm.m_currentWindowCount.toNat + 1) 0
      { visibleIndex := 0, widgets := wm.m_browserWidgets, items := [] } (by simp)
    rw [h1]
    refine ⟨_, rfl, ?_, rfl, rfl⟩
    simp only [WindowManager.hideFrom, List.map_append, List.map_map, hcomp]
    rw [← List.map_append, List.take_append_drop, h2]

/-- A method call that keeps an attribute of a pane keeps that attribute of the
panes of the pool. -/
theorem updateWidget_proj {γ : Type} (g : BrowserWidget → γ) (wm : WindowManager) (id : Nat)
    (f : BrowserWidget → BrowserWidget) (hf : ∀ w, g (f w) = g w) :
    (wm.updateWidget id f).m_browserWidgets.map g = wm.m_browserWidgets.map g := by
  simp only [WindowManager.updateWidget, List.map_map]
  apply List.map_congr_left
  intro w _
  simp only [Function.comp]
  split
  · exact hf w
  · rfl

/-- Method calls through a list of pane pointers that keep an attribute of a pane
keep that attribute of the panes of the pool. -/
theorem updateWidget_fold_proj {γ : Type} (g : BrowserWidget → γ)
    (f : BrowserWidget → BrowserWidget) (hf : ∀ w, g (f w) = g w) (olds : List Nat) :
    ∀ wm : WindowManager,
      (olds.foldl (fun m old => m.updateWidget old f) wm).m_browserWidgets.map g =
        wm.m_browserWidgets.map g := by
  induction olds with
  | nil => intro wm; rfl
  | cons old olds ih =>
    intro wm
    simp only [List.foldl_cons]
    exact (ih _).trans (updateWidget_proj g wm old f hf)

/-- Two pools with the same attributes pane by pane: the panes correspond index by
index. -/
theorem map_eq_getElem? {γ : Type} (g : BrowserWidget → γ) (pool pool' : List BrowserWidget)
    (h : pool'.map g = pool.map g) (p : Nat) (w : BrowserWidget) (hw : pool[p]? = some w) :
    ∃ w', pool'[p]? = some w' ∧ g w' = g w := by
  have := congrArg (fun l => l[p]?) h
  simp only [List.getElem?_map, hw, Option.map_some'] at this
  cases hw' : pool'[p]? with
  | none => simp [hw'] at this
  | some w' =>
    simp only [hw', Option.map_some', Option.some.injEq] at this
    exact ⟨w', rfl, this⟩

/-- Two pools with the same attributes pane by pane: every pane of the one has a
pane with the same attributes in the other. -/
theorem map_eq_mem {γ : Type} (g : BrowserWidget → γ) (pool pool' : List BrowserWidget)
    (h : pool'.map g = pool.map g) (w' : BrowserWidget) (hw' : w' ∈ pool') :
    ∃ w ∈ pool, g w = g w' := by
  have : g w' ∈ pool.map g := by
    rw [← h]
    exact List.mem_map_of_mem g hw'
  obtain ⟨w, hw, e⟩ := List.mem_map.1 this
  exact ⟨w, hw, e⟩

/-- `attachWidgetToLayout` returns when the column count is at least 1; it keeps
the column count and, pane by pane, every attribute that resizing, placing and
hiding a pane keep. -/
theorem attachWidgetToLayout_proj {γ : Type} (g : BrowserWidget → γ) (wm : WindowManager)
    (id : Nat) (position : Int) (hc : 1 ≤ wm.m_columnCount)
    (hsize : ∀ w a b, g (w.setFixedSize a b) = g w)
    (hplace : ∀ w, g (WindowManager.placeWidget wm.m_columnCount w) = g w)
    (hhide : ∀ w, g w.hide = g w) :
    ∃ wm', wm.attachWidgetToLayout id position = some wm' ∧
      wm'.m_browserWidgets.map g = wm.m_browserWidgets.map g ∧
      wm'.m_columnCount = wm.m_columnCount := by
  have hup := updateWidget_proj g wm id (fun w => w.setFixedSize
    (WindowManager.widgetWidth wm.m_columnCount)
    (WindowManager.calculateHeightFromWidth (WindowManager.widgetWidth wm.m_columnCount)))
    (fun w => hsize w _ _)
  obtain ⟨wmu, hu1, hu2, -, hu4⟩ := updateLayout_proj g (wm.updateWidget id (fun w =>
    w.setFixedSize (WindowManager.widgetWidth wm.m_columnCount)
    (WindowManager.calculateHeightFromWidth (WindowManager.widgetWidth wm.m_columnCount))))
    hc hplace hhide
  simp only [WindowManager.attachWidgetToLayout]
  split
  · split
    · exact ⟨_, rfl, hup, rfl⟩
    · exact ⟨wmu, hu1, hu2.trans hup, hu4⟩
  · exact ⟨wmu, hu1, hu2.trans hup, hu4⟩

/-- The invariant of the fullscreen coordinator depends on the pool only through
the identities and the fullscreen flags of its panes. -/
theorem FullscreenInv.congr (mw mw' : MainWindow) (wm wm' : WindowManager)
    (hinv : mw.FullscreenInv) (hwm : mw.m_windowManager = some wm)
    (hwm' : mw'.m_windowManager = some wm') (hc : wm'.m_columnCount = wm.m_columnCount)
    (hg : wm'.m_browserWidgets.map (fun w => (w.objectId, w.m_isFullscreen)) =
      wm.m_browserWidgets.map (fun w => (w.objectId, w.m_isFullscreen)))
    (hfb : mw'.m_fullscreenBrowser = mw.m_fullscreenBrowser)
    (hpos : mw'.m_fullscreenWidgetPosition = mw.m_fullscreenWidgetPosition) :
    mw'.FullscreenInv := by
  obtain ⟨wm0, hwm0, h1, h2, h3, h4, h5⟩ := hinv
  rw [hwm] at hwm0
  cases hwm0
  have hids : wm'.m_browserWidgets.map (fun w => w.objectId) =
      wm.m_browserWidgets.map (fun w => w.objectId) := by
    have := congrArg (List.map Prod.fst) hg
    simpa [List.map_map, Function.comp_def] using this
  refine ⟨wm', hwm', by rw [hc]; exact h1, by rw [hids]; exact h2, ?_, ?_, ?_⟩
  · intro w' hw'
    obtain ⟨w, hw, e⟩ := map_eq_mem _ _ _ hg w' hw'
    simp only [Prod.mk.injEq] at e
    have := h3 w hw
    simp only [BrowserWidget.isFullscreenMode] at this ⊢
    rw [← e.1, ← e.2, hfb]
    exact this
  · intro hnone
    rw [hpos]
    exact h4 (hfb ▸ hnone)
  · intro id hid
    obtain ⟨p, w, e1, e2, e3⟩ := h5 id (hfb ▸ hid)
    obtain ⟨w', hw', e⟩ := map_eq_getElem? _ _ _ hg p w e2
    simp only [Prod.mk.injEq] at e
    exact ⟨p, w', hpos.trans e1, hw', e.1.trans e3⟩

/-- A pending closure that fires keeps the invariant of the fullscreen
coordinator and the identities of the pool. -/
theorem fireDeferred_inv (h : Host) (mw : MainWindow) (k : Nat) (hinv : mw.FullscreenInv) :
    (MainWindow.fireDeferred h mw k).FullscreenInv ∧
    (MainWindow.fireDeferred h mw k).poolIds = mw.poolIds := by
  obtain ⟨wm, hwm, -⟩ := id hinv
  have key : ∀ (mw' : MainWindow) (wm' : WindowManager), mw'.m_windowManager = some wm' →
      wm'.m_columnCount = wm.m_columnCount →
      wm'.m_browserWidgets.map (fun w => (w.objectId, w.m_isFullscreen)) =
        wm.m_browserWidgets.map (fun w => (w.objectId, w.m_isFullscreen)) →
      mw'.m_fullscreenBrowser = mw.m_fullscreenBrowser →
      mw'.m_fullscreenWidgetPosition = mw.m_fullscreenWidgetPosition →
      mw'.FullscreenInv ∧ mw'.poolIds = mw.poolIds := by
    intro mw' wm' a b c d e
    refine ⟨FullscreenInv.congr mw mw' wm wm' hinv hwm a b c d e, ?_⟩
    simp only [MainWindow.poolIds, MainWindow.pool, a, hwm]
    have := congrArg (List.map Prod.fst) c
    simpa [List.map_map, Function.comp_def] using this
  simp only [MainWindow.fireDeferred]
  cases hd : mw.deferred[k]? with
  | none => exact ⟨hinv, rfl⟩
  | some d =>
    cases d with
    | fullscreenSettle widget =>
      simp only [MainWindow.runDeferred, hwm]
      split
      · cases hs : h.primaryScreen with
        | none => exact key _ wm rfl rfl rfl rfl rfl
        | some screenGeometry =>
          refine key _ _ rfl rfl ?_ rfl rfl
          exact updateWidget_proj _ wm _ _ (fun _ => rfl)
      · exact key _ wm rfl rfl rfl rfl rfl
    | normalSettle =>
      simp only [MainWindow.runDeferred, hwm]
      cases hfb : mw.m_fullscreenBrowser with
      | none => exact key _ wm rfl rfl rfl (by simp [hfb]) rfl
      | some id =>
        refine key _ _ rfl rfl ?_ (by simp [hfb]) rfl
        exact updateWidget_proj _ wm _ _ (fun _ => rfl)

/-- The panes after `setFullscreenMode(b)` is called through a pane pointer: the
identities are kept, the pane pointed to has the flag `b`, the others keep
theirs. -/
theorem setFullscreenMode_mem (wm : WindowManager) (id : Nat) (b : Bool) (w' : BrowserWidget)
    (hw' : w' ∈ (wm.updateWidget id fun w => w.setFullscreenMode b).m_browserWidgets) :
    ∃ w ∈ wm.m_browserWidgets, w'.objectId = w.objectId ∧
      w'.m_isFullscreen = if w.objectId = id then b else w.m_isFullscreen := by
  simp only [WindowManager.updateWidget, List.mem_map] at hw'
  obtain ⟨w, hw, rfl⟩ := hw'
  refine ⟨w, hw, ?_, ?_⟩
  · split
    · exact setFullscreenMode_objectId w b
    · rfl
  · split
    · cases b
      · rfl
      · simp only [BrowserWidget.setFullscreenMode, BrowserWidget.hideButtons, if_true]
        split <;> rfl
    · rfl

/-- `loadCookies` keeps the identity and the fullscreen flag of the pane. -/
theorem loadCookies_flags (h : Host) (w : BrowserWidget) :
    ((w.loadCookies h).objectId, (w.loadCookies h).m_isFullscreen) =
      (w.objectId, w.m_isFullscreen) := by
  have hid := loadCookies_frame h w
  have f1 := congrArg BrowserWidget.objectId hid
  have f2 := congrArg BrowserWidget.m_isFullscreen hid
  simp only [] at f1 f2
  rw [f1, f2]

/-- `saveCookies` keeps the identity and the fullscreen flag of the pane. -/
theorem saveCookies_flags (w : BrowserWidget) :
    (w.saveCookies.objectId, w.saveCookies.m_isFullscreen) =
      (w.objectId, w.m_isFullscreen) := by
  simp only [BrowserWidget.saveCookies]
  split <;> rfl

/-- `showFullscreenWindow` for a pane of the pool, with no pane promoted: the call
returns, the pane is promoted, and the invariant of the fullscreen coordinator
and the identities of the pool are kept. -/
theorem showFullscreenWindow_inv (mw : MainWindow) (id : Nat) (hinv : mw.FullscreenInv)
    (hfb : mw.m_fullscreenBrowser = none) (hid : id ∈ mw.poolIds) :
    ∃ mw', mw.showFullscreenWindow (some id) = some mw' ∧ mw'.FullscreenInv ∧
      mw'.m_fullscreenBrowser = some id ∧ mw'.poolIds = mw.poolIds := by
  obtain ⟨wm, hwm, h1, h2, h3, -, -⟩ := hinv
  simp only [MainWindow.poolIds, MainWindow.pool, hwm, List.mem_map] at hid
  obtain ⟨w, hwmem, rfl⟩ := hid
  obtain ⟨p, hp, hwp⟩ := List.getElem_of_mem hwmem
  have hw : wm.m_browserWidgets[p]? = some w := by rw [List.getElem?_eq_getElem hp, hwp]
  obtain ⟨hfind, hidx⟩ := find_by_identity wm p w h2 hw
  -- the pool before `setFullscreenMode(true)`
  have hpre : ∀ wm4 : WindowManager,
      wm4 = (if w.getSubWindowId > 0 then
        ((mw.fullscreenLayout.foldl (fun m old => m.updateWidget old BrowserWidget.hide)
          (wm.detachWidgetFromLayout w.objectId)).takeOutOfRows w.objectId).updateWidget
            w.objectId BrowserWidget.saveCookies
        else (mw.fullscreenLayout.foldl (fun m old => m.updateWidget old BrowserWidget.hide)
          (wm.detachWidgetFromLayout w.objectId)).takeOutOfRows w.objectId) →
      wm4.m_browserWidgets.map (fun w => (w.objectId, w.m_isFullscreen)) =
        wm.m_browserWidgets.map (fun w => (w.objectId, w.m_isFullscreen)) ∧
      wm4.m_columnCount = wm.m_columnCount := by
    intro wm4 e
    have hfold := updateWidget_fold_proj (fun w => (w.objectId, w.m_isFullscreen))
      BrowserWidget.hide (fun _ => rfl) mw.fullscreenLayout (wm.detachWidgetFromLayout w.objectId)
    have hfold2 := (updateWidget_fold_frame BrowserWidget.hide (fun _ => rfl)
      mw.fullscreenLayout (wm.detachWidgetFromLayout w.objectId)).2.1
    subst e
    split
    · exact ⟨(updateWidget_proj _ _ _ _ saveCookies_flags).trans hfold,
        hfold2⟩
    · exact ⟨hfold, hfold2⟩
  obtain ⟨hg4, hc4⟩ := hpre _ rfl
  have hids4 := congrArg (List.map Prod.fst) hg4
  simp only [List.map_map, Function.comp_def] at hids4
  have hids5 := (updateWidget_ids _ w.objectId (fun u => u.setFullscreenMode true)
    (fun u => setFullscreenMode_objectId u true)).trans hids4
  simp only [MainWindow.showFullscreenWindow, hwm, hfind, hidx]
  refine ⟨_, rfl, ⟨_, rfl, ?_, ?_, ?_, ?_, ?_⟩, rfl, ?_⟩
  · exact hc4 ▸ h1
  · rw [hids5]; exact h2
  · intro w' hw'
    obtain ⟨w4, hw4, e1, e2⟩ := setFullscreenMode_mem _ _ true w' hw'
    obtain ⟨w0, hw0, e0⟩ := map_eq_mem _ _ _ hg4 w4 hw4
    simp only [Prod.mk.injEq] at e0
    have hflag0 := h3 w0 hw0
    simp only [BrowserWidget.isFullscreenMode, hfb] at hflag0 ⊢
    rw [e1, e2]
    by_cases hcase : w4.objectId = w.objectId
    · simp [hcase]
    · have hfalse : w0.m_isFullscreen = false := by
        cases hb : w0.m_isFullscreen with
        | false => rfl
        | true => exact absurd (hflag0.1 hb) (by simp)
      simp only [hcase, if_false, ← e0.2, hfalse, Option.some.injEq]
      constructor
      · intro hcontra; cases hcontra
      · intro hcontra; exact absurd hcontra.symm hcase
  · intro hcontra; cases hcontra
  · intro id' hid'
    simp only [Option.some.injEq] at hid'
    subst hid'
    obtain ⟨w5, hw5, e5⟩ := map_eq_getElem? (fun w => w.objectId) _ _ hids5 p w hw
    exact ⟨p, w5, rfl, hw5, e5⟩
  · simp only [MainWindow.poolIds, MainWindow.pool, hwm]
    exact hids5

/-- Placing a pane keeps its identity and its fullscreen flag. -/
theorem placeWidget_flags (c : Int) (u : BrowserWidget) :
    ((WindowManager.placeWidget c u).objectId, (WindowManager.placeWidget c u).m_isFullscreen) =
      (u.objectId, u.m_isFullscreen) := by
  have := placeWidget_frame c u
  rw [this.1, this.2.2.2.2]

/-- `hideFullscreenWindow` under the invariant of the fullscreen coordinator: the
call returns, no pane is promoted or in fullscreen mode afterwards, and the
invariant and the identities of the pool are kept. -/
theorem hideFullscreenWindow_inv (h : Host) (mw : MainWindow) (hinv : mw.FullscreenInv) :
    ∃ mw', mw.hideFullscreenWindow h = some mw' ∧ mw'.FullscreenInv ∧
      mw'.m_fullscreenBrowser = none ∧ mw'.poolIds = mw.poolIds := by
  cases hfb : mw.m_fullscreenBrowser with
  | none =>
    refine ⟨mw, ?_, hinv, hfb, rfl⟩
    simp only [MainWindow.hideFullscreenWindow, hfb]
  | some id =>
    obtain ⟨wm, hwm, h1, h2, h3, -, h5⟩ := hinv
    obtain ⟨p, w, hpos, hw, rfl⟩ := h5 id hfb
    obtain ⟨hfind, -⟩ := find_by_identity wm p w h2 hw
    have hpos0 : (p : Int) ≥ 0 := Int.ofNat_nonneg _
    -- the manager `attachWidgetToLayout` is called on
    have hpre : ∀ wm2 : WindowManager,
        wm2 = (if w.getSubWindowId > 0 then
          (wm.updateWidget w.objectId fun u => u.setFullscreenMode false).updateWidget
            w.objectId (BrowserWidget.loadCookies h)
          else wm.updateWidget w.objectId fun u => u.setFullscreenMode false) →
        wm2.m_columnCount = wm.m_columnCount ∧
        wm2.m_browserWidgets.map (fun w => w.objectId) =
          wm.m_browserWidgets.map (fun w => w.objectId) ∧
        ∀ w2 ∈ wm2.m_browserWidgets, w2.m_isFullscreen = false := by
      intro wm2 e
      have hflag1 : ∀ w1 ∈ (wm.updateWidget w.objectId
          fun u => u.setFullscreenMode false).m_browserWidgets, w1.m_isFullscreen = false := by
        intro w1 hw1
        obtain ⟨w0, hw0, -, e2⟩ := setFullscreenMode_mem _ _ false w1 hw1
        rw [e2]
        split
        · rfl
        · rename_i hne
          cases hb : w0.m_isFullscreen with
          | false => rfl
          | true =>
            have := (h3 w0 hw0).1 hb
            rw [hfb] at this
            simp only [Option.some.injEq] at this
            exact absurd this.symm hne
      have hids1 := updateWidget_ids wm w.objectId (fun u => u.setFullscreenMode false)
        (fun u => setFullscreenMode_objectId u false)
      subst e
      split
      · refine ⟨rfl, (updateWidget_ids _ _ _ (fun u => (loadCookies_sizes h u).1)).trans hids1, ?_⟩
        intro w2 hw2
        obtain ⟨w1, hw1, e⟩ := map_eq_mem (fun w => (w.objectId, w.m_isFullscreen)) _ _
          (updateWidget_proj _ _ w.objectId (BrowserWidget.loadCookies h)
            (loadCookies_flags h)) w2 hw2
        simp only [Prod.mk.injEq] at e
        rw [← e.2]
        exact hflag1 w1 hw1
      · exact ⟨rfl, hids1, hflag1⟩
    obtain ⟨hc2, hids2, hflag2⟩ := hpre _ rfl
    obtain ⟨wm3, hatt, hg3, hc3⟩ := attachWidgetToLayout_proj
      (fun w => (w.objectId, w.m_isFullscreen)) _ w.objectId p (hc2 ▸ h1)
      (fun _ _ _ => rfl)
      (fun u => placeWidget_flags _ u)
      (fun _ => rfl)
    have hids3 := congrArg (List.map Prod.fst) hg3
    simp only [List.map_map, Function.comp_def] at hids3
    simp only [MainWindow.hideFullscreenWindow, hfb, hwm, hfind, hpos, hpos0, if_true, hatt]
    refine ⟨_, rfl, ⟨wm3, rfl, ?_, ?_, ?_, ?_, ?_⟩, rfl, ?_⟩
    · rw [hc3, hc2]; exact h1
    · rw [hids3, hids2]; exact h2
    · intro w3 hw3
      obtain ⟨w2, hw2, e⟩ := map_eq_mem _ _ _ hg3 w3 hw3
      simp only [Prod.mk.injEq] at e
      simp only [BrowserWidget.isFullscreenMode, ← e.2, hflag2 w2 hw2]
      simp
    · intro _; rfl
    · intro id' hcontra; cases hcontra
    · simp only [MainWindow.poolIds, MainWindow.pool, hwm, MainWindow.withManager]
      rw [hids3, hids2]

/-- One event keeps the invariant of the fullscreen coordinator and the
identities of the pool, and is handled to the end, if a `fullscreenRequested`
event comes from a pane of the pool. -/
theorem handleFullscreenEvent_inv (h : Host) (mw : MainWindow) (ev : FullscreenEvent)
    (hinv : mw.FullscreenInv) (hsender : ∀ id ∈ FullscreenEvent.senders [ev], id ∈ mw.poolIds) :
    ∃ mw', mw.handleFullscreenEvent h ev = some mw' ∧ mw'.FullscreenInv ∧
      mw'.poolIds = mw.poolIds := by
  cases ev with
  | requested widget =>
    simp only [MainWindow.handleFullscreenEvent, MainWindow.onFullscreenRequested]
    cases hfb : mw.m_fullscreenBrowser with
    | none =>
      obtain ⟨mw', e1, e2, -, e4⟩ := showFullscreenWindow_inv mw widget hinv hfb
        (hsender widget (by simp [FullscreenEvent.senders]))
      exact ⟨mw', e1, e2, e4⟩
    | some id =>
      obtain ⟨mw', e1, e2, -, e4⟩ := hideFullscreenWindow_inv h mw hinv
      exact ⟨mw', e1, e2, e4⟩
  | key k =>
    obtain ⟨mw', e1, e2, -, e4⟩ := hideFullscreenWindow_inv h mw hinv
    simp only [MainWindow.handleFullscreenEvent, MainWindow.keyPressEvent]
    cases k with
    | f11 =>
      cases hfb : mw.m_fullscreenBrowser with
      | none => exact ⟨mw, rfl, hinv, rfl⟩
      | some id => exact ⟨mw', e1, e2, e4⟩
    | escape =>
      cases hfb : mw.m_fullscreenBrowser with
      | none => exact ⟨mw, rfl, hinv, rfl⟩
      | some id => exact ⟨mw', e1, e2, e4⟩
    | other => exact ⟨mw, rfl, hinv, rfl⟩
  | timer index =>
    obtain ⟨e1, e2⟩ := fireDeferred_inv h mw index hinv
    exact ⟨_, rfl, e1, e2⟩

/-- Every sequence of events whose `fullscreenRequested` events come from panes of
the pool is handled to the end and keeps the invariant of the fullscreen
coordinator and the identities of the pool. -/
theorem handleFullscreenEvents_inv (h : Host) (events : List FullscreenEvent) :
    ∀ mw : MainWindow, mw.FullscreenInv →
      (∀ id ∈ FullscreenEvent.senders events, id ∈ mw.poolIds) →
      ∃ mw', MainWindow.handleFullscreenEvents h events mw = some mw' ∧ mw'.FullscreenInv ∧
        mw'.poolIds = mw.poolIds := by
  induction events with
  | nil => intro mw hinv _; exact ⟨mw, rfl, hinv, rfl⟩
  | cons ev evs ih =>
    intro mw hinv hs
    have hsplit : ∀ id, id ∈ FullscreenEvent.senders [ev] ∨ id ∈ FullscreenEvent.senders evs →
        id ∈ FullscreenEvent.senders (ev :: evs) := by
      intro id hid
      cases ev <;> simp_all [FullscreenEvent.senders]
    obtain ⟨mw1, e1, e2, e3⟩ := handleFullscreenEvent_inv h mw ev hinv
      (fun id hid => hs id (hsplit id (Or.inl hid)))
    obtain ⟨mw2, f1, f2, f3⟩ := ih mw1 e2
      (fun id hid => e3 ▸ hs id (hsplit id (Or.inr hid)))
    refine ⟨mw2, ?_, f2, f3.trans e3⟩
    simp only [MainWindow.handleFullscreenEvents, e1, f1]

/-- The main window as constructed satisfies the invariant of the fullscreen
coordinator. -/
theorem create_fullscreenInv : MainWindow.create.FullscreenInv :=
  ⟨MainWindow.create.m_windowManager.getD WindowManager.constructed, by decide, by decide,
    by decide, by decide, by decide, fun id hid => by cases hid⟩

/-- What the invariant of the fullscreen coordinator says about the panes: at most
one is in fullscreen mode, a pane in fullscreen mode is the promoted one, and the
saved position is the pool index of the promoted pane, or `-1` with none. -/
theorem FullscreenInv.facts (mw : MainWindow) (hinv : mw.FullscreenInv) :
    ∃ wm, mw.m_windowManager = some wm ∧
      (∀ (i j : Nat) (wi wj : BrowserWidget), wm.m_browserWidgets[i]? = some wi →
        wm.m_browserWidgets[j]? = some wj → wi.isFullscreenMode = true →
        wj.isFullscreenMode = true → i = j) ∧
      (∀ w ∈ wm.m_browserWidgets, w.isFullscreenMode = true →
        mw.m_fullscreenBrowser = some w.objectId) ∧
      (mw.m_fullscreenBrowser = none → mw.m_fullscreenWidgetPosition = -1) ∧
      (∀ id, mw.m_fullscreenBrowser = some id →
        ∃ (p : Nat) (w : BrowserWidget), mw.m_fullscreenWidgetPosition = (p : Int) ∧
          wm.m_browserWidgets[p]? = some w ∧ w.objectId = id ∧ w.isFullscreenMode = true) ∧
      (mw.m_fullscreenBrowser ≠ none ↔
        0 ≤ mw.m_fullscreenWidgetPosition ∧
          mw.m_fullscreenWidgetPosition < wm.m_browserWidgets.length) := by
  obtain ⟨wm, hwm, -, h2, h3, h4, h5⟩ := hinv
  refine ⟨wm, hwm, ?_, ?_, h4, ?_, ?_⟩
  · intro i j wi wj hi hj fi fj
    have ei := (h3 wi (List.getElem?_mem hi)).1 fi
    have ej := (h3 wj (List.getElem?_mem hj)).1 fj
    rw [ei] at ej
    simp only [Option.some.injEq] at ej
    exact pool_index_unique wm.m_browserWidgets h2 i j wi wj hi hj ej
  · intro w hw f
    exact (h3 w hw).1 f
  · intro id hid
    obtain ⟨p, w, e1, e2, e3⟩ := h5 id hid
    exact ⟨p, w, e1, e2, e3, (h3 w (List.getElem?_mem e2)).2 (by rw [hid, e3])⟩
  · constructor
    · intro hne
      cases hfb : mw.m_fullscreenBrowser with
      | none => exact absurd hfb hne
      | some id =>
        obtain ⟨p, w, e1, e2, -⟩ := h5 id hfb
        have := (List.getElem?_eq_some_iff.1 e2).1
        rw [e1]
        omega
    · intro hpos hnone
      have := h4 hnone
      omega

/-- C11: in every state reachable from the initial main window by
fullscreen-requested events raised by pool panes, by F11, Escape and other key
presses and by the timers of the pending settle closures, every event is handled
to the end, the pool holds the panes it was constructed with, and: at most one
pane has `isFullscreenMode() = true`; a pane in fullscreen mode is the recorded
active pane `m_fullscreenBrowser`, and the recorded active pane is in fullscreen
mode; the recorded position is `-1` whenever no active pane is recorded (so each
demotion clears it), it is the pool index of the active pane while one is
recorded, and so it is a valid pool index exactly while an active pane is
recorded. -/
theorem fullscreen_invariant (h : Host) (events : List FullscreenEvent)
    (hsenders : ∀ id ∈ FullscreenEvent.senders events, id ∈ MainWindow.create.poolIds) :
    ∃ mw wm, MainWindow.handleFullscreenEvents h events MainWindow.create = some mw ∧
      mw.m_windowManager = some wm ∧
      wm.m_browserWidgets.map (fun w => w.objectId) = MainWindow.create.poolIds ∧
      (∀ (i j : Nat) (wi wj : BrowserWidget), wm.m_browserWidgets[i]? = some wi →
        wm.m_browserWidgets[j]? = some wj → wi.isFullscreenMode = true →
        wj.isFullscreenMode = true → i = j) ∧
      (∀ w ∈ wm.m_browserWidgets, w.isFullscreenMode = true →
        mw.m_fullscreenBrowser = some w.objectId) ∧
      (mw.m_fullscreenBrowser = none → mw.m_fullscreenWidgetPosition = -1) ∧
      (∀ id, mw.m_fullscreenBrowser = some id →
        ∃ (p : Nat) (w : BrowserWidget), mw.m_fullscreenWidgetPosition = (p : Int) ∧
          wm.m_browserWidgets[p]? = some w ∧ w.objectId = id ∧ w.isFullscreenMode = true) ∧
      (mw.m_fullscreenBrowser ≠ none ↔
        0 ≤ mw.m_fullscreenWidgetPosition ∧
          mw.m_fullscreenWidgetPosition < wm.m_browserWidgets.length) := by
  obtain ⟨mw, hrun, hinv, hids⟩ :=
    handleFullscreenEvents_inv h events MainWindow.create create_fullscreenInv hsenders
  obtain ⟨wm, hwm, f1, f2, f3, f4, f5⟩ := FullscreenInv.facts mw hinv
  refine ⟨mw, wm, hrun, hwm, ?_, f1, f2, f3, f4, f5⟩
  rw [← hids]
  simp only [MainWindow.poolIds, MainWindow.pool, hwm]

/-- Witness of `fullscreen_invariant`: pane 3 asks for fullscreen and its settle
timer fires, pane 5 asks (which demotes pane 3), F11 is pressed, pane 2 asks, and
Escape is pressed.  After the first two events pane 3, at pool index 2, is the
recorded active pane. -/
theorem fullscreen_invariant_witness :
    (MainWindow.handleFullscreenEvents screenHost
        [FullscreenEvent.requested 3, FullscreenEvent.timer 0] MainWindow.create).map
      (fun mw => (mw.m_fullscreenBrowser, mw.m_fullscreenWidgetPosition)) =
        some (some 3, 2) ∧
    ∃ mw wm, MainWindow.handleFullscreenEvents screenHost
        [FullscreenEvent.requested 3, FullscreenEvent.timer 0, FullscreenEvent.requested 5,
          FullscreenEvent.key Key.f11, FullscreenEvent.requested 2,
          FullscreenEvent.key Key.escape] MainWindow.create = some mw ∧
      mw.m_windowManager = some wm ∧
      wm.m_browserWidgets.map (fun w => w.objectId) = MainWindow.create.poolIds ∧
      (∀ (i j : Nat) (wi wj : BrowserWidget), wm.m_browserWidgets[i]? = some wi →
        wm.m_browserWidgets[j]? = some wj → wi.isFullscreenMode = true →
        wj.isFullscreenMode = true → i = j) ∧
      (∀ w ∈ wm.m_browserWidgets, w.isFullscreenMode = true →
        mw.m_fullscreenBrowser = some w.objectId) ∧
      (mw.m_fullscreenBrowser = none → mw.m_fullscreenWidgetPosition = -1) ∧
      (∀ id, mw.m_fullscreenBrowser = some id →
        ∃ (p : Nat) (w : BrowserWidget), mw.m_fullscreenWidgetPosition = (p : Int) ∧
          wm.m_browserWidgets[p]? = some w ∧ w.objectId = id ∧ w.isFullscreenMode = true) ∧
      (mw.m_fullscreenBrowser ≠ none ↔
        0 ≤ mw.m_fullscreenWidgetPosition ∧
          mw.m_fullscreenWidgetPosition < wm.m_browserWidgets.length) :=
  ⟨by decide, fullscreen_invariant screenHost _ (by decide)⟩

/-- C12: toggle semantics.  In a state that satisfies the invariant of the
fullscreen coordinator (every reachable state does) and in which a pane is
promoted, a fullscreen-requested event raised by any pane `q` (the active pane, a
different one, or no pane at all) is handled to the end by leaving fullscreen:
afterwards no active pane is recorded, the saved position is cleared, no pane of
the pool is in fullscreen mode, so `q` is not promoted, and the pool holds the
same panes. -/
theorem fullscreen_toggle (h : Host) (mw : MainWindow) (active : Nat) (q : Option Nat)
    (hinv : mw.FullscreenInv) (hactive : mw.m_fullscreenBrowser = some active) :
    ∃ mw' wm', mw.onFullscreenRequested h q = some mw' ∧
      mw'.m_fullscreenBrowser = none ∧ mw'.m_fullscreenWidgetPosition = -1 ∧
      mw'.m_windowManager = some wm' ∧
      (∀ w ∈ wm'.m_browserWidgets, w.isFullscreenMode = false) ∧
      mw'.poolIds = mw.poolIds := by
  obtain ⟨mw', e1, e2, e3, e4⟩ := hideFullscreenWindow_inv h mw hinv
  obtain ⟨wm', hwm', -, f2, f3, -, -⟩ := FullscreenInv.facts mw' e2
  refine ⟨mw', wm', ?_, e3, f3 e3, hwm', ?_, e4⟩
  · simp only [MainWindow.onFullscreenRequested, hactive, e1]
  · intro w hw
    cases hb : w.isFullscreenMode with
    | false => rfl
    | true =>
      have := f2 w hw hb
      rw [e3] at this
      cases this

/-- Witness of `fullscreen_toggle`: in the window of three panes with pane 3
promoted, pane 1 raises fullscreen-requested. -/
theorem fullscreen_toggle_witness :
    promotedWindow.m_fullscreenBrowser = some 3 ∧
    ∃ mw' wm', promotedWindow.onFullscreenRequested screenHost (some 1) = some mw' ∧
      mw'.m_fullscreenBrowser = none ∧ mw'.m_fullscreenWidgetPosition = -1 ∧
      mw'.m_windowManager = some wm' ∧
      (∀ w ∈ wm'.m_browserWidgets, w.isFullscreenMode = false) ∧
      mw'.poolIds = promotedWindow.poolIds :=
  ⟨by decide,
    fullscreen_toggle screenHost promotedWindow 3 (some 1)
      ⟨promotedWindow.m_windowManager.getD WindowManager.constructed, by decide, by decide,
        by decide, by decide, by decide,
        fun id hid =>
          ⟨2, (promotedWindow.pool[2]?).getD freshPane, by decide, by decide,
            Option.some.inj ((by decide : some (promotedWindow.pool[2]?.getD freshPane).objectId =
              promotedWindow.m_fullscreenBrowser).trans hid)⟩⟩
      (by decide)⟩

/-! ## Theorems: the cookie protocol -/

/-- Appending statements one after the other to a script gives the script
followed by the statements joined. -/
theorem foldl_append_join {α : Type} (f : α → String) (l : List α) :
    ∀ init : String, l.foldl (fun s item => s ++ f item) init = init ++ String.join (l.map f) := by
  have hjoin : ∀ (l : List α) (init : String),
      l.foldl (fun s item => s ++ f item) init =
        init ++ l.foldl (fun s item => s ++ f item) "" := by
    intro l
    induction l with
    | nil => intro init; simp
    | cons x xs ih =>
      intro init
      simp only [List.foldl_cons, String.empty_append]
      rw [ih (init ++ f x), ih (f x), String.append_assoc]
  intro init
  rw [hjoin l init, String.join, List.foldl_map]

/-- The statement `loadCookies` builds for the object of a cookie entry: the
`domain` and `path` attributes are left out when they are empty. -/
theorem cookieStatement_toJson (e : CookieEntry) (url : String) :
    cookieStatement (e.toJson url) =
      "document.cookie = '" ++ e.name ++ "=" ++ e.value ++
        (if e.domain = "" then "" else "; domain=" ++ e.domain) ++
        (if e.path = "" then "" else "; path=" ++ e.path) ++ "'; " := by
  have hn : JsonItem.stringAt [("name", JsonValue.string e.name),
      ("value", JsonValue.string e.value), ("domain", JsonValue.string e.domain),
      ("path", JsonValue.string e.path), ("url", JsonValue.string url)] "name" = e.name := rfl
  have hv : JsonItem.stringAt [("name", JsonValue.string e.name),
      ("value", JsonValue.string e.value), ("domain", JsonValue.string e.domain),
      ("path", JsonValue.string e.path), ("url", JsonValue.string url)] "value" = e.value := by
    simp [JsonItem.stringAt, List.lookup]
  have hd : JsonItem.stringAt [("name", JsonValue.string e.name),
      ("value", JsonValue.string e.value), ("domain", JsonValue.string e.domain),
      ("path", JsonValue.string e.path), ("url", JsonValue.string url)] "domain" = e.domain := by
    simp [JsonItem.stringAt, List.lookup]
  have hp : JsonItem.stringAt [("name", JsonValue.string e.name),
      ("value", JsonValue.string e.value), ("domain", JsonValue.string e.domain),
      ("path", JsonValue.string e.path), ("url", JsonValue.string url)] "path" = e.path := by
    simp [JsonItem.stringAt, List.lookup]
  simp only [cookieStatement, CookieEntry.toJson, hn, hv, hd, hp]
  by_cases h1 : e.domain = "" <;> by_cases h2 : e.path = "" <;>
    simp [h1, h2, String.isEmpty_iff, String.append_assoc]

/-- C13, as stated, fails.  The cookie file of logical id 1 holds one entry, with
name `a`, value `1`, an empty domain and path `/`.  On a pane bound to id 1 whose
page is not ready, `loadCookies` stages a script whose statement for the entry has
no `domain` attribute, not the statement `a=1; domain=; path=/` the claim gives;
and on a pane whose page is loaded and idle the script is not left staged: it is
sent to the page at once. -/
theorem cookie_script_leaves_out_empty_domain :
    (cookieHost.cookieFile 1).bind cookieHost.fromJsonArray =
      some [CookieEntry.toJson { name := "a", value := "1", domain := "", path := "/" } ""] ∧
    (BrowserWidget.loadCookies cookieHost { freshPane with m_subWindowId := 1 }).m_pendingCookieScript =
      "document.cookie = ''; document.cookie = 'a=1; path=/'; " ∧
    (BrowserWidget.loadCookies cookieHost { freshPane with m_subWindowId := 1 }).m_pendingCookieScript ≠
      "document.cookie = ''; document.cookie = 'a=1; domain=; path=/'; " ∧
    (BrowserWidget.loadCookies cookieHost { idlePane with m_subWindowId := 1 }).m_pendingCookieScript =
      "" ∧
    (BrowserWidget.loadCookies cookieHost { idlePane with m_subWindowId := 1 }).surfaceScripts =
      ["document.cookie = ''; document.cookie = 'a=1; path=/'; "] := by
  decide

/-- C13, amended: cookie round trip.  Let the text of a list of cookie entries
(a non-empty text that the JSON parser reads as the array of the entries'
objects) be saved by `saveCookiesToFile` as the cookie file of the logical id
`id > 0`.  Then `loadCookies` on a pane bound to `id` builds the script
`document.cookie = ''; ` followed by one statement
`document.cookie = 'name=value; domain=D; path=P'; ` per entry, in order, none
added and none lost, where `; domain=D` is left out for an empty domain and
`; path=P` for an empty path.  The script is staged in `m_pendingCookieScript`
when the page is not ready; when the page has a valid address and is not loading
it is sent to the page at once and nothing stays staged. -/
theorem loadCookies_round_trip (h : Host) (saver w : BrowserWidget) (id : Int)
    (entries : List CookieEntry) (url text : String)
    (hid : 0 < id) (hsaver : saver.m_subWindowId = id) (hw : w.m_subWindowId = id)
    (htext : text ≠ "")
    (hparse : h.fromJsonArray text = some (entries.map fun e => e.toJson url)) :
    ∃ script : String,
      script = "document.cookie = ''; " ++ String.join (entries.map fun e =>
        "document.cookie = '" ++ e.name ++ "=" ++ e.value ++
          (if e.domain = "" then "" else "; domain=" ++ e.domain) ++
          (if e.path = "" then "" else "; path=" ++ e.path) ++ "'; ") ∧
      (saver.saveCookiesToFile h text true).2 = true ∧
      (¬ (w.pageUrlValid = true ∧ w.pageLoading = false) →
        (w.loadCookies (saver.saveCookiesToFile h text true).1).m_pendingCookieScript = script ∧
        (w.loadCookies (saver.saveCookiesToFile h text true).1).surfaceScripts =
          w.surfaceScripts) ∧
      (w.pageUrlValid = true ∧ w.pageLoading = false →
        (w.loadCookies (saver.saveCookiesToFile h text true).1).m_pendingCookieScript = "" ∧
        (w.loadCookies (saver.saveCookiesToFile h text true).1).surfaceScripts =
          w.surfaceScripts ++ [script]) := by
  have hs1 : ¬ saver.m_subWindowId ≤ 0 := by omega
  have hw1 : ¬ w.m_subWindowId ≤ 0 := by omega
  have hid0 : ¬ id ≤ 0 := by omega
  have hsave : saver.saveCookiesToFile h text true =
      ({ h with cookieFile := fun i =>
          if i = saver.m_subWindowId then some text else h.cookieFile i }, true) := by
    simp [BrowserWidget.saveCookiesToFile, hs1]
  have hempty : text.isEmpty = false := by
    cases he : text.isEmpty
    · rfl
    · exact absurd ((String.isEmpty_iff _).1 he) htext
  have hscript : (entries.map fun e => e.toJson url).foldl
      (fun s item => s ++ cookieStatement item) "document.cookie = ''; " =
      "document.cookie = ''; " ++ String.join (entries.map fun e =>
        "document.cookie = '" ++ e.name ++ "=" ++ e.value ++
          (if e.domain = "" then "" else "; domain=" ++ e.domain) ++
          (if e.path = "" then "" else "; path=" ++ e.path) ++ "'; ") := by
    rw [foldl_append_join, List.map_map]
    congr 2
    apply List.map_congr_left
    intro e _
    exact cookieStatement_toJson e url
  have hne : ("document.cookie = ''; " ++ String.join (entries.map fun e =>
        "document.cookie = '" ++ e.name ++ "=" ++ e.value ++
          (if e.domain = "" then "" else "; domain=" ++ e.domain) ++
          (if e.path = "" then "" else "; path=" ++ e.path) ++ "'; ")).isEmpty = false := by
    apply isEmpty_eq_false_of_data
    simp [String.data_append]
  refine ⟨_, rfl, by rw [hsave], ?_, ?_⟩
  · intro hready
    rw [hsave]
    simp only [BrowserWidget.loadCookies, BrowserWidget.loadCookiesFromFile, hw1, hw, hsaver,
      hid0, if_false, if_true, hempty, hparse, hscript]
    simp [hready]
  · intro hready
    rw [hsave]
    simp only [BrowserWidget.loadCookies, BrowserWidget.loadCookiesFromFile, hw1, hw, hsaver,
      hid0, if_false, if_true, hempty, hparse, hscript]
    simp [hready, BrowserWidget.executeCookieScript, hne]

set_option maxRecDepth 8000 in
/-- Witness of `loadCookies_round_trip`: a pane bound to the logical id 3 saves
the text of two cookies of `a.test`; a pane bound to id 3 whose page is not ready
then stages the script with the two statements. -/
theorem loadCookies_round_trip_witness :
    (BrowserWidget.loadCookies
      (BrowserWidget.saveCookiesToFile parsingHost { freshPane with m_subWindowId := 3 }
        twoCookiesText true).1 { freshPane with m_subWindowId := 3 }).m_pendingCookieScript =
      "document.cookie = ''; document.cookie = 'sid=7; domain=a.test; path=/'; "
        ++ "document.cookie = 'k=v; domain=a.test; path=/'; " ∧
    ∃ script : String,
      script = "document.cookie = ''; " ++ String.join (twoCookies.map fun e =>
        "document.cookie = '" ++ e.name ++ "=" ++ e.value ++
          (if e.domain = "" then "" else "; domain=" ++ e.domain) ++
          (if e.path = "" then "" else "; path=" ++ e.path) ++ "'; ") ∧
      (BrowserWidget.saveCookiesToFile parsingHost { freshPane with m_subWindowId := 3 }
        twoCookiesText true).2 = true ∧
      (¬ (({ freshPane with m_subWindowId := 3 } : BrowserWidget).pageUrlValid = true ∧
          ({ freshPane with m_subWindowId := 3 } : BrowserWidget).pageLoading = false) →
        (BrowserWidget.loadCookies
          (BrowserWidget.saveCookiesToFile parsingHost { freshPane with m_subWindowId := 3 }
            twoCookiesText true).1
          { freshPane with m_subWindowId := 3 }).m_pendingCookieScript = script ∧
        (BrowserWidget.loadCookies
          (BrowserWidget.saveCookiesToFile parsingHost { freshPane with m_subWindowId := 3 }
            twoCookiesText true).1
          { freshPane with m_subWindowId := 3 }).surfaceScripts =
          ({ freshPane with m_subWindowId := 3 } : BrowserWidget).surfaceScripts) ∧
      (({ freshPane with m_subWindowId := 3 } : BrowserWidget).pageUrlValid = true ∧
          ({ freshPane with m_subWindowId := 3 } : BrowserWidget).pageLoading = false →
        (BrowserWidget.loadCookies
          (BrowserWidget.saveCookiesToFile parsingHost { freshPane with m_subWindowId := 3 }
            twoCookiesText true).1
          { freshPane with m_subWindowId := 3 }).m_pendingCookieScript = "" ∧
        (BrowserWidget.loadCookies
          (BrowserWidget.saveCookiesToFile parsingHost { freshPane with m_subWindowId := 3 }
            twoCookiesText true).1
          { freshPane with m_subWindowId := 3 }).surfaceScripts =
          ({ freshPane with m_subWindowId := 3 } : BrowserWidget).surfaceScripts ++ [script]) :=
  ⟨by decide,
    loadCookies_round_trip parsingHost { freshPane with m_subWindowId := 3 }
      { freshPane with m_subWindowId := 3 } 3 twoCookies "https://a.test/" twoCookiesText
      (by decide) rfl rfl (by decide) (by decide)⟩

/-- C14, as stated, fails: a pane bound to the logical id 5 with a cookie script
staged is rebound to the id 2, which has no cookie file; the script staged for
id 5 is still staged afterwards. -/
theorem stale_script_survives_rebinding :
    cookieHost.cookieFile 2 = none ∧
    stagedPane.getSubWindowId = 5 ∧
    stagedPane.m_pendingCookieScript = "document.cookie = 'k=v'; " ∧
    (stagedPane.setSubWindowId cookieHost 2).getSubWindowId = 2 ∧
    (stagedPane.setSubWindowId cookieHost 2).m_pendingCookieScript =
      "document.cookie = 'k=v'; " ∧
    (stagedPane.setSubWindowId cookieHost 2).m_pendingCookieScript ≠ "" := by
  decide

/-- C14, amended: for every pane state, rebinding the pane with `setSubWindowId`
to a logical id that has no cookie file (and so `loadCookies` for that id) stages
no script and sends none to the page: the call changes the logical id and nothing
else, so `m_pendingCookieScript` and the scripts sent to the page are what they
were before the call; no script is staged afterwards if none was staged before,
and a script staged for the previous id stays staged. -/
theorem setSubWindowId_without_file (h : Host) (w : BrowserWidget) (id : Int)
    (hfile : h.cookieFile id = none) :
    w.setSubWindowId h id = { w with m_subWindowId := id } ∧
    BrowserWidget.loadCookies h { w with m_subWindowId := id } = { w with m_subWindowId := id } ∧
    (w.setSubWindowId h id).m_pendingCookieScript = w.m_pendingCookieScript ∧
    (w.setSubWindowId h id).surfaceScripts = w.surfaceScripts ∧
    (w.m_pendingCookieScript = "" → (w.setSubWindowId h id).m_pendingCookieScript = "") := by
  have hload : BrowserWidget.loadCookies h { w with m_subWindowId := id } =
      { w with m_subWindowId := id } := by
    simp only [BrowserWidget.loadCookies, BrowserWidget.loadCookiesFromFile, hfile]
    split
    · rfl
    · have he : ("" : String).isEmpty = true := by decide
      simp [he]
  have hset : w.setSubWindowId h id = { w with m_subWindowId := id } := by
    simp only [BrowserWidget.setSubWindowId]
    split
    · exact hload
    · rfl
  refine ⟨hset, hload, ?_, ?_, ?_⟩
  · rw [hset]
  · rw [hset]
  · intro he
    rw [hset]
    exact he

/-- Witness of `setSubWindowId_without_file`: a pane as constructed is bound to
the logical id 2, which has no cookie file. -/
theorem setSubWindowId_without_file_witness :
    freshPane.setSubWindowId cookieHost 2 = { freshPane with m_subWindowId := 2 } ∧
    BrowserWidget.loadCookies cookieHost { freshPane with m_subWindowId := 2 } =
      { freshPane with m_subWindowId := 2 } ∧
    (freshPane.setSubWindowId cookieHost 2).m_pendingCookieScript =
      freshPane.m_pendingCookieScript ∧
    (freshPane.setSubWindowId cookieHost 2).surfaceScripts = freshPane.surfaceScripts ∧
    (freshPane.m_pendingCookieScript = "" →
      (freshPane.setSubWindowId cookieHost 2).m_pendingCookieScript = "") :=
  setSubWindowId_without_file cookieHost freshPane 2 (by decide)

/-- C19, as stated, fails: after `setSubWindowId(0)` a pane bound to the logical
id 5 is bound to 0, not to 5. -/
theorem setSubWindowId_zero_unbinds :
    stagedPane.getSubWindowId = 5 ∧
    (stagedPane.setSubWindowId cookieHost 0).getSubWindowId = 0 := by
  decide

/-- C19, amended: for every pane state and every `id ≤ 0`, `setSubWindowId(id)`
stores `id` as the pane's `subWindowId` (the pane is left unassigned) and changes
nothing else: the name, the stored destination, the loaded flag, the staged
cookie script and the scripts sent to the page are the same after the call as
before it. -/
theorem setSubWindowId_nonpositive (h : Host) (w : BrowserWidget) (id : Int) (hid : id ≤ 0) :
    w.setSubWindowId h id = { w with m_subWindowId := id } ∧
    (w.setSubWindowId h id).getSubWindowId = id ∧
    (w.setSubWindowId h id).getSubWindowName = w.getSubWindowName ∧
    (w.setSubWindowId h id).getCurrentUrl = w.getCurrentUrl ∧
    (w.setSubWindowId h id).m_isLoaded = w.m_isLoaded ∧
    (w.setSubWindowId h id).m_pendingCookieScript = w.m_pendingCookieScript ∧
    (w.setSubWindowId h id).surfaceScripts = w.surfaceScripts := by
  have hset : w.setSubWindowId h id = { w with m_subWindowId := id } := by
    simp only [BrowserWidget.setSubWindowId]
    split
    · rename_i hpos
      exact absurd hpos (by
        show ¬ (id > 0)
        omega)
    · rfl
  rw [hset]
  exact ⟨rfl, rfl, rfl, rfl, rfl, rfl, rfl⟩

/-- Witness of `setSubWindowId_nonpositive`: the pane bound to the logical id 5,
with a script staged, and the id 0. -/
theorem setSubWindowId_nonpositive_witness :
    stagedPane.setSubWindowId cookieHost 0 = { stagedPane with m_subWindowId := 0 } ∧
    (stagedPane.setSubWindowId cookieHost 0).getSubWindowId = 0 ∧
    (stagedPane.setSubWindowId cookieHost 0).getSubWindowName = stagedPane.getSubWindowName ∧
    (stagedPane.setSubWindowId cookieHost 0).getCurrentUrl = stagedPane.getCurrentUrl ∧
    (stagedPane.setSubWindowId cookieHost 0).m_isLoaded = stagedPane.m_isLoaded ∧
    (stagedPane.setSubWindowId cookieHost 0).m_pendingCookieScript =
      stagedPane.m_pendingCookieScript ∧
    (stagedPane.setSubWindowId cookieHost 0).surfaceScripts = stagedPane.surfaceScripts :=
  setSubWindowId_nonpositive cookieHost stagedPane 0 (by decide)

/-- `loadUrl` keeps the staged cookie script and the scripts sent to the page, and
leaves the normalised destination as stored destination. -/
theorem loadUrl_keeps_script (w : BrowserWidget) (u : String) :
    (w.loadUrl u).m_pendingCookieScript = w.m_pendingCookieScript ∧
    (w.loadUrl u).surfaceScripts = w.surfaceScripts ∧
    (w.loadUrl u).m_currentUrl = BrowserWidget.formatUrl u := by
  by_cases h1 : w.m_isLoaded = true ∧ w.m_currentUrl = BrowserWidget.formatUrl u
  · simp [BrowserWidget.loadUrl, h1]
  · by_cases h2 : w.visible = true
    · simp [BrowserWidget.loadUrl, h1, BrowserWidget.isVisible, h2]
    · simp [BrowserWidget.loadUrl, h1, BrowserWidget.isVisible, h2]

/-- The closure of `loadUrl` keeps the staged cookie script, the scripts sent to
the page and the stored destination. -/
theorem fireLoadTimer_keeps_script (w : BrowserWidget) :
    w.fireLoadTimer.m_pendingCookieScript = w.m_pendingCookieScript ∧
    w.fireLoadTimer.surfaceScripts = w.surfaceScripts ∧
    w.fireLoadTimer.m_currentUrl = w.m_currentUrl := by
  simp only [BrowserWidget.fireLoadTimer]
  split <;> exact ⟨rfl, rfl, rfl⟩

/-- C15, as stated, fails: on a visible pane with a cookie script staged, a first
and then a second destination are dispatched; the script is still staged when the
second has been dispatched, and it is executed when the load of the second
destination finishes. -/
theorem stale_script_runs_on_second_destination :
    stagedVisiblePane.m_pendingCookieScript = "document.cookie = 'k=v'; " ∧
    (((stagedVisiblePane.loadUrl "https://a.test").fireLoadTimer.loadUrl
        "https://b.test").fireLoadTimer).surfaceLoads = ["https://a.test", "https://b.test"] ∧
    (((stagedVisiblePane.loadUrl "https://a.test").fireLoadTimer.loadUrl
        "https://b.test").fireLoadTimer).getCurrentUrl = "https://b.test" ∧
    (((stagedVisiblePane.loadUrl "https://a.test").fireLoadTimer.loadUrl
        "https://b.test").fireLoadTimer).m_pendingCookieScript = "document.cookie = 'k=v'; " ∧
    (((stagedVisiblePane.loadUrl "https://a.test").fireLoadTimer.loadUrl
        "https://b.test").fireLoadTimer).surfaceScripts = [] ∧
    ((((stagedVisiblePane.loadUrl "https://a.test").fireLoadTimer.loadUrl
        "https://b.test").fireLoadTimer).onLoadFinished true).surfaceScripts =
      ["document.cookie = 'k=v'; "] := by
  decide

/-- C15, amended: `loadUrl` does not discard a staged cookie script.  If a cookie
script is staged on a pane and `loadUrl` dispatches a first and then a second
destination before the script has been executed, the script is still staged, and
not yet sent to the page, when the second destination has been dispatched; it is
executed, once, when the next load finishes successfully (against the page of the
second destination, the stored destination then), which clears it, so that a load
that finishes later executes nothing. -/
theorem staged_script_runs_on_next_load (w : BrowserWidget) (u1 u2 : String)
    (hstaged : w.m_pendingCookieScript ≠ "") :
    (((w.loadUrl u1).fireLoadTimer.loadUrl u2).fireLoadTimer).m_pendingCookieScript =
      w.m_pendingCookieScript ∧
    (((w.loadUrl u1).fireLoadTimer.loadUrl u2).fireLoadTimer).surfaceScripts =
      w.surfaceScripts ∧
    (((w.loadUrl u1).fireLoadTimer.loadUrl u2).fireLoadTimer).getCurrentUrl =
      BrowserWidget.formatUrl u2 ∧
    ((((w.loadUrl u1).fireLoadTimer.loadUrl u2).fireLoadTimer).onLoadFinished true).surfaceScripts =
      w.surfaceScripts ++ [w.m_pendingCookieScript] ∧
    ((((w.loadUrl u1).fireLoadTimer.loadUrl u2).fireLoadTimer).onLoadFinished
      true).m_pendingCookieScript = "" ∧
    (((((w.loadUrl u1).fireLoadTimer.loadUrl u2).fireLoadTimer).onLoadFinished
      true).onLoadFinished true).surfaceScripts =
      w.surfaceScripts ++ [w.m_pendingCookieScript] := by
  obtain ⟨a1, a2, -⟩ := loadUrl_keeps_script w u1
  obtain ⟨b1, b2, -⟩ := fireLoadTimer_keeps_script (w.loadUrl u1)
  obtain ⟨c1, c2, c3⟩ := loadUrl_keeps_script (w.loadUrl u1).fireLoadTimer u2
  obtain ⟨d1, d2, d3⟩ := fireLoadTimer_keeps_script ((w.loadUrl u1).fireLoadTimer.loadUrl u2)
  have e1 := d1.trans (c1.trans (b1.trans a1))
  have e2 := d2.trans (c2.trans (b2.trans a2))
  have e3 := d3.trans c3
  have hurl : (((w.loadUrl u1).fireLoadTimer.loadUrl u2).fireLoadTimer).m_currentUrl.isEmpty =
      false := by
    rw [e3]; exact formatUrl_isEmpty u2
  have hscript : (((w.loadUrl u1).fireLoadTimer.loadUrl u2).fireLoadTimer).m_pendingCookieScript.isEmpty
      = false := by
    rw [e1]
    cases he : w.m_pendingCookieScript.isEmpty
    · rfl
    · exact absurd ((String.isEmpty_iff _).1 he) hstaged
  have key : ∀ v : BrowserWidget, v.m_currentUrl.isEmpty = false →
      (v.m_pendingCookieScript.isEmpty = false →
        (v.onLoadFinished true).surfaceScripts = v.surfaceScripts ++ [v.m_pendingCookieScript]) ∧
      (v.m_pendingCookieScript = "" → (v.onLoadFinished true).surfaceScripts = v.surfaceScripts) ∧
      (v.onLoadFinished true).m_pendingCookieScript = "" ∧
      (v.onLoadFinished true).m_currentUrl = v.m_currentUrl := by
    intro v hv
    have hempty : ("" : String).isEmpty = true := by decide
    by_cases hid : v.m_subWindowId > 0
    · cases hp : v.m_pendingCookieScript.isEmpty
      · have hne : v.m_pendingCookieScript ≠ "" := fun he => by
          rw [he, hempty] at hp; cases hp
        simp [BrowserWidget.onLoadFinished, hv, BrowserWidget.executeCookieScript, hp, hid, hne]
      · have he := (String.isEmpty_iff _).1 hp
        simp [BrowserWidget.onLoadFinished, hv, BrowserWidget.executeCookieScript, hid, he, hempty]
    · cases hp : v.m_pendingCookieScript.isEmpty
      · have hne : v.m_pendingCookieScript ≠ "" := fun he => by
          rw [he, hempty] at hp; cases hp
        simp [BrowserWidget.onLoadFinished, hv, BrowserWidget.executeCookieScript, hp, hid, hne]
      · have he := (String.isEmpty_iff _).1 hp
        simp [BrowserWidget.onLoadFinished, hv, BrowserWidget.executeCookieScript, hid, he, hempty]
  obtain ⟨k1, -, k3, k4⟩ := key _ hurl
  obtain ⟨-, m2, -, -⟩ := key ((((w.loadUrl u1).fireLoadTimer.loadUrl u2).fireLoadTimer).onLoadFinished
    true) (by rw [k4]; exact hurl)
  refine ⟨e1, e2, e3, ?_, k3, ?_⟩
  · rw [k1 hscript, e1, e2]
  · rw [m2 k3, k1 hscript, e1, e2]

/-- Witness of `staged_script_runs_on_next_load`: the visible pane with a script
staged, and the destinations `https://a.test` and `https://b.test`. -/
theorem staged_script_runs_on_next_load_witness :
    (((stagedVisiblePane.loadUrl "https://a.test").fireLoadTimer.loadUrl
        "https://b.test").fireLoadTimer).m_pendingCookieScript =
      stagedVisiblePane.m_pendingCookieScript ∧
    (((stagedVisiblePane.loadUrl "https://a.test").fireLoadTimer.loadUrl
        "https://b.test").fireLoadTimer).surfaceScripts = stagedVisiblePane.surfaceScripts ∧
    (((stagedVisiblePane.loadUrl "https://a.test").fireLoadTimer.loadUrl
        "https://b.test").fireLoadTimer).getCurrentUrl =
      BrowserWidget.formatUrl "https://b.test" ∧
    ((((stagedVisiblePane.loadUrl "https://a.test").fireLoadTimer.loadUrl
        "https://b.test").fireLoadTimer).onLoadFinished true).surfaceScripts =
      stagedVisiblePane.surfaceScripts ++ [stagedVisiblePane.m_pendingCookieScript] ∧
    ((((stagedVisiblePane.loadUrl "https://a.test").fireLoadTimer.loadUrl
        "https://b.test").fireLoadTimer).onLoadFinished true).m_pendingCookieScript = "" ∧
    (((((stagedVisiblePane.loadUrl "https://a.test").fireLoadTimer.loadUrl
        "https://b.test").fireLoadTimer).onLoadFinished true).onLoadFinished
        true).surfaceScripts =
      stagedVisiblePane.surfaceScripts ++ [stagedVisiblePane.m_pendingCookieScript] :=
  staged_script_runs_on_next_load stagedVisiblePane "https://a.test" "https://b.test"
    (by decide)

/-! ## Theorems: the pool across runs and events -/

/-- C16, as stated, fails: after the records with ids 1, 2, 3 and then the record
with id 2 alone have been assigned, from the main window as constructed, the
panes at pool indices 0 and 1 both have the `subWindowId` 2 (pane 1 is hidden and
keeps the id it had). -/
theorem hidden_pane_keeps_its_id :
    (MainWindow.loadAll exampleHost 1 [gridStore, shorterStore] MainWindow.create).map
      (fun mw => (mw.pool.take 3).map fun w => (w.getSubWindowId, w.isHidden)) =
      some [(2, false), (2, true), (3, true)] := by
  decide

/-- One run of `loadSubWindowsToLayout` on a list of records with pairwise
distinct ids leaves the panes it shows with pairwise distinct logical ids. -/
theorem loadSubWindowsToLayout_distinct (h : Host) (d : Database) (fuel : Nat)
    (mw : MainWindow) (wm : WindowManager) (hload : mw.m_loadingSubwindows = false)
    (hwm : mw.m_windowManager = some wm) (hwf : wm.WellFormed)
    (hL : d.subWindows.length ≤ 16) (hpool : wm.m_browserWidgets.length = 16)
    (hids : (d.subWindows.map fun r => r.id).Nodup) :
    ∃ mw' wm', MainWindow.loadSubWindowsToLayout h (some d) (fuel + 1) mw = some mw' ∧
      mw'.m_windowManager = some wm' ∧ mw'.m_loadingSubwindows = false ∧ wm'.WellFormed ∧
      wm'.m_browserWidgets.length = 16 ∧
      ∀ (i j : Nat) (wi wj : BrowserWidget), i < j → (j : Int) < wm'.getCurrentWindowCount →
        wm'.m_browserWidgets[i]? = some wi → wm'.m_browserWidgets[j]? = some wj →
        wi.getSubWindowId ≠ wj.getSubWindowId := by
  obtain ⟨mw', wm', hrun, hmgr, heq, hl, hwf', hlen, hcount⟩ :=
    loadSubWindowsToLayout_post h d fuel mw wm hload hwm hwf hL (by omega)
  have hlenA := (laidOutFor_count_length wm d).2
  have hpane : ∀ (i : Nat) (w : BrowserWidget), i < d.subWindows.length →
      wm'.m_browserWidgets[i]? = some w →
      ∃ r, d.subWindows[i]? = some r ∧ w.m_subWindowId = r.id := by
    intro i w hi hw
    have hiA : i < (wm.laidOutFor d).m_browserWidgets.length := by rw [hlenA]; omega
    rw [heq] at hw
    simp only [assignSubWindows_getElem?, List.getElem?_eq_getElem hi,
      List.getElem?_eq_getElem hiA, Option.some.injEq] at hw
    refine ⟨d.subWindows[i], List.getElem?_eq_getElem hi, ?_⟩
    rw [← hw]
    exact (assignSubWindow_fields h _ _).1
  refine ⟨mw', wm', hrun, hmgr, hl, hwf', by rw [hlen, hpool], ?_⟩
  intro i j wi wj hij hj hwi hwj heq2
  rw [WindowManager.getCurrentWindowCount, hcount] at hj
  have hj' : j < d.subWindows.length := by exact_mod_cast hj
  obtain ⟨ri, hri, ei⟩ := hpane i wi (by omega) hwi
  obtain ⟨rj, hrj, ej⟩ := hpane j wj hj' hwj
  simp only [BrowserWidget.getSubWindowId] at heq2
  rw [ei, ej] at heq2
  have hi1 : i < (d.subWindows.map fun r => r.id).length := by simp; omega
  have hj1 : j < (d.subWindows.map fun r => r.id).length := by simp; omega
  have := (@List.Nodup.getElem_inj_iff _ _ hids i hi1 j hj1).1 (by
    simp only [List.getElem_map]
    have a := (List.getElem?_eq_some_iff.1 hri).2
    have b := (List.getElem?_eq_some_iff.1 hrj).2
    rw [a, b]
    exact heq2)
  omega

/-- C16, amended: in every state reachable from the main window as constructed
(a fresh pool) by successive runs of `loadSubWindowsToLayout` on lists of at most
16 records with pairwise distinct ids, every run returns and each logical id is
bound to at most one visible pane: no two panes at pool indices below the visible
count have the same `subWindowId`.  (A pane hidden by a later, shorter list keeps
the id it had.) -/
theorem visible_panes_distinct_ids (h : Host) (fuel : Nat) (stores : List Database)
    (hlen : ∀ d ∈ stores, d.subWindows.length ≤ 16)
    (hids : ∀ d ∈ stores, (d.subWindows.map fun r => r.id).Nodup) :
    ∃ mw wm, MainWindow.loadAll h (fuel + 1) stores MainWindow.create = some mw ∧
      mw.m_windowManager = some wm ∧ wm.m_browserWidgets.length = 16 ∧
      ∀ (i j : Nat) (wi wj : BrowserWidget), i < j → (j : Int) < wm.getCurrentWindowCount →
        wm.m_browserWidgets[i]? = some wi → wm.m_browserWidgets[j]? = some wj →
        wi.getSubWindowId ≠ wj.getSubWindowId := by
  have step : ∀ (stores : List Database), (∀ d ∈ stores, d.subWindows.length ≤ 16) →
      (∀ d ∈ stores, (d.subWindows.map fun r => r.id).Nodup) →
      ∀ (mw0 : MainWindow) (wm0 : WindowManager), mw0.m_loadingSubwindows = false →
      mw0.m_windowManager = some wm0 → wm0.WellFormed → wm0.m_browserWidgets.length = 16 →
      (∀ (i j : Nat) (wi wj : BrowserWidget), i < j → (j : Int) < wm0.getCurrentWindowCount →
        wm0.m_browserWidgets[i]? = some wi → wm0.m_browserWidgets[j]? = some wj →
        wi.getSubWindowId ≠ wj.getSubWindowId) →
      ∃ mw wm, MainWindow.loadAll h (fuel + 1) stores mw0 = some mw ∧
        mw.m_windowManager = some wm ∧ wm.m_browserWidgets.length = 16 ∧
        ∀ (i j : Nat) (wi wj : BrowserWidget), i < j → (j : Int) < wm.getCurrentWindowCount →
          wm.m_browserWidgets[i]? = some wi → wm.m_browserWidgets[j]? = some wj →
          wi.getSubWindowId ≠ wj.getSubWindowId := by
    intro stores
    induction stores with
    | nil =>
      intro _ _ mw0 wm0 _ hwm0 _ hp0 hd0
      exact ⟨mw0, wm0, rfl, hwm0, hp0, hd0⟩
    | cons d ds ih =>
      intro hl hn mw0 wm0 hload0 hwm0 hwf0 hp0 _
      obtain ⟨mw1, wm1, hrun, hwm1, hload1, hwf1, hp1, hd1⟩ :=
        loadSubWindowsToLayout_distinct h d fuel mw0 wm0 hload0 hwm0 hwf0
          (hl d (List.mem_cons_self _ _)) hp0 (hn d (List.mem_cons_self _ _))
      obtain ⟨mw, wm, hall, hwm, hp, hd⟩ := ih
        (fun d' hd' => hl d' (List.mem_cons_of_mem _ hd'))
        (fun d' hd' => hn d' (List.mem_cons_of_mem _ hd')) mw1 wm1 hload1 hwm1 hwf1 hp1 hd1
      refine ⟨mw, wm, ?_, hwm, hp, hd⟩
      simp only [MainWindow.loadAll, hrun, hall]
  exact step stores hlen hids MainWindow.create
    (MainWindow.create.m_windowManager.getD WindowManager.constructed) (by decide) (by decide)
    (by decide) (by decide) (by
      intro i j wi wj _ hj
      have : (MainWindow.create.m_windowManager.getD
        WindowManager.constructed).getCurrentWindowCount = 0 := by decide
      rw [this] at hj
      omega)

/-- Witness of `visible_panes_distinct_ids`: the record with id 2 alone is
assigned, then the records with ids 1, 2, 3, which leaves three panes shown. -/
theorem visible_panes_distinct_ids_witness :
    ∃ mw wm, MainWindow.loadAll exampleHost 1 [shorterStore, gridStore] MainWindow.create =
        some mw ∧
      mw.m_windowManager = some wm ∧ wm.m_browserWidgets.length = 16 ∧
      ∀ (i j : Nat) (wi wj : BrowserWidget), i < j → (j : Int) < wm.getCurrentWindowCount →
        wm.m_browserWidgets[i]? = some wi → wm.m_browserWidgets[j]? = some wj →
        wi.getSubWindowId ≠ wj.getSubWindowId :=
  visible_panes_distinct_ids exampleHost 0 [shorterStore, gridStore] (by decide) (by decide)

/-- C18: validation is atomic.  `setLayout(n)` (forced or not) with `n` outside
`0..16` and `setColumnCount(c)` with `c` outside `1..3` return and are rejected:
each leaves the manager as it was (so the visible count, the column count, the
rows and the visibility of every pane are unchanged), and `setLayout` emits no
signal, so no layout-changed event. -/
theorem validation_atomic (wm : WindowManager) (n c : Int) (force : Bool)
    (hn : n < 0 ∨ 16 < n) (hc : c < 1 ∨ 3 < c) :
    ∃ wm1 signals wm2,
      wm.setLayout n force = some (wm1, signals) ∧ wm1 = wm ∧ signals = [] ∧
      wm.setLayoutUnforced n = some (wm1, signals) ∧
      wm.setColumnCount c = some wm2 ∧ wm2 = wm ∧
      wm1.getCurrentWindowCount = wm.getCurrentWindowCount ∧
      wm1.getColumnCount = wm.getColumnCount ∧ wm1.rows = wm.rows ∧
      wm1.m_browserWidgets.map (fun w => w.isVisible) =
        wm.m_browserWidgets.map (fun w => w.isVisible) ∧
      wm2.getCurrentWindowCount = wm.getCurrentWindowCount ∧
      wm2.getColumnCount = wm.getColumnCount ∧ wm2.rows = wm.rows ∧
      wm2.m_browserWidgets.map (fun w => w.isVisible) =
        wm.m_browserWidgets.map (fun w => w.isVisible) := by
  have hvalid : WindowManager.isValidWindowCount n = false := by
    cases hv : WindowManager.isValidWindowCount n
    · rfl
    · have := (isValidWindowCount_iff n).1 hv
      omega
  have hset : ∀ f : Bool, wm.setLayout n f = some (wm, []) := by
    intro f
    simp [WindowManager.setLayout, hvalid]
  have hcol : wm.setColumnCount c = some wm := by
    have : c < 1 ∨ c > 3 := by omega
    simp [WindowManager.setColumnCount, this]
  exact ⟨wm, [], wm, hset force, rfl, rfl, hset false, hcol, rfl, rfl, rfl, rfl, rfl, rfl, rfl,
    rfl, rfl⟩

/-- Witness of `validation_atomic`: `setLayout(17)` and `setColumnCount(4)` on the
manager of the window of three panes in two columns. -/
theorem validation_atomic_witness :
    ∃ wm1 signals wm2,
      gridManager.setLayout 17 true = some (wm1, signals) ∧ wm1 = gridManager ∧ signals = [] ∧
      gridManager.setLayoutUnforced 17 = some (wm1, signals) ∧
      gridManager.setColumnCount 4 = some wm2 ∧ wm2 = gridManager ∧
      wm1.getCurrentWindowCount = gridManager.getCurrentWindowCount ∧
      wm1.getColumnCount = gridManager.getColumnCount ∧ wm1.rows = gridManager.rows ∧
      wm1.m_browserWidgets.map (fun w => w.isVisible) =
        gridManager.m_browserWidgets.map (fun w => w.isVisible) ∧
      wm2.getCurrentWindowCount = gridManager.getCurrentWindowCount ∧
      wm2.getColumnCount = gridManager.getColumnCount ∧ wm2.rows = gridManager.rows ∧
      wm2.m_browserWidgets.map (fun w => w.isVisible) =
        gridManager.m_browserWidgets.map (fun w => w.isVisible) :=
  validation_atomic gridManager 17 4 true (by decide) (by decide)

/-! ## Theorems: the zoom factor -/

/-- The value `qBound` returns lies between the bounds, when these are in
order. -/
theorem qBound_mem (lo val hi : ℚ) (h : lo ≤ hi) :
    lo ≤ qBound lo val hi ∧ qBound lo val hi ≤ hi := by
  unfold qBound
  exact ⟨le_max_left _ _, max_le h (min_le_left _ _)⟩

/-- C20: `calculateOptimalZoomFactor`, over exact rational arithmetic, returns for
every pane size `(w, h)` with `w, h > 0`: in normal mode
`clamp(0.8 * min(w/1920, h/1080), 0.25, 3.0)`; in fullscreen mode with a screen of
size `(sw, sh)`,
`clamp(0.3 * min(w/1920, h/1080) + 0.7 * min(sw/1920, sh/1080), 0.25, 3.0)`.  For
every input (any size, mode and screen) the result lies in `[0.25, 3.0]`; for the
standard 500 by 300 pane in normal mode it is the lower bound `0.25`. -/
theorem calculateOptimalZoomFactor_spec (h : Host) (w : BrowserWidget) (size : QSize)
    (hw : 0 < size.width) (hh : 0 < size.height) :
    (w.isFullscreenMode = false →
      w.calculateOptimalZoomFactor h size =
        max (1 / 4) (min ((8 / 10) * min ((size.width : ℚ) / 1920) ((size.height : ℚ) / 1080))
          3)) ∧
    (∀ screen : QRect, w.isFullscreenMode = true → h.primaryScreen = some screen →
      w.calculateOptimalZoomFactor h size =
        max (1 / 4) (min ((3 / 10) * min ((size.width : ℚ) / 1920) ((size.height : ℚ) / 1080) +
          (7 / 10) * min ((screen.width : ℚ) / 1920) ((screen.height : ℚ) / 1080)) 3)) ∧
    (∀ (h' : Host) (w' : BrowserWidget) (size' : QSize),
      1 / 4 ≤ w'.calculateOptimalZoomFactor h' size' ∧
        w'.calculateOptimalZoomFactor h' size' ≤ 3) ∧
    (w.isFullscreenMode = false → size = { width := 500, height := 300 } →
      w.calculateOptimalZoomFactor h size = 1 / 4) := by
  have hsize : ¬ (size.width ≤ 0 ∨ size.height ≤ 0) := by omega
  have hnormal : w.isFullscreenMode = false →
      w.calculateOptimalZoomFactor h size =
        max (1 / 4) (min ((8 / 10) * min ((size.width : ℚ) / 1920) ((size.height : ℚ) / 1080))
          3) := by
    intro hmode
    simp only [BrowserWidget.isFullscreenMode] at hmode
    simp only [BrowserWidget.calculateOptimalZoomFactor, hsize, if_false, hmode, qBound]
    rw [min_comm (3 : ℚ), mul_comm (8 / 10 : ℚ)]
    simp only [Bool.false_eq_true, if_false]
  refine ⟨hnormal, ?_, ?_, ?_⟩
  · intro screen hmode hscreen
    simp only [BrowserWidget.isFullscreenMode] at hmode
    simp only [BrowserWidget.calculateOptimalZoomFactor, hsize, if_false, hmode, hscreen, qBound,
      QRect.size, if_true]
    rw [min_comm (3 : ℚ), mul_comm _ (3 / 10 : ℚ), mul_comm _ (7 / 10 : ℚ)]
  · intro h' w' size'
    unfold BrowserWidget.calculateOptimalZoomFactor
    split
    · constructor <;> norm_num
    · exact qBound_mem _ _ _ (by norm_num)
  · intro hmode hsz
    rw [hnormal hmode, hsz]
    norm_num

/-- Witness of `calculateOptimalZoomFactor_spec`: the standard pane of 500 by 300
in normal mode, on a host with a screen of 1920 by 1080. -/
theorem calculateOptimalZoomFactor_spec_witness :
    freshPane.calculateOptimalZoomFactor screenHost { width := 500, height := 300 } = 1 / 4 :=
  (calculateOptimalZoomFactor_spec screenHost freshPane { width := 500, height := 300 }
    (by decide) (by decide)).2.2.2 rfl rfl

/-! ## Theorems: the pool under the manager's operations -/

/-- A main window with a manager whose column count is at least 1 holds its own
panes. -/
theorem KeepsPanes.refl (mw : MainWindow) (wm : WindowManager)
    (hwm : mw.m_windowManager = some wm) (hc : 1 ≤ wm.m_columnCount) : mw.KeepsPanes mw :=
  ⟨wm, wm, hwm, hwm, hc, rfl, rfl, rfl⟩

/-- Holding the panes is transitive. -/
theorem KeepsPanes.trans {a b c : MainWindow} (hab : a.KeepsPanes b) (hbc : b.KeepsPanes c) :
    a.KeepsPanes c := by
  obtain ⟨wa, wb, h1, h2, -, h4, h5, h6⟩ := hab
  obtain ⟨wb', wc, k1, k2, k3, k4, k5, k6⟩ := hbc
  rw [h2] at k1
  cases k1
  exact ⟨wa, wc, h1, k2, k3, k4.trans h4, k5.trans h5, k6.trans h6⟩

/-- A main window that holds the panes of one satisfying the invariant of the
fullscreen coordinator satisfies it too, and has the same pane identities. -/
theorem KeepsPanes.inv {mw mw' : MainWindow} (hk : mw.KeepsPanes mw')
    (hinv : mw.FullscreenInv) : mw'.FullscreenInv ∧ mw'.poolIds = mw.poolIds := by
  obtain ⟨wm, wm', hwm, hwm', hc, hg, hfb, hpos⟩ := hk
  obtain ⟨wm0, hwm0, -, h2, h3, h4, h5⟩ := hinv
  rw [hwm] at hwm0
  cases hwm0
  have hids : wm'.m_browserWidgets.map (fun w => w.objectId) =
      wm.m_browserWidgets.map (fun w => w.objectId) := by
    have := congrArg (List.map Prod.fst) hg
    simpa [List.map_map, Function.comp_def] using this
  refine ⟨⟨wm', hwm', hc, by rw [hids]; exact h2, ?_, ?_, ?_⟩, ?_⟩
  · intro w' hw'
    obtain ⟨w, hw, e⟩ := map_eq_mem _ _ _ hg w' hw'
    simp only [Prod.mk.injEq] at e
    have := h3 w hw
    simp only [BrowserWidget.isFullscreenMode] at this ⊢
    rw [← e.1, ← e.2, hfb]
    exact this
  · intro hnone
    rw [hpos]
    exact h4 (hfb ▸ hnone)
  · intro id hid
    obtain ⟨p, w, e1, e2, e3⟩ := h5 id (hfb ▸ hid)
    obtain ⟨w', hw', e⟩ := map_eq_getElem? _ _ _ hg p w e2
    simp only [Prod.mk.injEq] at e
    exact ⟨p, w', hpos.trans e1, hw', e.1.trans e3⟩
  · simp only [MainWindow.poolIds, MainWindow.pool, hwm, hwm']
    exact hids

/-- `setLayout` returns when the column count is at least 1; it keeps the column
count and, pane by pane, every attribute that placing and hiding a pane keep. -/
theorem setLayout_proj {γ : Type} (g : BrowserWidget → γ) (wm : WindowManager) (n : Int)
    (force : Bool) (hc : 1 ≤ wm.m_columnCount)
    (hplace : ∀ w, g (WindowManager.placeWidget wm.m_columnCount w) = g w)
    (hhide : ∀ w, g w.hide = g w) :
    ∃ wm1 signals, wm.setLayout n force = some (wm1, signals) ∧
      wm1.m_browserWidgets.map g = wm.m_browserWidgets.map g ∧
      wm1.m_columnCount = wm.m_columnCount := by
  obtain ⟨wmu, hu1, hu2, -, hu4⟩ := updateLayout_proj g
    ({ wm with m_currentWindowCount := n } : WindowManager) hc hplace hhide
  simp only [WindowManager.setLayout]
  split
  · exact ⟨wm, [], rfl, rfl, rfl⟩
  · split
    · exact ⟨wm, [], rfl, rfl, rfl⟩
    · rw [hu1]
      exact ⟨wmu, _, rfl, hu2, hu4⟩

/-- `setColumnCount` returns when the column count is at least 1; it leaves a
column count of at least 1 and keeps, pane by pane, every attribute that placing
and hiding a pane keep. -/
theorem setColumnCount_proj {γ : Type} (g : BrowserWidget → γ) (wm : WindowManager)
    (columns : Int) (hc : 1 ≤ wm.m_columnCount)
    (hplace : ∀ c w, g (WindowManager.placeWidget c w) = g w)
    (hhide : ∀ w, g w.hide = g w) :
    ∃ wm1, wm.setColumnCount columns = some wm1 ∧
      wm1.m_browserWidgets.map g = wm.m_browserWidgets.map g ∧
      1 ≤ wm1.m_columnCount := by
  simp only [WindowManager.setColumnCount]
  split
  · exact ⟨wm, rfl, rfl, hc⟩
  · rename_i hrange
    have h1 : (1 : Int) ≤ columns := by omega
    obtain ⟨wmu, hu1, hu2, -, hu4⟩ := updateLayout_proj g
      ({ wm with m_columnCount := columns } : WindowManager) h1 (hplace columns) hhide
    exact ⟨wmu, hu1, hu2, by rw [hu4]; exact h1⟩

/-- The assignment loop keeps, pane by pane, every attribute that the assignment
of a record keeps. -/
theorem assignSubWindows_proj {γ : Type} (g : BrowserWidget → γ) (h : Host)
    (hassign : ∀ r w, g (MainWindow.assignSubWindow h r w) = g w) :
    ∀ (subWindows : List SubWindow) (widgets : List BrowserWidget),
      (MainWindow.assignSubWindows h subWindows widgets).map g = widgets.map g := by
  intro subWindows
  induction subWindows with
  | nil => intro widgets; cases widgets <;> rfl
  | cons r rs ih =>
    intro widgets
    cases widgets with
    | nil => rfl
    | cons w ws =>
      simp only [MainWindow.assignSubWindows, List.map_cons, hassign, ih]

/-- A call of `setLayout` by the main window while `loadSubWindowsToLayout` runs:
the call returns (the nested `onAllWidgetsCreated` does nothing), the manager
keeps its column count and, pane by pane, the identities and fullscreen flags. -/
theorem callSetLayout_keeps (reload : MainWindow → Option MainWindow) (mw : MainWindow)
    (wm : WindowManager) (n : Int) (hl : mw.m_loadingSubwindows = true)
    (hc : 1 ≤ wm.m_columnCount) :
    ∃ wm1, MainWindow.callSetLayout reload mw wm n = some (mw.withManager wm1) ∧
      wm1.m_browserWidgets.map (fun w => (w.objectId, w.m_isFullscreen)) =
        wm.m_browserWidgets.map (fun w => (w.objectId, w.m_isFullscreen)) ∧
      wm1.m_columnCount = wm.m_columnCount := by
  obtain ⟨wm1, signals, e, hg, hc1⟩ := setLayout_proj
    (fun w => (w.objectId, w.m_isFullscreen)) wm n false hc
    (fun u => placeWidget_flags _ u) (fun _ => rfl)
  refine ⟨wm1, ?_, hg, hc1⟩
  simp only [MainWindow.callSetLayout, WindowManager.setLayoutUnforced, e]
  exact deliver_while_loading reload signals (mw.withManager wm1) hl

/-- `loadSubWindowsToLayout` returns on every main window whose manager has a
column count of at least 1, whatever the store holds, and the main window it
leaves holds the same panes. -/
theorem loadSubWindowsToLayout_keeps (h : Host) (db : Option Database) (fuel : Nat)
    (mw : MainWindow) (wm : WindowManager) (hwm : mw.m_windowManager = some wm)
    (hc : 1 ≤ wm.m_columnCount) :
    ∃ mw', MainWindow.loadSubWindowsToLayout h db (fuel + 1) mw = some mw' ∧
      mw.KeepsPanes mw' := by
  rw [MainWindow.loadSubWindowsToLayout]
  cases hl : mw.m_loadingSubwindows with
  | true => exact ⟨mw, by simp, KeepsPanes.refl mw wm hwm hc⟩
  | false =>
    simp only [Bool.false_eq_true, if_false, hwm]
    cases db with
    | none => exact ⟨_, rfl, wm, wm, hwm, rfl, hc, rfl, rfl, rfl⟩
    | some d =>
      simp only
      by_cases h0 : ((d.subWindows.length : Nat) : Int) = 0
      · rw [if_pos h0]
        obtain ⟨wm1, e, hg, hc1⟩ := callSetLayout_keeps
          (MainWindow.loadSubWindowsToLayout h (some d) fuel)
          { mw with m_loadingSubwindows := true } wm 0 rfl hc
        simp only [hwm] at e
        rw [e]
        exact ⟨_, rfl, wm, wm1, hwm, rfl, by rw [hc1]; exact hc, hg, rfl, rfl⟩
      · rw [if_neg h0]
        obtain ⟨wm1, e1, hg1, hc1⟩ := setColumnCount_proj
          (fun w => (w.objectId, w.m_isFullscreen)) wm d.windowColumns hc
          (fun c u => placeWidget_flags c u) (fun _ => rfl)
        rw [e1]
        obtain ⟨wm2, e2, hg2, hc2⟩ := callSetLayout_keeps
          (MainWindow.loadSubWindowsToLayout h (some d) fuel)
          (({ mw with m_loadingSubwindows := true, emptyStateLabelVisible := false } :
            MainWindow).withManager wm1) wm1 d.subWindows.length rfl hc1
        simp only [hwm] at e2 ⊢
        rw [e2]
        refine ⟨_, rfl, wm, _, hwm, rfl, by rw [hc2]; exact hc1, ?_, rfl, rfl⟩
        simp only [WindowManager.getBrowserWidgets]
        rw [assignSubWindows_proj (fun w => (w.objectId, w.m_isFullscreen)) h
          (fun r w => by
            have := assignSubWindow_fields h r w
            show ((MainWindow.assignSubWindow h r w).objectId,
              (MainWindow.assignSubWindow h r w).m_isFullscreen) = (w.objectId, w.m_isFullscreen)
            rw [this.2.2.1, this.2.2.2.2.2.2.2])]
        exact hg2.trans hg1

/-- Delivering the signals of the manager, with `loadSubWindowsToLayout` behind
`allWidgetsCreated`, returns and leaves a main window that holds the same
panes. -/
theorem deliver_keeps (h : Host) (db : Option Database) (fuel : Nat) :
    ∀ (signals : List WMSignal) (mw : MainWindow) (wm : WindowManager),
      mw.m_windowManager = some wm → 1 ≤ wm.m_columnCount →
      ∃ mw', MainWindow.deliver (MainWindow.loadSubWindowsToLayout h db (fuel + 1)) signals mw =
          some mw' ∧ mw.KeepsPanes mw' := by
  intro signals
  induction signals with
  | nil => intro mw wm hwm hc; exact ⟨mw, rfl, KeepsPanes.refl mw wm hwm hc⟩
  | cons s ss ih =>
    intro mw wm hwm hc
    have hskip : ∃ mw', MainWindow.deliver (MainWindow.loadSubWindowsToLayout h db (fuel + 1))
        ss mw = some mw' ∧ mw.KeepsPanes mw' := ih mw wm hwm hc
    cases s with
    | allWidgetsCreated =>
      simp only [MainWindow.deliver, MainWindow.onAllWidgetsCreatedWith]
      cases hl : mw.m_loadingSubwindows with
      | true => simpa using hskip
      | false =>
        obtain ⟨mw1, e1, k1⟩ := loadSubWindowsToLayout_keeps h db fuel mw wm hwm hc
        obtain ⟨-, wm1, -, hwm1, hc1, -⟩ := id k1
        obtain ⟨mw2, e2, k2⟩ := ih mw1 wm1 hwm1 hc1
        refine ⟨mw2, ?_, KeepsPanes.trans k1 k2⟩
        simp only [Bool.false_eq_true, if_false, e1, e2]
    | layoutChanged n => simpa [MainWindow.deliver] using hskip
    | widgetAdded i => simpa [MainWindow.deliver] using hskip
    | widgetRemoved i => simpa [MainWindow.deliver] using hskip
    | fullscreenRequested i => simpa [MainWindow.deliver] using hskip

/-- One operation or event other than `closeRequested` is handled to the end and
keeps the invariant of the fullscreen coordinator and the identities of the pool,
if a `fullscreenRequested` event comes from a pane of the pool. -/
theorem handlePoolEvent_inv (h : Host) (fuel : Nat) (mw : MainWindow) (ev : PoolEvent)
    (hinv : mw.FullscreenInv) (hclose : ev.isClose = false)
    (hsender : ∀ id ∈ PoolEvent.senders [ev], id ∈ mw.poolIds) :
    ∃ mw', mw.handlePoolEvent h (fuel + 1) ev = some mw' ∧ mw'.FullscreenInv ∧
      mw'.poolIds = mw.poolIds := by
  obtain ⟨wm, hwm, hc, -⟩ := id hinv
  have hkeep : ∀ mw' : MainWindow, mw.KeepsPanes mw' →
      mw'.FullscreenInv ∧ mw'.poolIds = mw.poolIds := fun mw' hk => KeepsPanes.inv hk hinv
  cases ev with
  | setLayout n force db =>
    obtain ⟨wm1, signals, e, hg, hc1⟩ := setLayout_proj
      (fun w => (w.objectId, w.m_isFullscreen)) wm n force hc
      (fun u => placeWidget_flags _ u) (fun _ => rfl)
    obtain ⟨mw', e2, k2⟩ := deliver_keeps h db fuel signals (mw.withManager wm1) wm1 rfl
      (by rw [hc1]; exact hc)
    have k1 : mw.KeepsPanes (mw.withManager wm1) :=
      ⟨wm, wm1, hwm, rfl, by rw [hc1]; exact hc, hg, rfl, rfl⟩
    refine ⟨mw', ?_, hkeep mw' (KeepsPanes.trans k1 k2)⟩
    simp only [MainWindow.handlePoolEvent, hwm, e, e2]
  | setColumnCount columns =>
    obtain ⟨wm1, e, hg, hc1⟩ := setColumnCount_proj
      (fun w => (w.objectId, w.m_isFullscreen)) wm columns hc
      (fun c u => placeWidget_flags c u) (fun _ => rfl)
    refine ⟨mw.withManager wm1, ?_, hkeep _ ⟨wm, wm1, hwm, rfl, hc1, hg, rfl, rfl⟩⟩
    simp only [MainWindow.handlePoolEvent, hwm, e]
  | assign db =>
    obtain ⟨mw', e, k⟩ := loadSubWindowsToLayout_keeps h db fuel mw wm hwm hc
    exact ⟨mw', e, hkeep mw' k⟩
  | detach widget =>
    refine ⟨mw.withManager (wm.detachWidgetFromLayout widget), ?_,
      hkeep _ ⟨wm, _, hwm, rfl, hc, rfl, rfl, rfl⟩⟩
    simp only [MainWindow.handlePoolEvent, hwm]
  | attach widget position =>
    obtain ⟨wm1, e, hg, hc1⟩ := attachWidgetToLayout_proj
      (fun w => (w.objectId, w.m_isFullscreen)) wm widget position hc
      (fun _ _ _ => rfl) (fun u => placeWidget_flags _ u) (fun _ => rfl)
    refine ⟨mw.withManager wm1, ?_,
      hkeep _ ⟨wm, wm1, hwm, rfl, by rw [hc1]; exact hc, hg, rfl, rfl⟩⟩
    simp only [MainWindow.handlePoolEvent, hwm, e]
  | fullscreenRequested widget =>
    simp only [MainWindow.handlePoolEvent, MainWindow.onFullscreenRequested]
    cases hfb : mw.m_fullscreenBrowser with
    | none =>
      obtain ⟨mw', e1, e2, -, e4⟩ := showFullscreenWindow_inv mw widget hinv hfb
        (hsender widget (by simp [PoolEvent.senders]))
      exact ⟨mw', e1, e2, e4⟩
    | some active =>
      obtain ⟨mw', e1, e2, -, e4⟩ := hideFullscreenWindow_inv h mw hinv
      exact ⟨mw', e1, e2, e4⟩
  | closeRequested widget => simp [PoolEvent.isClose] at hclose

/-- Every sequence of operations and events without `closeRequested`, whose
`fullscreenRequested` events come from panes of the pool, is handled to the end
and keeps the invariant of the fullscreen coordinator and the identities of the
pool. -/
theorem handlePoolEvents_inv (h : Host) (fuel : Nat) (events : List PoolEvent) :
    ∀ mw : MainWindow, mw.FullscreenInv → (∀ ev ∈ events, ev.isClose = false) →
      (∀ id ∈ PoolEvent.senders events, id ∈ mw.poolIds) →
      ∃ mw', MainWindow.handlePoolEvents h (fuel + 1) events mw = some mw' ∧
        mw'.FullscreenInv ∧ mw'.poolIds = mw.poolIds := by
  induction events with
  | nil => intro mw hinv _ _; exact ⟨mw, rfl, hinv, rfl⟩
  | cons ev evs ih =>
    intro mw hinv hcl hs
    have hsplit : ∀ id, id ∈ PoolEvent.senders [ev] ∨ id ∈ PoolEvent.senders evs →
        id ∈ PoolEvent.senders (ev :: evs) := by
      intro id hid
      cases ev <;> simp_all [PoolEvent.senders]
    obtain ⟨mw1, e1, e2, e3⟩ := handlePoolEvent_inv h fuel mw ev hinv
      (hcl ev (List.mem_cons_self _ _)) (fun id hid => hs id (hsplit id (Or.inl hid)))
    obtain ⟨mw2, f1, f2, f3⟩ := ih mw1 e2
      (fun ev' hev' => hcl ev' (List.mem_cons_of_mem _ hev'))
      (fun id hid => e3 ▸ hs id (hsplit id (Or.inr hid)))
    refine ⟨mw2, ?_, f2, f3.trans e3⟩
    simp only [MainWindow.handlePoolEvents, e1, f1]

/-- Renumbering the window ids keeps the identities of the panes. -/
theorem renumber_ids (index : Nat) :
    ∀ (i : Nat) (l : List BrowserWidget),
      (WindowManager.renumber index i l).map (fun w => w.objectId) =
        l.map fun w => w.objectId := by
  intro i l
  induction l generalizing i with
  | nil => rfl
  | cons w ws ih =>
    simp only [WindowManager.renumber, List.map_cons, ih]
    split <;> rfl

/-- Erasing at an index commutes with reading an attribute of each element. -/
theorem map_eraseIdx' {α β : Type} (f : α → β) :
    ∀ (l : List α) (p : Nat), (l.eraseIdx p).map f = (l.map f).eraseIdx p := by
  intro l
  induction l with
  | nil => intro p; rfl
  | cons x xs ih =>
    intro p
    cases p with
    | zero => rfl
    | succ p => simp only [List.eraseIdx_cons_succ, List.map_cons, ih]

/-- A `closeRequested` event of a pane of the pool, in a state that satisfies the
invariant of the fullscreen coordinator, is handled to the end and removes that
pane from the pool: the other panes stay, in order. -/
theorem closeRequested_removes (h : Host) (fuel : Nat) (mw : MainWindow) (id : Nat)
    (hinv : mw.FullscreenInv) (hid : id ∈ mw.poolIds) :
    ∃ (mw' : MainWindow) (p : Nat),
      mw.handlePoolEvent h fuel (PoolEvent.closeRequested id) = some mw' ∧
      mw.poolIds[p]? = some id ∧ mw'.poolIds = mw.poolIds.eraseIdx p ∧
      mw'.poolIds.length + 1 = mw.poolIds.length ∧ id ∉ mw'.poolIds := by
  obtain ⟨wm, hwm, hc, hnodup, -⟩ := hinv
  simp only [MainWindow.poolIds, MainWindow.pool, hwm, List.mem_map] at hid
  obtain ⟨w, hwmem, rfl⟩ := hid
  obtain ⟨p, hp, hwp⟩ := List.getElem_of_mem hwmem
  have hw : wm.m_browserWidgets[p]? = some w := by rw [List.getElem?_eq_getElem hp, hwp]
  obtain ⟨-, hidx⟩ := find_by_identity wm p w hnodup hw
  obtain ⟨wm1, e1, hids1, -, -⟩ := updateLayout_total
    ({ wm with m_browserWidgets :=
      WindowManager.renumber p 0 (wm.m_browserWidgets.eraseIdx p) } : WindowManager) hc
  have hpos : (p : Int) ≥ 0 := Int.ofNat_nonneg _
  have hrange : ¬ ((p : Int) < 0 ∨ (p : Int) ≥ (wm.m_browserWidgets.length : Nat)) := by
    omega
  have hrun : wm.onWidgetCloseRequested w.objectId = some (wm1, [WMSignal.widgetRemoved p]) := by
    simp only [WindowManager.onWidgetCloseRequested, hidx, hpos, if_true,
      WindowManager.removeBrowserWidget, hrange, if_false, Int.toNat_ofNat, e1]
  have hids : wm1.m_browserWidgets.map (fun w => w.objectId) =
      (wm.m_browserWidgets.map fun w => w.objectId).eraseIdx p := by
    rw [hids1]
    simp only []
    rw [renumber_ids, map_eraseIdx']
  refine ⟨mw.withManager wm1, p, ?_, ?_, ?_, ?_, ?_⟩
  · simp only [MainWindow.handlePoolEvent, hwm, hrun]
  · simp only [MainWindow.poolIds, MainWindow.pool, hwm, List.getElem?_map, hw, Option.map_some']
  · simp only [MainWindow.poolIds, MainWindow.pool, hwm, MainWindow.withManager]
    exact hids
  · simp only [MainWindow.poolIds, MainWindow.pool, hwm, MainWindow.withManager]
    rw [hids, List.length_eraseIdx, if_pos (by simpa using hp)]
    simp only [List.length_map]
    omega
  · simp only [MainWindow.poolIds, MainWindow.pool, hwm, MainWindow.withManager]
    rw [hids]
    intro hmem
    obtain ⟨j, hj, hje⟩ := List.getElem_of_mem hmem
    have hlen : ((wm.m_browserWidgets.map fun w => w.objectId).eraseIdx p).length + 1 =
        wm.m_browserWidgets.length := by
      rw [List.length_eraseIdx, if_pos (by simpa using hp)]
      simp only [List.length_map]
      omega
    rw [List.getElem_eraseIdx] at hje
    split at hje
    · rename_i hlt
      have := (@List.Nodup.getElem_inj_iff _ _ hnodup j (by simp; omega) p (by simpa using hp)).1
        (by simp only [List.getElem_map] at hje ⊢; rw [hje, hwp])
      omega
    · rename_i hge
      have := (@List.Nodup.getElem_inj_iff _ _ hnodup (j + 1) (by simp; omega) p
        (by simpa using hp)).1
        (by simp only [List.getElem_map] at hje ⊢; rw [hje, hwp])
      omega

/-- C17, as stated, fails: a `closeRequested` event of pane 1, from the main
window as constructed, leaves a pool of 15 panes without pane 1. -/
theorem close_requested_shrinks_pool :
    MainWindow.create.poolIds = [1, 2, 3, 4, 5, 6, 7, 8, 9, 10, 11, 12, 13, 14, 15, 16] ∧
    (MainWindow.handlePoolEvents exampleHost 1 [PoolEvent.closeRequested 1]
        MainWindow.create).map (fun mw => mw.poolIds) =
      some [2, 3, 4, 5, 6, 7, 8, 9, 10, 11, 12, 13, 14, 15, 16] := by
  decide

/-- C17, amended: in every state reachable from the main window as constructed
through `setLayout`, `setColumnCount`, assignment (`loadSubWindowsToLayout`),
detach/attach and fullscreen-requested events of pool panes, every operation
returns and the pool holds exactly the 16 panes created at construction, in the
same index order: none of these destroys, removes or recreates a pane.  A
close-requested event of a pool pane, in contrast, is handled by removing that
pane from the pool: the 15 other panes stay, in order. -/
theorem pool_kept_without_close (h : Host) (fuel : Nat) (events : List PoolEvent)
    (hclose : ∀ ev ∈ events, ev.isClose = false)
    (hsenders : ∀ id ∈ PoolEvent.senders events, id ∈ MainWindow.create.poolIds) :
    ∃ mw, MainWindow.handlePoolEvents h (fuel + 1) events MainWindow.create = some mw ∧
      mw.poolIds = MainWindow.create.poolIds ∧ mw.poolIds.length = 16 ∧
      ∀ id ∈ mw.poolIds, ∃ (mw' : MainWindow) (p : Nat),
        mw.handlePoolEvent h (fuel + 1) (PoolEvent.closeRequested id) = some mw' ∧
        mw.poolIds[p]? = some id ∧ mw'.poolIds = mw.poolIds.eraseIdx p ∧
        mw'.poolIds.length = 15 ∧ id ∉ mw'.poolIds := by
  obtain ⟨mw, hrun, hinv, hids⟩ := handlePoolEvents_inv h fuel events MainWindow.create
    create_fullscreenInv hclose hsenders
  have hlen : mw.poolIds.length = 16 := by
    rw [hids]
    decide
  refine ⟨mw, hrun, hids, hlen, ?_⟩
  intro id hid
  obtain ⟨mw', p, e1, e2, e3, e4, e5⟩ := closeRequested_removes h (fuel + 1) mw id hinv hid
  exact ⟨mw', p, e1, e2, e3, by omega, e5⟩

/-- Witness of `pool_kept_without_close`: three records are assigned, the column
count and the visible count are changed, pane 2 is promoted, detached and
attached, pane 5 asks for fullscreen (which demotes pane 2), and one record is
assigned. -/
theorem pool_kept_without_close_witness :
    ∃ mw, MainWindow.handlePoolEvents screenHost 1
        [PoolEvent.assign (some gridStore), PoolEvent.setColumnCount 3,
          PoolEvent.setLayout 2 true (some gridStore), PoolEvent.fullscreenRequested 2,
          PoolEvent.detach 2, PoolEvent.attach 2 1, PoolEvent.fullscreenRequested 5,
          PoolEvent.assign (some shorterStore)] MainWindow.create = some mw ∧
      mw.poolIds = MainWindow.create.poolIds ∧ mw.poolIds.length = 16 ∧
      ∀ id ∈ mw.poolIds, ∃ (mw' : MainWindow) (p : Nat),
        mw.handlePoolEvent screenHost 1 (PoolEvent.closeRequested id) = some mw' ∧
        mw.poolIds[p]? = some id ∧ mw'.poolIds = mw.poolIds.eraseIdx p ∧
        mw'.poolIds.length = 15 ∧ id ∉ mw'.poolIds :=
  pool_kept_without_close screenHost 0 _ (by decide) (by decide)

/-! ## Theorems: looking a pane up by its logical id -/

/-- The scan returns a pane exactly if the pane is the first of the list with the
id, and nothing exactly if no pane of the list has the id. -/
theorem findWidgetBySubIdFrom_spec (subId : Int) :
    ∀ pool : List BrowserWidget,
      (∀ w, WindowManager.findWidgetBySubIdFrom subId pool = some w ↔
        ∃ i : Nat, pool[i]? = some w ∧ w.getSubWindowId = subId ∧
          ∀ (j : Nat) (u : BrowserWidget), j < i → pool[j]? = some u → u.getSubWindowId ≠ subId) ∧
      (WindowManager.findWidgetBySubIdFrom subId pool = none ↔
        ∀ w ∈ pool, w.getSubWindowId ≠ subId) := by
  intro pool
  induction pool with
  | nil =>
    refine ⟨fun w => ⟨fun hw => by simp [WindowManager.findWidgetBySubIdFrom] at hw, ?_⟩, ?_⟩
    · rintro ⟨i, hi, -⟩
      simp at hi
    · simp [WindowManager.findWidgetBySubIdFrom]
  | cons x xs ih =>
    obtain ⟨ih1, ih2⟩ := ih
    by_cases hx : x.getSubWindowId = subId
    · refine ⟨fun w => ⟨fun hw => ?_, ?_⟩, ?_⟩
      · simp only [WindowManager.findWidgetBySubIdFrom, if_pos hx, Option.some.injEq] at hw
        subst hw
        exact ⟨0, by simp, hx, fun j u hj => absurd hj (Nat.not_lt_zero j)⟩
      · rintro ⟨i, hi, hw, hfirst⟩
        cases i with
        | zero =>
          simp only [List.getElem?_cons_zero, Option.some.injEq] at hi
          subst hi
          simp [WindowManager.findWidgetBySubIdFrom, hx]
        | succ i => exact absurd hx (hfirst 0 x (Nat.succ_pos i) (by simp))
      · simp [WindowManager.findWidgetBySubIdFrom, hx]
    · refine ⟨fun w => ⟨fun hw => ?_, ?_⟩, ?_⟩
      · simp only [WindowManager.findWidgetBySubIdFrom, if_neg hx] at hw
        obtain ⟨i, hi, hws, hfirst⟩ := (ih1 w).1 hw
        refine ⟨i + 1, by simpa using hi, hws, fun j u hj hu => ?_⟩
        cases j with
        | zero =>
          simp only [List.getElem?_cons_zero, Option.some.injEq] at hu
          subst hu
          exact hx
        | succ j =>
          exact hfirst j u (Nat.lt_of_succ_lt_succ hj) (by simpa using hu)
      · rintro ⟨i, hi, hw, hfirst⟩
        cases i with
        | zero =>
          simp only [List.getElem?_cons_zero, Option.some.injEq] at hi
          subst hi
          exact absurd hw hx
        | succ i =>
          simp only [WindowManager.findWidgetBySubIdFrom, if_neg hx]
          refine (ih1 w).2 ⟨i, by simpa using hi, hw, fun j u hj hu => ?_⟩
          exact hfirst (j + 1) u (Nat.succ_lt_succ hj) (by simpa using hu)
      · simp only [WindowManager.findWidgetBySubIdFrom, if_neg hx, ih2, List.mem_cons,
          forall_eq_or_imp]
        exact ⟨fun h => ⟨hx, h⟩, fun h => h.2⟩

/-- C24: `findWidgetBySubId(id)` returns a pane exactly if that pane is at the
lowest pool index whose pane has the logical id `id`, and returns none exactly if
no pane of the pool has that id. -/
theorem findWidgetBySubId_first_match (wm : WindowManager) (subId : Int) :
    (∀ w, wm.findWidgetBySubId subId = some w ↔
      ∃ i : Nat, wm.m_browserWidgets[i]? = some w ∧ w.getSubWindowId = subId ∧
        ∀ (j : Nat) (u : BrowserWidget), j < i → wm.m_browserWidgets[j]? = some u → u.getSubWindowId ≠ subId) ∧
    (wm.findWidgetBySubId subId = none ↔
      ∀ w ∈ wm.m_browserWidgets, w.getSubWindowId ≠ subId) :=
  findWidgetBySubIdFrom_spec subId wm.m_browserWidgets

/-! ## Theorems: the guard against nested assignment passes -/

/-- A pass of `loadSubWindowsToLayout` that is not ignored leaves the guard flag
`false` on every path on which it returns. -/
theorem loadSubWindowsToLayout_clears_flag (h : Host) (db : Option Database) (fuel : Nat)
    (mw mw' : MainWindow) (hload : mw.m_loadingSubwindows = false)
    (hrun : MainWindow.loadSubWindowsToLayout h db fuel mw = some mw') :
    mw'.m_loadingSubwindows = false := by
  cases fuel with
  | zero => simp [MainWindow.loadSubWindowsToLayout] at hrun
  | succ fuel =>
    simp only [MainWindow.loadSubWindowsToLayout, hload, Bool.false_eq_true, if_false] at hrun
    split at hrun
    · cases hrun; rfl
    · split at hrun
      · cases hrun; rfl
      · split at hrun
        · split at hrun
          · cases hrun
          · cases hrun; rfl
        · split at hrun
          · cases hrun
          · split at hrun
            · cases hrun
            · split at hrun
              · cases hrun
              · cases hrun; rfl

/-- C25: a call of `loadSubWindowsToLayout`, made directly or through
`onAllWidgetsCreated` (also as the receiver of the manager's signals), while the
guard flag `m_loadingSubwindows` is set returns at once and leaves the main
window as it is.  A pass that starts with the flag clear leaves the flag clear
on every path on which it returns; without a manager or without a store it
returns the window unchanged, and with a manager whose column count is at least 1
it returns, so that the next call is a pass again. -/
theorem reentrancy_guard (h : Host) (db : Option Database) (fuel : Nat) (mw : MainWindow) :
    (mw.m_loadingSubwindows = true →
      MainWindow.loadSubWindowsToLayout h db (fuel + 1) mw = some mw ∧
      MainWindow.onAllWidgetsCreated h db fuel mw = some mw ∧
      ∀ signals, MainWindow.deliver (MainWindow.loadSubWindowsToLayout h db fuel) signals mw =
        some mw) ∧
    (mw.m_loadingSubwindows = false →
      (∀ mw', MainWindow.loadSubWindowsToLayout h db fuel mw = some mw' →
        mw'.m_loadingSubwindows = false) ∧
      (mw.m_windowManager = none ∨ db = none →
        MainWindow.loadSubWindowsToLayout h db (fuel + 1) mw = some mw) ∧
      (∀ wm, mw.m_windowManager = some wm → 1 ≤ wm.m_columnCount →
        ∃ mw', MainWindow.loadSubWindowsToLayout h db (fuel + 1) mw = some mw' ∧
          mw'.m_loadingSubwindows = false)) := by
  refine ⟨fun hl => ⟨?_, ?_, fun signals => deliver_while_loading _ signals mw hl⟩,
    fun hl => ⟨fun mw' hrun => loadSubWindowsToLayout_clears_flag h db fuel mw mw' hl hrun,
      ?_, fun wm hwm hc => ?_⟩⟩
  · simp [MainWindow.loadSubWindowsToLayout, hl]
  · simp [MainWindow.onAllWidgetsCreated, MainWindow.onAllWidgetsCreatedWith, hl]
  · intro hmiss
    cases mw with
    | mk wmo fb pos cl ini ld fl sc tb sb wf es df =>
      simp only at hl hmiss
      subst hl
      rcases hmiss with hm | hd
      · subst hm
        simp [MainWindow.loadSubWindowsToLayout]
      · subst hd
        cases wmo <;> simp [MainWindow.loadSubWindowsToLayout]
  · obtain ⟨mw', hrun, -⟩ := loadSubWindowsToLayout_keeps h db fuel mw wm hwm hc
    exact ⟨mw', hrun, loadSubWindowsToLayout_clears_flag h db (fuel + 1) mw mw' hl hrun⟩

/-! ## Theorems: the deferred steps of the fullscreen coordinator -/

/-- C26: the closure `showFullscreenWindow(p)` defers captures `p`.  When its
timer fires while `m_fullscreenBrowser` is not `p` (fullscreen was left, or
another pane was promoted), the main window is left as it is, but for the closure
leaving the pending list: no pane changes.  When it fires while `p` is the
promoted pane, nothing changes without a primary screen, and with one the panes
with the identity `p` get the screen's geometry as geometry, minimum and maximum
size while every other pane stays as it is. -/
theorem fullscreen_settle_guard (h : Host) (mw : MainWindow) (k p : Nat)
    (hk : mw.deferred[k]? = some (Deferred.fullscreenSettle p)) :
    (∀ mw0 mw1 q, MainWindow.showFullscreenWindow mw0 (some q) = some mw1 →
      mw1.deferred = mw0.deferred ++ [Deferred.fullscreenSettle q]) ∧
    (mw.m_fullscreenBrowser ≠ some p →
      MainWindow.fireDeferred h mw k = { mw with deferred := mw.deferred.eraseIdx k } ∧
      (MainWindow.fireDeferred h mw k).pool = mw.pool) ∧
    (mw.m_fullscreenBrowser = some p → h.primaryScreen = none →
      (MainWindow.fireDeferred h mw k).pool = mw.pool) ∧
    (mw.m_fullscreenBrowser = some p →
      ∀ screen, h.primaryScreen = some screen →
        (MainWindow.fireDeferred h mw k).pool = mw.pool.map fun w =>
          if w.objectId = p then
            { w with geometry := some { x := 0, y := 0, width := screen.width
                                        height := screen.height }
                     minimumSize := screen.size
                     maximumSize := screen.size }
          else w) := by
  refine ⟨?_, fun hne => ?_, fun heq hs => ?_, fun heq screen hs => ?_⟩
  · intro mw0 mw1 q hshow
    simp only [MainWindow.showFullscreenWindow] at hshow
    split at hshow
    · cases hshow
    · split at hshow
      · cases hshow
      · cases hshow
        rfl
  · simp [MainWindow.fireDeferred, hk, MainWindow.runDeferred, hne, MainWindow.pool]
  · simp only [MainWindow.fireDeferred, hk, MainWindow.runDeferred, heq, if_true, hs]
    rfl
  · simp only [MainWindow.fireDeferred, hk, MainWindow.runDeferred, heq, if_true, hs]
    cases hwm : mw.m_windowManager with
    | none => simp [MainWindow.pool, hwm]
    | some wm =>
      simp only [MainWindow.pool, hwm, WindowManager.updateWidget]
      rfl

/-- C26, on an example: pane 3 of the grid is promoted and demoted again before the
closure of the promotion fires; the closure then changes no pane. -/
theorem fullscreen_settle_guard_witness :
    demotedWindow.deferred[0]? = some (Deferred.fullscreenSettle 3) ∧
    demotedWindow.m_fullscreenBrowser ≠ some 3 ∧
    (MainWindow.fireDeferred screenHost demotedWindow 0).pool = demotedWindow.pool :=
  have hk : demotedWindow.deferred[0]? = some (Deferred.fullscreenSettle 3) := by decide
  have hne : demotedWindow.m_fullscreenBrowser ≠ some 3 := by decide
  ⟨hk, hne, ((fullscreen_settle_guard screenHost demotedWindow 0 3 hk).2.1 hne).2⟩

/-- The closure of `hideFullscreenWindow` does nothing when it runs while no pane
is promoted. -/
theorem runDeferred_normalSettle_idle (h : Host) (mw : MainWindow)
    (hfb : mw.m_fullscreenBrowser = none) :
    MainWindow.runDeferred h mw Deferred.normalSettle = mw := by
  simp [MainWindow.runDeferred, hfb]

/-- `hideFullscreenWindow` returns with no pane recorded as promoted and the saved
position cleared, when a pane was promoted. -/
theorem hideFullscreenWindow_clears (h : Host) (mw mw' : MainWindow) (id : Nat)
    (hfb : mw.m_fullscreenBrowser = some id)
    (hrun : mw.hideFullscreenWindow h = some mw') :
    mw'.m_fullscreenBrowser = none ∧ mw'.m_fullscreenWidgetPosition = -1 ∧
    ∃ pending, mw'.deferred = pending ++ [Deferred.normalSettle] := by
  simp only [MainWindow.hideFullscreenWindow, hfb] at hrun
  split at hrun
  · cases hrun
  · split at hrun
    · cases hrun
    · split at hrun
      · cases hrun
      · cases hrun
        exact ⟨rfl, rfl, _, rfl⟩

/-- C27: pane 3 of the grid (fixed at 500 by 300) is promoted and demoted.
`hideFullscreenWindow` has cleared the recorded pane and position when it
returns, so the closure it deferred finds no pane when it fires: it leaves the
window as it is, and the demoted pane keeps the fixed size 500 by 300 that
`attachWidgetToLayout` gave it, not the minimum 300 by 200 and the unbounded
maximum.  If pane 1 is promoted before the closure fires, the closure resets the
size constraints of pane 1, the pane then in fullscreen. -/
theorem normal_settle_misses_demoted_pane :
    promotedWindow.hideFullscreenWindow screenHost = some demotedWindow ∧
    demotedWindow.deferred = [Deferred.fullscreenSettle 3, Deferred.normalSettle] ∧
    demotedWindow.m_fullscreenBrowser = none ∧
    demotedWindow.m_fullscreenWidgetPosition = -1 ∧
    MainWindow.fireDeferred screenHost demotedWindow 1 =
      { demotedWindow with deferred := [Deferred.fullscreenSettle 3] } ∧
    ((MainWindow.fireDeferred screenHost demotedWindow 1).pool[2]?).map
        (fun w => (w.objectId, w.sizeConstraints)) =
      some (3, ({ width := 500, height := 300 }, { width := 500, height := 300 },
        SizePolicy.Preferred)) ∧
    ((demotedWindow.showFullscreenWindow (some 1)).map fun mw =>
        ((MainWindow.fireDeferred screenHost mw 1).pool.take 3).map fun w =>
          (w.objectId, w.isFullscreenMode, w.sizeConstraints)) =
      some [(1, true, ({ width := 300, height := 200 },
              { width := QWIDGETSIZE_MAX, height := QWIDGETSIZE_MAX }, SizePolicy.Preferred)),
            (2, false, ({ width := 500, height := 300 }, { width := 500, height := 300 },
              SizePolicy.Preferred)),
            (3, false, ({ width := 500, height := 300 }, { width := 500, height := 300 },
              SizePolicy.Preferred))] := by
  decide

/-! ## Theorems: normalising a destination twice -/

/-- C28: `formatUrl` turns the empty text into `about:blank` and `about:blank`
into a search address, so a second pass changes the result of the first.  A
hidden pane given the empty destination stores `about:blank` and, when shown,
requests the search address, while a visible pane given the empty destination
requests `about:blank`.  On every other input a second pass of `formatUrl`
changes nothing. -/
theorem formatUrl_changes_its_blank_placeholder :
    BrowserWidget.formatUrl "" = "about:blank" ∧
    BrowserWidget.formatUrl (BrowserWidget.formatUrl "") =
      "https://www.google.com/search?q=about%3Ablank" ∧
    BrowserWidget.formatUrl (BrowserWidget.formatUrl "") ≠ BrowserWidget.formatUrl "" ∧
    (freshPane.loadUrl "").getCurrentUrl = "about:blank" ∧
    (freshPane.loadUrl "").«show».loadTimers =
      ["https://www.google.com/search?q=about%3Ablank"] ∧
    (freshVisiblePane.loadUrl "").loadTimers = ["about:blank"] ∧
    (∀ u : String, u ≠ "" →
      BrowserWidget.formatUrl (BrowserWidget.formatUrl u) = BrowserWidget.formatUrl u) := by
  refine ⟨by decide, by decide, by decide, by decide, by decide, by decide, fun u hu => ?_⟩
  exact formatUrl_formatUrl_of_ne hu

/-! ## Theorems: more records than panes -/

/-- After the assignment of a record the pane's stored destination is the record's
destination or its normalised form. -/
theorem assignSubWindow_url_cases (h : Host) (r : SubWindow) (w : BrowserWidget) :
    (MainWindow.assignSubWindow h r w).m_currentUrl = r.url ∨
    (MainWindow.assignSubWindow h r w).m_currentUrl = BrowserWidget.formatUrl r.url := by
  simp only [MainWindow.assignSubWindow, BrowserWidget.getCurrentUrl]
  split
  · right
    simp only [BrowserWidget.loadUrl]
    split
    · rename_i hsame
      exact hsame.2
    · split <;> rfl
  · rename_i hsame
    left
    exact not_not.mp hsame

/-- Under the invariant `setColumnCount` keeps the visible count. -/
theorem recolumned_count (wm : WindowManager) (columns : Int) (hwf : wm.WellFormed) :
    (wm.recolumned columns).m_currentWindowCount = wm.m_currentWindowCount := by
  obtain ⟨-, -, h0, -, -, -⟩ := hwf
  unfold WindowManager.recolumned
  split
  · rfl
  · simp only [WindowManager.laidOut]
    omega

/-- Under the invariant `setColumnCount` keeps, pane by pane, the identity and the
hidden flag, and makes no pane visible. -/
theorem recolumned_ids_hidden (wm : WindowManager) (columns : Int) (hwf : wm.WellFormed) :
    (wm.recolumned columns).m_browserWidgets.map (fun w => w.objectId) =
      wm.m_browserWidgets.map (fun w => w.objectId) ∧
    (wm.recolumned columns).m_browserWidgets.map (fun w => w.hidden) =
      wm.m_browserWidgets.map (fun w => w.hidden) ∧
    (∀ (i : Nat) (w w1 : BrowserWidget), wm.m_browserWidgets[i]? = some w →
      (wm.recolumned columns).m_browserWidgets[i]? = some w1 → w1.visible = true →
      w.visible = true) := by
  refine ⟨?_, ?_, ?_⟩
  · obtain ⟨wm1, h1, h2, -⟩ := setColumnCount_proj (fun w => w.objectId) wm columns hwf.1
      (fun c w => (placeWidget_frame c w).1) (fun _ => rfl)
    rw [setColumnCount_recolumned wm columns hwf] at h1
    cases h1
    exact h2
  · apply List.ext_getElem?
    intro i
    simp only [List.getElem?_map]
    cases hw : wm.m_browserWidgets[i]? with
    | none =>
      have hlen := recolumned_length wm columns
      have hi : wm.m_browserWidgets.length ≤ i := List.getElem?_eq_none_iff.mp hw
      rw [List.getElem?_eq_none_iff.mpr (by omega)]
    | some w =>
      obtain ⟨w1, hw1, -, -, -, hv⟩ := recolumned_getElem? wm columns hwf i w hw
      rw [hw1]
      simp [hv]
  · intro i w w1 hw hw1 hv
    obtain ⟨-, -, h0, hle, -, -⟩ := hwf
    unfold WindowManager.recolumned at hw1
    split at hw1
    · rw [hw] at hw1
      cases hw1
      exact hv
    · rw [laidOut_getElem? _ _ _ _ (by omega), hw] at hw1
      simp only [Option.map_some', Option.some.injEq] at hw1
      subst hw1
      split at hv
      · exact absurd hv (by simp [(placeWidget_loads _ _).1])
      · exact absurd hv (by simp [BrowserWidget.hide])

/-- C30: for a list `L` of more than 16 records (and a pool of 16 panes under the
invariant of the manager), `loadSubWindowsToLayout` returns; `setLayout` rejects
the count, so the visible count is what it was, every pane is hidden or not as
it was, and no pane becomes visible; each of the 16 panes is bound to the record
at its pool index (id and name, with the record's destination as stored
destination, normalised or not); and the length of `L` is recorded as the current
layout. -/
theorem loadSubWindowsToLayout_over_capacity (h : Host) (d : Database) (fuel : Nat)
    (mw : MainWindow) (wm : WindowManager) (hload : mw.m_loadingSubwindows = false)
    (hwm : mw.m_windowManager = some wm) (hwf : wm.WellFormed)
    (hpool : wm.m_browserWidgets.length = 16) (hL : 16 < d.subWindows.length) :
    ∃ mw' wm', MainWindow.loadSubWindowsToLayout h (some d) (fuel + 1) mw = some mw' ∧
      mw'.m_windowManager = some wm' ∧
      wm'.getCurrentWindowCount = wm.getCurrentWindowCount ∧
      wm'.m_browserWidgets.map (fun w => w.isHidden) =
        wm.m_browserWidgets.map (fun w => w.isHidden) ∧
      (∀ (i : Nat) (w w' : BrowserWidget), wm.m_browserWidgets[i]? = some w →
        wm'.m_browserWidgets[i]? = some w' → w'.isVisible = true → w.isVisible = true) ∧
      wm'.m_browserWidgets.map (fun w => w.objectId) =
        wm.m_browserWidgets.map (fun w => w.objectId) ∧
      (∀ i : Nat, i < 16 → ∃ r w, d.subWindows[i]? = some r ∧
        wm'.m_browserWidgets[i]? = some w ∧
        w.getSubWindowId = r.id ∧ w.getSubWindowName = r.name ∧
        (w.getCurrentUrl = r.url ∨ w.getCurrentUrl = BrowserWidget.formatUrl r.url)) ∧
      mw'.m_currentLayout = d.subWindows.length ∧ mw'.m_loadingSubwindows = false := by
  have hinvalid : WindowManager.isValidWindowCount (d.subWindows.length : Int) = false := by
    rw [Bool.eq_false_iff]
    intro hv
    have := (isValidWindowCount_iff _).1 hv
    omega
  have hne : ¬ ((d.subWindows.length : Int) = 0) := by omega
  obtain ⟨hids, hvis, hmono⟩ := recolumned_ids_hidden wm d.windowColumns hwf
  have hlen : (wm.recolumned d.windowColumns).m_browserWidgets.length = 16 := by
    rw [recolumned_length, hpool]
  have hrun : ∃ mw', MainWindow.loadSubWindowsToLayout h (some d) (fuel + 1) mw = some mw' ∧
      mw'.m_windowManager = some { wm.recolumned d.windowColumns with
        m_browserWidgets := MainWindow.assignSubWindows h d.subWindows
          (wm.recolumned d.windowColumns).m_browserWidgets } ∧
      mw'.m_currentLayout = d.subWindows.length ∧ mw'.m_loadingSubwindows = false := by
    simp only [MainWindow.loadSubWindowsToLayout, hload, hwm, Bool.false_eq_true, if_false,
      hne, setColumnCount_recolumned wm d.windowColumns hwf, MainWindow.callSetLayout,
      WindowManager.setLayoutUnforced, WindowManager.setLayout, hinvalid, not_false_eq_true,
      if_true, MainWindow.deliver, MainWindow.withManager, WindowManager.getBrowserWidgets]
    exact ⟨_, rfl, rfl, rfl, rfl⟩
  obtain ⟨mw', hrun1, hrun2, hrun3, hrun4⟩ := hrun
  refine ⟨mw', _, hrun1, hrun2, ?_, ?_, ?_, ?_, ?_, hrun3, hrun4⟩
  · exact recolumned_count wm d.windowColumns hwf
  · exact (assignSubWindows_proj (fun w => w.hidden) h
      (fun r w => assignSubWindow_hidden h r w) d.subWindows _).trans hvis
  · intro i w w' hw hw' hv
    have hw1 : (MainWindow.assignSubWindows h d.subWindows
        (wm.recolumned d.windowColumns).m_browserWidgets)[i]? = some w' := hw'
    have hpair := congrArg (fun l => l[i]?)
      (assignSubWindows_visible h d.subWindows (wm.recolumned d.windowColumns).m_browserWidgets)
    simp only [List.getElem?_map, hw1, Option.map_some'] at hpair
    cases hw2 : (wm.recolumned d.windowColumns).m_browserWidgets[i]? with
    | none => rw [hw2] at hpair; cases hpair
    | some w2 =>
      rw [hw2] at hpair
      simp only [Option.map_some', Option.some.injEq, Prod.mk.injEq] at hpair
      exact hmono i w w2 hw hw2 (by rw [← hpair.2]; exact hv)
  · exact (assignSubWindows_proj (fun w => w.objectId) h
      (fun r w => (assignSubWindow_fields h r w).2.2.1) d.subWindows _).trans hids
  · intro i hi
    have hr : i < d.subWindows.length := by omega
    have hw : i < (wm.recolumned d.windowColumns).m_browserWidgets.length := by omega
    refine ⟨d.subWindows[i], MainWindow.assignSubWindow h d.subWindows[i]
      (wm.recolumned d.windowColumns).m_browserWidgets[i], List.getElem?_eq_getElem hr, ?_,
      (assignSubWindow_fields h _ _).1, (assignSubWindow_fields h _ _).2.1,
      assignSubWindow_url_cases h _ _⟩
    show (MainWindow.assignSubWindows h d.subWindows
      (wm.recolumned d.windowColumns).m_browserWidgets)[i]? = _
    rw [assignSubWindows_getElem?, List.getElem?_eq_getElem hr, List.getElem?_eq_getElem hw]

/-- C30, on an example: a store with 17 records is loaded into the window as
constructed; no pane becomes visible, the visible count stays 0, and the last
pane of the pool is bound to the record with id 16. -/
theorem loadSubWindowsToLayout_over_capacity_witness :
    ∃ mw' wm', MainWindow.loadSubWindowsToLayout exampleHost (some crowdedStore) 1
        MainWindow.create = some mw' ∧
      mw'.m_windowManager = some wm' ∧ wm'.getCurrentWindowCount = 0 ∧
      mw'.m_currentLayout = 17 ∧
      ∃ w, wm'.m_browserWidgets[15]? = some w ∧ w.getSubWindowId = 16 := by
  obtain ⟨mw', wm', h1, h2, h3, -, -, -, h6, h7, -⟩ := loadSubWindowsToLayout_over_capacity
    exampleHost crowdedStore 0 MainWindow.create (WindowManager.constructed.laidOut 2 0)
    rfl create_eq (by decide) (by decide) (by decide)
  obtain ⟨r, w, hr, hw, hid, -, -⟩ := h6 15 (by decide)
  have hr16 : r.id = 16 := by
    have : crowdedStore.subWindows[15]? =
        some { id := 16, name := "W", url := "https://a.test" } := by decide
    rw [this] at hr
    cases hr
    rfl
  exact ⟨mw', wm', h1, h2, h3, h7, w, hw, by rw [hid, hr16]⟩

/-! ## Theorems: the persisted window configuration -/

/-- C22: `saveState` on a pane with a logical id (`subWindowId > 0`), with a store
whose statement executes, leaves exactly one row with the logical id as
`window_id`: it has the logical id as `sub_id` too and carries the pane's current
destination, title and geometry; the rows with other keys are as before.  On a
pane with `subWindowId <= 0` the rows are left as they are, so the rows change
only for a pane with a logical id.  The rows written do not depend on the pane's
window id (its pool slot), and a statement that fails changes no row. -/
theorem saveState_keyed_by_logical_id (w : BrowserWidget) (rect : QRect)
    (rows : List WindowConfig) :
    (w.m_subWindowId > 0 →
      ∃ rows', (w.saveState rect (some rows) true).2 = some rows' ∧
        rows'.filter (fun r => r.window_id = w.m_subWindowId) =
          [{ window_id := w.m_subWindowId, sub_id := w.m_subWindowId
             url := w.getCurrentUrl, title := w.m_currentTitle, geometry := rect }] ∧
        rows'.filter (fun r => r.window_id ≠ w.m_subWindowId) =
          rows.filter (fun r => r.window_id ≠ w.m_subWindowId)) ∧
    (w.m_subWindowId ≤ 0 → ∀ db execOk, (w.saveState rect db execOk).2 = db) ∧
    (∀ db execOk, (w.saveState rect db execOk).2 ≠ db → w.m_subWindowId > 0) ∧
    (∀ db execOk slot, (({ w with m_windowId := slot } : BrowserWidget).saveState rect db
      execOk).2 = (w.saveState rect db execOk).2) ∧
    (w.saveState rect (some rows) false).2 = some rows := by
  refine ⟨fun hpos => ?_, fun hle db execOk => ?_, fun db execOk hne => ?_,
    fun db execOk slot => rfl, ?_⟩
  · refine ⟨_, by simp only [BrowserWidget.saveState, hpos, if_true]; rfl, ?_, ?_⟩
    · simp only [DatabaseManager.saveWindowConfig, if_true, List.filter_append,
        List.filter_filter, BrowserWidget.getCurrentUrl]
      have h1 : rows.filter (fun r => (decide (r.window_id = w.m_subWindowId) &&
          decide (r.window_id ≠ w.m_subWindowId))) = [] := by
        rw [List.filter_eq_nil_iff]
        intro r _
        simp
      simp [h1]
    · simp only [DatabaseManager.saveWindowConfig, if_true, List.filter_append,
        List.filter_filter]
      simp
  · have hn : ¬ w.m_subWindowId > 0 := by omega
    simp only [BrowserWidget.saveState, hn, if_false]
  · by_contra hn
    have hn' : ¬ w.m_subWindowId > 0 := hn
    exact hne (by simp only [BrowserWidget.saveState, hn', if_false])
  · simp only [BrowserWidget.saveState, DatabaseManager.saveWindowConfig]
    split <;> simp

/-- An example of `saveState`: the pane in pool slot 1 bound to the logical id 5 is saved
into a store that holds a row for the key 1 and an older row for the key 5; the
row for the key 5 is replaced, the row for the key 1 stays. -/
theorem saveState_keyed_by_logical_id_example :
    boundPane.getWindowId = 1 ∧ boundPane.getSubWindowId = 5 ∧
    (boundPane.saveState { x := 5, y := 5, width := 500, height := 300 }
      (some [{ window_id := 1, sub_id := 1, url := "https://old.test/", title := "O"
               geometry := { x := 0, y := 0, width := 1, height := 1 } },
             { window_id := 5, sub_id := 5, url := "https://b.test/", title := "B"
               geometry := { x := 0, y := 0, width := 1, height := 1 } }]) true).2 =
      some [{ window_id := 1, sub_id := 1, url := "https://old.test/", title := "O"
              geometry := { x := 0, y := 0, width := 1, height := 1 } },
            { window_id := 5, sub_id := 5, url := "https://a.test/", title := "A"
              geometry := { x := 5, y := 5, width := 500, height := 300 } }] ∧
    (freshPane.saveState { x := 5, y := 5, width := 500, height := 300 } (some []) true).2 =
      some [] := by
  decide

/-! ## Theorems: where extracted cookie text is written -/

set_option maxRecDepth 8000 in
/-- C29 fails as stated: a pane bound to the logical id 5 calls `saveCookies`, is
rebound to the id 7 with `setSubWindowId`, and then the extracted text arrives;
the callback writes the text to the cookie file of 7 and not to the file of 5. -/
theorem extracted_text_goes_to_new_id :
    ((BrowserWidget.handleCookieEvents (exampleHost, { freshPane with m_subWindowId := 5 })
        [CookieEvent.saveCookies, CookieEvent.setSubWindowId 7,
          CookieEvent.extracted (some twoCookiesText) true]).1.cookieFile 7 =
      some twoCookiesText) ∧
    ((BrowserWidget.handleCookieEvents (exampleHost, { freshPane with m_subWindowId := 5 })
        [CookieEvent.saveCookies, CookieEvent.setSubWindowId 7,
          CookieEvent.extracted (some twoCookiesText) true]).1.cookieFile 5 = none) := by
  decide

/-- An event that is not a call of `setSubWindowId` keeps the pane's logical id and
changes no cookie file other than the one of that id. -/
theorem handleCookieEvent_same_id (s : Host × BrowserWidget) (ev : CookieEvent)
    (hev : ev.isRebinding = false) :
    (BrowserWidget.handleCookieEvent s ev).2.m_subWindowId = s.2.m_subWindowId ∧
    ∀ id, id ≠ s.2.m_subWindowId →
      (BrowserWidget.handleCookieEvent s ev).1.cookieFile id = s.1.cookieFile id := by
  cases ev with
  | saveCookies =>
    refine ⟨?_, fun id _ => rfl⟩
    simp only [BrowserWidget.handleCookieEvent, BrowserWidget.saveCookies]
    split <;> rfl
  | setSubWindowId k => simp [CookieEvent.isRebinding] at hev
  | extracted result opened =>
    simp only [BrowserWidget.handleCookieEvent, BrowserWidget.onCookiesExtracted,
      BrowserWidget.saveCookiesToFile]
    split
    · exact ⟨rfl, fun id _ => rfl⟩
    · cases result with
      | none => exact ⟨rfl, fun id _ => rfl⟩
      | some text =>
        refine ⟨rfl, fun id hid => ?_⟩
        simp only
        split
        · rfl
        · split
          · rfl
          · simp [hid]

/-- C29, amended: the callback of an extraction writes the text to the cookie file
of the logical id the pane is bound to when the callback runs, and to no other
file: that file then holds the text if the id is positive and the file opens,
and no file changes otherwise.  Between a call of `saveCookies` and its callback
the text of a pane bound to `X` therefore reaches only the file of `X` as long as
no call of `setSubWindowId` comes in between: over every sequence of calls of
`saveCookies` and callbacks, the pane stays bound to `X` and every cookie file
other than the one of `X` is left as it is. -/
theorem extracted_text_goes_to_current_id (h : Host) (w : BrowserWidget) (text : String)
    (opened : Bool) (events : List CookieEvent) (hpending : 0 < w.cookieExtractions)
    (hevents : ∀ ev ∈ events, ev.isRebinding = false) :
    (w.m_subWindowId > 0 → opened = true →
      (w.onCookiesExtracted h (some text) opened).1.cookieFile w.m_subWindowId = some text) ∧
    (∀ id, id ≠ w.m_subWindowId →
      (w.onCookiesExtracted h (some text) opened).1.cookieFile id = h.cookieFile id) ∧
    (w.m_subWindowId ≤ 0 ∨ opened = false →
      (w.onCookiesExtracted h (some text) opened).1.cookieFile = h.cookieFile) ∧
    (BrowserWidget.handleCookieEvents (h, w) events).2.m_subWindowId = w.m_subWindowId ∧
    (∀ id, id ≠ w.m_subWindowId →
      (BrowserWidget.handleCookieEvents (h, w) events).1.cookieFile id = h.cookieFile id) := by
  have hp : ¬ w.cookieExtractions = 0 := by omega
  refine ⟨fun hpos hop => ?_, fun id hid => ?_, fun hno => ?_, ?_⟩
  · have hpos' : ¬ w.m_subWindowId ≤ 0 := by omega
    simp [BrowserWidget.onCookiesExtracted, BrowserWidget.saveCookiesToFile, hp, hpos', hop]
  · simp only [BrowserWidget.onCookiesExtracted, BrowserWidget.saveCookiesToFile, hp, if_false]
    split
    · rfl
    · split
      · rfl
      · simp [hid]
  · simp only [BrowserWidget.onCookiesExtracted, BrowserWidget.saveCookiesToFile, hp, if_false]
    rcases hno with hle | hcl
    · simp [hle]
    · subst hcl
      split <;> simp
  · have key : ∀ (events : List CookieEvent) (s : Host × BrowserWidget),
        (∀ ev ∈ events, ev.isRebinding = false) →
        (BrowserWidget.handleCookieEvents s events).2.m_subWindowId = s.2.m_subWindowId ∧
        ∀ id, id ≠ s.2.m_subWindowId →
          (BrowserWidget.handleCookieEvents s events).1.cookieFile id = s.1.cookieFile id := by
      intro events
      induction events with
      | nil => intro s _; exact ⟨rfl, fun _ _ => rfl⟩
      | cons ev evs ih =>
        intro s hall
        obtain ⟨h1, h2⟩ := handleCookieEvent_same_id s ev (hall ev (List.mem_cons_self _ _))
        obtain ⟨h3, h4⟩ := ih (BrowserWidget.handleCookieEvent s ev)
          (fun e he => hall e (List.mem_cons_of_mem _ he))
        simp only [BrowserWidget.handleCookieEvents, List.foldl_cons] at h3 h4 ⊢
        refine ⟨h3.trans h1, fun id hid => ?_⟩
        rw [h4 id (by rw [h1]; exact hid), h2 id hid]
    exact key events (h, w) hevents

/-- C29, amended, on an example: a pane bound to `5` calls `saveCookies` and the
text arrives while the pane is still bound to `5`; the file of `5` holds the
text. -/
theorem extracted_text_goes_to_current_id_witness :
    (({ freshPane with m_subWindowId := 5 } : BrowserWidget).saveCookies.onCookiesExtracted
      exampleHost (some twoCookiesText) true).1.cookieFile 5 = some twoCookiesText :=
  (extracted_text_goes_to_current_id exampleHost
    ({ freshPane with m_subWindowId := 5 } : BrowserWidget).saveCookies twoCookiesText true
    [CookieEvent.saveCookies] (by decide) (by decide)).1 (by decide) rfl

/-! ## Theorems: the ranges of the column count and of the visible count -/

/-- With a column count of at least 1, `attachWidgetToLayout` returns and keeps
the column count and the visible count. -/
theorem attachWidgetToLayout_counts (wm : WindowManager) (id : Nat) (position : Int)
    (hc : 1 ≤ wm.m_columnCount) :
    ∃ wm', wm.attachWidgetToLayout id position = some wm' ∧
      wm'.m_columnCount = wm.m_columnCount ∧
      wm'.m_currentWindowCount = wm.m_currentWindowCount := by
  obtain ⟨wmu, hu1, -, hu3, hu4⟩ := updateLayout_total
    (wm.updateWidget id fun w => w.setFixedSize (WindowManager.widgetWidth wm.m_columnCount)
      (WindowManager.calculateHeightFromWidth (WindowManager.widgetWidth wm.m_columnCount))) hc
  simp only [WindowManager.attachWidgetToLayout]
  split
  · split
    · exact ⟨_, rfl, rfl, rfl⟩
    · exact ⟨wmu, hu1, hu4, hu3⟩
  · exact ⟨wmu, hu1, hu4, hu3⟩

/-- With a column count of at least 1, `removeBrowserWidget` returns and keeps the
column count and the visible count. -/
theorem removeBrowserWidget_counts (wm : WindowManager) (index : Int)
    (hc : 1 ≤ wm.m_columnCount) :
    ∃ wm' signals, wm.removeBrowserWidget index = some (wm', signals) ∧
      wm'.m_columnCount = wm.m_columnCount ∧
      wm'.m_currentWindowCount = wm.m_currentWindowCount := by
  simp only [WindowManager.removeBrowserWidget]
  split
  · exact ⟨wm, [], rfl, rfl, rfl⟩
  · obtain ⟨wmu, hu1, -, hu3, hu4⟩ := updateLayout_total
      ({ wm with m_browserWidgets :=
        WindowManager.renumber index.toNat 0 (wm.m_browserWidgets.eraseIdx index.toNat) } :
        WindowManager) hc
    rw [hu1]
    exact ⟨wmu, _, rfl, hu4, hu3⟩

/-- Every call of the manager returns when the column count and the visible count
are in range, and leaves them in range. -/
theorem call_countsInRange (h : Host) (wm : WindowManager) (c : ManagerCall)
    (hinv : wm.CountsInRange) :
    ∃ wm', wm.call h c = some wm' ∧ wm'.CountsInRange := by
  obtain ⟨hc1, hc3, hn0, hn16⟩ := hinv
  have hsame : ∀ wm' : WindowManager, wm'.m_columnCount = wm.m_columnCount →
      wm'.m_currentWindowCount = wm.m_currentWindowCount → wm'.CountsInRange := by
    intro wm' e1 e2
    exact ⟨by rw [e1]; exact hc1, by rw [e1]; exact hc3, by rw [e2]; exact hn0,
      by rw [e2]; exact hn16⟩
  cases c with
  | setLayout windowCount forceUpdate =>
    simp only [WindowManager.call, WindowManager.setLayout]
    split
    · exact ⟨wm, rfl, hsame wm rfl rfl⟩
    · rename_i hvalid
      split
      · exact ⟨wm, rfl, hsame wm rfl rfl⟩
      · obtain ⟨wmu, hu1, -, hu3, hu4⟩ := updateLayout_total
          ({ wm with m_currentWindowCount := windowCount } : WindowManager) hc1
        have hv := (isValidWindowCount_iff windowCount).1 (by simpa using hvalid)
        rw [hu1]
        refine ⟨wmu, rfl, ?_⟩
        exact ⟨by rw [hu4]; exact hc1, by rw [hu4]; exact hc3, by rw [hu3]; exact hv.1,
          by rw [hu3]; exact hv.2⟩
  | setColumnCount columns =>
    simp only [WindowManager.call, WindowManager.setColumnCount]
    split
    · exact ⟨wm, rfl, hsame wm rfl rfl⟩
    · rename_i hrange
      have h1 : (1 : Int) ≤ columns := by omega
      have h3 : columns ≤ 3 := by omega
      obtain ⟨wmu, hu1, -, hu3, hu4⟩ := updateLayout_total
        ({ wm with m_columnCount := columns } : WindowManager) h1
      refine ⟨wmu, hu1, ?_⟩
      exact ⟨by rw [hu4]; exact h1, by rw [hu4]; exact h3, by rw [hu3]; exact hn0,
        by rw [hu3]; exact hn16⟩
  | addBrowserWidget fresh =>
    simp only [WindowManager.call, WindowManager.addBrowserWidget]
    split
    · exact ⟨wm, rfl, hsame wm rfl rfl⟩
    · obtain ⟨wmu, hu1, -, hu3, hu4⟩ := updateLayout_total
        ({ wm with m_browserWidgets := wm.m_browserWidgets ++
          [(BrowserWidget.create fresh ((wm.m_browserWidgets.length : Int) + 1)).setFixedSize
            (WindowManager.widgetWidth wm.m_columnCount)
            (WindowManager.calculateHeightFromWidth
              (WindowManager.widgetWidth wm.m_columnCount))] } : WindowManager) hc1
      rw [hu1]
      exact ⟨wmu, rfl, hsame wmu hu4 hu3⟩
  | removeBrowserWidget index =>
    obtain ⟨wm', signals, hr, e1, e2⟩ := removeBrowserWidget_counts wm index hc1
    exact ⟨wm', by simp [WindowManager.call, hr], hsame wm' e1 e2⟩
  | clearAllWidgets =>
    obtain ⟨wmu, hu1, -, hu3, hu4⟩ := updateLayout_total
      ({ wm with m_browserWidgets := [], m_currentWindowCount := 0 } : WindowManager) hc1
    refine ⟨wmu, hu1, ?_⟩
    exact ⟨by rw [hu4]; exact hc1, by rw [hu4]; exact hc3, by rw [hu3],
      by rw [hu3]; show (0 : Int) ≤ 16; decide⟩
  | saveAllStates rect db execOk => exact ⟨_, rfl, hsame _ rfl rfl⟩
  | loadAllStates subWindowUrl => exact ⟨_, rfl, hsame _ rfl rfl⟩
  | setParentWidget changed =>
    cases changed with
    | false => exact ⟨wm, rfl, hsame wm rfl rfl⟩
    | true =>
      obtain ⟨wmu, hu1, -, hu3, hu4⟩ := updateLayout_total wm hc1
      exact ⟨wmu, by simp [WindowManager.call, WindowManager.setParentWidget, hu1],
        hsame wmu hu4 hu3⟩
  | detachWidgetFromLayout widget => exact ⟨_, rfl, hsame _ rfl rfl⟩
  | attachWidgetToLayout widget position =>
    obtain ⟨wm', hr, e1, e2⟩ := attachWidgetToLayout_counts wm widget position hc1
    exact ⟨wm', hr, hsame wm' e1 e2⟩
  | updateWidgetContent index subId name url =>
    refine ⟨_, rfl, ?_⟩
    simp only [WindowManager.updateWidgetContent]
    split
    · exact hsame wm rfl rfl
    · split
      · exact hsame wm rfl rfl
      · exact hsame _ rfl rfl
  | widgetCloseRequested widget =>
    simp only [WindowManager.call, WindowManager.onWidgetCloseRequested]
    split
    · obtain ⟨wm', signals, hr, e1, e2⟩ := removeBrowserWidget_counts wm (wm.indexOf widget) hc1
      exact ⟨wm', by simp [hr], hsame wm' e1 e2⟩
    · exact ⟨wm, rfl, hsame wm rfl rfl⟩

/-- Every sequence of calls of the manager returns when the column count and the
visible count are in range, and leaves them in range. -/
theorem calls_countsInRange (h : Host) :
    ∀ (cs : List ManagerCall) (wm : WindowManager), wm.CountsInRange →
      ∃ wm', WindowManager.calls h cs wm = some wm' ∧ wm'.CountsInRange := by
  intro cs
  induction cs with
  | nil => intro wm hinv; exact ⟨wm, rfl, hinv⟩
  | cons c cs ih =>
    intro wm hinv
    obtain ⟨wm1, h1, hinv1⟩ := call_countsInRange h wm c hinv
    obtain ⟨wm2, h2, hinv2⟩ := ih wm1 hinv1
    exact ⟨wm2, by simp only [WindowManager.calls, h1, h2], hinv2⟩

/-- With a column count of 0 the row loop of `updateLayout` never reaches its
end. -/
theorem buildRows_zero_columns (n : Int) :
    ∀ (fuel : Nat) (i : Int) (st : LayoutLoop VItem), i < n →
      WindowManager.buildRows 0 n fuel i st = none := by
  intro fuel
  induction fuel with
  | zero => intro i st _; rfl
  | succ fuel ih =>
    intro i st hi
    simp only [WindowManager.buildRows, hi, if_true]
    exact ih (i + 0) _ (by omega)

/-- C23: the constructor returns, and every sequence of calls of the manager's
operations, with any arguments, returns from the constructed manager and leaves a
column count of 1, 2 or 3 and a visible count from 0 to 16.  So the column count
that `attachWidgetToLayout` divides by is not 0 and `attachWidgetToLayout`
returns, and the row loop of `updateLayout` reaches its end within
`visible count + 1` steps, while with a column count of 0 it would not end. -/
theorem counts_stay_in_range (h : Host) (cs : List ManagerCall) :
    ∃ wm0 wm, WindowManager.create = some wm0 ∧ WindowManager.calls h cs wm0 = some wm ∧
      (wm.getColumnCount = 1 ∨ wm.getColumnCount = 2 ∨ wm.getColumnCount = 3) ∧
      0 ≤ wm.getCurrentWindowCount ∧ wm.getCurrentWindowCount ≤ 16 ∧
      wm.m_columnCount ≠ 0 ∧
      (∀ widget position, ∃ wm', wm.attachWidgetToLayout widget position = some wm') ∧
      (∀ st, ∃ st', WindowManager.buildRows wm.m_columnCount wm.m_currentWindowCount
        (wm.m_currentWindowCount.toNat + 1) 0 st = some st') ∧
      (∃ wm', wm.updateLayout = some wm') ∧
      (∀ (fuel : Nat) (st : LayoutLoop VItem), WindowManager.buildRows 0 1 fuel 0 st = none) := by
  have h0 : (WindowManager.constructed.laidOut 2 0).CountsInRange := by
    refine ⟨?_, ?_, ?_, ?_⟩ <;> decide
  obtain ⟨wm, hrun, hc1, hc3, hn0, hn16⟩ := calls_countsInRange h cs _ h0
  refine ⟨_, wm, create_eq, hrun, ?_, hn0, hn16, ?_, fun widget position => ?_, fun st => ?_, ?_,
    fun fuel st => buildRows_zero_columns 1 fuel 0 st (by decide)⟩
  · simp only [WindowManager.getColumnCount]
    omega
  · omega
  · obtain ⟨wm', hr, -, -⟩ := attachWidgetToLayout_counts wm widget position hc1
    exact ⟨wm', hr⟩
  · obtain ⟨st', hst, -⟩ := buildRows_total wm.m_columnCount wm.m_currentWindowCount hc1
      (wm.m_currentWindowCount.toNat + 1) 0 st (by simp)
    exact ⟨st', hst⟩
  · obtain ⟨wm', hr, -, -, -⟩ := updateLayout_total wm hc1
    exact ⟨wm', hr⟩

/-! ## Theorems: the fixed size of the panes that are shown -/

/-- A pane placed by `updateLayout` has the fixed size for the column count. -/
theorem placeWidget_hasFixedSize (c : Int) (w : BrowserWidget) :
    (WindowManager.placeWidget c w).HasFixedSize c := by
  have hs := (placeWidget_sizes c w).1
  simp only [BrowserWidget.sizeConstraints, BrowserWidget.setFixedSize,
    BrowserWidget.setMinimumSize, BrowserWidget.setMaximumSize, Prod.mk.injEq] at hs
  exact ⟨hs.1, hs.2.1⟩

/-- The inner loop of `updateLayout` keeps what the outer loop relies on: the panes
before `visibleIndex` have the fixed size, and every pool index below the
position reached (and below the visible count) is before `visibleIndex`. -/
theorem fillRow_fixed (c n i : Int) :
    ∀ (k : Nat) (j : Int) (st : LayoutLoop RowItem), c ≤ (k : Int) + j →
      (∀ (a : Nat) (w : BrowserWidget), a < st.visibleIndex → st.widgets[a]? = some w →
        w.HasFixedSize c) →
      (∀ a : Nat, (a : Int) < i + j → (a : Int) < n → a < st.widgets.length →
        a < st.visibleIndex) →
      (∀ (a : Nat) (w : BrowserWidget),
        a < (WindowManager.fillRow c n i k j st).visibleIndex →
        (WindowManager.fillRow c n i k j st).widgets[a]? = some w → w.HasFixedSize c) ∧
      (∀ a : Nat, (a : Int) < i + c → (a : Int) < n →
        a < (WindowManager.fillRow c n i k j st).widgets.length →
        a < (WindowManager.fillRow c n i k j st).visibleIndex) := by
  intro k
  induction k with
  | zero =>
    intro j st hk h1 h2
    simp only [WindowManager.fillRow]
    exact ⟨h1, fun a ha hn hl => h2 a (by omega) hn hl⟩
  | succ k ih =>
    intro j st hk h1 h2
    simp only [WindowManager.fillRow]
    split
    · rename_i hcond
      split
      · rename_i widget hwidget
        have hv : st.visibleIndex < st.widgets.length := by
          rcases Nat.lt_or_ge st.visibleIndex st.widgets.length with hlt | hge
          · exact hlt
          · rw [List.getElem?_eq_none_iff.mpr hge] at hwidget
            cases hwidget
        apply ih (j + 1) _ (by push_cast at hk ⊢; omega)
        · intro a w ha hw
          rcases Nat.lt_or_ge a st.visibleIndex with hlt | hge
          · have hne : st.visibleIndex ≠ a := by omega
            simp only [List.getElem?_set_ne hne] at hw
            exact h1 a w hlt hw
          · have hav : a = st.visibleIndex := by
              simp only at ha
              omega
            subst hav
            simp only [List.getElem?_set_self hv, Option.some.injEq] at hw
            subst hw
            exact placeWidget_hasFixedSize c widget
        · intro a ha hn hl
          simp only [List.length_set] at hl
          simp only
          rcases Int.lt_or_le (a : Int) (i + j) with hlt | hge
          · have := h2 a hlt hn hl
            omega
          · cases a with
            | zero => omega
            | succ b =>
              have := h2 b (by push_cast at ha hge ⊢; omega) (by push_cast at hn ⊢; omega)
                (by omega)
              omega
      · rename_i hnone
        have hv : st.widgets.length ≤ st.visibleIndex := List.getElem?_eq_none_iff.mp hnone
        apply ih (j + 1) st (by push_cast at hk ⊢; omega) h1
        intro a _ _ hl
        omega
    · rename_i hcond
      refine ⟨h1, fun a ha hn hl => h2 a ?_ hn hl⟩
      by_contra hge
      exact hcond ⟨by omega, by omega⟩

/-- The outer loop of `updateLayout`, when it reaches its end, has given the fixed
size to every pane at a pool index below the visible count. -/
theorem buildRows_fixed (c n : Int) :
    ∀ (fuel : Nat) (i : Int) (st st' : LayoutLoop VItem),
      (∀ (a : Nat) (w : BrowserWidget), a < st.visibleIndex → st.widgets[a]? = some w →
        w.HasFixedSize c) →
      (∀ a : Nat, (a : Int) < i → (a : Int) < n → a < st.widgets.length →
        a < st.visibleIndex) →
      WindowManager.buildRows c n fuel i st = some st' →
      ∀ (a : Nat) (w : BrowserWidget), (a : Int) < n → st'.widgets[a]? = some w →
        w.HasFixedSize c := by
  intro fuel
  induction fuel with
  | zero => intro i st st' _ _ hrun; simp [WindowManager.buildRows] at hrun
  | succ fuel ih =>
    intro i st st' h1 h2 hrun
    simp only [WindowManager.buildRows] at hrun
    split at hrun
    · obtain ⟨r1, r2⟩ := fillRow_fixed c n i c.toNat 0
        { visibleIndex := st.visibleIndex, widgets := st.widgets, items := [] }
        (by have := Int.self_le_toNat c; omega) h1 (by simpa using h2)
      exact ih (i + c) _ st' r1 r2 hrun
    · rename_i hend
      cases hrun
      intro a w ha hw
      have hl : a < st.widgets.length := by
        rcases Nat.lt_or_ge a st.widgets.length with hlt | hge
        · exact hlt
        · rw [List.getElem?_eq_none_iff.mpr hge] at hw
          cases hw
      exact h1 a w (h2 a (by omega) ha hl) hw

/-- After `updateLayout` every pane that is shown or visible has the fixed size
for the column count. -/
theorem updateLayout_uniform (wm wm' : WindowManager) (hrun : wm.updateLayout = some wm') :
    wm'.Uniform ∧ wm'.m_columnCount = wm.m_columnCount := by
  simp only [WindowManager.updateLayout] at hrun
  split at hrun
  · cases hrun
    refine ⟨?_, rfl⟩
    intro w hw hv
    simp only [List.mem_map] at hw
    obtain ⟨u, -, rfl⟩ := hw
    simp [BrowserWidget.isVisible, BrowserWidget.isHidden, BrowserWidget.hide] at hv
  · split at hrun
    · cases hrun
    · rename_i st hst
      cases hrun
      refine ⟨?_, rfl⟩
      have hfix := buildRows_fixed wm.m_columnCount wm.m_currentWindowCount _ 0
        { visibleIndex := 0, widgets := wm.m_browserWidgets, items := [] } st
        (fun a w ha => absurd ha (Nat.not_lt_zero a)) (fun a ha => by omega) hst
      intro w hw hv _
      simp only [WindowManager.hideFrom, List.mem_append, List.mem_map] at hw
      rcases hw with hw | ⟨u, -, rfl⟩
      · obtain ⟨a, hget⟩ := List.mem_iff_getElem?.mp hw
        rw [List.getElem?_take] at hget
        split at hget
        · rename_i ha
          exact hfix a w (Int.lt_toNat.mp ha) hget
        · cases hget
      · simp [BrowserWidget.isVisible, BrowserWidget.isHidden, BrowserWidget.hide] at hv

/-- The fixed sizes: 880 by 528 for one column and 500 by 300 otherwise; the
height is the width times three fifths, rounded down. -/
theorem fixedSize_values :
    WindowManager.fixedSize 1 = { width := 880, height := 528 } ∧
    (∀ c : Int, c ≠ 1 → WindowManager.fixedSize c = { width := 500, height := 300 }) ∧
    (∀ c : Int, (WindowManager.fixedSize c).height =
      ⌊((WindowManager.fixedSize c).width : ℚ) * 3 / 5⌋) ∧
    (WindowManager.fixedSize 1).width ≠ (WindowManager.fixedSize 2).width ∧
    (WindowManager.fixedSize 1).width ≠ (WindowManager.fixedSize 3).width := by
  refine ⟨by decide, fun c hc => ?_, fun c => ?_, by decide, by decide⟩
  · simp only [WindowManager.fixedSize, WindowManager.widgetWidth, if_neg hc]
    decide
  · by_cases hc : c = 1
    · subst hc
      have : WindowManager.fixedSize 1 = { width := 880, height := 528 } := by decide
      rw [this]
      symm
      rw [Int.floor_eq_iff]
      norm_num
    · have : WindowManager.fixedSize c = { width := 500, height := 300 } := by
        simp only [WindowManager.fixedSize, WindowManager.widgetWidth, if_neg hc]
        decide
      rw [this]
      symm
      rw [Int.floor_eq_iff]
      norm_num

/-- After `attachWidgetToLayout` every pane that is shown or visible has the fixed
size for the column count, if the panes other than the one attached that are
shown or visible had it before. -/
theorem attachWidgetToLayout_uniform (wm wm' : WindowManager) (widget : Nat) (position : Int)
    (hpre : wm.UniformExcept (some widget))
    (hrun : wm.attachWidgetToLayout widget position = some wm') :
    wm'.Uniform ∧ wm'.m_columnCount = wm.m_columnCount := by
  simp only [WindowManager.attachWidgetToLayout] at hrun
  have hattached : ∀ w ∈ (wm.updateWidget widget fun w =>
      w.setFixedSize (WindowManager.widgetWidth wm.m_columnCount)
        (WindowManager.calculateHeightFromWidth
          (WindowManager.widgetWidth wm.m_columnCount))).m_browserWidgets,
      w.isHidden = false ∨ w.isVisible = true → w.HasFixedSize wm.m_columnCount := by
    intro w hw hv
    simp only [WindowManager.updateWidget, List.mem_map] at hw
    obtain ⟨u, hu, rfl⟩ := hw
    split
    · exact ⟨rfl, rfl⟩
    · rename_i hne
      rw [if_neg hne] at hv
      exact hpre u hu hv (fun e => hne (Option.some.inj e).symm)
  split at hrun
  · split at hrun
    · cases hrun
      exact ⟨fun w hw hv _ => hattached w hw hv, rfl⟩
    · exact ⟨(updateLayout_uniform _ _ hrun).1, (updateLayout_uniform _ _ hrun).2⟩
  · exact ⟨(updateLayout_uniform _ _ hrun).1, (updateLayout_uniform _ _ hrun).2⟩

/-- C21: a call of `setLayout` or of `setColumnCount` that rebuilds the grid, and a
call of `attachWidgetToLayout` before which the other panes that are shown or
visible have the fixed size, leave every pane of the pool that is shown (not
hidden) or visible with the fixed size for the column count as minimum and as
maximum size: 880 by 528 for one column, 500 by 300 for two or three columns.
The height is the width times three fifths, rounded down, and the width for one
column is not the width for more columns. -/
theorem visible_panes_fixed_size (h : Host) (wm wm' : WindowManager) (c : ManagerCall)
    (hsets : c.SetsSizes wm) (hcall : wm.call h c = some wm') :
    (∀ w ∈ wm'.m_browserWidgets, w.isHidden = false ∨ w.isVisible = true →
      w.minimumSize = WindowManager.fixedSize wm'.getColumnCount ∧
      w.maximumSize = WindowManager.fixedSize wm'.getColumnCount) ∧
    (wm'.getColumnCount = 1 →
      ∀ w ∈ wm'.m_browserWidgets, w.isHidden = false ∨ w.isVisible = true →
        w.minimumSize = { width := 880, height := 528 } ∧
        w.maximumSize = { width := 880, height := 528 }) ∧
    (wm'.getColumnCount = 2 ∨ wm'.getColumnCount = 3 →
      ∀ w ∈ wm'.m_browserWidgets, w.isHidden = false ∨ w.isVisible = true →
        w.minimumSize = { width := 500, height := 300 } ∧
        w.maximumSize = { width := 500, height := 300 }) ∧
    (∀ k : Int, (WindowManager.fixedSize k).height =
      ⌊((WindowManager.fixedSize k).width : ℚ) * 3 / 5⌋) ∧
    (WindowManager.fixedSize 1).width ≠ (WindowManager.fixedSize 2).width ∧
    (WindowManager.fixedSize 1).width ≠ (WindowManager.fixedSize 3).width := by
  obtain ⟨f1, f2, f3, f4, f5⟩ := fixedSize_values
  have huni : wm'.Uniform := by
    cases c with
    | setLayout windowCount forceUpdate =>
      obtain ⟨hvalid, hchange⟩ := hsets
      simp only [WindowManager.call, WindowManager.setLayout, hvalid, not_true_eq_false,
        if_false] at hcall
      have hno : ¬ (wm.m_currentWindowCount = windowCount ∧ ¬ forceUpdate = true) := by
        rintro ⟨e1, e2⟩
        rcases hchange with hne | hf
        · exact hne e1
        · exact e2 hf
      rw [if_neg hno] at hcall
      cases hu : ({ wm with m_currentWindowCount := windowCount } : WindowManager).updateLayout with
      | none => simp [hu] at hcall
      | some wmu =>
        simp only [hu, Option.map_some', Option.some.injEq] at hcall
        subst hcall
        exact (updateLayout_uniform _ _ hu).1
    | setColumnCount columns =>
      have hrange : ¬ (columns < 1 ∨ columns > 3) := by
        have := hsets.1
        have := hsets.2
        omega
      simp only [WindowManager.call, WindowManager.setColumnCount, hrange, if_false] at hcall
      exact (updateLayout_uniform _ _ hcall).1
    | attachWidgetToLayout widget position =>
      exact (attachWidgetToLayout_uniform wm wm' widget position hsets hcall).1
    | _ => exact absurd hsets (by simp [ManagerCall.SetsSizes])
  have hall : ∀ w ∈ wm'.m_browserWidgets, w.isHidden = false ∨ w.isVisible = true →
      w.minimumSize = WindowManager.fixedSize wm'.getColumnCount ∧
      w.maximumSize = WindowManager.fixedSize wm'.getColumnCount :=
    fun w hw hv => huni w hw hv (by simp)
  refine ⟨hall, fun h1 w hw hv => ?_, fun h23 w hw hv => ?_, f3, f4, f5⟩
  · have := hall w hw hv
    rw [h1, f1] at this
    exact this
  · have := hall w hw hv
    have hne : wm'.getColumnCount ≠ 1 := by omega
    rw [f2 _ hne] at this
    exact this

/-- C21, on an example: the constructed manager is told to show three panes; the
first pane of the pool is then shown and 500 by 300. -/
theorem visible_panes_fixed_size_witness :
    ∃ w, (WindowManager.constructed.laidOut 2 3).m_browserWidgets[0]? = some w ∧
      w.isHidden = false ∧
      w.minimumSize = { width := 500, height := 300 } ∧
      w.maximumSize = { width := 500, height := 300 } :=
  have hw : (WindowManager.constructed.laidOut 2 3).m_browserWidgets[0]? =
      some (((WindowManager.constructed.laidOut 2 3).m_browserWidgets[0]?).getD freshPane) := by
    decide
  have hv : (((WindowManager.constructed.laidOut 2 3).m_browserWidgets[0]?).getD
      freshPane).isHidden = false := by decide
  ⟨_, hw, hv,
    (visible_panes_fixed_size exampleHost WindowManager.constructed
      (WindowManager.constructed.laidOut 2 3) (ManagerCall.setLayout 3 true)
      ⟨by decide, Or.inr rfl⟩ (by decide)).2.2.1 (Or.inl (by decide)) _
      (List.mem_iff_getElem?.mpr ⟨0, hw⟩) (Or.inl hv)⟩

/-! ## Theorems: the fixed size across promotions and demotions -/

/-- A pane of the pool after a call through a pointer is a pane of the pool before
it, as it was or with the call made on it. -/
theorem updateWidget_mem (wm : WindowManager) (x : Nat) (f : BrowserWidget → BrowserWidget)
    (w : BrowserWidget) (hw : w ∈ (wm.updateWidget x f).m_browserWidgets) :
    ∃ u ∈ wm.m_browserWidgets, (u.objectId ≠ x ∧ w = u) ∨ (u.objectId = x ∧ w = f u) := by
  simp only [WindowManager.updateWidget, List.mem_map] at hw
  obtain ⟨u, hu, rfl⟩ := hw
  refine ⟨u, hu, ?_⟩
  by_cases hx : u.objectId = x
  · exact Or.inr ⟨hx, by rw [if_pos hx]⟩
  · exact Or.inl ⟨hx, by rw [if_neg hx]⟩

/-- Hiding the panes left in the fullscreen layout keeps the column count, and
every pane of the pool is then as it was, or hidden and not visible. -/
theorem hide_fold_mem (olds : List Nat) :
    ∀ (wm : WindowManager),
      (olds.foldl (fun m old => m.updateWidget old BrowserWidget.hide) wm).m_columnCount =
        wm.m_columnCount ∧
      ∀ w ∈ (olds.foldl (fun m old => m.updateWidget old BrowserWidget.hide)
          wm).m_browserWidgets,
        ∃ u ∈ wm.m_browserWidgets, w.objectId = u.objectId ∧
          (w = u ∨ (w.hidden = true ∧ w.visible = false)) := by
  induction olds with
  | nil => intro wm; exact ⟨rfl, fun w hw => ⟨w, hw, rfl, Or.inl rfl⟩⟩
  | cons x xs ih =>
    intro wm
    obtain ⟨h1, h2⟩ := ih (wm.updateWidget x BrowserWidget.hide)
    refine ⟨h1, fun w hw => ?_⟩
    obtain ⟨u, hu, hid, hcase⟩ := h2 w hw
    obtain ⟨v, hv, hv2⟩ := updateWidget_mem wm x BrowserWidget.hide u hu
    rcases hv2 with ⟨-, rfl⟩ | ⟨-, rfl⟩
    · exact ⟨u, hv, hid, hcase⟩
    · refine ⟨v, hv, hid, Or.inr ?_⟩
      rcases hcase with rfl | hnv
      · exact ⟨rfl, rfl⟩
      · exact hnv

/-- What holds for every pane that is shown or visible holds on these panes but
one. -/
theorem Uniform.except {wm : WindowManager} (hu : wm.Uniform) (skip : Option Nat) :
    wm.UniformExcept skip :=
  fun w hw hv _ => hu w hw hv (by simp)

/-- `showFullscreenWindow` keeps the invariant of the sizes when no pane is
promoted. -/
theorem showFullscreenWindow_sizes (mw mw' : MainWindow) (id : Nat) (hsz : mw.SizesInv)
    (hfb : mw.m_fullscreenBrowser = none)
    (hrun : mw.showFullscreenWindow (some id) = some mw') : mw'.SizesInv := by
  obtain ⟨wm, hwm, huni⟩ := hsz
  simp only [MainWindow.showFullscreenWindow, hwm] at hrun
  split at hrun
  · cases hrun
  · rename_i w0 hfind
    cases hrun
    refine ⟨_, rfl, ?_⟩
    intro w hw hv hne
    have hne' : w.objectId ≠ id := fun e => hne (by rw [e])
    obtain ⟨u4, hu4, hc4⟩ := updateWidget_mem _ id _ w hw
    have hw4 : w = u4 := by
      rcases hc4 with ⟨-, e⟩ | ⟨e1, e2⟩
      · exact e
      · exact absurd (by rw [e2, setFullscreenMode_objectId]; exact e1) hne'
    subst hw4
    have hmem2 : w ∈ ((mw.fullscreenLayout.foldl
        (fun m old => m.updateWidget old BrowserWidget.hide)
        (wm.detachWidgetFromLayout id)).takeOutOfRows id).m_browserWidgets := by
      split at hu4
      · obtain ⟨u3, hu3, hc3⟩ := updateWidget_mem _ id _ w hu4
        rcases hc3 with ⟨-, e⟩ | ⟨e1, e2⟩
        · rw [e]; exact hu3
        · exact absurd (by rw [e2, saveCookies_objectId]; exact e1) hne'
      · exact hu4
    obtain ⟨hcol, hfold⟩ := hide_fold_mem mw.fullscreenLayout (wm.detachWidgetFromLayout id)
    obtain ⟨u, hu, -, hcase⟩ := hfold w hmem2
    rcases hcase with rfl | hnv
    · have hfix := huni w hu hv (by rw [hfb]; simp)
      have hcc : ∀ m : WindowManager, ((if w0.getSubWindowId > 0
          then m.updateWidget id BrowserWidget.saveCookies else m).updateWidget id
            fun w => w.setFullscreenMode true).m_columnCount = m.m_columnCount := by
        intro m
        split <;> rfl
      show w.HasFixedSize _
      rw [hcc]
      show w.HasFixedSize (mw.fullscreenLayout.foldl
        (fun m old => m.updateWidget old BrowserWidget.hide)
        (wm.detachWidgetFromLayout id)).m_columnCount
      rw [hcol]
      exact hfix
    · simp only [BrowserWidget.isVisible, BrowserWidget.isHidden, hnv.1, hnv.2] at hv
      simp at hv

/-- `hideFullscreenWindow` keeps the invariant of the sizes, and when a pane was
promoted every pane that is shown or visible has the fixed size afterwards: the
ones other than the promoted one have it when `attachWidgetToLayout` is
called. -/
theorem hideFullscreenWindow_uniform (h : Host) (mw mw' : MainWindow) (hinv : mw.FullscreenInv)
    (hsz : mw.SizesInv) (hrun : mw.hideFullscreenWindow h = some mw') :
    mw'.SizesInv ∧
    (mw.m_fullscreenBrowser ≠ none →
      ∃ wm', mw'.m_windowManager = some wm' ∧ wm'.Uniform) := by
  obtain ⟨wm, hwm, huni⟩ := hsz
  cases hfb : mw.m_fullscreenBrowser with
  | none =>
    simp only [MainWindow.hideFullscreenWindow, hfb] at hrun
    cases hrun
    exact ⟨⟨wm, hwm, huni⟩, fun hne => absurd rfl hne⟩
  | some id =>
    obtain ⟨wmi, hwmi, -, -, -, -, hpos⟩ := hinv
    obtain ⟨p, wp, hp, -, -⟩ := hpos id hfb
    have hpos0 : mw.m_fullscreenWidgetPosition ≥ 0 := by rw [hp]; exact Int.ofNat_nonneg p
    simp only [MainWindow.hideFullscreenWindow, hfb, hwm, hpos0, if_true] at hrun
    split at hrun
    · cases hrun
    · rename_i w0 hfind
      have hpre : ∀ m : WindowManager, m = (if w0.getSubWindowId > 0
          then (wm.updateWidget id fun w => w.setFullscreenMode false).updateWidget id
            (BrowserWidget.loadCookies h)
          else wm.updateWidget id fun w => w.setFullscreenMode false) →
          m.UniformExcept (some id) ∧ m.m_columnCount = wm.m_columnCount := by
        intro m hm
        subst hm
        refine ⟨?_, by split <;> rfl⟩
        intro w hw hv hne
        have hne' : w.objectId ≠ id := fun e => hne (by rw [e])
        have hcol : (if w0.getSubWindowId > 0
            then (wm.updateWidget id fun w => w.setFullscreenMode false).updateWidget id
              (BrowserWidget.loadCookies h)
            else wm.updateWidget id fun w => w.setFullscreenMode false).m_columnCount =
            wm.m_columnCount := by split <;> rfl
        rw [hcol]
        have hw1 : w ∈ (wm.updateWidget id fun w => w.setFullscreenMode false).m_browserWidgets := by
          split at hw
          · obtain ⟨u, hu, hc⟩ := updateWidget_mem _ id _ w hw
            rcases hc with ⟨-, e⟩ | ⟨e1, e2⟩
            · rw [e]; exact hu
            · exact absurd (by rw [e2, (loadCookies_sizes h u).1]; exact e1) hne'
          · exact hw
        obtain ⟨u, hu, hc⟩ := updateWidget_mem _ id _ w hw1
        rcases hc with ⟨-, e⟩ | ⟨e1, e2⟩
        · subst e
          exact huni w hu hv (by rw [hfb]; exact hne)
        · exact absurd (by rw [e2, setFullscreenMode_objectId]; exact e1) hne'
      obtain ⟨hpre1, hpre2⟩ := hpre _ rfl
      split at hrun
      · cases hrun
      · rename_i mw2 hatt
        cases hrun
        split at hatt
        · cases hatt
        · rename_i wm3 hwm3
          cases hatt
          obtain ⟨hu3, -⟩ := attachWidgetToLayout_uniform _ wm3 id _ hpre1 hwm3
          exact ⟨⟨wm3, rfl, hu3⟩, fun _ => ⟨wm3, rfl, hu3⟩⟩

/-- A deferred step keeps the invariant of the sizes: it changes the promoted pane
only. -/
theorem fireDeferred_sizes (h : Host) (mw : MainWindow) (k : Nat) (hsz : mw.SizesInv) :
    (MainWindow.fireDeferred h mw k).SizesInv := by
  obtain ⟨wm, hwm, huni⟩ := hsz
  have hupd : ∀ (id : Nat) (f : BrowserWidget → BrowserWidget),
      (∀ u, (f u).objectId = u.objectId) → mw.m_fullscreenBrowser = some id →
      (wm.updateWidget id f).UniformExcept (some id) := by
    intro id f hf hfb w hw hv hne
    obtain ⟨u, hu, hc⟩ := updateWidget_mem wm id f w hw
    rcases hc with ⟨-, e⟩ | ⟨e1, e2⟩
    · subst e
      exact huni w hu hv (by rw [hfb]; exact hne)
    · exact absurd (by rw [e2, hf, e1]) hne
  simp only [MainWindow.fireDeferred]
  split
  · exact ⟨wm, hwm, huni⟩
  · rename_i d hd
    cases d with
    | fullscreenSettle widget =>
      simp only [MainWindow.runDeferred]
      split
      · rename_i hfb
        split
        · rename_i screen wm0 hs hwm0
          simp only [hwm, Option.some.injEq] at hwm0
          subst hwm0
          refine ⟨_, rfl, ?_⟩
          rw [hfb]
          exact hupd widget _ (fun _ => rfl) hfb
        · exact ⟨wm, hwm, huni⟩
      · exact ⟨wm, hwm, huni⟩
    | normalSettle =>
      simp only [MainWindow.runDeferred]
      split
      · rename_i id wm0 hfb hwm0
        simp only [hwm, Option.some.injEq] at hwm0
        subst hwm0
        refine ⟨_, rfl, ?_⟩
        rw [hfb]
        exact hupd id _ (fun _ => rfl) hfb
      · exact ⟨wm, hwm, huni⟩

/-- As constructed the main window satisfies the invariant of the sizes: every
pane is hidden and not visible. -/
theorem create_sizesInv : MainWindow.create.SizesInv := by
  refine ⟨WindowManager.constructed.laidOut 2 0, create_eq, ?_⟩
  intro w hw hv
  have hall : ∀ u ∈ (WindowManager.constructed.laidOut 2 0).m_browserWidgets,
      u.isHidden = true ∧ u.isVisible = false := by decide
  rw [(hall w hw).1, (hall w hw).2] at hv
  simp at hv

/-- One event of the fullscreen coordinator keeps the invariant of the sizes. -/
theorem handleFullscreenEvent_sizes (h : Host) (mw mw' : MainWindow) (ev : FullscreenEvent)
    (hinv : mw.FullscreenInv) (hsz : mw.SizesInv)
    (hrun : mw.handleFullscreenEvent h ev = some mw') : mw'.SizesInv := by
  cases ev with
  | requested widget =>
    simp only [MainWindow.handleFullscreenEvent, MainWindow.onFullscreenRequested] at hrun
    split at hrun
    · exact (hideFullscreenWindow_uniform h mw mw' hinv hsz hrun).1
    · rename_i hfb
      exact showFullscreenWindow_sizes mw mw' widget hsz hfb hrun
  | key k =>
    cases k with
    | f11 =>
      simp only [MainWindow.handleFullscreenEvent, MainWindow.keyPressEvent] at hrun
      split at hrun
      · exact (hideFullscreenWindow_uniform h mw mw' hinv hsz hrun).1
      · cases hrun; exact hsz
    | escape =>
      simp only [MainWindow.handleFullscreenEvent, MainWindow.keyPressEvent] at hrun
      split at hrun
      · exact (hideFullscreenWindow_uniform h mw mw' hinv hsz hrun).1
      · cases hrun; exact hsz
    | other =>
      simp only [MainWindow.handleFullscreenEvent, MainWindow.keyPressEvent] at hrun
      cases hrun
      exact hsz
  | timer index =>
    simp only [MainWindow.handleFullscreenEvent, Option.some.injEq] at hrun
    subst hrun
    exact fireDeferred_sizes h mw index hsz

/-- Every sequence of events of the fullscreen coordinator, raised by panes of the
pool, is handled to the end and keeps both invariants: whenever no pane is
promoted, every pane that is shown or visible has the fixed size for the column
count. -/
theorem handleFullscreenEvents_sizes (h : Host) (events : List FullscreenEvent) :
    ∀ mw : MainWindow, mw.FullscreenInv → mw.SizesInv →
      (∀ id ∈ FullscreenEvent.senders events, id ∈ mw.poolIds) →
      ∃ mw' wm', MainWindow.handleFullscreenEvents h events mw = some mw' ∧
        mw'.FullscreenInv ∧ mw'.SizesInv ∧ mw'.m_windowManager = some wm' ∧
        (mw'.m_fullscreenBrowser = none → wm'.Uniform) := by
  induction events with
  | nil =>
    intro mw hinv hsz _
    obtain ⟨wm, hwm, huni⟩ := id hsz
    refine ⟨mw, wm, rfl, hinv, hsz, hwm, fun hfb => ?_⟩
    rw [hfb] at huni
    exact huni
  | cons ev evs ih =>
    intro mw hinv hsz hsenders
    have hs1 : ∀ id ∈ FullscreenEvent.senders [ev], id ∈ mw.poolIds := by
      intro id hid
      apply hsenders
      cases ev with
      | requested widget =>
        simp only [FullscreenEvent.senders, List.mem_singleton] at hid
        simp [FullscreenEvent.senders, hid]
      | key k => simp [FullscreenEvent.senders] at hid
      | timer index => simp [FullscreenEvent.senders] at hid
    obtain ⟨mw1, h1, hinv1, hids1⟩ := handleFullscreenEvent_inv h mw ev hinv hs1
    have hsz1 := handleFullscreenEvent_sizes h mw mw1 ev hinv hsz h1
    have hs2 : ∀ id ∈ FullscreenEvent.senders evs, id ∈ mw1.poolIds := by
      intro id hid
      rw [hids1]
      apply hsenders
      cases ev with
      | requested widget => simp [FullscreenEvent.senders, hid]
      | key k => simpa [FullscreenEvent.senders] using hid
      | timer index => simpa [FullscreenEvent.senders] using hid
    obtain ⟨mw2, wm2, h2, r⟩ := ih mw1 hinv1 hsz1 hs2
    exact ⟨mw2, wm2, by simp only [MainWindow.handleFullscreenEvents, h1, h2], r⟩

/-- The invariant of the sizes carries over to a manager with the same column count
whose panes have, pane by pane, the same identity, visibility flags, minimum and
maximum size. -/
theorem uniformExcept_of_same_panes {wm wm' : WindowManager} {skip : Option Nat}
    (hpre : wm.UniformExcept skip) (hcol : wm'.m_columnCount = wm.m_columnCount)
    (hmap : wm'.m_browserWidgets.map
        (fun w => (w.objectId, (w.hidden, w.visible), w.minimumSize, w.maximumSize)) =
      wm.m_browserWidgets.map
        (fun w => (w.objectId, (w.hidden, w.visible), w.minimumSize, w.maximumSize))) :
    wm'.UniformExcept skip := by
  intro w hw hv hne
  have hmem : (w.objectId, (w.hidden, w.visible), w.minimumSize, w.maximumSize) ∈
      wm.m_browserWidgets.map
        (fun w => (w.objectId, (w.hidden, w.visible), w.minimumSize, w.maximumSize)) := by
    rw [← hmap]
    exact List.mem_map_of_mem _ hw
  obtain ⟨u, hu, he⟩ := List.mem_map.mp hmem
  simp only [Prod.mk.injEq] at he
  obtain ⟨e1, ⟨e2, e2'⟩, e3, e4⟩ := he
  have hfix := hpre u hu
    (by simp only [BrowserWidget.isVisible, BrowserWidget.isHidden] at hv ⊢
        rw [e2, e2']; exact hv)
    (by rw [e1]; exact hne)
  rw [hcol]
  exact ⟨by rw [← e3]; exact hfix.1, by rw [← e4]; exact hfix.2⟩

/-- `setLayout` keeps the invariant of the sizes. -/
theorem setLayout_uniformExcept (wm wm1 : WindowManager) (n : Int) (force : Bool)
    (signals : List WMSignal) (skip : Option Nat) (hpre : wm.UniformExcept skip)
    (hrun : wm.setLayout n force = some (wm1, signals)) : wm1.UniformExcept skip := by
  simp only [WindowManager.setLayout] at hrun
  split at hrun
  · cases hrun; exact hpre
  · split at hrun
    · cases hrun; exact hpre
    · split at hrun
      · cases hrun
      · rename_i wmu hu
        cases hrun
        exact Uniform.except (updateLayout_uniform _ _ hu).1 skip

/-- `setColumnCount` keeps the invariant of the sizes. -/
theorem setColumnCount_uniformExcept (wm wm1 : WindowManager) (columns : Int)
    (skip : Option Nat) (hpre : wm.UniformExcept skip)
    (hrun : wm.setColumnCount columns = some wm1) : wm1.UniformExcept skip := by
  simp only [WindowManager.setColumnCount] at hrun
  split at hrun
  · cases hrun; exact hpre
  · exact Uniform.except (updateLayout_uniform _ _ hrun).1 skip

/-- A call of `setLayout` by the main window during an assignment pass gives the
main window the manager `setLayout` leaves. -/
theorem callSetLayout_result (reload : MainWindow → Option MainWindow) (mw mw2 : MainWindow)
    (wm : WindowManager) (n : Int) (hl : mw.m_loadingSubwindows = true)
    (hrun : MainWindow.callSetLayout reload mw wm n = some mw2) :
    ∃ wm1 signals, wm.setLayout n false = some (wm1, signals) ∧ mw2 = mw.withManager wm1 := by
  simp only [MainWindow.callSetLayout, WindowManager.setLayoutUnforced] at hrun
  split at hrun
  · cases hrun
  · rename_i wm1 signals he
    rw [deliver_while_loading reload signals (mw.withManager wm1) hl] at hrun
    cases hrun
    exact ⟨wm1, signals, he, rfl⟩

/-- An assignment pass keeps the invariant of the sizes and the promoted pane. -/
theorem loadSubWindowsToLayout_sizes (h : Host) (db : Option Database) (fuel : Nat)
    (mw mw' : MainWindow) (hsz : mw.SizesInv)
    (hrun : MainWindow.loadSubWindowsToLayout h db fuel mw = some mw') :
    mw'.SizesInv ∧ mw'.m_fullscreenBrowser = mw.m_fullscreenBrowser := by
  obtain ⟨wm, hwm, huni⟩ := hsz
  cases fuel with
  | zero => simp [MainWindow.loadSubWindowsToLayout] at hrun
  | succ fuel =>
    simp only [MainWindow.loadSubWindowsToLayout] at hrun
    split at hrun
    · cases hrun
      exact ⟨⟨wm, hwm, huni⟩, rfl⟩
    · simp only [hwm] at hrun
      split at hrun
      · cases hrun
        exact ⟨⟨wm, rfl, huni⟩, rfl⟩
      · rename_i d
        split at hrun
        · split at hrun
          · cases hrun
          · rename_i mw2 hcs
            cases hrun
            obtain ⟨wm1, signals, hs, rfl⟩ := callSetLayout_result _ _ mw2 wm 0 rfl hcs
            exact ⟨⟨wm1, rfl, setLayout_uniformExcept wm wm1 0 false signals _ huni hs⟩, rfl⟩
        · split at hrun
          · cases hrun
          · rename_i wm1 hsc
            have hu1 := setColumnCount_uniformExcept wm wm1 _ _ huni hsc
            split at hrun
            · cases hrun
            · rename_i mw2 hcs
              obtain ⟨wm2, signals, hs, rfl⟩ := callSetLayout_result _ _ mw2 wm1 _ rfl hcs
              have hu2 := setLayout_uniformExcept wm1 wm2 _ false signals _ hu1 hs
              simp only [MainWindow.withManager] at hrun
              cases hrun
              refine ⟨⟨_, rfl, ?_⟩, rfl⟩
              refine uniformExcept_of_same_panes hu2 rfl ?_
              exact assignSubWindows_proj
                (fun w => (w.objectId, (w.hidden, w.visible), w.minimumSize, w.maximumSize)) h
                (fun r w => by
                  have := assignSubWindow_fields h r w
                  show ((MainWindow.assignSubWindow h r w).objectId,
                    ((MainWindow.assignSubWindow h r w).hidden,
                      (MainWindow.assignSubWindow h r w).visible),
                    (MainWindow.assignSubWindow h r w).minimumSize,
                    (MainWindow.assignSubWindow h r w).maximumSize) =
                    (w.objectId, (w.hidden, w.visible), w.minimumSize, w.maximumSize)
                  rw [this.2.2.1, this.2.2.2.1, this.2.2.2.2.1, this.2.2.2.2.2.1,
                    assignSubWindow_hidden])
                d.subWindows _

end BrowserSplitScreen
